import Mathlib

/-!
# DjVu publishing filter: shared-dictionary registry and staleness analysis

A shallow embedding of `DjbzDispatcher.cpp`, `OutputParams.cpp`,
`SourceImagesInfo.cpp`, of the staleness checks, `validateParams` and `process` of
`Task.cpp`, of the order of `PageId.cpp`, of `OrderByFileSize.cpp` and of
`Filter::filterBatchPages`.

Conventions of the embedding:

* `QString` is `String`; `QMap<QString, V>` is a list of entries kept strictly
  sorted by key (`QMap`), so that iteration is in key order as in Qt;
  `QSet<PageId>` is a duplicate-free list (`QSet`), whose order stands for the
  unspecified iteration order of the hash set; `QMap<PageId, QString>` is only
  ever looked up, never iterated, and is a function to `Option String`.
* `QDateTime` is a number; only equality of time stamps is used.
  Every call that reads the clock receives the reading as the argument `now`.
* `int` counters are natural numbers or integers without wrap-around.
* `assert` statements are debug-build checks. Every definition gives what the function
  does once the assertions are compiled out. The condition of an `assert` is a
  definition of its own, named after the function: `djbzDictRefAssertion`,
  `listPagesFromSameDictAssertion`, `Task.partitionLoopAssertion`,
  `Task.updateLoopAssertion`; `Task.processAssertions` collects the conditions on the
  way of a run of `Task::process`. A build with assertions gives the same results as
  long as the conditions hold and stops where one fails. The two `assert`s on the map
  of suggestions itself (`Task.cpp`, lines 101 and 346) have no counterpart, because
  the suggestions are a total function here.
* What happens outside the program during a run of `Task::process` (reads of the
  cancellation flag, exit codes of the tools, the files they leave) is an input, `Run`.
-/

namespace publish

/-! ## Qt containers -/

/-- Time stamps (`QDateTime`); the code only compares them for equality. -/
abbrev QDateTime := Nat

/-- What `QFileInfo` reports for an existing file. -/
structure QFileInfo where
  size : Nat
  lastModified : QDateTime

/-- The file system as seen through `QFileInfo`: `none` for a file that does not exist. -/
abbrev FileSystem := String → Option QFileInfo

/-- The UTF-16 code units of an id, taken as the code points of its characters. -/
def QString.codes (s : String) : List Nat := s.data.map Char.toNat

/-- The order of `QString::operator<`: lexicographic on code units. -/
def QString.lt (a b : String) : Prop :=
  List.Lex (fun x y : Nat => x < y) (QString.codes a) (QString.codes b)

instance QString.decLt : DecidableRel QString.lt :=
  fun a b => by unfold QString.lt; infer_instance

theorem QString.codes_injective : Function.Injective QString.codes := by
  intro a b h
  have h2 : a.data = b.data := by
    refine List.map_injective_iff.mpr ?_ h
    intro x y hxy
    have hx := Char.ofNat_toNat x
    have hy := Char.ofNat_toNat y
    rw [← hx, ← hy, hxy]
  cases a; cases b; simp_all

theorem QString.lt_irrefl (a : String) : ¬ QString.lt a a :=
  fun h => (List.Lex.isAsymm (fun x y : Nat => x < y)).asymm _ _ h h

theorem QString.lt_trans {a b c : String} (h1 : QString.lt a b) (h2 : QString.lt b c) :
    QString.lt a c :=
  (inferInstance : IsTrans (List Nat) (List.Lex (fun x y : Nat => x < y))).trans _ _ _ h1 h2

theorem QString.lt_asymm {a b : String} (h1 : QString.lt a b) : ¬ QString.lt b a :=
  fun h2 => QString.lt_irrefl a (QString.lt_trans h1 h2)

theorem QString.lt_of_not_lt {a b : String} (h1 : ¬ QString.lt a b) (h2 : b ≠ a) :
    QString.lt b a := by
  rcases (List.Lex.isTrichotomous (fun x y : Nat => x < y)).trichotomous
    (QString.codes a) (QString.codes b) with h | h | h
  · exact absurd h h1
  · exact absurd (QString.codes_injective h).symm h2
  · exact h

/-- A `QSet`: a list without duplicates. -/
structure QSet (α : Type) where
  elems : List α
  nodup : elems.Nodup

namespace QSet

variable {α : Type} [DecidableEq α]

/-- The empty set. -/
def empty : QSet α := ⟨[], List.nodup_nil⟩

/-- Membership test, `QSet::contains`. -/
def contains (s : QSet α) (a : α) : Bool := decide (a ∈ s.elems)

/-- Number of elements, `QSet::count`. -/
def count (s : QSet α) : Int := (s.elems.length : Int)

/-- Insertion, `QSet::operator+=`. -/
def insert (s : QSet α) (a : α) : QSet α :=
  ⟨List.insert a s.elems, s.nodup.insert⟩

/-- Removal, `QSet::remove`; the flag tells whether the element was present. -/
def remove (s : QSet α) (a : α) : Bool × QSet α :=
  (decide (a ∈ s.elems), ⟨s.elems.erase a, s.nodup.erase a⟩)

end QSet

/-- A `QMap` with `QString` keys: entries strictly sorted by key. -/
structure QMap (V : Type) where
  entries : List (String × V)
  sorted : entries.Pairwise (fun a b => QString.lt a.1 b.1)

namespace QMap

variable {V : Type}

/-- Lookup in a list of entries. -/
def findList (k : String) : List (String × V) → Option V
  | [] => none
  | (k', v) :: rest => if k' = k then some v else findList k rest

/-- Insert or overwrite in a sorted list of entries. -/
def insertList (k : String) (v : V) : List (String × V) → List (String × V)
  | [] => [(k, v)]
  | (k', v') :: rest =>
    if QString.lt k k' then (k, v) :: (k', v') :: rest
    else if k' = k then (k, v) :: rest
    else (k', v') :: insertList k v rest

theorem mem_insertList {k : String} {v : V} {l : List (String × V)} {e : String × V}
    (h : e ∈ insertList k v l) : e = (k, v) ∨ e ∈ l := by
  induction l with
  | nil => simp [insertList] at h; exact Or.inl h
  | cons hd tl ih =>
    obtain ⟨k', v'⟩ := hd
    simp only [insertList] at h
    split_ifs at h with h1 h2
    · rcases List.mem_cons.mp h with h | h
      · exact Or.inl h
      · exact Or.inr h
    · rcases List.mem_cons.mp h with h | h
      · exact Or.inl h
      · exact Or.inr (List.mem_cons_of_mem _ h)
    · rcases List.mem_cons.mp h with h | h
      · exact Or.inr (h ▸ List.mem_cons_self _ _)
      · rcases ih h with h | h
        · exact Or.inl h
        · exact Or.inr (List.mem_cons_of_mem _ h)

theorem sorted_insertList (k : String) (v : V) {l : List (String × V)}
    (hl : l.Pairwise (fun a b => QString.lt a.1 b.1)) :
    (insertList k v l).Pairwise (fun a b => QString.lt a.1 b.1) := by
  induction l with
  | nil => simp [insertList]
  | cons hd tl ih =>
    obtain ⟨k', v'⟩ := hd
    rw [List.pairwise_cons] at hl
    simp only [insertList]
    split_ifs with h1 h2
    · refine List.pairwise_cons.mpr ⟨?_, List.pairwise_cons.mpr hl⟩
      intro e he
      rcases List.mem_cons.mp he with he | he
      · rw [he]; exact h1
      · exact QString.lt_trans h1 (hl.1 e he)
    · subst h2
      exact List.pairwise_cons.mpr ⟨hl.1, hl.2⟩
    · refine List.pairwise_cons.mpr ⟨?_, ih hl.2⟩
      intro e he
      rcases mem_insertList he with he | he
      · rw [he]; exact QString.lt_of_not_lt h1 h2
      · exact hl.1 e he

/-- The empty map. -/
def empty : QMap V := ⟨[], List.Pairwise.nil⟩

/-- Lookup, `QMap::find`; `none` when the key is absent. -/
def find? (m : QMap V) (k : String) : Option V := findList k m.entries

/-- Key test, `QMap::contains`. -/
def contains (m : QMap V) (k : String) : Bool := (m.find? k).isSome

/-- Assignment through `operator[]`: insert or overwrite. -/
def insert (m : QMap V) (k : String) (v : V) : QMap V :=
  ⟨insertList k v m.entries, sorted_insertList k v m.sorted⟩

/-- Keys in iteration order, `QMap::keys`. -/
def keys (m : QMap V) : List String := m.entries.map Prod.fst

/-- Number of entries. -/
def size (m : QMap V) : Nat := m.entries.length

end QMap

/-! ## Page identity and export suggestions -/

/-- Modelled from the spec: `ImageId` (declared outside the files at hand) is a
source path together with a page number inside a multi-page source. -/
structure ImageId where
  m_filePath : String
  m_page : Int
  deriving DecidableEq

/-- The sub-page designator of `PageId`. -/
inductive SubPage where
  | SINGLE_PAGE
  | LEFT_PAGE
  | RIGHT_PAGE
  deriving DecidableEq

/-- Identity of a page, `PageId`. -/
structure PageId where
  m_imageId : ImageId
  m_subPage : SubPage
  deriving DecidableEq

/-- Export suggestion of a page, the public members of `ExportSuggestion`. -/
structure ExportSuggestion where
  hasBWLayer : Bool
  hasColorLayer : Bool
  isValid : Bool
  width : Nat
  height : Nat
  dpi : Nat
  lastChanged : Int
  deriving DecidableEq

/-- The map `ExportSuggestions`, read through `value(page_id)` and const `operator[]`,
which give a default-constructed suggestion for an absent page: a total function. -/
abbrev ExportSuggestions := PageId → ExportSuggestion

/-! ## Dictionary parameters and dictionaries -/

/-- The enumeration `DjbzParams::ClassifierType`. -/
inductive ClassifierType where
  | Legacy
  | Normal
  | Maximal
  deriving DecidableEq

/-- Encoder tuning of a shared dictionary, `DjbzParams`. -/
structure DjbzParams where
  m_usePrototypes : Bool
  m_useAveraging : Bool
  m_aggression : Int
  m_useErosion : Bool
  m_classifier : ClassifierType
  m_extension : String
  deriving DecidableEq

/-- Inequality of dictionary parameters, `DjbzParams::operator!=`. -/
def DjbzParams.ne (a b : DjbzParams) : Bool :=
  a.m_useErosion != b.m_useErosion ||
  a.m_useAveraging != b.m_useAveraging ||
  a.m_usePrototypes != b.m_usePrototypes ||
  decide (a.m_aggression ≠ b.m_aggression) ||
  decide (a.m_classifier ≠ b.m_classifier) ||
  decide (a.m_extension ≠ b.m_extension)

/-- Modelled from the spec: the members of `GlobalStaticSettings` (declared outside
the files at hand) that the registry reads: the configured number of pages per
shared dictionary, the default dictionary parameters and the two sub-folder names. -/
structure GlobalStaticSettings where
  m_djvu_pages_per_djbz : Int
  m_djvu_djbz_defaults : DjbzParams
  m_djvu_pages_subfolder : String
  m_djvu_layers_subfolder : String

/-- The enumeration `DjbzDict::Type`. -/
inductive DjbzType where
  | AutoFill
  | Locked
  | None
  deriving DecidableEq

/-- A shared dictionary, `DjbzDict`. -/
structure DjbzDict where
  m_pages : QSet PageId
  m_params : DjbzParams
  m_type : DjbzType
  m_max_pages : Int
  m_last_changed : QDateTime
  m_output_file : String
  m_output_file_size : Nat
  m_output_file_last_changed : QDateTime

namespace DjbzDict

/-- The default constructor `DjbzDict::DjbzDict()`. -/
def new (g : GlobalStaticSettings) (now : QDateTime) : DjbzDict :=
  { m_pages := QSet.empty
    m_params := g.m_djvu_djbz_defaults
    m_type := DjbzType.AutoFill
    m_max_pages := g.m_djvu_pages_per_djbz
    m_last_changed := now
    m_output_file := ""
    m_output_file_size := 0
    m_output_file_last_changed := now }

/-- The method `DjbzDict::addPage`. -/
def addPage (dict : DjbzDict) (page : PageId) (no_rev_change : Bool) (now : QDateTime) :
    DjbzDict :=
  let pages := dict.m_pages.insert page
  let max := if pages.count > dict.m_max_pages then pages.count else dict.m_max_pages
  { dict with
    m_pages := pages
    m_max_pages := max
    m_last_changed := if no_rev_change then dict.m_last_changed else now }

/-- The method `DjbzDict::removePage`. -/
def removePage (dict : DjbzDict) (page : PageId) (no_rev_change : Bool) (now : QDateTime) :
    DjbzDict :=
  let r := dict.m_pages.remove page
  if r.1 then
    { dict with
      m_pages := r.2
      m_last_changed := if no_rev_change then dict.m_last_changed else now }
  else dict

/-- The method `DjbzDict::setType`. -/
def setType (dict : DjbzDict) (t : DjbzType) : DjbzDict := { dict with m_type := t }

end DjbzDict

/-! ## The registry `DjbzDispatcher` -/

/-- The formatting `QString("%1").arg(n, fieldWidth, 10, fillChar)` of a non-negative
number: its decimal digits, padded on the left up to the field width. -/
def QString.arg (n fieldWidth : Nat) (fillChar : Char) : String :=
  let ds := Nat.toDigits 10 n
  String.mk (List.replicate (fieldWidth - ds.length) fillChar ++ ds)

/-- The type `DjbzContent`. -/
abbrev DjbzContent := QMap DjbzDict

/-- The type `PageToDjbz`; the registry only looks pages up in it. -/
abbrev PageToDjbz := PageId → Option String

/-- Assignment `m[page] = id` in a `PageToDjbz`. -/
def PageToDjbz.set (m : PageToDjbz) (page : PageId) (id : String) : PageToDjbz :=
  fun q => if q = page then some id else m q

/-- Removal `m.remove(page)` in a `PageToDjbz`. -/
def PageToDjbz.remove (m : PageToDjbz) (page : PageId) : PageToDjbz :=
  fun q => if q = page then none else m q

/-- The registry of shared dictionaries, `DjbzDispatcher`. The counter is never
negative: it starts at 0 and is only incremented or reset. -/
structure DjbzDispatcher where
  m_dictionaries : DjbzContent
  m_page_to_dict : PageToDjbz
  m_id_counter : Nat

namespace DjbzDispatcher

/-- The sentinel id `DjbzDispatcher::dummyDjbzId`. -/
def dummyDjbzId : String := "[none]"

/-- The value reached by the non-const `m_dictionaries[id]`: the stored dictionary, or
the default-constructed one that `operator[]` inserts for an absent key. -/
def dictAt (g : GlobalStaticSettings) (now : QDateTime) (m : DjbzContent) (id : String) :
    DjbzDict :=
  (m.find? id).getD (DjbzDict.new g now)

/-- The default constructor `DjbzDispatcher::DjbzDispatcher()`. -/
def new (g : GlobalStaticSettings) (now : QDateTime) : DjbzDispatcher :=
  { m_dictionaries :=
      QMap.empty.insert dummyDjbzId ((DjbzDict.new g now).setType DjbzType.None)
    m_page_to_dict := fun _ => none
    m_id_counter := 0 }

/-- The method `DjbzDispatcher::findDjbzForPage`. -/
def findDjbzForPage (d : DjbzDispatcher) (page_id : PageId) : String :=
  match d.m_page_to_dict page_id with
  | some id => id
  | none => ""

/-- The method `DjbzDispatcher::djbzDict`. -/
def djbzDict (g : GlobalStaticSettings) (now : QDateTime) (d : DjbzDispatcher)
    (dict_id : String) : DjbzDict :=
  match d.m_dictionaries.find? dict_id with
  | some dict => dict
  | none => DjbzDict.new g now

/-- The method `DjbzDispatcher::isDummyDjbzId`. -/
def isDummyDjbzId (id : String) : Bool := decide (id = dummyDjbzId)

/-- The method `DjbzDispatcher::listPagesFromDict`; the const `operator[]` gives a
default-constructed dictionary, hence no pages, for an absent id. -/
def listPagesFromDict (d : DjbzDispatcher) (djbz_id : String) : List PageId :=
  match d.m_dictionaries.find? djbz_id with
  | some dict => dict.m_pages.elems
  | none => []

/-- The do-while loop of `nextDjbzId`, bounded by `fuel` rounds: the counter is
incremented and formatted until the id is not a key of the dictionaries. -/
def nextDjbzIdLoop (dicts : DjbzContent) : Nat → Nat → Option (String × Nat)
  | 0, _ => none
  | fuel + 1, counter =>
    let djbz := QString.arg (counter + 1) 4 '0'
    if dicts.contains djbz then nextDjbzIdLoop dicts fuel (counter + 1)
    else some (djbz, counter + 1)

/-- The method `DjbzDispatcher::nextDjbzId`, run for at most one round more than there
are dictionaries. -/
def nextDjbzId (d : DjbzDispatcher) : Option (String × DjbzDispatcher) :=
  match nextDjbzIdLoop d.m_dictionaries (d.m_dictionaries.size + 1) d.m_id_counter with
  | some (djbz, counter) => some (djbz, { d with m_id_counter := counter })
  | none => none

/-- The search loop of `addNewPage`: the key of the first `AutoFill` dictionary, in
iteration order, with fewer pages than its maximum; empty when there is none. -/
def findNotFull : List (String × DjbzDict) → String
  | [] => ""
  | (key, dict) :: rest =>
    if dict.m_type = DjbzType.AutoFill ∧ dict.m_pages.count < dict.m_max_pages then key
    else findNotFull rest

/-- The two statements `m_dictionaries[djbz].addPage(page_id, no_rev_change);
m_page_to_dict[page_id] = djbz;`. -/
def assign (g : GlobalStaticSettings) (now : QDateTime) (d : DjbzDispatcher)
    (page_id : PageId) (djbz : String) (no_rev_change : Bool) : DjbzDispatcher :=
  { d with
    m_dictionaries :=
      d.m_dictionaries.insert djbz
        ((dictAt g now d.m_dictionaries djbz).addPage page_id no_rev_change now)
    m_page_to_dict := d.m_page_to_dict.set page_id djbz }

/-- The method `DjbzDispatcher::addNewPage`; `none` only if `nextDjbzId` ran out of
rounds. -/
def addNewPage (g : GlobalStaticSettings) (now : QDateTime) (d : DjbzDispatcher)
    (page_id : PageId) : Option (String × DjbzDispatcher) :=
  if g.m_djvu_pages_per_djbz < 2 then
    some (dummyDjbzId, assign g now d page_id dummyDjbzId false)
  else
    let djbz := d.findDjbzForPage page_id
    if djbz = "" then
      let found := findNotFull d.m_dictionaries.entries
      if found = "" then
        match nextDjbzId d with
        | some (fresh, d1) => some (fresh, assign g now d1 page_id fresh false)
        | none => none
      else some (found, assign g now d page_id found false)
    else some (djbz, d)

/-- The method `DjbzDispatcher::deleteFromDjbz`. -/
def deleteFromDjbz (g : GlobalStaticSettings) (now : QDateTime) (d : DjbzDispatcher)
    (page_id : PageId) : DjbzDispatcher :=
  match d.m_page_to_dict page_id with
  | some id =>
    { d with
      m_dictionaries :=
        d.m_dictionaries.insert id
          ((dictAt g now d.m_dictionaries id).removePage page_id false now)
      m_page_to_dict := d.m_page_to_dict.remove page_id }
  | none => d

/-- The side effect of reading `m_page_to_dict[page_id]` through the non-const
`operator[]`: an empty id is stored for an absent page. -/
def touchPage (d : DjbzDispatcher) (page_id : PageId) : DjbzDispatcher :=
  match d.m_page_to_dict page_id with
  | some _ => d
  | none => { d with m_page_to_dict := d.m_page_to_dict.set page_id "" }

/-- The method `DjbzDispatcher::setToDjbz`. -/
def setToDjbz (g : GlobalStaticSettings) (now : QDateTime) (d : DjbzDispatcher)
    (page_id : PageId) (new_djbz : String) (no_rev_change : Bool) : DjbzDispatcher :=
  let d1 := touchPage d page_id
  if d1.findDjbzForPage page_id ≠ new_djbz then assign g now d1 page_id new_djbz no_rev_change
  else d1

/-- The method `DjbzDispatcher::moveToDjbz`. -/
def moveToDjbz (g : GlobalStaticSettings) (now : QDateTime) (d : DjbzDispatcher)
    (page_id : PageId) (new_djbz : String) : DjbzDispatcher :=
  setToDjbz g now (deleteFromDjbz g now d page_id) page_id new_djbz false

/-- The first loop of `resetAllDictsExceptLocked`: the locked dictionaries and the
assignments of their pages are collected in iteration order. -/
def collectLocked :
    List (String × DjbzDict) → DjbzContent × PageToDjbz → DjbzContent × PageToDjbz
  | [], acc => acc
  | (key, dict) :: rest, (locked_dicts, locked_pages) =>
    if dict.m_type = DjbzType.Locked then
      collectLocked rest
        (locked_dicts.insert key dict,
         dict.m_pages.elems.foldl (fun m p => PageToDjbz.set m p key) locked_pages)
    else collectLocked rest (locked_dicts, locked_pages)

/-- The method `DjbzDispatcher::resetAllDictsExceptLocked`. -/
def resetAllDictsExceptLocked (g : GlobalStaticSettings) (now : QDateTime)
    (d : DjbzDispatcher) : DjbzDispatcher :=
  let locked := collectLocked d.m_dictionaries.entries (QMap.empty, fun _ => none)
  { m_dictionaries :=
      locked.1.insert dummyDjbzId ((dictAt g now locked.1 dummyDjbzId).setType DjbzType.None)
    m_page_to_dict := locked.2
    m_id_counter := 0 }

/-- The method `DjbzDispatcher::isDjbzCached`. -/
def isDjbzCached (g : GlobalStaticSettings) (now : QDateTime) (fs : FileSystem)
    (d : DjbzDispatcher) (dict_id : String) : Bool :=
  if dict_id = "" then false
  else if dummyDjbzId = dict_id then true
  else
    let dict := djbzDict g now d dict_id
    if dict.m_output_file ≠ "" then
      match fs dict.m_output_file with
      | some fi =>
        decide (fi.size = dict.m_output_file_size) &&
          decide (fi.lastModified = dict.m_output_file_last_changed)
      | none => false
    else false

end DjbzDispatcher

/-! ## Per-page parameters and the parameter store -/

/-- The members of `SourceImagesInfo`. -/
structure SourceImagesInfo where
  m_export_suggestion : ExportSuggestion
  m_output_filename : String
  m_export_foregroundFilename : String
  m_export_backgroundFilename : String
  m_export_bg44Filename : String
  m_export_jb2Filename : String
  m_output_filesize : Nat
  m_export_foregroundFilesize : Nat
  m_export_backgroundFilesize : Nat
  m_export_bg44Filesize : Nat
  m_export_jb2Filesize : Nat
  deriving DecidableEq

/-- Modelled from the spec: the per-page parameters `Params` (declared outside the
files at hand) without the remembered snapshot: assigned dictionary id, output
settings, title, rotation, force-reprocess bit mask, the source images snapshot, and
what `Task::process` records about the page's DjVu file: the dictionary revision it
was built with, its name, size and time stamp. -/
structure ParamsData where
  m_djbzId : String
  m_dpi : Int
  m_title : String
  m_rotation : Int
  m_forceReprocess : Nat
  m_sourceImagesInfo : SourceImagesInfo
  m_djbzRevision : QDateTime
  m_djvuFilename : String
  m_djvuSize : Nat
  m_djvuLastChanged : QDateTime
  deriving DecidableEq

/-- The members of `OutputParams`, the remembered snapshot. Its `m_params` never
carries a snapshot of its own (the constructor calls `resetOutputParams`). -/
structure OutputParams where
  m_params : ParamsData
  m_djbzId : String
  m_djbzRevision : QDateTime
  m_djbzParams : DjbzParams
  deriving DecidableEq

/-- Modelled from the spec: the per-page parameters `Params`, with the optional
remembered snapshot (`hasOutputParams`, `outputParams`). -/
structure Params extends ParamsData where
  m_outputParams : Option OutputParams
  deriving DecidableEq

/-- Modelled from the spec: the bit `Params::RegeneratePage` of the force-reprocess
mask; the enumeration is declared outside the files at hand. -/
def Params.RegeneratePage : Nat := 1

/-- The setter `Params::setDjbzId`. -/
def Params.setDjbzId (p : Params) (id : String) : Params := { p with m_djbzId := id }

/-- The constructor `OutputParams::OutputParams(params, djbzId, djbzRevision, djbzParams)`. -/
def OutputParams.new (params : Params) (djbzId : String) (djbzRevision : QDateTime)
    (djbzParams : DjbzParams) : OutputParams :=
  { m_params := params.toParamsData
    m_djbzId := djbzId
    m_djbzRevision := djbzRevision
    m_djbzParams := djbzParams }

/-- Modelled from the spec: the parameter store `Settings` (declared outside the files
at hand): `getPageParams` gives the stored parameters of a page or null,
`setPageParams` stores them; `m_writes` counts the calls of `setPageParams`. -/
structure Settings where
  m_perPageParams : PageId → Option Params
  m_writes : Nat

/-- Modelled from the spec: `Settings::getPageParams`. -/
def Settings.getPageParams (s : Settings) (page_id : PageId) : Option Params :=
  s.m_perPageParams page_id

/-- Modelled from the spec: `Settings::setPageParams`. -/
def Settings.setPageParams (s : Settings) (page_id : PageId) (params : Params) : Settings :=
  { m_perPageParams := fun q => if q = page_id then some params else s.m_perPageParams q
    m_writes := s.m_writes + 1 }

/-- What the code at hand uses without defining it: the clock reading and the
configuration, the file system, the inequality operators of `Params` and
`ExportSuggestion`, `Params::isDjVuCached`, and the path functions of `QFileInfo`
and `QDir`. -/
structure Env where
  g : GlobalStaticSettings
  now : QDateTime
  fs : FileSystem
  paramsNe : ParamsData → ParamsData → Bool
  suggestionNe : ExportSuggestion → ExportSuggestion → Bool
  isDjVuCached : Params → Bool
  fileName : String → String
  completeBaseName : String → String
  dirPath : String → String

/-- Inequality of snapshots of the source images, `SourceImagesInfo::operator!=`. -/
def SourceImagesInfo.ne (env : Env) (a b : SourceImagesInfo) : Bool :=
  env.suggestionNe a.m_export_suggestion b.m_export_suggestion ||
  decide (a.m_output_filename ≠ b.m_output_filename) ||
  decide (a.m_export_foregroundFilename ≠ b.m_export_foregroundFilename) ||
  decide (a.m_export_foregroundFilesize ≠ b.m_export_foregroundFilesize) ||
  decide (a.m_export_backgroundFilename ≠ b.m_export_backgroundFilename) ||
  decide (a.m_export_backgroundFilesize ≠ b.m_export_backgroundFilesize) ||
  decide (a.m_export_bg44Filename ≠ b.m_export_bg44Filename) ||
  decide (a.m_export_bg44Filesize ≠ b.m_export_bg44Filesize) ||
  decide (a.m_export_jb2Filename ≠ b.m_export_jb2Filename) ||
  decide (a.m_export_jb2Filesize ≠ b.m_export_jb2Filesize)

/-- The expression `fi.exists() ? fi.size() : 0` stored into a `uint` member. -/
def statSize (fs : FileSystem) (fname : String) : Nat :=
  match fs fname with
  | some fi => fi.size % 2 ^ 32
  | none => 0

/-- The method `SourceImagesInfo::setFilename` on a member pair that is still empty,
as in the constructor: the name is stored and, if not empty, the size is read. -/
def setFilename (fs : FileSystem) (new_fname : String) : String × Nat :=
  (new_fname, if new_fname ≠ "" then statSize fs new_fname else 0)

/-- The type `OutputFileNameGenerator` as far as it is used. -/
structure OutputFileNameGenerator where
  outDir : String
  fileNameFor : PageId → String

/-- The constructor `SourceImagesInfo::SourceImagesInfo(page_id, fname_gen,
export_suggestions)`. -/
def SourceImagesInfo.new (env : Env) (page_id : PageId) (fname_gen : OutputFileNameGenerator)
    (export_suggestions : ExportSuggestions) : SourceImagesInfo :=
  let out_path := fname_gen.outDir ++ "/"
  let djvu_path := out_path ++ env.g.m_djvu_pages_subfolder ++ "/"
  let export_path := djvu_path ++ env.g.m_djvu_layers_subfolder ++ "/"
  let suggestion := export_suggestions page_id
  let output_filename := out_path ++ fname_gen.fileNameFor page_id
  let will_be_layered := suggestion.hasColorLayer && suggestion.hasBWLayer
  let background :=
    setFilename env.fs
      (if will_be_layered then env.dirPath export_path ++ "/pic/" ++ env.fileName output_filename
       else "")
  let foreground :=
    setFilename env.fs
      (if will_be_layered then env.dirPath export_path ++ "/txt/" ++ env.fileName output_filename
       else "")
  let bg44 :=
    if suggestion.hasColorLayer then
      setFilename env.fs (djvu_path ++ env.completeBaseName output_filename ++ ".bg44")
    else ("", 0)
  let jb2 :=
    if suggestion.hasBWLayer then
      setFilename env.fs (djvu_path ++ env.completeBaseName output_filename ++ ".jb2")
    else ("", 0)
  { m_export_suggestion := suggestion
    m_output_filename := output_filename
    m_export_foregroundFilename := foreground.1
    m_export_backgroundFilename := background.1
    m_export_bg44Filename := bg44.1
    m_export_jb2Filename := jb2.1
    m_output_filesize := statSize env.fs output_filename
    m_export_foregroundFilesize := foreground.2
    m_export_backgroundFilesize := background.2
    m_export_bg44Filesize := bg44.2
    m_export_jb2Filesize := jb2.2 }

namespace DjbzDispatcher

/-- The tail of one round of `autosetPagesToDjbz`, run when `need_new_djbz` holds: a
dictionary is chosen, the page is set to it and the parameters are stored. -/
def autosetAssign (g : GlobalStaticSettings) (now : QDateTime) (defaults : Params)
    (es : ExportSuggestion) (params_ptr : Option Params) (d : DjbzDispatcher) (s : Settings)
    (page_id : PageId) : Option (DjbzDispatcher × Settings) :=
  match (if es.hasBWLayer then addNewPage g now d page_id else some (dummyDjbzId, d)) with
  | some (new_djbz_id, d1) =>
    let d2 := setToDjbz g now d1 page_id new_djbz_id false
    let params := (params_ptr.getD defaults).setDjbzId new_djbz_id
    some (d2, s.setPageParams page_id params)
  | none => none

/-- One round of the loop of `autosetPagesToDjbz`; `defaults` is the
default-constructed `Params`. -/
def autosetPage (g : GlobalStaticSettings) (now : QDateTime) (defaults : Params)
    (export_suggestions : ExportSuggestions) (d : DjbzDispatcher) (s : Settings)
    (page_id : PageId) : Option (DjbzDispatcher × Settings) :=
  let params_ptr := s.getPageParams page_id
  let es := export_suggestions page_id
  match params_ptr with
  | none => autosetAssign g now defaults es params_ptr d s page_id
  | some params =>
    if params.m_djbzId = "" then autosetAssign g now defaults es params_ptr d s page_id
    else if (es.hasBWLayer && decide (params.m_djbzId = dummyDjbzId)) ||
        (!es.hasBWLayer && decide (params.m_djbzId ≠ dummyDjbzId)) then
      autosetAssign g now defaults es params_ptr (deleteFromDjbz g now d page_id) s page_id
    else some (d, s)

/-- The loop of `autosetPagesToDjbz` from round `i` on; round `i` reads the clock as
`clock i`. -/
def autosetLoop (g : GlobalStaticSettings) (clock : Nat → QDateTime) (defaults : Params)
    (export_suggestions : ExportSuggestions) :
    Nat → List PageId → DjbzDispatcher → Settings → Option (DjbzDispatcher × Settings)
  | _, [], d, s => some (d, s)
  | i, page_id :: rest, d, s =>
    match autosetPage g (clock i) defaults export_suggestions d s page_id with
    | some (d1, s1) => autosetLoop g clock defaults export_suggestions (i + 1) rest d1 s1
    | none => none

/-- The method `DjbzDispatcher::autosetPagesToDjbz` on the page ids of the sequence. -/
def autosetPagesToDjbz (g : GlobalStaticSettings) (clock : Nat → QDateTime)
    (defaults : Params) (pages : List PageId) (export_suggestions : ExportSuggestions)
    (d : DjbzDispatcher) (settings : Settings) : Option (DjbzDispatcher × Settings) :=
  autosetLoop g clock defaults export_suggestions 0 pages d settings

end DjbzDispatcher

/-- The method `OutputParams::matches`. -/
def OutputParams.matches (env : Env) (a other : OutputParams) : Bool :=
  !(decide (a.m_djbzId ≠ other.m_djbzId) ||
    decide (a.m_djbzRevision ≠ other.m_djbzRevision) ||
    env.paramsNe a.m_params other.m_params ||
    a.m_djbzParams.ne other.m_djbzParams)

/-! ## Staleness analysis of `Task` -/

/-- The members of `Task` that the staleness analysis reads. -/
structure Task where
  m_pageId : PageId
  m_ptrSettings : Settings
  m_refDjbzDispatcher : DjbzDispatcher
  m_refOutFileNameGen : OutputFileNameGenerator
  m_ptrExportSuggestions : ExportSuggestions

namespace Task

/-- The method `Task::needPageReprocess`. -/
def needPageReprocess (env : Env) (t : Task) (page_id : PageId) : Bool :=
  match t.m_ptrSettings.getPageParams page_id with
  | none => true
  | some params =>
    if params.m_forceReprocess &&& Params.RegeneratePage ≠ 0 then true
    else
      let djbz_id := t.m_refDjbzDispatcher.findDjbzForPage page_id
      if djbz_id = "" then true
      else
        let dict := t.m_refDjbzDispatcher.djbzDict env.g env.now djbz_id
        let new_ImagesInfo :=
          SourceImagesInfo.new env page_id t.m_refOutFileNameGen t.m_ptrExportSuggestions
        if new_ImagesInfo.ne env params.m_sourceImagesInfo then true
        else
          match params.m_outputParams with
          | some output_params_was_used =>
            let output_params_to_use :=
              OutputParams.new params djbz_id dict.m_last_changed dict.m_params
            !output_params_was_used.matches env output_params_to_use ||
              !env.isDjVuCached params
          | none => true

/-- The loop of `Task::needDjbzReprocess` over the pages of the dictionary. -/
def needDjbzReprocessLoop (env : Env) (t : Task) : List PageId → Bool
  | [] => false
  | p :: rest =>
    if p ≠ t.m_pageId then
      if needPageReprocess env t p then true else needDjbzReprocessLoop env t rest
    else needDjbzReprocessLoop env t rest

/-- The method `Task::needDjbzReprocess`. -/
def needDjbzReprocess (env : Env) (t : Task) (djbz_id : String) : Bool :=
  if DjbzDispatcher.isDummyDjbzId djbz_id then false
  else
    let dict := t.m_refDjbzDispatcher.djbzDict env.g env.now djbz_id
    needDjbzReprocessLoop env t dict.m_pages.elems

/-- The method `Task::needReprocess`: the returned flag and the value stored into
`*djbz_is_cached`. -/
def needReprocess (env : Env) (t : Task) : Bool × Bool :=
  let djbz_id := t.m_refDjbzDispatcher.findDjbzForPage t.m_pageId
  let djbz_is_cached := t.m_refDjbzDispatcher.isDjbzCached env.g env.now env.fs djbz_id
  if djbz_is_cached then
    if !needPageReprocess env t t.m_pageId then (needDjbzReprocess env t djbz_id, djbz_is_cached)
    else (true, djbz_is_cached)
  else (true, djbz_is_cached)

end Task

/-! ## Further methods of `DjbzDict` and `DjbzDispatcher` -/

/-- The null `QDateTime`, which `QFileInfo::lastModified` gives for a file that does
not exist; the model takes the number 0 for it. -/
def QDateTime.null : QDateTime := 0

namespace DjbzDict

/-- The method `DjbzDict::setParams`. -/
def setParams (dict : DjbzDict) (params : DjbzParams) (no_rev_change : Bool)
    (now : QDateTime) : DjbzDict :=
  if dict.m_params.ne params then
    { dict with
      m_params := params
      m_last_changed := if no_rev_change then dict.m_last_changed else now }
  else dict

/-- The method `DjbzDict::setRevision`. -/
def setRevision (dict : DjbzDict) (val : QDateTime) : DjbzDict :=
  { dict with m_last_changed := val }

/-- The method `DjbzDict::setMaxPages`. -/
def setMaxPages (dict : DjbzDict) (max : Int) : DjbzDict := { dict with m_max_pages := max }

/-- The method `DjbzDict::updateOutputFileInfo`. -/
def updateOutputFileInfo (fs : FileSystem) (dict : DjbzDict) : DjbzDict :=
  if dict.m_output_file ≠ "" then
    { dict with
      m_output_file_size := statSize fs dict.m_output_file
      m_output_file_last_changed :=
        match fs dict.m_output_file with
        | some fi => fi.lastModified
        | none => QDateTime.null }
  else dict

/-- The method `DjbzDict::setOutputFilename`. -/
def setOutputFilename (fs : FileSystem) (dict : DjbzDict) (val : String) : DjbzDict :=
  updateOutputFileInfo fs { dict with m_output_file := val }

/-- The method `DjbzDict::setOutputFileSize`. -/
def setOutputFileSize (dict : DjbzDict) (val : Nat) : DjbzDict :=
  { dict with m_output_file_size := val }

/-- The method `DjbzDict::setOutputLastChanged`. -/
def setOutputLastChanged (dict : DjbzDict) (val : QDateTime) : DjbzDict :=
  { dict with m_output_file_last_changed := val }

end DjbzDict

/-- The function `str2type`. -/
def str2type (s : String) : DjbzType :=
  if s = "locked" then DjbzType.Locked
  else if s = "no_dict" then DjbzType.None
  else DjbzType.AutoFill

/-- A child element `djbz` of the registry element, as the XML constructor reads it:
the values of its attributes after the defaults for absent attributes and the
conversions of Qt have been applied, and the parameters built from its child
`djbz_params`. -/
structure DjbzElement where
  id : String
  type : String
  max : Int
  params : DjbzParams
  last_changed : QDateTime
  output_file : String
  output_file_size : Nat
  output_file_last_changed : QDateTime

namespace DjbzDispatcher

/-- The method `DjbzDispatcher::djbzDictRef`: the dictionary that the returned
reference points to, and the registry after the call. For an id that is not a key the
non-const `operator[]` inserts a default-constructed dictionary. -/
def djbzDictRef (g : GlobalStaticSettings) (now : QDateTime) (d : DjbzDispatcher)
    (dict_id : String) : DjbzDict × DjbzDispatcher :=
  (dictAt g now d.m_dictionaries dict_id,
    if d.m_dictionaries.contains dict_id then d
    else { d with m_dictionaries := d.m_dictionaries.insert dict_id (DjbzDict.new g now) })

/-- The condition of the `assert` in `djbzDictRef`: the id is a key. -/
def djbzDictRefAssertion (d : DjbzDispatcher) (dict_id : String) : Bool :=
  d.m_dictionaries.contains dict_id

/-- The method `DjbzDispatcher::SetDjbzDict`. -/
def SetDjbzDict (d : DjbzDispatcher) (dict_id : String) (dict : DjbzDict) : DjbzDispatcher :=
  { d with m_dictionaries := d.m_dictionaries.insert dict_id dict }

/-- One round of the loop of the XML constructor, for a child element `djbz`. -/
def readElement (g : GlobalStaticSettings) (now : QDateTime) (fs : FileSystem)
    (m : DjbzContent) (el : DjbzElement) : DjbzContent :=
  let dict := dictAt g now m el.id
  let dict := dict.setType (str2type el.type)
  let dict := dict.setMaxPages el.max
  let dict := dict.setParams el.params false now
  let dict := dict.setRevision el.last_changed
  let dict := dict.setOutputFilename fs el.output_file
  let dict := dict.setOutputFileSize el.output_file_size
  let dict := dict.setOutputLastChanged el.output_file_last_changed
  m.insert el.id dict

/-- The constructor `DjbzDispatcher::DjbzDispatcher(QDomElement const&)` on the child
elements named `djbz`, in document order. -/
def fromXml (g : GlobalStaticSettings) (now : QDateTime) (fs : FileSystem)
    (els : List DjbzElement) : DjbzDispatcher :=
  let dicts := els.foldl (readElement g now fs) QMap.empty
  { m_dictionaries :=
      dicts.insert dummyDjbzId ((dictAt g now dicts dummyDjbzId).setType DjbzType.None)
    m_page_to_dict := fun _ => none
    m_id_counter := 0 }

/-- The method `DjbzDispatcher::listPagesFromSameDict`. -/
def listPagesFromSameDict (d : DjbzDispatcher) (page : PageId) : List PageId :=
  let dict_id := d.findDjbzForPage page
  if dict_id = dummyDjbzId then [page] else listPagesFromDict d dict_id

/-- The condition of the `assert` in `listPagesFromSameDict`, which
`isDjbzEncodingRequired` and `generateDjbzEncoderParams` have as well: the id that the
page map gives for the page is not empty. -/
def listPagesFromSameDictAssertion (d : DjbzDispatcher) (page : PageId) : Bool :=
  decide (d.findDjbzForPage page ≠ "")

end DjbzDispatcher

/-! ## `Task::validateParams` -/

/-- The method `SourceImagesInfo::isValid`. -/
def SourceImagesInfo.isValid (info : SourceImagesInfo) : Bool :=
  decide (info.m_output_filename ≠ "")

/-- The method `SourceImagesInfo::update`. -/
def SourceImagesInfo.update (fs : FileSystem) (info : SourceImagesInfo) : SourceImagesInfo :=
  { info with
    m_output_filesize := statSize fs info.m_output_filename
    m_export_backgroundFilesize :=
      if info.m_export_backgroundFilename ≠ "" then statSize fs info.m_export_backgroundFilename
      else 0
    m_export_foregroundFilesize :=
      if info.m_export_foregroundFilename ≠ "" then statSize fs info.m_export_foregroundFilename
      else 0
    m_export_bg44Filesize :=
      if info.m_export_bg44Filename ≠ "" then statSize fs info.m_export_bg44Filename
      else info.m_export_bg44Filesize
    m_export_jb2Filesize :=
      if info.m_export_jb2Filename ≠ "" then statSize fs info.m_export_jb2Filename
      else info.m_export_jb2Filesize }

/-- The setter `Params::setSourceImagesInfo`. -/
def Params.setSourceImagesInfo (p : Params) (info : SourceImagesInfo) : Params :=
  { p with m_sourceImagesInfo := info }

namespace Task

/-- The method `Task::validateParams(const PageId&)`; `defaults` is the
default-constructed `Params`. The result is `none` only if `addNewPage` ran out of
rounds. -/
def validateParams (env : Env) (defaults : Params) (t : Task) (page_id : PageId) :
    Option Task :=
  let stored := t.m_ptrSettings.getPageParams page_id
  let s1 :=
    match stored with
    | some _ => t.m_ptrSettings
    | none => t.m_ptrSettings.setPageParams page_id defaults
  let params1 := stored.getD defaults
  let djbz_id := t.m_refDjbzDispatcher.findDjbzForPage page_id
  let assigned :=
    if djbz_id = "" then
      match DjbzDispatcher.addNewPage env.g env.now t.m_refDjbzDispatcher page_id with
      | some (id, d1) =>
        some (d1, params1.setDjbzId id, s1.setPageParams page_id (params1.setDjbzId id))
      | none => none
    else some (t.m_refDjbzDispatcher, params1, s1)
  match assigned with
  | some (d2, params2, s2) =>
    let new_ImagesInfo :=
      SourceImagesInfo.new env page_id t.m_refOutFileNameGen t.m_ptrExportSuggestions
    let info := params2.m_sourceImagesInfo
    let s3 :=
      if !info.isValid || info.ne env new_ImagesInfo then
        s2.setPageParams page_id (params2.setSourceImagesInfo new_ImagesInfo)
      else s2
    some { t with m_ptrSettings := s3, m_refDjbzDispatcher := d2 }
  | none => none

/-- The loop of `Task::validateDjbzParams` over the pages of the dictionary. -/
def validateDjbzParamsLoop (env : Env) (defaults : Params) : List PageId → Task → Option Task
  | [], t => some t
  | p :: rest, t =>
    if p ≠ t.m_pageId then
      match validateParams env defaults t p with
      | some t1 => validateDjbzParamsLoop env defaults rest t1
      | none => none
    else validateDjbzParamsLoop env defaults rest t

/-- The method `Task::validateDjbzParams`. -/
def validateDjbzParams (env : Env) (defaults : Params) (t : Task) (djbz_id : String) :
    Option Task :=
  validateDjbzParamsLoop env defaults
    (t.m_refDjbzDispatcher.djbzDict env.g env.now djbz_id).m_pages.elems t

/-- The method `Task::validateParams()` without argument. -/
def validateTaskParams (env : Env) (defaults : Params) (t : Task) : Option Task :=
  match validateParams env defaults t t.m_pageId with
  | some t1 =>
    validateDjbzParams env defaults t1 (t1.m_refDjbzDispatcher.findDjbzForPage t1.m_pageId)
  | none => none

end Task

/-! ## `Task::process` -/

namespace QSet

variable {α : Type} [DecidableEq α]

/-- The test `QSet::isEmpty`. -/
def isEmpty (s : QSet α) : Bool := s.elems.isEmpty

/-- The union `a += b` of `QSet`. -/
def unite (a b : QSet α) : QSet α := b.elems.foldl QSet.insert a

end QSet

/-- What `Task::process` uses beyond `Env` without defining it: the default-constructed
`Params` and the four partial comparisons of `Params` with the parameters of a
remembered snapshot. -/
structure ProcessEnv extends Env where
  defaults : Params
  matchJb2Part : Params → ParamsData → Bool
  matchBg44Part : Params → ParamsData → Bool
  matchAssemblePart : Params → ParamsData → Bool
  matchPostprocessPart : Params → ParamsData → Bool

/-- The places at which `Task::process` reads the cancellation flag of `TaskStatus`:
on entry, in each round of waiting for the export thread, before encoding the picture
of a page, in each round of polling the text encoder, and before assembling a page. -/
inductive CheckPoint where
  | start
  | exportRound (round : Nat)
  | c44 (p : PageId)
  | minidjvuRound (round : Nat)
  | assemble (p : PageId)
  deriving DecidableEq

/-- The external tools that `Task::process` starts. -/
inductive Tool where
  | c44
  | minidjvu
  | djvumake
  | djvused
  deriving DecidableEq

/-- What the surroundings do during one run of `Task::process`: what each read of the
cancellation flag gives, how many rounds the export thread and the text encoder are
waited for, whether the temporary file of encoder settings opens, the exit code of
each tool started for a page, and the file system as it is when the export thread has
finished and when the update step runs. -/
structure Run where
  cancelled : CheckPoint → Bool
  exportRounds : Nat
  minidjvuRounds : Nat
  settingsFileOpens : Bool
  exitCode : Tool → PageId → Int
  fsAfterExport : FileSystem
  fsAtUpdate : FileSystem

/-- How a run of `Task::process` ends: it returns, or `throwIfCancelled` throws at a
check point, or a null `Params` pointer is dereferenced, or `nextDjbzId` ran out of
rounds. -/
inductive Outcome where
  | Returned
  | Cancelled (cp : CheckPoint)
  | NullParams
  | NoFreshId
  deriving DecidableEq

/-- The seven local page sets of `Task::process`. -/
structure WorkSets where
  to_export : QSet PageId
  to_c44 : QSet PageId
  to_c44_cached : QSet PageId
  to_minidjvu : QSet PageId
  to_minidjvu_cached : QSet PageId
  to_assemble : QSet PageId
  to_postprocess : QSet PageId

/-- All seven sets empty. -/
def WorkSets.empty : WorkSets :=
  { to_export := QSet.empty, to_c44 := QSet.empty, to_c44_cached := QSet.empty,
    to_minidjvu := QSet.empty, to_minidjvu_cached := QSet.empty, to_assemble := QSet.empty,
    to_postprocess := QSet.empty }

/-- The mask `val & ~Params::RegeneratePage`. -/
def Params.clearRegeneratePage (val : Nat) : Nat := val - (val &&& Params.RegeneratePage)

/-- Modelled from the spec: `Params::rememberOutputParams`, which stamps a fresh
snapshot of the parameters, their dictionary id and dictionary revision, and the given
dictionary parameters. -/
def Params.rememberOutputParams (p : Params) (djbz_params : DjbzParams) : Params :=
  { p with m_outputParams := some (OutputParams.new p p.m_djbzId p.m_djbzRevision djbz_params) }

/-- The function `canUseCache`: the values stored into `use_jb2` and `use_bg44`. -/
def canUseCache (penv : ProcessEnv) (params : Params) : Bool × Bool :=
  match params.m_outputParams with
  | some o => (penv.matchJb2Part params o.m_params, penv.matchBg44Part params o.m_params)
  | none => (false, false)

/-- The function `requireReassembling`. -/
def requireReassembling (penv : ProcessEnv) (params : Params) : Bool :=
  match params.m_outputParams with
  | some o => !penv.matchAssemblePart params o.m_params
  | none => true

/-- The function `requirePostprocessing`: the returned flag and the value stored into
`force_reassambling`. -/
def requirePostprocessing (penv : ProcessEnv) (params : Params) : Bool × Bool :=
  match params.m_outputParams with
  | some o =>
    let require_postprocessing := !penv.matchPostprocessPart params o.m_params
    (require_postprocessing,
      require_postprocessing && decide (params.m_title = "") &&
        decide (o.m_params.m_title ≠ ""))
  | none => (true, false)

/-- The function `isJB2cached`. -/
def isJB2cached (fs : FileSystem) (info : SourceImagesInfo) : Bool :=
  if info.m_export_jb2Filename ≠ "" then
    match fs info.m_export_jb2Filename with
    | some fi => decide (fi.size = info.m_export_jb2Filesize)
    | none => false
  else false

/-- The function `isBG44cached`. -/
def isBG44cached (fs : FileSystem) (info : SourceImagesInfo) : Bool :=
  if info.m_export_bg44Filename ≠ "" then
    match fs info.m_export_bg44Filename with
    | some fi => decide (fi.size = info.m_export_bg44Filesize)
    | none => false
  else false

namespace Task

/-- The block `if (es.hasBWLayer)` of a round of the partition loop. -/
def addToMinidjvu (es : ExportSuggestion) (reuse_jb2 : Bool) (w : WorkSets) (p : PageId) :
    WorkSets :=
  if es.hasBWLayer then
    if reuse_jb2 then { w with to_minidjvu_cached := w.to_minidjvu_cached.insert p }
    else { w with to_minidjvu := w.to_minidjvu.insert p }
  else w

/-- The block `if (es.hasColorLayer)` of a round of the partition loop. -/
def addToC44 (es : ExportSuggestion) (reuse_bg44 : Bool) (w : WorkSets) (p : PageId) :
    WorkSets :=
  if es.hasColorLayer then
    if reuse_bg44 then { w with to_c44_cached := w.to_c44_cached.insert p }
    else { w with to_c44 := w.to_c44.insert p }
  else w

/-- The block of a round of the partition loop that handles a page with both layers
and an empty page. -/
def addToExport (es : ExportSuggestion) (reuse_jb2 reuse_bg44 djvu_cached : Bool)
    (w : WorkSets) (p : PageId) : WorkSets :=
  if es.hasColorLayer && es.hasBWLayer then
    if !reuse_bg44 || !reuse_jb2 then { w with to_export := w.to_export.insert p } else w
  else if !es.hasBWLayer && !es.hasColorLayer then
    if djvu_cached then { w with to_minidjvu_cached := w.to_minidjvu_cached.insert p }
    else { w with to_minidjvu := w.to_minidjvu.insert p }
  else w

/-- The block `if (requireReassembling(params) || !params->isDjVuCached())` of a round
of the partition loop. -/
def addToAssemble (reassembling djvu_cached : Bool) (w : WorkSets) (p : PageId) : WorkSets :=
  if reassembling || !djvu_cached then { w with to_assemble := w.to_assemble.insert p }
  else w

/-- The block `if (requirePostprocessing(params, force_reassembling))` of a round of
the partition loop; `post` holds the returned flag and `force_reassembling`. -/
def addToPostprocess (post : Bool × Bool) (w : WorkSets) (p : PageId) : WorkSets :=
  if post.1 then
    if post.2 then
      { w with to_postprocess := w.to_postprocess.insert p,
               to_assemble := w.to_assemble.insert p }
    else { w with to_postprocess := w.to_postprocess.insert p }
  else w

/-- The five blocks of one round of the partition loop of `Task::process` that add the
page `p` to the page sets, in the order of the code, given the suggestion of the page
and the values that the round has computed: `reuse_jb2`, `reuse_bg44`,
`params->isDjVuCached()`, `requireReassembling(params)` and the two results of
`requirePostprocessing`. -/
def partitionSets (es : ExportSuggestion) (reuse_jb2 reuse_bg44 djvu_cached reassembling : Bool)
    (post : Bool × Bool) (w : WorkSets) (p : PageId) : WorkSets :=
  let w := addToMinidjvu es reuse_jb2 w p
  let w := addToC44 es reuse_bg44 w p
  let w := addToExport es reuse_jb2 reuse_bg44 djvu_cached w p
  let w := addToAssemble reassembling djvu_cached w p
  addToPostprocess post w p

/-- One round of the partition loop of `Task::process` for the page `p` of the
dictionary: the store and the page sets after it; `none` stands for the dereference of
the null pointer that `getPageParams` gives for a page without parameters. -/
def partitionPage (penv : ProcessEnv) (export_suggestions : ExportSuggestions)
    (djbz_is_cached : Bool) (acc : Settings × WorkSets) (p : PageId) :
    Option (Settings × WorkSets) :=
  let es := export_suggestions p
  match acc.1.getPageParams p with
  | none => none
  | some stored =>
    let val := stored.m_forceReprocess
    let forced := decide (val &&& Params.RegeneratePage ≠ 0)
    let params : Params :=
      if forced then { stored with m_forceReprocess := Params.clearRegeneratePage val }
      else stored
    let s := if forced then acc.1.setPageParams p params else acc.1
    let may_reuse := if forced then (false, false) else canUseCache penv params
    let info := params.m_sourceImagesInfo
    let reuse_jb2 := es.hasBWLayer && (may_reuse.1 && djbz_is_cached && isJB2cached penv.fs info)
    let reuse_bg44 := es.hasColorLayer && (may_reuse.2 && isBG44cached penv.fs info)
    some (s, partitionSets es reuse_jb2 reuse_bg44 (penv.isDjVuCached params)
      (requireReassembling penv params) (requirePostprocessing penv params) acc.2 p)

/-- The partition loop of `Task::process` over the pages of the dictionary. -/
def partitionLoop (penv : ProcessEnv) (export_suggestions : ExportSuggestions)
    (djbz_is_cached : Bool) : List PageId → Settings × WorkSets → Option (Settings × WorkSets)
  | [], acc => some acc
  | p :: rest, acc =>
    match partitionPage penv export_suggestions djbz_is_cached acc p with
    | some acc1 => partitionLoop penv export_suggestions djbz_is_cached rest acc1
    | none => none

/-- The first round, among `n`, in which the flag read at `cp round` is set. -/
def firstCancelled (run : Run) (cp : Nat → CheckPoint) (n : Nat) : Option Nat :=
  (List.range n).find? (fun i => run.cancelled (cp i))

/-- The last loop of `Task::startExport`: the snapshot of every exported page is
updated from the file system and stored. -/
def exportUpdateLoop (fs : FileSystem) : List PageId → Settings → Option Settings
  | [], s => some s
  | p :: rest, s =>
    match s.getPageParams p with
    | some params =>
      exportUpdateLoop fs rest
        (s.setPageParams p (params.setSourceImagesInfo (params.m_sourceImagesInfo.update fs)))
    | none => none

/-- A loop that dereferences the parameters of each page in turn. -/
def derefLoop (s : Settings) : List PageId → Outcome
  | [] => Outcome.Returned
  | p :: rest =>
    match s.getPageParams p with
    | some _ => derefLoop s rest
    | none => Outcome.NullParams

/-- The method `Task::startExport`: how it is left and the store at that moment. The
first loop reads the parameters of the pages; the export thread itself writes files
only, and the flag is read in every round of waiting for it. -/
def startExport (run : Run) (s : Settings) (pages_to_export : QSet PageId) :
    Outcome × Settings :=
  if pages_to_export.isEmpty then (Outcome.Returned, s)
  else if derefLoop s pages_to_export.elems ≠ Outcome.Returned then (Outcome.NullParams, s)
  else
    match firstCancelled run CheckPoint.exportRound run.exportRounds with
    | some i => (Outcome.Cancelled (CheckPoint.exportRound i), s)
    | none =>
      match exportUpdateLoop run.fsAfterExport pages_to_export.elems s with
      | some s1 => (Outcome.Returned, s1)
      | none => (Outcome.NullParams, s)

/-- The loop of a stage that handles the pages one by one: the flag is read at the
check point of the page, the parameters of the page are dereferenced, the tool is run
and waited for; its exit code is not looked at. The rounds are taken in the order of
the list, although the code may run them in parallel. -/
def pagesLoop (run : Run) (cp : PageId → CheckPoint) (s : Settings) : List PageId → Outcome
  | [] => Outcome.Returned
  | p :: rest =>
    if run.cancelled (cp p) then Outcome.Cancelled (cp p)
    else
      match s.getPageParams p with
      | some _ => pagesLoop run cp s rest
      | none => Outcome.NullParams

/-- The pages whose parameters `DjbzDispatcher::generateDjbzEncoderParams` dereferences
for the page `page`: the page itself if its dictionary has at most one page, and the
pages of the dictionary unless it is the sentinel. -/
def encoderParamsReads (d : DjbzDispatcher) (page : PageId) : List PageId :=
  let dict_id := d.findDjbzForPage page
  let pages := d.listPagesFromDict dict_id
  (if pages.length > 1 then [] else [page]) ++
    (if dict_id ≠ DjbzDispatcher.dummyDjbzId then pages else [])

/-- The stage that encodes the text layers: the sets are completed with the cached
pages, the encoder parameters are generated and, if the temporary file of settings
opens, the encoder is started and polled; the cancellation flag is read in every
round of polling. -/
def encodeJb2 (run : Run) (t : Task) (w : WorkSets) : Outcome × WorkSets :=
  if !w.to_minidjvu.isEmpty then
    let w1 : WorkSets :=
      if !w.to_minidjvu_cached.isEmpty then
        { w with
          to_minidjvu := w.to_minidjvu.unite w.to_minidjvu_cached
          to_assemble := w.to_assemble.unite w.to_minidjvu_cached
          to_minidjvu_cached := QSet.empty }
      else w
    let w2 : WorkSets :=
      { w1 with
        to_c44 :=
          w1.to_c44_cached.elems.foldl
            (fun acc p => if w1.to_minidjvu.contains p then acc.insert p else acc) w1.to_c44 }
    if derefLoop t.m_ptrSettings (encoderParamsReads t.m_refDjbzDispatcher t.m_pageId) ≠
        Outcome.Returned then (Outcome.NullParams, w2)
    else if run.settingsFileOpens then
      match firstCancelled run CheckPoint.minidjvuRound run.minidjvuRounds with
      | some i => (Outcome.Cancelled (CheckPoint.minidjvuRound i), w2)
      | none => (Outcome.Returned, w2)
    else (Outcome.Returned, w2)
  else (Outcome.Returned, w)

/-- The loop of the update step over the pages of the dictionary: revision, DjVu file
name, size and time stamp are recorded, the snapshot of the source images is
updated, a fresh `OutputParams` is remembered and the parameters are stored. -/
def updateLoop (penv : ProcessEnv) (fs : FileSystem) (fname_gen : OutputFileNameGenerator)
    (revision : QDateTime) (djbz_params : DjbzParams) : List PageId → Settings → Option Settings
  | [], s => some s
  | p :: rest, s =>
    match s.getPageParams p with
    | some params =>
      let djvu_path := fname_gen.outDir ++ "/" ++ penv.g.m_djvu_pages_subfolder ++ "/"
      let fname := djvu_path ++ penv.completeBaseName (fname_gen.fileNameFor p) ++ ".djvu"
      let params1 : Params :=
        { params with
          m_djbzRevision := revision
          m_djvuFilename := fname
          m_djvuSize := match fs fname with
            | some fi => fi.size
            | none => 0
          m_djvuLastChanged := match fs fname with
            | some fi => fi.lastModified
            | none => QDateTime.null
          m_sourceImagesInfo := params.m_sourceImagesInfo.update fs }
      updateLoop penv fs fname_gen revision djbz_params rest
        (s.setPageParams p (params1.rememberOutputParams djbz_params))
    | none => none

/-- The first block of the update step of `Task::process`: the record of the dictionary
`djbz_id` after it, given the stored parameters `params` of the page of the task. The
dictionary is reached through `djbzDictRef(djbz_id)`; `updateParams` stores what is
written through the reference. -/
def updateDict (penv : ProcessEnv) (fs : FileSystem) (t : Task) (djbz_id : String)
    (params : Params) : DjbzDict :=
  let dict_id := params.m_djbzId
  let djvu_path := t.m_refOutFileNameGen.outDir ++ "/" ++ penv.g.m_djvu_pages_subfolder ++ "/"
  let dict := (t.m_refDjbzDispatcher.djbzDictRef penv.g penv.now djbz_id).1
  if !DjbzDispatcher.isDummyDjbzId dict_id then
    let djbz_filename :=
      djvu_path ++ "/" ++ dict_id ++ "." ++
        (t.m_refDjbzDispatcher.djbzDict penv.g penv.now dict_id).m_params.m_extension
    (dict.setOutputFilename fs djbz_filename).updateOutputFileInfo fs
  else dict

/-- The update step of `Task::process`. -/
def updateParams (penv : ProcessEnv) (fs : FileSystem) (t : Task) (djbz_id : String)
    (dictionary_pages : List PageId) : Outcome × Task :=
  match t.m_ptrSettings.getPageParams t.m_pageId with
  | none => (Outcome.NullParams, t)
  | some params =>
    let dict := updateDict penv fs t djbz_id params
    let d1 : DjbzDispatcher :=
      { t.m_refDjbzDispatcher with
        m_dictionaries := t.m_refDjbzDispatcher.m_dictionaries.insert djbz_id dict }
    match updateLoop penv fs t.m_refOutFileNameGen dict.m_last_changed dict.m_params
        dictionary_pages t.m_ptrSettings with
    | some s1 => (Outcome.Returned, { t with m_ptrSettings := s1, m_refDjbzDispatcher := d1 })
    | none => (Outcome.NullParams, { t with m_refDjbzDispatcher := d1 })

/-- The stages of `Task::process` after the partition loop, up to and including the
update step: export, picture encoder, text encoder, assembling, postprocessing (a
loop that only dereferences the parameters of its pages and runs the tool) and
update. -/
def runStages (penv : ProcessEnv) (run : Run) (t : Task) (djbz_id : String)
    (dictionary_pages : List PageId) (w : WorkSets) : Outcome × Task :=
  let exported := startExport run t.m_ptrSettings w.to_export
  let t1 : Task := { t with m_ptrSettings := exported.2 }
  if exported.1 ≠ Outcome.Returned then (exported.1, t1)
  else
    let bg44 := pagesLoop run CheckPoint.c44 t1.m_ptrSettings w.to_c44.elems
    if bg44 ≠ Outcome.Returned then (bg44, t1)
    else
      let jb2 := encodeJb2 run t1 w
      if jb2.1 ≠ Outcome.Returned then (jb2.1, t1)
      else
        let assembled := pagesLoop run CheckPoint.assemble t1.m_ptrSettings jb2.2.to_assemble.elems
        if assembled ≠ Outcome.Returned then (assembled, t1)
        else
          let postprocessed := derefLoop t1.m_ptrSettings jb2.2.to_postprocess.elems
          if postprocessed ≠ Outcome.Returned then (postprocessed, t1)
          else updateParams penv run.fsAtUpdate t1 djbz_id dictionary_pages

/-- The method `Task::process` as far as the registry and the store are concerned: how
it is left and the state at that moment. The member `m_ptrExportSuggestions` of `t`
holds the suggestions passed in with the data; `all_pages_ordered` are the pages of
the project in view order; autoset round `i` reads the clock as `clock i`. -/
def process (penv : ProcessEnv) (clock : Nat → QDateTime) (run : Run)
    (all_pages_ordered : List PageId) (t : Task) : Outcome × Task :=
  if run.cancelled CheckPoint.start then (Outcome.Cancelled CheckPoint.start, t)
  else
    match DjbzDispatcher.autosetPagesToDjbz penv.g clock penv.defaults all_pages_ordered
        t.m_ptrExportSuggestions t.m_refDjbzDispatcher t.m_ptrSettings with
    | none => (Outcome.NoFreshId, t)
    | some (d1, s1) =>
      let t1 : Task := { t with m_refDjbzDispatcher := d1, m_ptrSettings := s1 }
      let need := needReprocess penv.toEnv t1
      if need.1 then
        match validateTaskParams penv.toEnv penv.defaults t1 with
        | none => (Outcome.NoFreshId, t1)
        | some t2 =>
          let djbz_id := t2.m_refDjbzDispatcher.findDjbzForPage t2.m_pageId
          let dictionary_pages := t2.m_refDjbzDispatcher.listPagesFromSameDict t2.m_pageId
          match partitionLoop penv t2.m_ptrExportSuggestions need.2 dictionary_pages
              (t2.m_ptrSettings, WorkSets.empty) with
          | none => (Outcome.NullParams, t2)
          | some (s3, w) =>
            let w1 : WorkSets :=
              { w with to_assemble := (w.to_assemble.unite w.to_c44).unite w.to_minidjvu }
            runStages penv run { t2 with m_ptrSettings := s3 } djbz_id dictionary_pages w1
      else (Outcome.Returned, t1)

/-- The name of the DjVu file of a page, as the update step of `Task::process` builds
it. -/
def djvuFileName (penv : ProcessEnv) (fname_gen : OutputFileNameGenerator) (p : PageId) :
    String :=
  fname_gen.outDir ++ "/" ++ penv.g.m_djvu_pages_subfolder ++ "/" ++
    penv.completeBaseName (fname_gen.fileNameFor p) ++ ".djvu"

/-- The condition of `assert (es.isValid)` in the rounds of the partition loop over
`pages`. -/
def partitionLoopAssertion (export_suggestions : ExportSuggestions) (pages : List PageId) :
    Bool :=
  pages.all (fun p => (export_suggestions p).isValid)

/-- The condition of `assert(fi.exists())` in the rounds of the loop of the update step
over `pages`: the DjVu file of the page exists. -/
def updateLoopAssertion (penv : ProcessEnv) (fs : FileSystem)
    (fname_gen : OutputFileNameGenerator) (pages : List PageId) : Bool :=
  pages.all (fun p => (fs (djvuFileName penv fname_gen p)).isSome)

/-- The conditions of the `assert` statements on the way of a run of `Task::process`
that reprocesses the page and is not left before the update step, in the order of the
code: that of `listPagesFromSameDict` (which `generateDjbzEncoderParams` repeats for
the same page and registry), those of the partition loop, that of `djbzDictRef` in the
update step, and those of the loop of the update step. A run that does not get as far
as the partition loop meets none of them. -/
def processAssertions (penv : ProcessEnv) (clock : Nat → QDateTime) (run : Run)
    (all_pages_ordered : List PageId) (t : Task) : Bool :=
  match DjbzDispatcher.autosetPagesToDjbz penv.g clock penv.defaults all_pages_ordered
      t.m_ptrExportSuggestions t.m_refDjbzDispatcher t.m_ptrSettings with
  | none => true
  | some (d1, s1) =>
    let t1 : Task := { t with m_refDjbzDispatcher := d1, m_ptrSettings := s1 }
    if (needReprocess penv.toEnv t1).1 then
      match validateTaskParams penv.toEnv penv.defaults t1 with
      | none => true
      | some t2 =>
        let djbz_id := t2.m_refDjbzDispatcher.findDjbzForPage t2.m_pageId
        let dictionary_pages := t2.m_refDjbzDispatcher.listPagesFromSameDict t2.m_pageId
        t2.m_refDjbzDispatcher.listPagesFromSameDictAssertion t2.m_pageId &&
          partitionLoopAssertion t2.m_ptrExportSuggestions dictionary_pages &&
          t2.m_refDjbzDispatcher.djbzDictRefAssertion djbz_id &&
          updateLoopAssertion penv run.fsAtUpdate t2.m_refOutFileNameGen dictionary_pages
    else true

end Task

/-! ## The order of pages, `OrderByFileSize` and `Filter::filterBatchPages` -/

/-- Modelled from the spec: `operator==` of `ImageId` (declared outside the files at
hand): the same page number and the same source path. -/
def ImageId.eq (lhs rhs : ImageId) : Bool :=
  decide (lhs.m_page = rhs.m_page) && decide (lhs.m_filePath = rhs.m_filePath)

/-- Modelled from the spec: `operator<` of `ImageId` (declared outside the files at
hand): by source path, then by page number. -/
def ImageId.lt (lhs rhs : ImageId) : Bool :=
  if QString.lt lhs.m_filePath rhs.m_filePath then true
  else if QString.lt rhs.m_filePath lhs.m_filePath then false
  else decide (lhs.m_page < rhs.m_page)

/-- Modelled from the spec: the values of the enumerators of `PageId::SubPage` (the
header is not at hand), in the order in which `PageId.cpp` lists them. -/
def SubPage.toNat : SubPage → Nat
  | SubPage.SINGLE_PAGE => 0
  | SubPage.LEFT_PAGE => 1
  | SubPage.RIGHT_PAGE => 2

/-- The function `operator==(PageId const&, PageId const&)`. -/
def PageId.eq (lhs rhs : PageId) : Bool :=
  decide (lhs.m_subPage = rhs.m_subPage) && lhs.m_imageId.eq rhs.m_imageId

/-- The function `operator<(PageId const&, PageId const&)`. -/
def PageId.lt (lhs rhs : PageId) : Bool :=
  if lhs.m_imageId.lt rhs.m_imageId then true
  else if rhs.m_imageId.lt lhs.m_imageId then false
  else decide (lhs.m_subPage.toNat < rhs.m_subPage.toNat)

/-- The method `OrderByFileSize::precedes`; `none` stands for the dereference of the
null pointer that `getPageParams` gives for a page without parameters. -/
def OrderByFileSize.precedes (m_ptrSettings : Settings) (lhs_page : PageId)
    (lhs_incomplete : Bool) (rhs_page : PageId) (rhs_incomplete : Bool) : Option Bool :=
  if lhs_incomplete ≠ rhs_incomplete then some lhs_incomplete
  else
    match m_ptrSettings.getPageParams lhs_page, m_ptrSettings.getPageParams rhs_page with
    | some lparam, some rparam =>
      if lparam.m_djvuSize ≠ rparam.m_djvuSize then
        some (decide (lparam.m_djvuSize < rparam.m_djvuSize))
      else some (lhs_page.lt rhs_page)
    | _, _ => none

/-- The loop of `Filter::filterBatchPages` over the ids of the pages: the result so far
and the set `known_djbz`. -/
def filterBatchPagesLoop (m_ptrSettings : Settings) :
    List PageId → List PageId × List String → List PageId × List String
  | [], acc => acc
  | page :: rest, (res, known_djbz) =>
    match m_ptrSettings.getPageParams page with
    | some params =>
      let id := params.m_djbzId
      if !decide (id ∈ known_djbz) || DjbzDispatcher.isDummyDjbzId id then
        filterBatchPagesLoop m_ptrSettings rest (res ++ [page], List.insert id known_djbz)
      else filterBatchPagesLoop m_ptrSettings rest (res, known_djbz)
    | none => filterBatchPagesLoop m_ptrSettings rest (res ++ [page], known_djbz)

/-- The method `Filter::filterBatchPages` on the ids of the pages. -/
def filterBatchPages (m_ptrSettings : Settings) (pages : List PageId) : List PageId :=
  (filterBatchPagesLoop m_ptrSettings pages ([], [])).1

/-- The loop of `Task::process` that fills `to_minidjvu_ordered`: the pages of
`to_minidjvu` in the order of `all_pages_ordered`; it is left when the list has `n`
entries, `n` being the number of pages of the dictionary. -/
def toMinidjvuOrderedLoop (to_minidjvu : QSet PageId) (n : Nat) :
    List PageId → List PageId → List PageId
  | [], to_minidjvu_ordered => to_minidjvu_ordered
  | p :: rest, to_minidjvu_ordered =>
    if to_minidjvu.contains p then
      if (to_minidjvu_ordered ++ [p]).length = n then to_minidjvu_ordered ++ [p]
      else toMinidjvuOrderedLoop to_minidjvu n rest (to_minidjvu_ordered ++ [p])
    else toMinidjvuOrderedLoop to_minidjvu n rest to_minidjvu_ordered

/-- The list `to_minidjvu_ordered` that `Task::process` hands to the text encoder. -/
def toMinidjvuOrdered (all_pages_ordered dictionary_pages : List PageId)
    (to_minidjvu : QSet PageId) : List PageId :=
  toMinidjvuOrderedLoop to_minidjvu dictionary_pages.length all_pages_ordered []

/-! ## Predicates used in the statements -/

open DjbzDispatcher

/-- Value of a decimal digit string read from the left, starting from `acc`. -/
def decodeDecimal (acc : Nat) (cs : List Char) : Nat :=
  cs.foldl (fun a c => 10 * a + (c.toNat - 48)) acc

namespace DjbzDispatcher

/-- The consistency of the two coupled maps: a page is in the member set of the
dictionary `id` exactly if the page map sends it to `id`, a non-empty id. -/
def Consistent (d : DjbzDispatcher) : Prop :=
  ∀ (id : String) (p : PageId),
    p ∈ d.listPagesFromDict id ↔ (d.findDjbzForPage p = id ∧ id ≠ "")

/-- The test of the search loop of `addNewPage` on one dictionary. -/
def NotFull (dict : DjbzDict) : Prop :=
  dict.m_type = DjbzType.AutoFill ∧ dict.m_pages.count < dict.m_max_pages

/-- The key `key` is the first dictionary, in id order, that is `AutoFill` and has
fewer pages than its maximum. -/
def FirstNotFull (d : DjbzDispatcher) (key : String) : Prop :=
  ∃ dict, d.m_dictionaries.find? key = some dict ∧ NotFull dict ∧
    ∀ k2 dict2, d.m_dictionaries.find? k2 = some dict2 → NotFull dict2 → ¬ QString.lt k2 key

/-- The dictionary id stored for a page in the parameter store; empty when the page
has no stored parameters. -/
def storedDjbzId (s : Settings) (p : PageId) : String :=
  match s.getPageParams p with
  | some params => params.m_djbzId
  | none => ""

/-- The registry and the parameter store agree on a page. -/
def Agrees (d : DjbzDispatcher) (s : Settings) (p : PageId) : Prop :=
  d.findDjbzForPage p = storedDjbzId s p

/-- The parameter store holds a non-empty dictionary id for a page that the registry
has assigned. -/
def Recorded (d : DjbzDispatcher) (s : Settings) (p : PageId) : Prop :=
  d.findDjbzForPage p ≠ "" → storedDjbzId s p ≠ ""

/-- The sentinel dictionary exists and has kind `None`. -/
def SentinelIsNone (d : DjbzDispatcher) : Prop :=
  ∃ dict, d.m_dictionaries.find? dummyDjbzId = some dict ∧ dict.m_type = DjbzType.None

/-- The test of `autosetPagesToDjbz` for a stored id that does not fit the page. -/
def mismatch (es : ExportSuggestion) (id : String) : Bool :=
  (es.hasBWLayer && decide (id = dummyDjbzId)) || (!es.hasBWLayer && decide (id ≠ dummyDjbzId))

end DjbzDispatcher

namespace Task

/-- The condition of the cached scenario on one page `p` of the dictionary `djbz_id`:
stored parameters without the force flag, the page assigned to the dictionary, an
unchanged `SourceImagesInfo`, a remembered snapshot that matches the current state of
the dictionary, and a cached DjVu file. -/
def UpToDate (env : Env) (t : Task) (djbz_id : String) (p : PageId) : Prop :=
  ∃ params was,
    t.m_ptrSettings.getPageParams p = some params ∧
    params.m_forceReprocess &&& Params.RegeneratePage = 0 ∧
    t.m_refDjbzDispatcher.findDjbzForPage p = djbz_id ∧
    (SourceImagesInfo.new env p t.m_refOutFileNameGen t.m_ptrExportSuggestions).ne env
      params.m_sourceImagesInfo = false ∧
    params.m_outputParams = some was ∧
    was.matches env
      (OutputParams.new params djbz_id
        (t.m_refDjbzDispatcher.djbzDict env.g env.now djbz_id).m_last_changed
        (t.m_refDjbzDispatcher.djbzDict env.g env.now djbz_id).m_params) = true ∧
    env.isDjVuCached params = true

end Task

namespace DjbzDispatcher

/-- The registry states reached from the constructor. -/
inductive Reachable : DjbzDispatcher → Prop where
  | init (g : GlobalStaticSettings) (now : QDateTime) : Reachable (DjbzDispatcher.new g now)
  | addNewPage (g : GlobalStaticSettings) (now : QDateTime) (d d1 : DjbzDispatcher)
      (p : PageId) (id : String) :
      Reachable d →
      (g.m_djvu_pages_per_djbz < 2 →
        d.findDjbzForPage p = "" ∨ d.findDjbzForPage p = dummyDjbzId) →
      DjbzDispatcher.addNewPage g now d p = some (id, d1) → Reachable d1
  | deleteFromDjbz (g : GlobalStaticSettings) (now : QDateTime) (d : DjbzDispatcher)
      (p : PageId) :
      Reachable d → Reachable (DjbzDispatcher.deleteFromDjbz g now d p)
  | setToDjbz (g : GlobalStaticSettings) (now : QDateTime) (d : DjbzDispatcher) (p : PageId)
      (id : String) (no_rev_change : Bool) :
      Reachable d → (d.findDjbzForPage p = "" ∨ d.findDjbzForPage p = id) →
      Reachable (DjbzDispatcher.setToDjbz g now d p id no_rev_change)
  | moveToDjbz (g : GlobalStaticSettings) (now : QDateTime) (d : DjbzDispatcher) (p : PageId)
      (id : String) :
      Reachable d → Reachable (DjbzDispatcher.moveToDjbz g now d p id)
  | resetAllDictsExceptLocked (g : GlobalStaticSettings) (now : QDateTime)
      (d : DjbzDispatcher) :
      Reachable d → Reachable (DjbzDispatcher.resetAllDictsExceptLocked g now d)
  | autosetPagesToDjbz (g : GlobalStaticSettings) (clock : Nat → QDateTime)
      (defaults : Params) (pages : List PageId) (sug : ExportSuggestions)
      (d d1 : DjbzDispatcher) (s s1 : Settings) :
      Reachable d → (∀ p ∈ pages, Recorded d s p) →
      DjbzDispatcher.autosetPagesToDjbz g clock defaults pages sug d s = some (d1, s1) →
      Reachable d1
  | editDict (d : DjbzDispatcher) (id : String) (dict dict2 : DjbzDict) :
      Reachable d → d.m_dictionaries.find? id = some dict → dict2.m_pages = dict.m_pages →
      Reachable { d with m_dictionaries := d.m_dictionaries.insert id dict2 }

end DjbzDispatcher

/-- Two dictionary records that differ at most in members, maximum and revision. -/
def DjbzDict.SameRecord (a b : DjbzDict) : Prop :=
  b.m_params = a.m_params ∧ b.m_type = a.m_type ∧ b.m_output_file = a.m_output_file ∧
    b.m_output_file_size = a.m_output_file_size ∧
    b.m_output_file_last_changed = a.m_output_file_last_changed

/-- Every dictionary of `d` is a dictionary of `d1`, changed at most in members,
maximum and revision. -/
def DjbzDispatcher.Keeps (d d1 : DjbzDispatcher) : Prop :=
  ∀ k dict, d.m_dictionaries.find? k = some dict →
    ∃ dict2, d1.m_dictionaries.find? k = some dict2 ∧ dict.SameRecord dict2

/-- The remembered snapshot of a page in the store; for a page without stored
parameters, that of the default-constructed `Params`. -/
def Settings.rememberedOutputParams (defaults : Params) (s : Settings) (p : PageId) :
    Option OutputParams :=
  ((s.getPageParams p).getD defaults).m_outputParams

/-- The store `s1` has parameters for every page for which `s` has them, and every
page has the remembered snapshot it has in `s`. -/
def Settings.Grows (defaults : Params) (s s1 : Settings) : Prop :=
  (∀ q, s.getPageParams q ≠ none → s1.getPageParams q ≠ none) ∧
    ∀ q, Settings.rememberedOutputParams defaults s1 q =
      Settings.rememberedOutputParams defaults s q

/-- All pages of the seven sets. -/
def WorkSets.pages (w : WorkSets) : List PageId :=
  w.to_export.elems ++ w.to_c44.elems ++ w.to_c44_cached.elems ++ w.to_minidjvu.elems ++
    w.to_minidjvu_cached.elems ++ w.to_assemble.elems ++ w.to_postprocess.elems

/-- The page `p`, which follows the pages `pre` in the input of `filterBatchPages`, has
no stored parameters, or its stored dictionary id is the sentinel, or no page of `pre`
has the same stored dictionary id. -/
def FirstOfDjbz (s : Settings) (pre : List PageId) (p : PageId) : Prop :=
  match s.getPageParams p with
  | none => True
  | some params =>
    params.m_djbzId = dummyDjbzId ∨
      ∀ q ∈ pre, ∀ qp, s.getPageParams q = some qp → qp.m_djbzId ≠ params.m_djbzId

/-- The parameters with which a round of the partition loop of `Task::process` goes on
once it has consumed the bit `RegeneratePage` of the stored parameters. -/
def Task.roundParams (stored : Params) : Params :=
  if stored.m_forceReprocess &&& Params.RegeneratePage ≠ 0 then
    { stored with m_forceReprocess := Params.clearRegeneratePage stored.m_forceReprocess }
  else stored

/-- The values of `may_reuse_jb2` and `may_reuse_bg44` in a round of the partition loop
for a page with the stored parameters `stored`. -/
def Task.mayReuse (penv : ProcessEnv) (stored : Params) : Bool × Bool :=
  if stored.m_forceReprocess &&& Params.RegeneratePage ≠ 0 then (false, false)
  else canUseCache penv stored

/-- The value of `reuse_jb2` at the end of a round of the partition loop. -/
def Task.reuseJb2 (penv : ProcessEnv) (es : ExportSuggestion) (djbz_is_cached : Bool)
    (stored : Params) : Bool :=
  es.hasBWLayer && ((Task.mayReuse penv stored).1 && djbz_is_cached &&
    isJB2cached penv.fs stored.m_sourceImagesInfo)

/-- The value of `reuse_bg44` at the end of a round of the partition loop. -/
def Task.reuseBg44 (penv : ProcessEnv) (es : ExportSuggestion) (stored : Params) : Bool :=
  es.hasColorLayer && ((Task.mayReuse penv stored).2 &&
    isBG44cached penv.fs stored.m_sourceImagesInfo)

/-- The page sets that one round of the partition loop gives for the page `p` when it is
run in the store `s` with all sets empty; all sets are empty when `p` has no stored
parameters. -/
def Task.roundSets (penv : ProcessEnv) (export_suggestions : ExportSuggestions)
    (djbz_is_cached : Bool) (s : Settings) (p : PageId) : WorkSets :=
  match Task.partitionPage penv export_suggestions djbz_is_cached (s, WorkSets.empty) p with
  | some r => r.2
  | none => WorkSets.empty

/-- The page sets after the two statements that follow the partition loop:
`to_assemble += to_c44; to_assemble += to_minidjvu;`. -/
def WorkSets.seeded (w : WorkSets) : WorkSets :=
  { w with to_assemble := (w.to_assemble.unite w.to_c44).unite w.to_minidjvu }

/-! ## Sample states -/

/-- A configuration with `n` pages per shared dictionary. -/
def sampleGlobals (n : Int) : GlobalStaticSettings :=
  { m_djvu_pages_per_djbz := n
    m_djvu_djbz_defaults :=
      { m_usePrototypes := true, m_useAveraging := true, m_aggression := 100,
        m_useErosion := false, m_classifier := ClassifierType.Normal, m_extension := "djbz" }
    m_djvu_pages_subfolder := "djvu"
    m_djvu_layers_subfolder := "layers" }

/-- The page `n` of the source `scan.tif`. -/
def samplePage (n : Int) : PageId :=
  { m_imageId := { m_filePath := "scan.tif", m_page := n }, m_subPage := SubPage.SINGLE_PAGE }

/-- An environment in which the only file is `d.djvu`, every page has a cached DjVu
file, and the missing inequality operators are structural. -/
def sampleEnv : Env :=
  { g := sampleGlobals 2
    now := 100
    fs := fun name => if name = "d.djvu" then some { size := 10, lastModified := 3 } else none
    paramsNe := fun a b => decide (a ≠ b)
    suggestionNe := fun a b => decide (a ≠ b)
    isDjVuCached := fun _ => true
    fileName := fun s => s
    completeBaseName := fun s => s
    dirPath := fun s => s }

/-- Every page has a bitonal layer only. -/
def sampleSuggestions : ExportSuggestions :=
  fun _ => { hasBWLayer := true, hasColorLayer := false, isValid := true, width := 100,
             height := 100, dpi := 300, lastChanged := 0 }

/-- File names `out/<page number>`. -/
def sampleFileNameGen : OutputFileNameGenerator :=
  { outDir := "out", fileNameFor := fun p => toString p.m_imageId.m_page }

/-- A registry in which pages 1 and 2 share the dictionary `0001`, whose output file
`d.djvu` is recorded with the size and time stamp it has in `sampleEnv`. -/
def sampleDispatcher : DjbzDispatcher :=
  let d2 :=
    DjbzDispatcher.setToDjbz (sampleGlobals 2) 2
      (DjbzDispatcher.setToDjbz (sampleGlobals 2) 1 (DjbzDispatcher.new (sampleGlobals 2) 0) (samplePage 1)
        "0001" false)
      (samplePage 2) "0001" false
  { d2 with
    m_dictionaries :=
      d2.m_dictionaries.insert "0001"
        { DjbzDispatcher.dictAt (sampleGlobals 2) 2 d2.m_dictionaries "0001" with
          m_output_file := "d.djvu", m_output_file_size := 10,
          m_output_file_last_changed := 3 } }

/-- Parameters of a page of `0001` whose remembered snapshot matches the current state. -/
def sampleParams (p : PageId) : Params :=
  let base : Params :=
    { m_djbzId := "0001", m_dpi := 300, m_title := "", m_rotation := 0, m_forceReprocess := 0
      m_sourceImagesInfo := SourceImagesInfo.new sampleEnv p sampleFileNameGen sampleSuggestions
      m_djbzRevision := 2, m_djvuFilename := "", m_djvuSize := 0, m_djvuLastChanged := 0
      m_outputParams := none }
  { base with
    m_outputParams := some (OutputParams.new base "0001" 2 (sampleGlobals 2).m_djvu_djbz_defaults) }

/-- A store that holds `sampleParams` for pages 1 and 2. -/
def sampleSettings : Settings :=
  { m_perPageParams := fun p =>
      if p = samplePage 1 ∨ p = samplePage 2 then some (sampleParams p) else none
    m_writes := 0 }

/-- The task of page 1 in the sample state. -/
def sampleTask : Task :=
  { m_pageId := samplePage 1
    m_ptrSettings := sampleSettings
    m_refDjbzDispatcher := sampleDispatcher
    m_refOutFileNameGen := sampleFileNameGen
    m_ptrExportSuggestions := sampleSuggestions }

/-- A store without parameters. -/
def emptySettings : Settings := { m_perPageParams := fun _ => none, m_writes := 0 }

/-- The default-constructed `Params` of the sample states. -/
def sampleDefaults : Params :=
  { m_djbzId := "", m_dpi := 300, m_title := "", m_rotation := 0, m_forceReprocess := 0
    m_sourceImagesInfo :=
      SourceImagesInfo.new sampleEnv (samplePage 0) sampleFileNameGen sampleSuggestions
    m_djbzRevision := 0, m_djvuFilename := "", m_djvuSize := 0, m_djvuLastChanged := 0
    m_outputParams := none }

/-- Every page has a colour layer only. -/
def colourSuggestions : ExportSuggestions :=
  fun _ => { hasBWLayer := false, hasColorLayer := true, isValid := true, width := 100,
             height := 100, dpi := 300, lastChanged := 0 }

/-- The sentinel holds pages 1 and 2; no page has stored parameters. -/
def sentinelTask : Task :=
  { m_pageId := samplePage 1
    m_ptrSettings := emptySettings
    m_refDjbzDispatcher :=
      DjbzDispatcher.setToDjbz (sampleGlobals 2) 2
        (DjbzDispatcher.setToDjbz (sampleGlobals 2) 1 (DjbzDispatcher.new (sampleGlobals 2) 0)
          (samplePage 1) dummyDjbzId false)
        (samplePage 2) dummyDjbzId false
    m_refOutFileNameGen := sampleFileNameGen
    m_ptrExportSuggestions := sampleSuggestions }

/-- A registry with a dictionary whose id is empty: page 0 was set to the empty id, as
on loading a page without a stored dictionary id, and then deleted. Page 1 is in `0001`. -/
def emptyIdDispatcher : DjbzDispatcher :=
  DjbzDispatcher.setToDjbz (sampleGlobals 2) 3
    (DjbzDispatcher.deleteFromDjbz (sampleGlobals 2) 2
      (DjbzDispatcher.setToDjbz (sampleGlobals 2) 1 (DjbzDispatcher.new (sampleGlobals 2) 0)
        (samplePage 0) "" true)
      (samplePage 0))
    (samplePage 1) "0001" false

/-- A store whose page 1 is recorded in `0001`. -/
def staleSettings : Settings :=
  { m_perPageParams := fun p =>
      if p = samplePage 1 then some (sampleDefaults.setDjbzId "0001") else none
    m_writes := 0 }

/-- A store whose page 1 is recorded on the sentinel. -/
def sentinelSettings : Settings :=
  { m_perPageParams := fun p =>
      if p = samplePage 1 then some (sampleDefaults.setDjbzId dummyDjbzId) else none
    m_writes := 0 }

/-- Page 1 was set to `0001` and then moved to the sentinel. -/
def movedDispatcher : DjbzDispatcher :=
  DjbzDispatcher.moveToDjbz (sampleGlobals 2) 2
    (DjbzDispatcher.setToDjbz (sampleGlobals 2) 1 (DjbzDispatcher.new (sampleGlobals 2) 0)
      (samplePage 1) "0001" false)
    (samplePage 1) dummyDjbzId

/-- Page 1 is the only page of the dictionary `0001`, which holds up to two pages. -/
def onePageDispatcher : DjbzDispatcher :=
  DjbzDispatcher.setToDjbz (sampleGlobals 2) 1 (DjbzDispatcher.new (sampleGlobals 2) 0)
    (samplePage 1) "0001" false

/-- The sentinel with a recorded output file `d.djvu` of size 11; in `sampleEnv` the
file has size 10. -/
def recordedSentinelDispatcher : DjbzDispatcher :=
  DjbzDispatcher.SetDjbzDict (DjbzDispatcher.new (sampleGlobals 2) 0) dummyDjbzId
    ((((DjbzDict.new (sampleGlobals 2) 0).setType DjbzType.None).setOutputFilename sampleEnv.fs
      "d.djvu").setOutputFileSize 11)

/-- A dictionary with the empty id whose recorded output file `d.djvu` has the size and
time stamp that the file has in `sampleEnv`. -/
def recordedEmptyIdDispatcher : DjbzDispatcher :=
  DjbzDispatcher.SetDjbzDict (DjbzDispatcher.new (sampleGlobals 2) 0) ""
    ((DjbzDict.new (sampleGlobals 2) 0).setOutputFilename sampleEnv.fs "d.djvu")

/-- The task of page 1 with a fresh registry and an empty store. -/
def freshTask : Task :=
  { m_pageId := samplePage 1
    m_ptrSettings := emptySettings
    m_refDjbzDispatcher := DjbzDispatcher.new (sampleGlobals 2) 0
    m_refOutFileNameGen := sampleFileNameGen
    m_ptrExportSuggestions := sampleSuggestions }

/-- The sample environment with structural comparisons of `Params`. -/
def sampleProcessEnv : ProcessEnv :=
  { toEnv := sampleEnv
    defaults := sampleDefaults
    matchJb2Part := fun p o => decide (p.toParamsData = o)
    matchBg44Part := fun p o => decide (p.toParamsData = o)
    matchAssemblePart := fun p o => decide (p.toParamsData = o)
    matchPostprocessPart := fun p o => decide (p.toParamsData = o) }

/-- A run in which the flag is never set and every tool exits with code 0. -/
def quietRun : Run :=
  { cancelled := fun _ => false
    exportRounds := 1
    minidjvuRounds := 2
    settingsFileOpens := true
    exitCode := fun _ _ => 0
    fsAfterExport := sampleEnv.fs
    fsAtUpdate := sampleEnv.fs }

/-- A run in which the flag is never set and every tool exits with code 1, while at the
update step every file is found with size 10, as an earlier run has left it. -/
def staleRun : Run :=
  { cancelled := fun _ => false
    exportRounds := 1
    minidjvuRounds := 2
    settingsFileOpens := true
    exitCode := fun _ _ => 1
    fsAfterExport := sampleEnv.fs
    fsAtUpdate := fun _ => some { size := 10, lastModified := 3 } }

/-- A run in which the flag is found set in the second round of polling the text
encoder. -/
def cancelledRun : Run :=
  { cancelled := fun cp => decide (cp = CheckPoint.minidjvuRound 1)
    exportRounds := 1
    minidjvuRounds := 2
    settingsFileOpens := true
    exitCode := fun _ _ => 0
    fsAfterExport := sampleEnv.fs
    fsAtUpdate := sampleEnv.fs }

/-- The sample task with the bit `RegeneratePage` set in the stored parameters of page 1. -/
def forcedTask : Task :=
  { sampleTask with
    m_ptrSettings :=
      sampleSettings.setPageParams (samplePage 1)
        { sampleParams (samplePage 1) with m_forceReprocess := Params.RegeneratePage } }

/-- The sample registry with the dictionary `0001` locked. -/
def lockedDispatcher : DjbzDispatcher :=
  DjbzDispatcher.SetDjbzDict sampleDispatcher "0001"
    ((sampleDispatcher.djbzDict (sampleGlobals 2) 0 "0001").setType DjbzType.Locked)

/-- Parameters of a sentinel page whose remembered snapshot records the sentinel at
revision 2. -/
def sentinelParams (p : PageId) : Params :=
  let base : Params :=
    { m_djbzId := dummyDjbzId, m_dpi := 300, m_title := "", m_rotation := 0, m_forceReprocess := 0
      m_sourceImagesInfo := SourceImagesInfo.new sampleEnv p sampleFileNameGen sampleSuggestions
      m_djbzRevision := 2, m_djvuFilename := "", m_djvuSize := 0, m_djvuLastChanged := 0
      m_outputParams := none }
  { base with
    m_outputParams :=
      some (OutputParams.new base dummyDjbzId 2 (sampleGlobals 2).m_djvu_djbz_defaults) }

/-- The sentinel holds pages 1 and 2 at revision 2, and both pages are up to date. -/
def sentinelRecordedTask : Task :=
  { sentinelTask with
    m_ptrSettings :=
      { m_perPageParams := fun p =>
          if p = samplePage 1 ∨ p = samplePage 2 then some (sentinelParams p) else none
        m_writes := 0 } }

/-- An environment in which every file exists with size 10; the text, picture and
assembly comparisons look at the resolution only, the postprocessing comparison looks
at the title and the rotation. -/
def layeredProcessEnv : ProcessEnv :=
  { toEnv := { sampleEnv with fs := fun _ => some { size := 10, lastModified := 3 } }
    defaults := sampleDefaults
    matchJb2Part := fun p o => decide (p.m_dpi = o.m_dpi)
    matchBg44Part := fun p o => decide (p.m_dpi = o.m_dpi)
    matchAssemblePart := fun p o => decide (p.m_dpi = o.m_dpi)
    matchPostprocessPart := fun p o =>
      decide (p.m_title = o.m_title) && decide (p.m_rotation = o.m_rotation) }

/-- Page 1 has a bitonal layer only, page 2 a colour layer only, page 3 both layers, and
every other page is blank. -/
def mixedSuggestions : ExportSuggestions :=
  fun p =>
    { hasBWLayer := decide (p = samplePage 1 ∨ p = samplePage 3)
      hasColorLayer := decide (p = samplePage 2 ∨ p = samplePage 3)
      isValid := true, width := 100, height := 100, dpi := 300, lastChanged := 0 }

/-- Parameters of a page with the title `title` whose remembered snapshot has the title
`old_title` and is otherwise the same; the source images are recorded as they are in
`layeredProcessEnv`. -/
def titledParams (p : PageId) (title old_title : String) : Params :=
  let base : Params :=
    { m_djbzId := "0001", m_dpi := 300, m_title := title, m_rotation := 0, m_forceReprocess := 0
      m_sourceImagesInfo :=
        SourceImagesInfo.new layeredProcessEnv.toEnv p sampleFileNameGen mixedSuggestions
      m_djbzRevision := 2, m_djvuFilename := "", m_djvuSize := 0, m_djvuLastChanged := 0
      m_outputParams := none }
  { base with
    m_outputParams :=
      some (OutputParams.new { base with m_title := old_title } "0001" 2
        (sampleGlobals 2).m_djvu_djbz_defaults) }

/-- A store for the pages 1 to 4: page 1 has lost its title `X`, page 2 has the new title
`Y`, page 3 is marked with `RegeneratePage`, page 4 is unchanged. -/
def layeredSettings : Settings :=
  { m_perPageParams := fun p =>
      if p = samplePage 1 then some (titledParams p "" "X")
      else if p = samplePage 2 then some (titledParams p "Y" "")
      else if p = samplePage 3 then
        some { titledParams p "" "" with m_forceReprocess := Params.RegeneratePage }
      else if p = samplePage 4 then some (titledParams p "" "")
      else none
    m_writes := 0 }

/-- The pages 1 to 4. -/
def layeredPages : List PageId := [samplePage 1, samplePage 2, samplePage 3, samplePage 4]

/-! ## Lemmas -/

theorem digitChar_decode (k : Nat) (hk : k < 10) : (Nat.digitChar k).toNat - 48 = k := by
  interval_cases k <;> rfl

theorem digitChar_isDigit (k : Nat) (hk : k < 10) : (Nat.digitChar k).isDigit = true := by
  interval_cases k <;> rfl

theorem decode_toDigitsCore (fuel : Nat) : ∀ (n : Nat) (acc : List Char), n < fuel →
    decodeDecimal 0 (Nat.toDigitsCore 10 fuel n acc) = decodeDecimal n acc := by
  induction fuel with
  | zero => intro n acc h; omega
  | succ f ih =>
    intro n acc h
    have hd := digitChar_decode (n % 10) (Nat.mod_lt _ (by norm_num))
    unfold Nat.toDigitsCore
    simp only []
    split_ifs with h0
    · simp only [decodeDecimal, List.foldl_cons, hd]
      congr 1
      omega
    · have hlt : n / 10 < f := by omega
      rw [ih (n / 10) _ hlt]
      simp only [decodeDecimal, List.foldl_cons, hd]
      congr 1
      omega

theorem decode_replicate_zero (k : Nat) (cs : List Char) :
    decodeDecimal 0 (List.replicate k '0' ++ cs) = decodeDecimal 0 cs := by
  induction k with
  | zero => simp
  | succ k ih =>
    simp only [List.replicate_succ, List.cons_append, decodeDecimal, List.foldl_cons]
    exact ih

theorem decode_arg (n : Nat) : decodeDecimal 0 (QString.arg n 4 '0').data = n := by
  unfold QString.arg
  simp only []
  rw [decode_replicate_zero]
  unfold Nat.toDigits
  rw [decode_toDigitsCore (n + 1) n [] (by omega)]
  simp [decodeDecimal]

theorem QString.arg_injective {m n : Nat} (h : QString.arg m 4 '0' = QString.arg n 4 '0') :
    m = n := by
  have := congrArg (fun s => decodeDecimal 0 s.data) h
  simpa [decode_arg] using this

theorem allDigits_toDigitsCore (fuel : Nat) : ∀ (n : Nat) (acc : List Char),
    (∀ c ∈ acc, c.isDigit = true) → ∀ c ∈ Nat.toDigitsCore 10 fuel n acc, c.isDigit = true := by
  induction fuel with
  | zero => intro n acc h; simpa [Nat.toDigitsCore] using h
  | succ f ih =>
    intro n acc h
    have hd := digitChar_isDigit (n % 10) (Nat.mod_lt _ (by norm_num))
    have hacc : ∀ c ∈ Nat.digitChar (n % 10) :: acc, c.isDigit = true := by
      intro c hc
      rcases List.mem_cons.mp hc with hc | hc
      · rw [hc]; exact hd
      · exact h c hc
    unfold Nat.toDigitsCore
    simp only []
    split_ifs with h0
    · exact hacc
    · exact ih _ _ hacc

theorem allDigits_arg (n : Nat) : ∀ c ∈ (QString.arg n 4 '0').data, c.isDigit = true := by
  intro c hc
  unfold QString.arg at hc
  simp only [List.mem_append, List.mem_replicate] at hc
  rcases hc with hc | hc
  · rw [hc.2]; rfl
  · exact allDigits_toDigitsCore _ _ _ (by simp) c hc

theorem QString.arg_ne_dummy (n : Nat) :
    QString.arg n 4 '0' ≠ DjbzDispatcher.dummyDjbzId := by
  intro h
  have h1 := allDigits_arg n '[' (by rw [h]; decide)
  exact absurd h1 (by decide)

theorem QString.arg_ne_empty (n : Nat) : QString.arg n 4 '0' ≠ "" := by
  intro h
  have h1 := decode_arg n
  have h2 : (QString.arg n 4 '0').data.length = 0 := by rw [h]; rfl
  unfold QString.arg at h2
  simp only [List.length_append, List.length_replicate] at h2
  have h3 : (Nat.toDigits 10 n).length = 0 := by omega
  omega

namespace QMap

variable {V : Type}

theorem findList_insertList_self (k : String) (v : V) (l : List (String × V)) :
    findList k (insertList k v l) = some v := by
  induction l with
  | nil => simp [insertList, findList]
  | cons hd tl ih =>
    obtain ⟨k', v'⟩ := hd
    simp only [insertList]
    split_ifs with h1 h2
    · simp [findList]
    · simp [findList]
    · simp [findList, h2, ih]

theorem findList_insertList_ne {k k2 : String} (v : V) (l : List (String × V)) (h : k2 ≠ k) :
    findList k2 (insertList k v l) = findList k2 l := by
  induction l with
  | nil => simp [insertList, findList, h.symm]
  | cons hd tl ih =>
    obtain ⟨k', v'⟩ := hd
    simp only [insertList]
    split_ifs with h1 h2
    · simp [findList, h.symm]
    · subst h2; simp [findList, h.symm]
    · simp only [findList, ih]

theorem find?_insert_self (m : QMap V) (k : String) (v : V) :
    (m.insert k v).find? k = some v :=
  findList_insertList_self k v m.entries

theorem find?_insert_ne (m : QMap V) {k k2 : String} (v : V) (h : k2 ≠ k) :
    (m.insert k v).find? k2 = m.find? k2 :=
  findList_insertList_ne v m.entries h

theorem find?_insert (m : QMap V) (k k2 : String) (v : V) :
    (m.insert k v).find? k2 = if k2 = k then some v else m.find? k2 := by
  split_ifs with h
  · rw [h]; exact find?_insert_self m k v
  · exact find?_insert_ne m v h

theorem find?_empty (k : String) : (QMap.empty : QMap V).find? k = none := rfl

theorem findList_isSome_iff (k : String) (l : List (String × V)) :
    (findList k l).isSome = true ↔ k ∈ l.map Prod.fst := by
  induction l with
  | nil => simp [findList]
  | cons hd tl ih =>
    obtain ⟨k', v'⟩ := hd
    simp only [findList, List.map_cons, List.mem_cons]
    split_ifs with h
    · simp [h]
    · rw [ih]
      constructor
      · exact Or.inr
      · rintro (h2 | h2)
        · exact absurd h2.symm h
        · exact h2

theorem contains_iff_mem_keys (m : QMap V) (k : String) :
    m.contains k = true ↔ k ∈ m.keys :=
  findList_isSome_iff k m.entries

theorem findList_of_mem {l : List (String × V)}
    (hl : l.Pairwise (fun a b => QString.lt a.1 b.1)) {k : String} {v : V}
    (h : (k, v) ∈ l) : findList k l = some v := by
  induction l with
  | nil => simp at h
  | cons hd tl ih =>
    obtain ⟨k', v'⟩ := hd
    rw [List.pairwise_cons] at hl
    rcases List.mem_cons.mp h with h | h
    · injection h with h1 h2
      subst h1; subst h2
      simp [findList]
    · have hlt := hl.1 _ h
      have hne : k' ≠ k := by
        intro hk
        rw [hk] at hlt
        exact QString.lt_irrefl _ hlt
      simp only [findList, hne, if_false]
      exact ih hl.2 h

theorem mem_of_findList {l : List (String × V)} {k : String} {v : V}
    (h : findList k l = some v) : (k, v) ∈ l := by
  induction l with
  | nil => simp [findList] at h
  | cons hd tl ih =>
    obtain ⟨k', v'⟩ := hd
    simp only [findList] at h
    split_ifs at h with h1
    · injection h with h
      subst h1; subst h
      exact List.mem_cons_self _ _
    · exact List.mem_cons_of_mem _ (ih h)

theorem keys_nodup (m : QMap V) : m.keys.Nodup := by
  have h := m.sorted
  unfold keys
  rw [List.Nodup, List.pairwise_map]
  refine h.imp ?_
  intro a b hab heq
  rw [heq] at hab
  exact QString.lt_irrefl _ hab

end QMap

namespace DjbzDispatcher

/-- What `nextDjbzIdLoop` returns. -/
theorem nextDjbzIdLoop_spec (dicts : DjbzContent) :
    ∀ (fuel counter : Nat) (S : Finset String),
      (∀ k ∈ S, k ∈ dicts.keys ∧ ∃ m, m ≤ counter ∧ k = QString.arg m 4 '0') →
      dicts.size < S.card + fuel →
      ∃ c, nextDjbzIdLoop dicts fuel counter = some (QString.arg c 4 '0', c) ∧ counter < c ∧
        dicts.contains (QString.arg c 4 '0') = false ∧
        ∀ m, counter < m → m < c → dicts.contains (QString.arg m 4 '0') = true := by
  intro fuel
  induction fuel with
  | zero =>
    intro counter S hS hcard
    exfalso
    have hsub : S ⊆ dicts.keys.toFinset := by
      intro k hk
      exact List.mem_toFinset.mpr (hS k hk).1
    have h1 := Finset.card_le_card hsub
    have h2 := List.toFinset_card_le dicts.keys
    have h3 : dicts.keys.length = dicts.size := by simp [QMap.keys, QMap.size]
    omega
  | succ f ih =>
    intro counter S hS hcard
    unfold nextDjbzIdLoop
    simp only []
    by_cases hc : dicts.contains (QString.arg (counter + 1) 4 '0') = true
    · rw [if_pos hc]
      have hnot : QString.arg (counter + 1) 4 '0' ∉ S := by
        intro hin
        obtain ⟨m, hm, he⟩ := (hS _ hin).2
        have := QString.arg_injective he
        omega
      obtain ⟨c, h1, h2, h3, h4⟩ := ih (counter + 1) (insert (QString.arg (counter + 1) 4 '0') S)
        (by
          intro k hk
          rcases Finset.mem_insert.mp hk with hk | hk
          · exact ⟨hk ▸ (QMap.contains_iff_mem_keys _ _).mp hc, counter + 1, le_refl _, hk⟩
          · obtain ⟨hk1, m, hm, he⟩ := hS k hk
            exact ⟨hk1, m, by omega, he⟩)
        (by rw [Finset.card_insert_of_not_mem hnot]; omega)
      refine ⟨c, h1, by omega, h3, ?_⟩
      intro m hm1 hm2
      by_cases hm : m = counter + 1
      · rw [hm]; exact hc
      · exact h4 m (by omega) hm2
    · rw [if_neg hc]
      refine ⟨counter + 1, rfl, by omega, by simpa using hc, ?_⟩
      intro m hm1 hm2
      omega

/-- The loop of `nextDjbzId` ends within the rounds it is given: it returns the
formatted least counter value above the current one that is not in use. -/
theorem nextDjbzId_spec (d : DjbzDispatcher) :
    ∃ c, nextDjbzId d = some (QString.arg c 4 '0', { d with m_id_counter := c }) ∧
      d.m_id_counter < c ∧ d.m_dictionaries.contains (QString.arg c 4 '0') = false ∧
      ∀ m, d.m_id_counter < m → m < c →
        d.m_dictionaries.contains (QString.arg m 4 '0') = true := by
  obtain ⟨c, h1, h2, h3, h4⟩ :=
    nextDjbzIdLoop_spec d.m_dictionaries (d.m_dictionaries.size + 1) d.m_id_counter ∅
      (by simp) (by simp)
  exact ⟨c, by simp [nextDjbzId, h1], h2, h3, h4⟩

end DjbzDispatcher

namespace DjbzDict

theorem mem_addPage (dict : DjbzDict) (p q : PageId) (nr : Bool) (now : QDateTime) :
    q ∈ (dict.addPage p nr now).m_pages.elems ↔ q = p ∨ q ∈ dict.m_pages.elems := by
  simp [addPage, QSet.insert, List.mem_insert_iff]

theorem mem_removePage (dict : DjbzDict) (p q : PageId) (nr : Bool) (now : QDateTime) :
    q ∈ (dict.removePage p nr now).m_pages.elems ↔ q ≠ p ∧ q ∈ dict.m_pages.elems := by
  unfold removePage
  by_cases hp : p ∈ dict.m_pages.elems
  · simp only [QSet.remove, hp, decide_True, if_true]
    exact dict.m_pages.nodup.mem_erase_iff
  · simp only [QSet.remove, hp, decide_False, Bool.false_eq_true, if_false]
    constructor
    · intro hq
      exact ⟨fun h => hp (h ▸ hq), hq⟩
    · exact fun h => h.2

theorem type_addPage (dict : DjbzDict) (p : PageId) (nr : Bool) (now : QDateTime) :
    (dict.addPage p nr now).m_type = dict.m_type := rfl

theorem type_removePage (dict : DjbzDict) (p : PageId) (nr : Bool) (now : QDateTime) :
    (dict.removePage p nr now).m_type = dict.m_type := by
  unfold removePage
  by_cases h : (dict.m_pages.remove p).1 = true <;> simp [h]

end DjbzDict

namespace DjbzDispatcher

/-- Membership in `listPagesFromDict` through the lookup of the dictionary. -/
theorem mem_listPagesFromDict (d : DjbzDispatcher) (id : String) (q : PageId) :
    q ∈ d.listPagesFromDict id ↔
      ∃ dict, d.m_dictionaries.find? id = some dict ∧ q ∈ dict.m_pages.elems := by
  unfold listPagesFromDict
  cases h : d.m_dictionaries.find? id <;> simp

theorem mem_dictAt (g : GlobalStaticSettings) (now : QDateTime) (d : DjbzDispatcher)
    (id : String) (q : PageId) :
    q ∈ (dictAt g now d.m_dictionaries id).m_pages.elems ↔ q ∈ d.listPagesFromDict id := by
  unfold dictAt listPagesFromDict
  cases h : d.m_dictionaries.find? id <;> simp [DjbzDict.new, QSet.empty]

theorem findDjbzForPage_assign (g : GlobalStaticSettings) (now : QDateTime)
    (d : DjbzDispatcher) (p q : PageId) (id : String) (nr : Bool) :
    (assign g now d p id nr).findDjbzForPage q =
      if q = p then id else d.findDjbzForPage q := by
  unfold assign findDjbzForPage PageToDjbz.set
  simp only []
  split_ifs <;> rfl

theorem mem_assign (g : GlobalStaticSettings) (now : QDateTime)
    (d : DjbzDispatcher) (p q : PageId) (id k : String) (nr : Bool) :
    q ∈ (assign g now d p id nr).listPagesFromDict k ↔
      (k = id ∧ q = p) ∨ q ∈ d.listPagesFromDict k := by
  rw [mem_listPagesFromDict]
  unfold assign
  simp only [QMap.find?_insert]
  by_cases hk : k = id
  · subst hk
    simp only [if_true, Option.some.injEq, exists_eq_left', DjbzDict.mem_addPage, mem_dictAt,
      true_and]
  · simp only [hk, if_false, false_and, false_or]
    exact (mem_listPagesFromDict d k q).symm

theorem type_assign (g : GlobalStaticSettings) (now : QDateTime)
    (d : DjbzDispatcher) (p : PageId) (id k : String) (nr : Bool) (dict : DjbzDict)
    (h : d.m_dictionaries.find? k = some dict) :
    ∃ dict2, (assign g now d p id nr).m_dictionaries.find? k = some dict2 ∧
      dict2.m_type = dict.m_type := by
  unfold assign
  simp only [QMap.find?_insert]
  by_cases hk : k = id
  · subst hk
    simp [dictAt, h, DjbzDict.type_addPage]
  · simp [hk, h]

theorem consistent_assign (g : GlobalStaticSettings) (now : QDateTime)
    (d : DjbzDispatcher) (p : PageId) (id : String) (nr : Bool)
    (hc : Consistent d) (hid : id ≠ "")
    (hp : d.findDjbzForPage p = "" ∨ d.findDjbzForPage p = id) :
    Consistent (assign g now d p id nr) := by
  intro k q
  rw [mem_assign, findDjbzForPage_assign, hc k q]
  by_cases hq : q = p
  · subst hq
    simp only [and_true, if_true]
    constructor
    · rintro (h | h)
      · exact ⟨h.symm, h ▸ hid⟩
      · rcases hp with hp | hp
        · exact absurd (hp ▸ h.1).symm h.2
        · exact ⟨hp ▸ h.1, h.2⟩
    · intro h
      exact Or.inl h.1.symm
  · simp [hq]

theorem findDjbzForPage_deleteFromDjbz (g : GlobalStaticSettings) (now : QDateTime)
    (d : DjbzDispatcher) (p q : PageId) :
    (deleteFromDjbz g now d p).findDjbzForPage q =
      if q = p then "" else d.findDjbzForPage q := by
  unfold deleteFromDjbz
  cases h : d.m_page_to_dict p with
  | none =>
    simp only []
    split_ifs with hq
    · subst hq; simp [findDjbzForPage, h]
    · rfl
  | some id =>
    simp only [findDjbzForPage, PageToDjbz.remove]
    split_ifs <;> rfl

theorem mem_deleteFromDjbz (g : GlobalStaticSettings) (now : QDateTime)
    (d : DjbzDispatcher) (p q : PageId) (k : String) :
    q ∈ (deleteFromDjbz g now d p).listPagesFromDict k ↔
      q ∈ d.listPagesFromDict k ∧ ¬ (q = p ∧ d.m_page_to_dict p = some k) := by
  unfold deleteFromDjbz
  cases h : d.m_page_to_dict p with
  | none => simp
  | some id =>
    rw [mem_listPagesFromDict]
    simp only [QMap.find?_insert, Option.some.injEq]
    by_cases hk : k = id
    · subst hk
      simp only [if_true, Option.some.injEq, exists_eq_left', DjbzDict.mem_removePage,
        mem_dictAt, and_true]
      tauto
    · simp only [hk, if_false]
      rw [← mem_listPagesFromDict]
      have : ¬ id = k := fun h2 => hk h2.symm
      simp [this]

theorem type_deleteFromDjbz (g : GlobalStaticSettings) (now : QDateTime)
    (d : DjbzDispatcher) (p : PageId) (k : String) (dict : DjbzDict)
    (h : d.m_dictionaries.find? k = some dict) :
    ∃ dict2, (deleteFromDjbz g now d p).m_dictionaries.find? k = some dict2 ∧
      dict2.m_type = dict.m_type := by
  unfold deleteFromDjbz
  cases hp : d.m_page_to_dict p with
  | none => exact ⟨dict, h, rfl⟩
  | some id =>
    simp only [QMap.find?_insert]
    by_cases hk : k = id
    · subst hk
      simp [dictAt, h, DjbzDict.type_removePage]
    · simp [hk, h]

theorem consistent_deleteFromDjbz (g : GlobalStaticSettings) (now : QDateTime)
    (d : DjbzDispatcher) (p : PageId) (hc : Consistent d) :
    Consistent (deleteFromDjbz g now d p) := by
  intro k q
  rw [mem_deleteFromDjbz, findDjbzForPage_deleteFromDjbz, hc k q]
  by_cases hq : q = p
  · subst hq
    simp only [true_and, if_true]
    constructor
    · rintro ⟨⟨h1, h2⟩, h3⟩
      exfalso
      apply h3
      unfold findDjbzForPage at h1
      cases hm : d.m_page_to_dict q with
      | none => rw [hm] at h1; exact absurd h1.symm h2
      | some id => rw [hm] at h1; simp at h1; rw [h1]
    · rintro ⟨h1, h2⟩
      exact absurd h1.symm h2
  · simp [hq]

theorem findDjbzForPage_touchPage (d : DjbzDispatcher) (p q : PageId) :
    (touchPage d p).findDjbzForPage q = d.findDjbzForPage q := by
  unfold touchPage
  cases h : d.m_page_to_dict p with
  | some cur => rfl
  | none =>
    simp only [findDjbzForPage, PageToDjbz.set]
    split_ifs with hq
    · subst hq; simp [h]
    · rfl

theorem dictionaries_touchPage (d : DjbzDispatcher) (p : PageId) :
    (touchPage d p).m_dictionaries = d.m_dictionaries := by
  unfold touchPage
  cases h : d.m_page_to_dict p <;> rfl

theorem counter_touchPage (d : DjbzDispatcher) (p : PageId) :
    (touchPage d p).m_id_counter = d.m_id_counter := by
  unfold touchPage
  cases h : d.m_page_to_dict p <;> rfl

theorem listPagesFromDict_touchPage (d : DjbzDispatcher) (p : PageId) (k : String) :
    (touchPage d p).listPagesFromDict k = d.listPagesFromDict k := by
  unfold listPagesFromDict
  rw [dictionaries_touchPage]

theorem findDjbzForPage_setToDjbz (g : GlobalStaticSettings) (now : QDateTime)
    (d : DjbzDispatcher) (p q : PageId) (id : String) (nr : Bool) :
    (setToDjbz g now d p id nr).findDjbzForPage q =
      if q = p then id else d.findDjbzForPage q := by
  unfold setToDjbz
  simp only [findDjbzForPage_touchPage]
  split_ifs with h1 h2 h2
  · rw [findDjbzForPage_assign, if_pos h2]
  · rw [findDjbzForPage_assign, if_neg h2, findDjbzForPage_touchPage]
  · subst h2; rw [findDjbzForPage_touchPage]; simpa using h1
  · rw [findDjbzForPage_touchPage]

theorem mem_setToDjbz (g : GlobalStaticSettings) (now : QDateTime)
    (d : DjbzDispatcher) (p q : PageId) (id k : String) (nr : Bool) :
    q ∈ (setToDjbz g now d p id nr).listPagesFromDict k ↔
      (k = id ∧ q = p ∧ d.findDjbzForPage p ≠ id) ∨ q ∈ d.listPagesFromDict k := by
  unfold setToDjbz
  simp only [findDjbzForPage_touchPage]
  split_ifs with hne
  · rw [mem_assign, listPagesFromDict_touchPage]
    simp [hne]
  · rw [listPagesFromDict_touchPage]
    simp [hne]

theorem type_setToDjbz (g : GlobalStaticSettings) (now : QDateTime)
    (d : DjbzDispatcher) (p : PageId) (id k : String) (nr : Bool) (dict : DjbzDict)
    (h : d.m_dictionaries.find? k = some dict) :
    ∃ dict2, (setToDjbz g now d p id nr).m_dictionaries.find? k = some dict2 ∧
      dict2.m_type = dict.m_type := by
  unfold setToDjbz
  simp only []
  split_ifs with hne
  · apply type_assign
    rw [dictionaries_touchPage]; exact h
  · exact ⟨dict, by rw [dictionaries_touchPage]; exact h, rfl⟩

theorem consistent_setToDjbz (g : GlobalStaticSettings) (now : QDateTime)
    (d : DjbzDispatcher) (p : PageId) (id : String) (nr : Bool)
    (hc : Consistent d)
    (hp : d.findDjbzForPage p = "" ∨ d.findDjbzForPage p = id) :
    Consistent (setToDjbz g now d p id nr) := by
  intro k q
  rw [mem_setToDjbz, findDjbzForPage_setToDjbz, hc k q]
  by_cases hq : q = p
  · subst hq
    simp only [true_and, if_true]
    constructor
    · rintro (h | h)
      · refine ⟨h.1.symm, ?_⟩
        rcases hp with hp | hp
        · rw [h.1]; intro h0; exact h.2 (hp.trans h0.symm)
        · exact absurd hp h.2
      · rcases hp with hp | hp
        · exact absurd (hp ▸ h.1).symm h.2
        · exact ⟨hp ▸ h.1, h.2⟩
    · rintro ⟨h1, h2⟩
      by_cases hcur : d.findDjbzForPage q = id
      · exact Or.inr ⟨hcur.trans h1, h2⟩
      · exact Or.inl ⟨h1.symm, hcur⟩
  · simp [hq]

theorem findNotFull_none (l : List (String × DjbzDict)) (h : ∀ e ∈ l, ¬ NotFull e.2) :
    findNotFull l = "" := by
  induction l with
  | nil => rfl
  | cons hd tl ih =>
    obtain ⟨k, dict⟩ := hd
    have h1 : ¬ NotFull dict := h (k, dict) (List.mem_cons_self _ _)
    unfold NotFull at h1
    simp only [findNotFull, h1, if_false]
    exact ih (fun e he => h e (List.mem_cons_of_mem _ he))

theorem findNotFull_some (l : List (String × DjbzDict))
    (hl : l.Pairwise (fun a b => QString.lt a.1 b.1)) (h : ∃ e ∈ l, NotFull e.2) :
    ∃ dict, (findNotFull l, dict) ∈ l ∧ NotFull dict ∧
      ∀ e ∈ l, NotFull e.2 → ¬ QString.lt e.1 (findNotFull l) := by
  induction l with
  | nil => simp at h
  | cons hd tl ih =>
    obtain ⟨k, dict⟩ := hd
    rw [List.pairwise_cons] at hl
    by_cases h1 : NotFull dict
    · have h2 := h1
      unfold NotFull at h2
      simp only [findNotFull, h2, and_self, if_true]
      refine ⟨dict, List.mem_cons_self _ _, h1, ?_⟩
      intro e he _
      rcases List.mem_cons.mp he with he | he
      · rw [he]; exact QString.lt_irrefl _
      · exact QString.lt_asymm (hl.1 e he)
    · have h2 := h1
      unfold NotFull at h2
      simp only [findNotFull, h2, if_false]
      have h3 : ∃ e ∈ tl, NotFull e.2 := by
        obtain ⟨e, he, hq⟩ := h
        rcases List.mem_cons.mp he with he | he
        · rw [he] at hq; exact absurd hq h1
        · exact ⟨e, he, hq⟩
      obtain ⟨dict2, hm, hq, hmin⟩ := ih hl.2 h3
      refine ⟨dict2, List.mem_cons_of_mem _ hm, hq, ?_⟩
      intro e he heq
      rcases List.mem_cons.mp he with he | he
      · rw [he] at heq; exact absurd heq h1
      · exact hmin e he heq

theorem findNotFull_of_first (d : DjbzDispatcher) (key : String) (h : FirstNotFull d key) :
    findNotFull d.m_dictionaries.entries = key := by
  obtain ⟨dict, hf, hq, hmin⟩ := h
  have hmem : (key, dict) ∈ d.m_dictionaries.entries := QMap.mem_of_findList hf
  obtain ⟨dict2, hm2, hq2, hmin2⟩ :=
    findNotFull_some d.m_dictionaries.entries d.m_dictionaries.sorted ⟨(key, dict), hmem, hq⟩
  have h1 : ¬ QString.lt key (findNotFull d.m_dictionaries.entries) := hmin2 _ hmem hq
  have h2 : ¬ QString.lt (findNotFull d.m_dictionaries.entries) key :=
    hmin _ dict2 (QMap.findList_of_mem d.m_dictionaries.sorted hm2) hq2
  by_contra hne
  exact h1 (QString.lt_of_not_lt h2 (fun h => hne h.symm))

theorem findNotFull_of_none (d : DjbzDispatcher)
    (h : ∀ k dict, d.m_dictionaries.find? k = some dict → ¬ NotFull dict) :
    findNotFull d.m_dictionaries.entries = "" := by
  apply findNotFull_none
  intro e he
  exact h e.1 e.2 (QMap.findList_of_mem d.m_dictionaries.sorted he)

theorem findNotFull_notFull (d : DjbzDispatcher)
    (h : findNotFull d.m_dictionaries.entries ≠ "") :
    ∃ dict, d.m_dictionaries.find? (findNotFull d.m_dictionaries.entries) = some dict ∧
      NotFull dict := by
  by_cases hex : ∃ e ∈ d.m_dictionaries.entries, NotFull e.2
  · obtain ⟨dict, hm, hq, _⟩ :=
      findNotFull_some d.m_dictionaries.entries d.m_dictionaries.sorted hex
    exact ⟨dict, QMap.findList_of_mem d.m_dictionaries.sorted hm, hq⟩
  · exfalso
    apply h
    apply findNotFull_none
    intro e he hq
    exact hex ⟨e, he, hq⟩

theorem addNewPage_cases (g : GlobalStaticSettings) (now : QDateTime) (d : DjbzDispatcher)
    (p : PageId) :
    (g.m_djvu_pages_per_djbz < 2 ∧
      addNewPage g now d p = some (dummyDjbzId, assign g now d p dummyDjbzId false)) ∨
    (2 ≤ g.m_djvu_pages_per_djbz ∧ d.findDjbzForPage p ≠ "" ∧
      addNewPage g now d p = some (d.findDjbzForPage p, d)) ∨
    (2 ≤ g.m_djvu_pages_per_djbz ∧ d.findDjbzForPage p = "" ∧
      findNotFull d.m_dictionaries.entries ≠ "" ∧
      addNewPage g now d p = some (findNotFull d.m_dictionaries.entries,
        assign g now d p (findNotFull d.m_dictionaries.entries) false)) ∨
    (2 ≤ g.m_djvu_pages_per_djbz ∧ d.findDjbzForPage p = "" ∧
      findNotFull d.m_dictionaries.entries = "" ∧
      ∃ c, d.m_dictionaries.contains (QString.arg c 4 '0') = false ∧
        addNewPage g now d p = some (QString.arg c 4 '0',
          assign g now { d with m_id_counter := c } p (QString.arg c 4 '0') false)) := by
  by_cases hs : g.m_djvu_pages_per_djbz < 2
  · left
    exact ⟨hs, by simp [addNewPage, hs]⟩
  · right
    have hs2 : 2 ≤ g.m_djvu_pages_per_djbz := by omega
    by_cases hf : d.findDjbzForPage p = ""
    · right
      by_cases hn : findNotFull d.m_dictionaries.entries = ""
      · right
        obtain ⟨c, hc, _, hfree, _⟩ := nextDjbzId_spec d
        exact ⟨hs2, hf, hn, c, hfree, by simp [addNewPage, hs, hf, hn, hc]⟩
      · left
        exact ⟨hs2, hf, hn, by simp [addNewPage, hs, hf, hn]⟩
    · left
      exact ⟨hs2, hf, by simp [addNewPage, hs, hf]⟩

/-- What every call of `addNewPage` does: it returns a non-empty id to which the page
is then assigned, and leaves every other page as it was. -/
theorem addNewPage_spec (g : GlobalStaticSettings) (now : QDateTime) (d : DjbzDispatcher)
    (p : PageId) :
    ∃ id d1, addNewPage g now d p = some (id, d1) ∧ id ≠ "" ∧
      d1.findDjbzForPage p = id ∧ (∀ q, q ≠ p → d1.findDjbzForPage q = d.findDjbzForPage q) := by
  rcases addNewPage_cases g now d p with ⟨_, h⟩ | ⟨_, hf, h⟩ | ⟨_, _, hn, h⟩ | ⟨_, _, _, c, _, h⟩
  · refine ⟨_, _, h, by decide, ?_, ?_⟩
    · rw [findDjbzForPage_assign]; simp
    · intro q hq; rw [findDjbzForPage_assign]; simp [hq]
  · exact ⟨_, _, h, hf, rfl, fun _ _ => rfl⟩
  · refine ⟨_, _, h, hn, ?_, ?_⟩
    · rw [findDjbzForPage_assign]; simp
    · intro q hq; rw [findDjbzForPage_assign]; simp [hq]
  · refine ⟨_, _, h, QString.arg_ne_empty c, ?_, ?_⟩
    · rw [findDjbzForPage_assign]; simp
    · intro q hq; rw [findDjbzForPage_assign]; simp [hq]; rfl

theorem consistent_addNewPage (g : GlobalStaticSettings) (now : QDateTime) (d d1 : DjbzDispatcher)
    (p : PageId) (id : String) (hc : Consistent d)
    (hguard : g.m_djvu_pages_per_djbz < 2 →
      d.findDjbzForPage p = "" ∨ d.findDjbzForPage p = dummyDjbzId)
    (h : addNewPage g now d p = some (id, d1)) : Consistent d1 := by
  rcases addNewPage_cases g now d p with ⟨hs, h2⟩ | ⟨_, hf, h2⟩ | ⟨_, hf, hn, h2⟩ |
      ⟨_, hf, _, c, _, h2⟩ <;>
    rw [h2] at h <;> simp only [Option.some.injEq, Prod.mk.injEq] at h <;> rw [← h.2]
  · exact consistent_assign g now d p _ false hc (by decide) (hguard hs)
  · exact hc
  · exact consistent_assign g now d p _ false hc hn (Or.inl hf)
  · exact consistent_assign g now { d with m_id_counter := c } p _ false hc
      (QString.arg_ne_empty c) (Or.inl hf)

theorem type_addNewPage (g : GlobalStaticSettings) (now : QDateTime) (d d1 : DjbzDispatcher)
    (p : PageId) (id k : String) (dict : DjbzDict)
    (h : addNewPage g now d p = some (id, d1))
    (hk : d.m_dictionaries.find? k = some dict) :
    ∃ dict2, d1.m_dictionaries.find? k = some dict2 ∧ dict2.m_type = dict.m_type := by
  rcases addNewPage_cases g now d p with ⟨hs, h2⟩ | ⟨_, hf, h2⟩ | ⟨_, hf, hn, h2⟩ |
      ⟨_, hf, _, c, _, h2⟩ <;>
    rw [h2] at h <;> simp only [Option.some.injEq, Prod.mk.injEq] at h <;> rw [← h.2]
  · exact type_assign g now d p _ k false dict hk
  · exact ⟨dict, hk, rfl⟩
  · exact type_assign g now d p _ k false dict hk
  · exact type_assign g now { d with m_id_counter := c } p _ k false dict hk

theorem consistent_moveToDjbz (g : GlobalStaticSettings) (now : QDateTime) (d : DjbzDispatcher)
    (p : PageId) (id : String) (hc : Consistent d) :
    Consistent (moveToDjbz g now d p id) := by
  unfold moveToDjbz
  apply consistent_setToDjbz
  · exact consistent_deleteFromDjbz g now d p hc
  · left
    rw [findDjbzForPage_deleteFromDjbz]; simp

theorem consistent_new (g : GlobalStaticSettings) (now : QDateTime) :
    Consistent (DjbzDispatcher.new g now) := by
  intro k q
  rw [mem_listPagesFromDict]
  simp only [DjbzDispatcher.new, QMap.find?_insert, QMap.find?_empty, findDjbzForPage]
  constructor
  · rintro ⟨dict, h1, h2⟩
    split_ifs at h1
    injection h1 with h1
    rw [← h1] at h2
    simp [DjbzDict.setType, DjbzDict.new, QSet.empty] at h2
  · rintro ⟨h1, h2⟩
    exact absurd h1.symm h2

theorem foldl_set (key : String) (pages : List PageId) (lp : PageToDjbz) (q : PageId) :
    (pages.foldl (fun m p => PageToDjbz.set m p key) lp) q =
      if q ∈ pages then some key else lp q := by
  induction pages generalizing lp with
  | nil => simp
  | cons p rest ih =>
    simp only [List.foldl_cons, ih, List.mem_cons]
    by_cases h1 : q ∈ rest
    · simp [h1]
    · by_cases h2 : q = p
      · simp [h1, h2, PageToDjbz.set]
      · simp [h1, h2, PageToDjbz.set]

theorem collectLocked_find (l : List (String × DjbzDict))
    (hl : l.Pairwise (fun a b => QString.lt a.1 b.1)) :
    ∀ (ld : DjbzContent) (lp : PageToDjbz) (k : String),
      (collectLocked l (ld, lp)).1.find? k =
        match QMap.findList k l with
        | some dict => if dict.m_type = DjbzType.Locked then some dict else ld.find? k
        | none => ld.find? k := by
  induction l with
  | nil => intro ld lp k; rfl
  | cons hd tl ih =>
    obtain ⟨k0, dict0⟩ := hd
    rw [List.pairwise_cons] at hl
    intro ld lp k
    have hnone : k0 = k → QMap.findList k tl = none := by
      intro hk
      cases hf : QMap.findList k tl with
      | none => rfl
      | some v =>
        exfalso
        have := hl.1 _ (QMap.mem_of_findList hf)
        rw [hk] at this
        exact QString.lt_irrefl _ this
    simp only [collectLocked, QMap.findList]
    by_cases hlock : dict0.m_type = DjbzType.Locked
    · simp only [hlock, if_true]
      rw [ih hl.2]
      by_cases hk : k0 = k
      · simp only [hnone hk, hk, if_true, hlock]
        exact QMap.find?_insert_self _ _ _
      · simp only [hk, if_false]
        rw [QMap.find?_insert_ne _ _ (fun h => hk h.symm)]
    · simp only [hlock, if_false]
      rw [ih hl.2]
      by_cases hk : k0 = k
      · simp only [hnone hk, hk, if_true, hlock, if_false]
      · simp only [hk, if_false]

theorem collectLocked_pages_sound (l : List (String × DjbzDict)) :
    ∀ (ld : DjbzContent) (lp : PageToDjbz) (q : PageId) (k : String),
      (collectLocked l (ld, lp)).2 q = some k →
        lp q = some k ∨
          ∃ dict, (k, dict) ∈ l ∧ dict.m_type = DjbzType.Locked ∧ q ∈ dict.m_pages.elems := by
  induction l with
  | nil => intro ld lp q k h; exact Or.inl h
  | cons hd tl ih =>
    obtain ⟨k0, dict0⟩ := hd
    intro ld lp q k h
    simp only [collectLocked] at h
    by_cases hlock : dict0.m_type = DjbzType.Locked
    · simp only [hlock, if_true] at h
      rcases ih _ _ q k h with h1 | ⟨dict, h1, h2, h3⟩
      · rw [foldl_set] at h1
        split_ifs at h1 with hq
        · injection h1 with h1
          right
          exact ⟨dict0, by rw [← h1]; exact List.mem_cons_self _ _, hlock, hq⟩
        · exact Or.inl h1
      · exact Or.inr ⟨dict, List.mem_cons_of_mem _ h1, h2, h3⟩
    · simp only [hlock, if_false] at h
      rcases ih _ _ q k h with h1 | ⟨dict, h1, h2, h3⟩
      · exact Or.inl h1
      · exact Or.inr ⟨dict, List.mem_cons_of_mem _ h1, h2, h3⟩

theorem collectLocked_pages_complete (l : List (String × DjbzDict)) :
    ∀ (ld : DjbzContent) (lp : PageToDjbz) (q : PageId),
      (lp q ≠ none ∨
        ∃ k dict, (k, dict) ∈ l ∧ dict.m_type = DjbzType.Locked ∧ q ∈ dict.m_pages.elems) →
      (collectLocked l (ld, lp)).2 q ≠ none := by
  induction l with
  | nil =>
    intro ld lp q h
    rcases h with h | ⟨k, dict, h, _⟩
    · exact h
    · simp at h
  | cons hd tl ih =>
    obtain ⟨k0, dict0⟩ := hd
    intro ld lp q h
    simp only [collectLocked]
    by_cases hlock : dict0.m_type = DjbzType.Locked
    · simp only [hlock, if_true]
      apply ih
      rcases h with h | ⟨k, dict, h1, h2, h3⟩
      · left
        rw [foldl_set]
        split_ifs <;> simp [h]
      · rcases List.mem_cons.mp h1 with h1 | h1
        · left
          injection h1 with h1a h1b
          rw [foldl_set, ← h1b, if_pos h3]
          simp
        · exact Or.inr ⟨k, dict, h1, h2, h3⟩
    · simp only [hlock, if_false]
      apply ih
      rcases h with h | ⟨k, dict, h1, h2, h3⟩
      · exact Or.inl h
      · rcases List.mem_cons.mp h1 with h1 | h1
        · injection h1 with h1a h1b
          rw [h1b] at h2
          exact absurd h2 hlock
        · exact Or.inr ⟨k, dict, h1, h2, h3⟩

/-- Members after a reset: the pages of the locked dictionaries. -/
theorem mem_resetAllDictsExceptLocked (g : GlobalStaticSettings) (now : QDateTime)
    (d : DjbzDispatcher) (k : String) (q : PageId) :
    q ∈ (resetAllDictsExceptLocked g now d).listPagesFromDict k ↔
      ∃ dict, d.m_dictionaries.find? k = some dict ∧ dict.m_type = DjbzType.Locked ∧
        q ∈ dict.m_pages.elems := by
  have hfind : ∀ k2, (collectLocked d.m_dictionaries.entries (QMap.empty, fun _ => none)).1.find? k2
      = match d.m_dictionaries.find? k2 with
        | some dict => if dict.m_type = DjbzType.Locked then some dict else none
        | none => none := by
    intro k2
    rw [collectLocked_find _ d.m_dictionaries.sorted]
    rfl
  rw [mem_listPagesFromDict]
  unfold resetAllDictsExceptLocked
  simp only [QMap.find?_insert]
  by_cases hk : k = dummyDjbzId
  · subst hk
    simp only [if_true, Option.some.injEq, exists_eq_left', DjbzDict.setType, dictAt, hfind]
    cases hd : d.m_dictionaries.find? dummyDjbzId with
    | none => simp [DjbzDict.new, QSet.empty]
    | some dict =>
      by_cases hlock : dict.m_type = DjbzType.Locked
      · simp [hlock]
      · simp [hlock, DjbzDict.new, QSet.empty]
  · simp only [hk, if_false, hfind]
    cases hd : d.m_dictionaries.find? k with
    | none => simp
    | some dict =>
      by_cases hlock : dict.m_type = DjbzType.Locked
      · simp [hlock]
      · simp [hlock]

theorem consistent_resetAllDictsExceptLocked (g : GlobalStaticSettings) (now : QDateTime)
    (d : DjbzDispatcher) (hc : Consistent d) :
    Consistent (resetAllDictsExceptLocked g now d) := by
  intro k q
  rw [mem_resetAllDictsExceptLocked]
  have hmap : (resetAllDictsExceptLocked g now d).m_page_to_dict =
      (collectLocked d.m_dictionaries.entries (QMap.empty, fun _ => none)).2 := rfl
  constructor
  · rintro ⟨dict, h1, h2, h3⟩
    have hin : q ∈ d.listPagesFromDict k := (mem_listPagesFromDict d k q).mpr ⟨dict, h1, h3⟩
    have hk := (hc k q).mp hin
    refine ⟨?_, hk.2⟩
    have hsome := collectLocked_pages_complete d.m_dictionaries.entries QMap.empty
      (fun _ => none) q (Or.inr ⟨k, dict, QMap.mem_of_findList h1, h2, h3⟩)
    unfold findDjbzForPage
    rw [hmap]
    cases hr : (collectLocked d.m_dictionaries.entries (QMap.empty, fun _ => none)).2 q with
    | none => exact absurd hr hsome
    | some k2 =>
      rcases collectLocked_pages_sound _ _ _ q k2 hr with h | ⟨dict2, hm, _, hq⟩
      · simp at h
      · have hin2 : q ∈ d.listPagesFromDict k2 :=
          (mem_listPagesFromDict d k2 q).mpr
            ⟨dict2, QMap.findList_of_mem d.m_dictionaries.sorted hm, hq⟩
        have hk2 := (hc k2 q).mp hin2
        simp only []
        rw [← hk2.1, ← hk.1]
  · rintro ⟨h1, h2⟩
    unfold findDjbzForPage at h1
    rw [hmap] at h1
    cases hr : (collectLocked d.m_dictionaries.entries (QMap.empty, fun _ => none)).2 q with
    | none => rw [hr] at h1; exact absurd h1.symm h2
    | some k2 =>
      rw [hr] at h1
      simp only [] at h1
      subst h1
      rcases collectLocked_pages_sound _ _ _ q k2 hr with h | ⟨dict2, hm, hl2, hq⟩
      · simp at h
      · exact ⟨dict2, QMap.findList_of_mem d.m_dictionaries.sorted hm, hl2, hq⟩

theorem autosetAssign_spec (g : GlobalStaticSettings) (now : QDateTime) (defaults : Params)
    (es : ExportSuggestion) (params_ptr : Option Params) (d0 : DjbzDispatcher) (s : Settings)
    (p : PageId) :
    ∃ id d1,
      (if es.hasBWLayer then addNewPage g now d0 p else some (dummyDjbzId, d0)) = some (id, d1) ∧
      autosetAssign g now defaults es params_ptr d0 s p =
        some (setToDjbz g now d1 p id false,
          s.setPageParams p ((params_ptr.getD defaults).setDjbzId id)) := by
  unfold autosetAssign
  by_cases hbw : es.hasBWLayer = true
  · obtain ⟨id, d1, h, _⟩ := addNewPage_spec g now d0 p
    exact ⟨id, d1, by simp [hbw, h], by simp [hbw, h]⟩
  · exact ⟨dummyDjbzId, d0, by simp [hbw], by simp [hbw]⟩

theorem autosetPage_cases (g : GlobalStaticSettings) (now : QDateTime) (defaults : Params)
    (sug : ExportSuggestions) (d : DjbzDispatcher) (s : Settings) (p : PageId) :
    (storedDjbzId s p ≠ "" ∧ mismatch (sug p) (storedDjbzId s p) = false ∧
      autosetPage g now defaults sug d s p = some (d, s)) ∨
    (storedDjbzId s p = "" ∧
      autosetPage g now defaults sug d s p =
        autosetAssign g now defaults (sug p) (s.getPageParams p) d s p) ∨
    (storedDjbzId s p ≠ "" ∧ mismatch (sug p) (storedDjbzId s p) = true ∧
      autosetPage g now defaults sug d s p =
        autosetAssign g now defaults (sug p) (s.getPageParams p)
          (deleteFromDjbz g now d p) s p) := by
  unfold autosetPage storedDjbzId mismatch
  cases hp : s.getPageParams p with
  | none => right; left; simp
  | some params =>
    simp only []
    by_cases hid : params.m_djbzId = ""
    · right; left; simp [hid]
    · by_cases hm : ((sug p).hasBWLayer && decide (params.m_djbzId = dummyDjbzId) ||
          !(sug p).hasBWLayer && decide (params.m_djbzId ≠ dummyDjbzId)) = true
      · right; right
        exact ⟨hid, hm, by simp only [hid, if_false, hm, if_true]⟩
      · left
        exact ⟨hid, by simpa using hm, by simp only [hid, if_false, hm]; simp⟩

theorem sentinelIsNone_of_types (d d1 : DjbzDispatcher)
    (h : ∀ k dict, d.m_dictionaries.find? k = some dict →
      ∃ dict2, d1.m_dictionaries.find? k = some dict2 ∧ dict2.m_type = dict.m_type)
    (hs : SentinelIsNone d) : SentinelIsNone d1 := by
  obtain ⟨dict, h1, h2⟩ := hs
  obtain ⟨dict2, h3, h4⟩ := h _ _ h1
  exact ⟨dict2, h3, h4.trans h2⟩

theorem storedDjbzId_setPageParams (s : Settings) (p q : PageId) (params : Params) :
    storedDjbzId (s.setPageParams p params) q =
      if q = p then params.m_djbzId else storedDjbzId s q := by
  unfold storedDjbzId Settings.setPageParams Settings.getPageParams
  simp only []
  split_ifs <;> rfl

/-- The id chosen by `addNewPage` for an unassigned page with sharing enabled is not
the sentinel, as long as the sentinel has kind `None`. -/
theorem addNewPage_ne_dummy (g : GlobalStaticSettings) (now : QDateTime) (d d1 : DjbzDispatcher)
    (p : PageId) (id : String) (hshare : 2 ≤ g.m_djvu_pages_per_djbz)
    (hun : d.findDjbzForPage p = "") (hs : SentinelIsNone d)
    (h : addNewPage g now d p = some (id, d1)) : id ≠ dummyDjbzId := by
  rcases addNewPage_cases g now d p with ⟨hlt, _⟩ | ⟨_, hf, _⟩ | ⟨_, _, hn, h2⟩ |
      ⟨_, _, _, c, _, h2⟩
  · omega
  · exact absurd hun hf
  · rw [h2] at h
    simp only [Option.some.injEq, Prod.mk.injEq] at h
    obtain ⟨dict, hd, hq⟩ := findNotFull_notFull d hn
    obtain ⟨dict0, hd0, ht0⟩ := hs
    intro hid
    rw [h.1, hid, hd0] at hd
    injection hd with hd
    rw [hd] at ht0
    rw [hq.1] at ht0
    exact absurd ht0 (by decide)
  · rw [h2] at h
    simp only [Option.some.injEq, Prod.mk.injEq] at h
    rw [← h.1]
    exact QString.arg_ne_dummy c

/-- One round of `autosetPagesToDjbz`. -/
theorem autosetPage_spec (g : GlobalStaticSettings) (now : QDateTime) (defaults : Params)
    (sug : ExportSuggestions) (d : DjbzDispatcher) (s : Settings) (p : PageId) :
    ∃ d1 s1, autosetPage g now defaults sug d s p = some (d1, s1) ∧
      (∀ q, q ≠ p → d1.findDjbzForPage q = d.findDjbzForPage q ∧
        s1.getPageParams q = s.getPageParams q) ∧
      (SentinelIsNone d → SentinelIsNone d1) ∧
      (Consistent d → Recorded d s p → Consistent d1) ∧
      (Recorded d s p → Recorded d1 s1 p) ∧
      (Agrees d s p → Agrees d1 s1 p) ∧
      (Agrees d s p → (sug p).hasBWLayer = false → d1.findDjbzForPage p = dummyDjbzId) ∧
      (Agrees d s p → (sug p).hasBWLayer = true → 2 ≤ g.m_djvu_pages_per_djbz →
        SentinelIsNone d → d1.findDjbzForPage p ≠ "" ∧ d1.findDjbzForPage p ≠ dummyDjbzId) := by
  -- what a reassignment from the state `d0` gives
  have reassign : ∀ d0 : DjbzDispatcher,
      (∀ q, q ≠ p → d0.findDjbzForPage q = d.findDjbzForPage q) →
      (∀ k dict, d.m_dictionaries.find? k = some dict →
        ∃ dict2, d0.m_dictionaries.find? k = some dict2 ∧ dict2.m_type = dict.m_type) →
      (Consistent d → Consistent d0) →
      (Recorded d s p → d0.findDjbzForPage p = "") →
      (mismatch (sug p) (storedDjbzId s p) = false → storedDjbzId s p = "") →
      ∃ d1 s1, autosetAssign g now defaults (sug p) (s.getPageParams p) d0 s p = some (d1, s1) ∧
        (∀ q, q ≠ p → d1.findDjbzForPage q = d.findDjbzForPage q ∧
          s1.getPageParams q = s.getPageParams q) ∧
        (SentinelIsNone d → SentinelIsNone d1) ∧
        (Consistent d → Recorded d s p → Consistent d1) ∧
        (Recorded d s p → Recorded d1 s1 p) ∧
        (Agrees d s p → Agrees d1 s1 p) ∧
        (Agrees d s p → (sug p).hasBWLayer = false → d1.findDjbzForPage p = dummyDjbzId) ∧
        (Agrees d s p → (sug p).hasBWLayer = true → 2 ≤ g.m_djvu_pages_per_djbz →
          SentinelIsNone d →
          d1.findDjbzForPage p ≠ "" ∧ d1.findDjbzForPage p ≠ dummyDjbzId) := by
    intro d0 hframe htypes hcons hun hmis
    obtain ⟨id, d1, hadd, hres⟩ :=
      autosetAssign_spec g now defaults (sug p) (s.getPageParams p) d0 s p
    -- facts about the intermediate state `d1`
    have hid : id ≠ "" ∧ d1.findDjbzForPage p = (if (sug p).hasBWLayer then id else d0.findDjbzForPage p) ∧
        (∀ q, q ≠ p → d1.findDjbzForPage q = d0.findDjbzForPage q) ∧
        (∀ k dict, d0.m_dictionaries.find? k = some dict →
          ∃ dict2, d1.m_dictionaries.find? k = some dict2 ∧ dict2.m_type = dict.m_type) := by
      by_cases hbw : (sug p).hasBWLayer = true
      · simp only [hbw, if_true] at hadd ⊢
        obtain ⟨id2, d2, h2, h3, h4, h5⟩ := addNewPage_spec g now d0 p
        rw [h2] at hadd
        simp only [Option.some.injEq, Prod.mk.injEq] at hadd
        rw [← hadd.1, ← hadd.2]
        exact ⟨h3, h4, h5, fun k dict hk => type_addNewPage g now d0 d2 p id2 k dict h2 hk⟩
      · simp only [hbw, if_false, Option.some.injEq, Prod.mk.injEq, Bool.false_eq_true] at hadd ⊢
        rw [← hadd.1, ← hadd.2]
        exact ⟨by decide, rfl, fun _ _ => rfl, fun k dict hk => ⟨dict, hk, rfl⟩⟩
    obtain ⟨hne, hp1, hq1, ht1⟩ := hid
    refine ⟨_, _, hres, ?_, ?_, ?_, ?_, ?_, ?_, ?_⟩
    · intro q hq
      rw [findDjbzForPage_setToDjbz, if_neg hq, hq1 q hq, hframe q hq]
      simp [Settings.setPageParams, Settings.getPageParams, hq]
    · intro hs
      refine sentinelIsNone_of_types d _ ?_ hs
      intro k dict hk
      obtain ⟨dict2, h2, h3⟩ := htypes k dict hk
      obtain ⟨dict3, h4, h5⟩ := ht1 k dict2 h2
      obtain ⟨dict4, h6, h7⟩ := type_setToDjbz g now d1 p id k false dict3 h4
      exact ⟨dict4, h6, by rw [h7, h5, h3]⟩
    · intro hc hrec
      have hc0 := hcons hc
      have hun0 := hun hrec
      by_cases hbw : (sug p).hasBWLayer = true
      · simp only [hbw, if_true] at hadd hp1
        have hc1 := consistent_addNewPage g now d0 d1 p id hc0 (fun _ => Or.inl hun0) hadd
        exact consistent_setToDjbz g now d1 p id false hc1 (Or.inr hp1)
      · simp only [hbw, if_false, Option.some.injEq, Prod.mk.injEq, Bool.false_eq_true] at hadd hp1
        rw [← hadd.2]
        exact consistent_setToDjbz g now d0 p id false hc0 (Or.inl hun0)
    · intro _ _
      rw [storedDjbzId_setPageParams, if_pos rfl]
      exact hne
    · intro _
      unfold Agrees
      rw [findDjbzForPage_setToDjbz, if_pos rfl, storedDjbzId_setPageParams, if_pos rfl]
      rfl
    · intro _ hbw
      rw [findDjbzForPage_setToDjbz, if_pos rfl]
      simp only [hbw, if_false, Option.some.injEq, Prod.mk.injEq, Bool.false_eq_true] at hadd
      exact hadd.1.symm
    · intro hag hbw hshare hs
      rw [findDjbzForPage_setToDjbz, if_pos rfl]
      refine ⟨hne, ?_⟩
      simp only [hbw, if_true] at hadd
      have hs0 : SentinelIsNone d0 := sentinelIsNone_of_types d d0 htypes hs
      have hrec : Recorded d s p := by
        intro h1 h2
        exact h1 (hag.trans h2)
      exact addNewPage_ne_dummy g now d0 d1 p id hshare (hun hrec) hs0 hadd
  rcases autosetPage_cases g now defaults sug d s p with ⟨hst, hmm, hres⟩ | ⟨hst, hres⟩ |
      ⟨hst, hmm, hres⟩
  · refine ⟨d, s, hres, fun _ _ => ⟨rfl, rfl⟩, id, fun hc _ => hc, id, id, ?_, ?_⟩
    · intro hag hbw
      rw [hag]
      simpa [mismatch, hbw] using hmm
    · intro hag hbw _ _
      rw [hag]
      refine ⟨hst, ?_⟩
      simpa [mismatch, hbw] using hmm
  · rw [hres]
    exact reassign d (fun _ _ => rfl) (fun k dict hk => ⟨dict, hk, rfl⟩) id
      (fun hrec => by
        by_contra hne
        exact hrec hne hst)
      (fun _ => hst)
  · rw [hres]
    exact reassign (deleteFromDjbz g now d p)
      (fun q hq => by rw [findDjbzForPage_deleteFromDjbz, if_neg hq])
      (fun k dict hk => type_deleteFromDjbz g now d p k dict hk)
      (fun hc => consistent_deleteFromDjbz g now d p hc)
      (fun _ => by rw [findDjbzForPage_deleteFromDjbz, if_pos rfl])
      (fun h => by rw [hmm] at h; exact absurd h (by decide))

end DjbzDispatcher

theorem DjbzParams.ne_eq_false_iff (a b : DjbzParams) : a.ne b = false ↔ a = b := by
  cases a; cases b
  simp only [DjbzParams.ne, Bool.or_eq_false_iff, bne_eq_false_iff_eq, decide_eq_false_iff_not,
    not_not, DjbzParams.mk.injEq]
  tauto

namespace Task

theorem needDjbzReprocessLoop_eq_true (env : Env) (t : Task) (ps : List PageId) :
    needDjbzReprocessLoop env t ps = true ↔
      ∃ p ∈ ps, p ≠ t.m_pageId ∧ needPageReprocess env t p = true := by
  induction ps with
  | nil => simp [needDjbzReprocessLoop]
  | cons p rest ih =>
    simp only [needDjbzReprocessLoop, List.mem_cons, exists_eq_or_imp]
    by_cases hp : p = t.m_pageId
    · simp [hp, ih]
    · by_cases hn : needPageReprocess env t p = true
      · simp [hp, hn]
      · simp [hp, hn, ih]

theorem needPageReprocess_of_upToDate (env : Env) (t : Task) (djbz_id : String) (p : PageId)
    (hne : djbz_id ≠ "") (h : UpToDate env t djbz_id p) : needPageReprocess env t p = false := by
  obtain ⟨params, was, h1, h2, h3, h4, h5, h6, h7⟩ := h
  unfold needPageReprocess
  simp only [h1, h2, h3, h4, h5, h6, h7, hne]
  simp

end Task

namespace DjbzDispatcher

theorem recorded_of_frame (d d1 : DjbzDispatcher) (s s1 : Settings) (q : PageId)
    (h1 : d1.findDjbzForPage q = d.findDjbzForPage q)
    (h2 : s1.getPageParams q = s.getPageParams q) (h : Recorded d s q) : Recorded d1 s1 q := by
  unfold Recorded storedDjbzId at *
  rw [h1, h2]
  exact h

theorem agrees_of_frame (d d1 : DjbzDispatcher) (s s1 : Settings) (q : PageId)
    (h1 : d1.findDjbzForPage q = d.findDjbzForPage q)
    (h2 : s1.getPageParams q = s.getPageParams q) (h : Agrees d s q) : Agrees d1 s1 q := by
  unfold Agrees storedDjbzId at *
  rw [h1, h2]
  exact h

theorem recorded_of_agrees (d : DjbzDispatcher) (s : Settings) (q : PageId)
    (h : Agrees d s q) : Recorded d s q := by
  intro h1 h2
  exact h1 (h.trans h2)

theorem autosetLoop_consistent (g : GlobalStaticSettings) (clock : Nat → QDateTime)
    (defaults : Params) (sug : ExportSuggestions) :
    ∀ (pages : List PageId) (i : Nat) (d : DjbzDispatcher) (s : Settings),
      Consistent d → (∀ p ∈ pages, Recorded d s p) →
      ∃ d1 s1, autosetLoop g clock defaults sug i pages d s = some (d1, s1) ∧ Consistent d1 := by
  intro pages
  induction pages with
  | nil => intro i d s hc _; exact ⟨d, s, rfl, hc⟩
  | cons p rest ih =>
    intro i d s hc hrec
    obtain ⟨d1, s1, hres, hframe, _, hcons, hrec1, _⟩ :=
      autosetPage_spec g (clock i) defaults sug d s p
    have hp := hrec p (List.mem_cons_self _ _)
    obtain ⟨d2, s2, hres2, hc2⟩ := ih (i + 1) d1 s1 (hcons hc hp) (by
      intro q hq
      by_cases hqp : q = p
      · rw [hqp]; exact hrec1 hp
      · exact recorded_of_frame d d1 s s1 q (hframe q hqp).1 (hframe q hqp).2
          (hrec q (List.mem_cons_of_mem _ hq)))
    exact ⟨d2, s2, by simp only [autosetLoop, hres, hres2], hc2⟩

theorem autosetLoop_spec (g : GlobalStaticSettings) (clock : Nat → QDateTime)
    (defaults : Params) (sug : ExportSuggestions) :
    ∀ (pages : List PageId) (i : Nat) (d : DjbzDispatcher) (s : Settings),
      (∀ p ∈ pages, Agrees d s p) →
      ∃ d1 s1, autosetLoop g clock defaults sug i pages d s = some (d1, s1) ∧
        (SentinelIsNone d → SentinelIsNone d1) ∧
        (Consistent d → Consistent d1) ∧
        (∀ q, q ∉ pages → d1.findDjbzForPage q = d.findDjbzForPage q ∧
          s1.getPageParams q = s.getPageParams q) ∧
        (∀ p ∈ pages, Agrees d1 s1 p ∧
          ((sug p).hasBWLayer = false → d1.findDjbzForPage p = dummyDjbzId) ∧
          ((sug p).hasBWLayer = true → 2 ≤ g.m_djvu_pages_per_djbz → SentinelIsNone d →
            d1.findDjbzForPage p ≠ "" ∧ d1.findDjbzForPage p ≠ dummyDjbzId)) := by
  intro pages
  induction pages with
  | nil =>
    intro i d s _
    exact ⟨d, s, rfl, id, id, fun _ _ => ⟨rfl, rfl⟩, fun p hp => absurd hp (List.not_mem_nil p)⟩
  | cons p rest ih =>
    intro i d s hag
    obtain ⟨d1, s1, hres, hframe, hsent, hcons, _, hag1, hno, hbw⟩ :=
      autosetPage_spec g (clock i) defaults sug d s p
    have hp := hag p (List.mem_cons_self _ _)
    obtain ⟨d2, s2, hres2, hsent2, hcons2, hframe2, hall2⟩ := ih (i + 1) d1 s1 (by
      intro q hq
      by_cases hqp : q = p
      · rw [hqp]; exact hag1 hp
      · exact agrees_of_frame d d1 s s1 q (hframe q hqp).1 (hframe q hqp).2
          (hag q (List.mem_cons_of_mem _ hq)))
    refine ⟨d2, s2, by simp only [autosetLoop, hres, hres2], fun h => hsent2 (hsent h),
      fun h => hcons2 (hcons h (recorded_of_agrees d s p hp)), ?_, ?_⟩
    · intro q hq
      have hqp : q ≠ p := fun h => hq (h ▸ List.mem_cons_self _ _)
      have hqr : q ∉ rest := fun h => hq (List.mem_cons_of_mem _ h)
      exact ⟨(hframe2 q hqr).1.trans (hframe q hqp).1, (hframe2 q hqr).2.trans (hframe q hqp).2⟩
    · intro x hx
      by_cases hxr : x ∈ rest
      · obtain ⟨h1, h2, h3⟩ := hall2 x hxr
        exact ⟨h1, h2, fun a b c => h3 a b (hsent c)⟩
      · have hxp : x = p := by
          rcases List.mem_cons.mp hx with h | h
          · exact h
          · exact absurd h hxr
        subst hxp
        obtain ⟨f1, f2⟩ := hframe2 x hxr
        refine ⟨agrees_of_frame d1 d2 s1 s2 x f1 f2 (hag1 hp), ?_, ?_⟩
        · intro h; rw [f1]; exact hno hp h
        · intro a b c; rw [f1]; exact hbw hp a b c

theorem autosetPage_settled (g : GlobalStaticSettings) (now : QDateTime) (defaults : Params)
    (sug : ExportSuggestions) (d : DjbzDispatcher) (s : Settings) (p : PageId)
    (h1 : storedDjbzId s p ≠ "") (h2 : mismatch (sug p) (storedDjbzId s p) = false) :
    autosetPage g now defaults sug d s p = some (d, s) := by
  rcases autosetPage_cases g now defaults sug d s p with ⟨_, _, h⟩ | ⟨h, _⟩ | ⟨_, h, _⟩
  · exact h
  · exact absurd h h1
  · rw [h2] at h; exact absurd h (by decide)

theorem autosetLoop_settled (g : GlobalStaticSettings) (clock : Nat → QDateTime)
    (defaults : Params) (sug : ExportSuggestions) (d : DjbzDispatcher) (s : Settings) :
    ∀ (pages : List PageId) (i : Nat),
      (∀ p ∈ pages, storedDjbzId s p ≠ "" ∧ mismatch (sug p) (storedDjbzId s p) = false) →
      autosetLoop g clock defaults sug i pages d s = some (d, s) := by
  intro pages
  induction pages with
  | nil => intro i _; rfl
  | cons p rest ih =>
    intro i h
    obtain ⟨h1, h2⟩ := h p (List.mem_cons_self _ _)
    simp only [autosetLoop, autosetPage_settled g (clock i) defaults sug d s p h1 h2]
    exact ih (i + 1) (fun q hq => h q (List.mem_cons_of_mem _ hq))

/-- With sharing enabled, a sentinel of kind `None` and a registry that agrees with the
parameter store on the pages of the sequence, a second run of `autosetPagesToDjbz`
right after the first returns the registry and the store as the first run left
them, with no write to the store. -/
theorem autosetPagesToDjbz_second_run (g : GlobalStaticSettings) (clock : Nat → QDateTime)
    (defaults : Params) (pages : List PageId) (sug : ExportSuggestions) (d : DjbzDispatcher)
    (s : Settings) (hshare : 2 ≤ g.m_djvu_pages_per_djbz) (hsent : SentinelIsNone d)
    (hag : ∀ p ∈ pages, Agrees d s p) :
    ∃ d1 s1, autosetPagesToDjbz g clock defaults pages sug d s = some (d1, s1) ∧
      ∀ clock2 : Nat → QDateTime,
        autosetPagesToDjbz g clock2 defaults pages sug d1 s1 = some (d1, s1) := by
  obtain ⟨d1, s1, hres, _, _, _, hall⟩ := autosetLoop_spec g clock defaults sug pages 0 d s hag
  refine ⟨d1, s1, hres, ?_⟩
  intro clock2
  apply autosetLoop_settled
  intro p hp
  obtain ⟨h1, h2, h3⟩ := hall p hp
  unfold Agrees at h1
  rw [← h1]
  by_cases hbw : (sug p).hasBWLayer = true
  · obtain ⟨h4, h5⟩ := h3 hbw hshare hsent
    exact ⟨h4, by simp [mismatch, hbw, h5]⟩
  · have hbw2 : (sug p).hasBWLayer = false := by simpa using hbw
    rw [h2 hbw2]
    exact ⟨by decide, by simp [mismatch, hbw2]⟩

end DjbzDispatcher

theorem QString.not_lt_empty (a : String) : ¬ QString.lt a "" := by
  unfold QString.lt
  exact List.Lex.not_nil_right _ _

theorem DjbzDict.sameRecord_refl (a : DjbzDict) : a.SameRecord a :=
  ⟨rfl, rfl, rfl, rfl, rfl⟩

theorem DjbzDict.sameRecord_trans {a b c : DjbzDict} (h1 : a.SameRecord b)
    (h2 : b.SameRecord c) : a.SameRecord c :=
  ⟨h2.1.trans h1.1, h2.2.1.trans h1.2.1, h2.2.2.1.trans h1.2.2.1,
    h2.2.2.2.1.trans h1.2.2.2.1, h2.2.2.2.2.trans h1.2.2.2.2⟩

theorem DjbzDict.sameRecord_addPage (dict : DjbzDict) (p : PageId) (nr : Bool)
    (now : QDateTime) : dict.SameRecord (dict.addPage p nr now) :=
  ⟨rfl, rfl, rfl, rfl, rfl⟩

theorem DjbzDict.sameRecord_removePage (dict : DjbzDict) (p : PageId) (nr : Bool)
    (now : QDateTime) : dict.SameRecord (dict.removePage p nr now) := by
  unfold DjbzDict.removePage DjbzDict.SameRecord
  by_cases h : (dict.m_pages.remove p).1 = true <;> simp [h]

namespace DjbzDispatcher

theorem keeps_refl (d : DjbzDispatcher) : Keeps d d :=
  fun _ dict h => ⟨dict, h, dict.sameRecord_refl⟩

theorem keeps_trans {d d1 d2 : DjbzDispatcher} (h1 : Keeps d d1) (h2 : Keeps d1 d2) :
    Keeps d d2 := by
  intro k dict h
  obtain ⟨dict1, hf1, hs1⟩ := h1 k dict h
  obtain ⟨dict2, hf2, hs2⟩ := h2 k dict1 hf1
  exact ⟨dict2, hf2, DjbzDict.sameRecord_trans hs1 hs2⟩

theorem keeps_of_dictionaries_eq {d d1 : DjbzDispatcher}
    (h : d1.m_dictionaries = d.m_dictionaries) : Keeps d d1 :=
  fun _ dict hf => ⟨dict, by rw [h]; exact hf, dict.sameRecord_refl⟩

theorem keeps_assign (g : GlobalStaticSettings) (now : QDateTime) (d : DjbzDispatcher)
    (p : PageId) (id : String) (nr : Bool) : Keeps d (assign g now d p id nr) := by
  intro k dict h
  unfold assign
  simp only [QMap.find?_insert]
  by_cases hk : k = id
  · subst hk
    simp only [if_true, dictAt, h, Option.getD_some]
    exact ⟨_, rfl, dict.sameRecord_addPage p nr now⟩
  · simp only [hk, if_false]
    exact ⟨dict, h, dict.sameRecord_refl⟩

theorem keeps_deleteFromDjbz (g : GlobalStaticSettings) (now : QDateTime)
    (d : DjbzDispatcher) (p : PageId) : Keeps d (deleteFromDjbz g now d p) := by
  intro k dict h
  unfold deleteFromDjbz
  cases hp : d.m_page_to_dict p with
  | none => exact ⟨dict, h, dict.sameRecord_refl⟩
  | some id =>
    simp only [QMap.find?_insert]
    by_cases hk : k = id
    · subst hk
      simp only [if_true, dictAt, h, Option.getD_some]
      exact ⟨_, rfl, dict.sameRecord_removePage p false now⟩
    · simp only [hk, if_false]
      exact ⟨dict, h, dict.sameRecord_refl⟩

theorem keeps_setToDjbz (g : GlobalStaticSettings) (now : QDateTime) (d : DjbzDispatcher)
    (p : PageId) (id : String) (nr : Bool) : Keeps d (setToDjbz g now d p id nr) := by
  unfold setToDjbz
  simp only []
  split_ifs with hne
  · exact keeps_trans (keeps_of_dictionaries_eq (dictionaries_touchPage d p))
      (keeps_assign g now _ p id nr)
  · exact keeps_of_dictionaries_eq (dictionaries_touchPage d p)

theorem keeps_moveToDjbz (g : GlobalStaticSettings) (now : QDateTime) (d : DjbzDispatcher)
    (p : PageId) (id : String) : Keeps d (moveToDjbz g now d p id) :=
  keeps_trans (keeps_deleteFromDjbz g now d p) (keeps_setToDjbz g now _ p id false)

theorem keeps_addNewPage (g : GlobalStaticSettings) (now : QDateTime) (d d1 : DjbzDispatcher)
    (p : PageId) (id : String) (h : addNewPage g now d p = some (id, d1)) : Keeps d d1 := by
  rcases addNewPage_cases g now d p with ⟨hs, h2⟩ | ⟨_, hf, h2⟩ | ⟨_, hf, hn, h2⟩ |
      ⟨_, hf, _, c, _, h2⟩ <;>
    rw [h2] at h <;> simp only [Option.some.injEq, Prod.mk.injEq] at h <;> rw [← h.2]
  · exact keeps_assign g now d p _ false
  · exact keeps_refl d
  · exact keeps_assign g now d p _ false
  · exact @keeps_trans d { d with m_id_counter := c } _ (keeps_of_dictionaries_eq rfl)
      (keeps_assign g now { d with m_id_counter := c } p _ false)

theorem sentinelIsNone_of_keeps {d d1 : DjbzDispatcher} (h : Keeps d d1)
    (hs : SentinelIsNone d) : SentinelIsNone d1 := by
  obtain ⟨dict, hf, ht⟩ := hs
  obtain ⟨dict2, hf2, hs2⟩ := h _ dict hf
  exact ⟨dict2, hf2, hs2.2.1.trans ht⟩

theorem rememberedOutputParams_setDjbzId (defaults : Params) (s : Settings) (p q : PageId)
    (id : String) :
    Settings.rememberedOutputParams defaults
        (s.setPageParams p (((s.getPageParams p).getD defaults).setDjbzId id)) q =
      Settings.rememberedOutputParams defaults s q := by
  unfold Settings.rememberedOutputParams Settings.setPageParams Settings.getPageParams
  by_cases hq : q = p
  · subst hq; simp [Params.setDjbzId]
  · simp [hq]

theorem autosetPage_keeps (g : GlobalStaticSettings) (now : QDateTime) (defaults : Params)
    (sug : ExportSuggestions) (d : DjbzDispatcher) (s : Settings) (p : PageId) :
    ∃ d1 s1, autosetPage g now defaults sug d s p = some (d1, s1) ∧ Keeps d d1 ∧
      ∀ q, Settings.rememberedOutputParams defaults s1 q =
        Settings.rememberedOutputParams defaults s q := by
  rcases autosetPage_cases g now defaults sug d s p with ⟨_, _, h⟩ | ⟨_, h⟩ | ⟨_, _, h⟩
  · exact ⟨d, s, h, keeps_refl d, fun _ => rfl⟩
  · obtain ⟨id, d1, h1, h2⟩ := autosetAssign_spec g now defaults (sug p) (s.getPageParams p) d s p
    refine ⟨_, _, h.trans h2, ?_, fun q => rememberedOutputParams_setDjbzId defaults s p q id⟩
    refine keeps_trans ?_ (keeps_setToDjbz g now d1 p id false)
    by_cases hb : (sug p).hasBWLayer = true
    · rw [if_pos hb] at h1
      exact keeps_addNewPage g now d d1 p id h1
    · rw [if_neg hb] at h1
      simp only [Option.some.injEq, Prod.mk.injEq] at h1
      rw [← h1.2]
      exact keeps_refl d
  · obtain ⟨id, d1, h1, h2⟩ :=
      autosetAssign_spec g now defaults (sug p) (s.getPageParams p) (deleteFromDjbz g now d p) s p
    refine ⟨_, _, h.trans h2, ?_, fun q => rememberedOutputParams_setDjbzId defaults s p q id⟩
    refine keeps_trans (keeps_deleteFromDjbz g now d p)
      (keeps_trans ?_ (keeps_setToDjbz g now d1 p id false))
    by_cases hb : (sug p).hasBWLayer = true
    · rw [if_pos hb] at h1
      exact keeps_addNewPage g now _ d1 p id h1
    · rw [if_neg hb] at h1
      simp only [Option.some.injEq, Prod.mk.injEq] at h1
      rw [← h1.2]
      exact keeps_refl _

theorem autosetLoop_keeps (g : GlobalStaticSettings) (clock : Nat → QDateTime)
    (defaults : Params) (sug : ExportSuggestions) :
    ∀ (pages : List PageId) (i : Nat) (d : DjbzDispatcher) (s : Settings),
      ∃ d1 s1, autosetLoop g clock defaults sug i pages d s = some (d1, s1) ∧ Keeps d d1 ∧
        ∀ q, Settings.rememberedOutputParams defaults s1 q =
          Settings.rememberedOutputParams defaults s q := by
  intro pages
  induction pages with
  | nil => intro i d s; exact ⟨d, s, rfl, keeps_refl d, fun _ => rfl⟩
  | cons p rest ih =>
    intro i d s
    obtain ⟨d1, s1, h1, hk1, hr1⟩ := autosetPage_keeps g (clock i) defaults sug d s p
    obtain ⟨d2, s2, h2, hk2, hr2⟩ := ih (i + 1) d1 s1
    refine ⟨d2, s2, ?_, keeps_trans hk1 hk2, fun q => (hr2 q).trans (hr1 q)⟩
    simp only [autosetLoop, h1]
    exact h2

end DjbzDispatcher

theorem DjbzDispatcher.collectLocked_find_empty (d : DjbzDispatcher) (k : String) :
    (collectLocked d.m_dictionaries.entries (QMap.empty, fun _ => none)).1.find? k =
      match d.m_dictionaries.find? k with
      | some dict => if dict.m_type = DjbzType.Locked then some dict else none
      | none => none := by
  rw [collectLocked_find _ d.m_dictionaries.sorted]
  rfl

theorem DjbzDispatcher.find?_resetAllDictsExceptLocked (g : GlobalStaticSettings)
    (now : QDateTime) (d : DjbzDispatcher) (k : String) :
    (resetAllDictsExceptLocked g now d).m_dictionaries.find? k =
      if k = dummyDjbzId then
        some (DjbzDict.setType
          (match d.m_dictionaries.find? dummyDjbzId with
           | some dict => if dict.m_type = DjbzType.Locked then dict else DjbzDict.new g now
           | none => DjbzDict.new g now) DjbzType.None)
      else
        match d.m_dictionaries.find? k with
        | some dict => if dict.m_type = DjbzType.Locked then some dict else none
        | none => none := by
  unfold resetAllDictsExceptLocked
  simp only [QMap.find?_insert]
  by_cases hk : k = dummyDjbzId
  · subst hk
    simp only [if_true, dictAt, collectLocked_find_empty]
    cases hd : d.m_dictionaries.find? dummyDjbzId with
    | none => simp
    | some dict =>
      by_cases hlock : dict.m_type = DjbzType.Locked
      · simp [hlock]
      · simp [hlock]
  · simp only [hk, if_false, collectLocked_find_empty]

/-- The guarded changes of the revision: `removePage` of a page that is not a member,
`setParams` with parameters that do not differ, and any of the three calls with the
flag `no_rev_change`, leave the revision as it was. -/
theorem DjbzDict.revision_unchanged (dict : DjbzDict) (page : PageId) (params : DjbzParams)
    (now : QDateTime) :
    (page ∉ dict.m_pages.elems → ∀ flag, (dict.removePage page flag now) = dict) ∧
    (dict.m_params.ne params = false → ∀ flag, dict.setParams params flag now = dict) ∧
    (dict.addPage page true now).m_last_changed = dict.m_last_changed ∧
    (dict.removePage page true now).m_last_changed = dict.m_last_changed ∧
    (dict.setParams params true now).m_last_changed = dict.m_last_changed := by
  refine ⟨?_, ?_, rfl, ?_, ?_⟩
  · intro h flag
    simp [DjbzDict.removePage, QSet.remove, h]
  · intro h flag
    simp [DjbzDict.setParams, h]
  · unfold DjbzDict.removePage
    by_cases h : (dict.m_pages.remove page).1 = true <;> simp [h]
  · unfold DjbzDict.setParams
    by_cases h : dict.m_params.ne params = true <;> simp [h]

theorem DjbzDispatcher.sentinelIsNone_fromXml (g : GlobalStaticSettings) (now : QDateTime)
    (fs : FileSystem) (els : List DjbzElement) : SentinelIsNone (fromXml g now fs els) := by
  unfold SentinelIsNone fromXml
  simp [QMap.find?_insert_self, DjbzDict.setType]

theorem DjbzDispatcher.mem_addNewPage (g : GlobalStaticSettings) (now : QDateTime)
    (d d1 : DjbzDispatcher) (p : PageId) (id : String)
    (h : addNewPage g now d p = some (id, d1)) (k : String) (q : PageId) :
    (q ∈ d1.listPagesFromDict k → q ∈ d.listPagesFromDict k ∨ q = p) ∧
    (q ∈ d.listPagesFromDict k → q ∈ d1.listPagesFromDict k) := by
  rcases addNewPage_cases g now d p with ⟨hs, h2⟩ | ⟨_, hf, h2⟩ | ⟨_, hf, hn, h2⟩ |
      ⟨_, hf, _, c, _, h2⟩ <;>
    rw [h2] at h <;> simp only [Option.some.injEq, Prod.mk.injEq] at h <;> rw [← h.2]
  · rw [mem_assign]; exact ⟨fun h => h.elim (fun h => Or.inr h.2) Or.inl, Or.inr⟩
  · exact ⟨Or.inl, fun h => h⟩
  · rw [mem_assign]; exact ⟨fun h => h.elim (fun h => Or.inr h.2) Or.inl, Or.inr⟩
  · rw [mem_assign]
    have he : listPagesFromDict { d with m_id_counter := c } k = d.listPagesFromDict k := rfl
    rw [he]
    exact ⟨fun h => h.elim (fun h => Or.inr h.2) Or.inl, Or.inr⟩

theorem String.append_slash_ne_empty (a b : String) : a ++ "/" ++ b ≠ "" := by
  intro h
  have h2 := congrArg String.length h
  simp at h2
  exact absurd h2.1.2 (by decide)

theorem SourceImagesInfo.isValid_new (env : Env) (page_id : PageId)
    (fname_gen : OutputFileNameGenerator) (sug : ExportSuggestions) :
    (SourceImagesInfo.new env page_id fname_gen sug).isValid = true := by
  simp [SourceImagesInfo.isValid, SourceImagesInfo.new, String.append_slash_ne_empty]

theorem SourceImagesInfo.ne_self (env : Env) (hirr : ∀ x, env.suggestionNe x x = false)
    (a : SourceImagesInfo) : a.ne env a = false := by
  simp [SourceImagesInfo.ne, hirr]

theorem Settings.getPageParams_setPageParams (s : Settings) (p q : PageId) (params : Params) :
    (s.setPageParams p params).getPageParams q =
      if q = p then some params else s.getPageParams q := rfl


theorem Task.validateParams_frame (env : Env) (defaults : Params) (t : Task) (page_id : PageId) :
    ∃ t1, Task.validateParams env defaults t page_id = some t1 ∧
      (t1.m_pageId = t.m_pageId ∧ t1.m_refOutFileNameGen = t.m_refOutFileNameGen ∧
        t1.m_ptrExportSuggestions = t.m_ptrExportSuggestions) ∧
      Keeps t.m_refDjbzDispatcher t1.m_refDjbzDispatcher ∧
      (∀ q, q ≠ page_id →
        t1.m_refDjbzDispatcher.findDjbzForPage q = t.m_refDjbzDispatcher.findDjbzForPage q ∧
        t1.m_ptrSettings.getPageParams q = t.m_ptrSettings.getPageParams q) ∧
      (∀ q, Settings.rememberedOutputParams defaults t1.m_ptrSettings q =
        Settings.rememberedOutputParams defaults t.m_ptrSettings q) ∧
      t1.m_refDjbzDispatcher.findDjbzForPage page_id ≠ "" ∧
      (t.m_refDjbzDispatcher.findDjbzForPage page_id ≠ "" →
        t1.m_refDjbzDispatcher = t.m_refDjbzDispatcher) ∧
      (∀ k q, (q ∈ t1.m_refDjbzDispatcher.listPagesFromDict k →
          q ∈ t.m_refDjbzDispatcher.listPagesFromDict k ∨ q = page_id) ∧
        (q ∈ t.m_refDjbzDispatcher.listPagesFromDict k →
          q ∈ t1.m_refDjbzDispatcher.listPagesFromDict k)) ∧
      t1.m_ptrSettings.getPageParams page_id =
        some { (t.m_ptrSettings.getPageParams page_id).getD defaults with
          m_djbzId :=
            if t.m_refDjbzDispatcher.findDjbzForPage page_id = "" then
              t1.m_refDjbzDispatcher.findDjbzForPage page_id
            else ((t.m_ptrSettings.getPageParams page_id).getD defaults).m_djbzId
          m_sourceImagesInfo :=
            if (!((t.m_ptrSettings.getPageParams page_id).getD
                  defaults).m_sourceImagesInfo.isValid ||
                ((t.m_ptrSettings.getPageParams page_id).getD defaults).m_sourceImagesInfo.ne env
                  (SourceImagesInfo.new env page_id t.m_refOutFileNameGen
                    t.m_ptrExportSuggestions)) = true then
              SourceImagesInfo.new env page_id t.m_refOutFileNameGen t.m_ptrExportSuggestions
            else ((t.m_ptrSettings.getPageParams page_id).getD defaults).m_sourceImagesInfo } := by
  obtain ⟨id, d1, hadd, hne, hfind, hothers⟩ :=
    addNewPage_spec env.g env.now t.m_refDjbzDispatcher page_id
  have hk := keeps_addNewPage _ _ _ _ _ _ hadd
  have hm := mem_addNewPage _ _ _ _ _ _ hadd
  unfold Task.validateParams
  simp only [hadd]
  by_cases hid : t.m_refDjbzDispatcher.findDjbzForPage page_id = ""
  · simp only [hid, if_true]
    refine ⟨_, rfl, ⟨rfl, rfl, rfl⟩, hk, ?_, ?_, ?_, ?_, ?_, ?_⟩
    · intro q hq
      refine ⟨hothers q hq, ?_⟩
      cases hst : t.m_ptrSettings.getPageParams page_id <;> simp only [] <;> split_ifs <;>
        simp [Settings.getPageParams_setPageParams, hq]
    · intro q
      unfold Settings.rememberedOutputParams
      by_cases hq : q = page_id
      · subst hq
        cases hst : t.m_ptrSettings.getPageParams q <;> simp only [] <;> split_ifs <;>
          simp [Settings.getPageParams_setPageParams, Params.setDjbzId,
            Params.setSourceImagesInfo]
      · cases hst : t.m_ptrSettings.getPageParams page_id <;> simp only [] <;> split_ifs <;>
          simp [Settings.getPageParams_setPageParams, hq]
    · simp only [hfind]; exact hne
    · intro h; exact absurd rfl h
    · exact fun k q => hm k q
    · cases hst : t.m_ptrSettings.getPageParams page_id <;> simp only [] <;> split_ifs <;>
        simp_all [Settings.getPageParams_setPageParams, Params.setDjbzId,
          Params.setSourceImagesInfo]
  · simp only [hid, if_false]
    refine ⟨_, rfl, ⟨rfl, rfl, rfl⟩, keeps_refl _, ?_, ?_, hid, fun _ => rfl,
      fun k q => ⟨Or.inl, fun h => h⟩, ?_⟩
    · intro q hq
      refine ⟨rfl, ?_⟩
      cases hst : t.m_ptrSettings.getPageParams page_id <;> simp only [] <;> split_ifs <;>
        simp [Settings.getPageParams_setPageParams, hq]
    · intro q
      unfold Settings.rememberedOutputParams
      by_cases hq : q = page_id
      · subst hq
        cases hst : t.m_ptrSettings.getPageParams q <;> simp only [] <;> split_ifs <;>
          simp [Settings.getPageParams_setPageParams, Params.setSourceImagesInfo, hst]
      · cases hst : t.m_ptrSettings.getPageParams page_id <;> simp only [] <;> split_ifs <;>
          simp [Settings.getPageParams_setPageParams, hq]
    · cases hst : t.m_ptrSettings.getPageParams page_id <;> simp only [] <;> split_ifs <;>
        simp_all [Settings.getPageParams_setPageParams, Params.setSourceImagesInfo]

theorem Settings.grows_refl (defaults : Params) (s : Settings) : Settings.Grows defaults s s :=
  ⟨fun _ h => h, fun _ => rfl⟩

theorem Settings.grows_trans {defaults : Params} {s s1 s2 : Settings}
    (h1 : Settings.Grows defaults s s1) (h2 : Settings.Grows defaults s1 s2) :
    Settings.Grows defaults s s2 :=
  ⟨fun q h => h2.1 q (h1.1 q h), fun q => (h2.2 q).trans (h1.2 q)⟩

theorem Settings.grows_setPageParams (defaults : Params) (s : Settings) (p : PageId)
    (params : Params)
    (h : params.m_outputParams = ((s.getPageParams p).getD defaults).m_outputParams) :
    Settings.Grows defaults s (s.setPageParams p params) := by
  constructor
  · intro q hq
    rw [Settings.getPageParams_setPageParams]
    split_ifs
    · simp
    · exact hq
  · intro q
    unfold Settings.rememberedOutputParams
    rw [Settings.getPageParams_setPageParams]
    split_ifs with hqp
    · subst hqp; simpa using h
    · rfl

theorem QSet.mem_insert {α : Type} [DecidableEq α] (s : QSet α) (a b : α) :
    b ∈ (s.insert a).elems ↔ b = a ∨ b ∈ s.elems := by
  unfold QSet.insert
  simp

theorem QSet.mem_unite {α : Type} [DecidableEq α] (a b : QSet α) (x : α) :
    x ∈ (a.unite b).elems ↔ x ∈ a.elems ∨ x ∈ b.elems := by
  unfold QSet.unite
  generalize b.elems = l
  induction l generalizing a with
  | nil => simp
  | cons hd tl ih =>
    simp only [List.foldl_cons, ih, QSet.mem_insert, List.mem_cons]
    tauto

namespace Task

theorem derefLoop_returned (s : Settings) :
    ∀ l : List PageId, (∀ p ∈ l, s.getPageParams p ≠ none) → derefLoop s l = Outcome.Returned
  | [], _ => rfl
  | p :: rest, h => by
    unfold derefLoop
    cases hp : s.getPageParams p with
    | none => exact absurd hp (h p (List.mem_cons_self _ _))
    | some params =>
      exact derefLoop_returned s rest (fun q hq => h q (List.mem_cons_of_mem _ hq))

theorem derefLoop_cases (s : Settings) :
    ∀ l : List PageId, derefLoop s l = Outcome.Returned ∨ derefLoop s l = Outcome.NullParams
  | [] => Or.inl rfl
  | p :: rest => by
    unfold derefLoop
    cases hp : s.getPageParams p with
    | none => exact Or.inr rfl
    | some params => exact derefLoop_cases s rest

theorem pagesLoop_returned (run : Run) (cp : PageId → CheckPoint) (s : Settings)
    (hc : ∀ p, run.cancelled (cp p) = false) :
    ∀ l : List PageId, (∀ p ∈ l, s.getPageParams p ≠ none) →
      pagesLoop run cp s l = Outcome.Returned
  | [], _ => rfl
  | p :: rest, h => by
    unfold pagesLoop
    rw [hc p]
    cases hp : s.getPageParams p with
    | none => exact absurd hp (h p (List.mem_cons_self _ _))
    | some params =>
      simp only [Bool.false_eq_true, if_false]
      exact pagesLoop_returned run cp s hc rest (fun q hq => h q (List.mem_cons_of_mem _ hq))

theorem pagesLoop_cases (run : Run) (cp : PageId → CheckPoint) (s : Settings) :
    ∀ l : List PageId, pagesLoop run cp s l = Outcome.Returned ∨
      pagesLoop run cp s l = Outcome.NullParams ∨
      ∃ p, pagesLoop run cp s l = Outcome.Cancelled (cp p)
  | [] => Or.inl rfl
  | p :: rest => by
    unfold pagesLoop
    by_cases hc : run.cancelled (cp p) = true
    · rw [if_pos hc]; exact Or.inr (Or.inr ⟨p, rfl⟩)
    · rw [if_neg hc]
      cases hp : s.getPageParams p with
      | none => exact Or.inr (Or.inl rfl)
      | some params => exact pagesLoop_cases run cp s rest

theorem firstCancelled_none (run : Run) (cp : Nat → CheckPoint) (n : Nat)
    (hc : ∀ i, run.cancelled (cp i) = false) : firstCancelled run cp n = none := by
  unfold firstCancelled
  rw [List.find?_eq_none]
  intro i _
  simp [hc i]

theorem firstCancelled_some (run : Run) (cp : Nat → CheckPoint) (n i : Nat)
    (h : firstCancelled run cp n = some i) : i < n ∧ run.cancelled (cp i) = true := by
  unfold firstCancelled at h
  have h1 := List.find?_some h
  have h2 := List.mem_of_find?_eq_some h
  exact ⟨List.mem_range.mp h2, h1⟩

end Task

namespace Task

theorem addToMinidjvu_pages (es : ExportSuggestion) (b : Bool) (w : WorkSets) (p q : PageId)
    (h : q ∈ (addToMinidjvu es b w p).pages) : q = p ∨ q ∈ w.pages := by
  revert h
  unfold addToMinidjvu
  split_ifs <;> simp only [WorkSets.pages, List.mem_append, QSet.mem_insert] <;> tauto

theorem addToC44_pages (es : ExportSuggestion) (b : Bool) (w : WorkSets) (p q : PageId)
    (h : q ∈ (addToC44 es b w p).pages) : q = p ∨ q ∈ w.pages := by
  revert h
  unfold addToC44
  split_ifs <;> simp only [WorkSets.pages, List.mem_append, QSet.mem_insert] <;> tauto

theorem addToExport_pages (es : ExportSuggestion) (b1 b2 b3 : Bool) (w : WorkSets)
    (p q : PageId) (h : q ∈ (addToExport es b1 b2 b3 w p).pages) : q = p ∨ q ∈ w.pages := by
  revert h
  unfold addToExport
  split_ifs <;> simp only [WorkSets.pages, List.mem_append, QSet.mem_insert] <;> tauto

theorem addToAssemble_pages (b1 b2 : Bool) (w : WorkSets) (p q : PageId)
    (h : q ∈ (addToAssemble b1 b2 w p).pages) : q = p ∨ q ∈ w.pages := by
  revert h
  unfold addToAssemble
  split_ifs <;> simp only [WorkSets.pages, List.mem_append, QSet.mem_insert] <;> tauto

theorem addToPostprocess_pages (post : Bool × Bool) (w : WorkSets) (p q : PageId)
    (h : q ∈ (addToPostprocess post w p).pages) : q = p ∨ q ∈ w.pages := by
  revert h
  unfold addToPostprocess
  split_ifs <;> simp only [WorkSets.pages, List.mem_append, QSet.mem_insert] <;> tauto

theorem partitionSets_pages (es : ExportSuggestion) (b1 b2 b3 b4 : Bool) (post : Bool × Bool)
    (w : WorkSets) (p q : PageId)
    (h : q ∈ (partitionSets es b1 b2 b3 b4 post w p).pages) : q = p ∨ q ∈ w.pages := by
  unfold partitionSets at h
  rcases addToPostprocess_pages _ _ _ _ h with h | h
  · exact Or.inl h
  rcases addToAssemble_pages _ _ _ _ _ h with h | h
  · exact Or.inl h
  rcases addToExport_pages _ _ _ _ _ _ _ h with h | h
  · exact Or.inl h
  rcases addToC44_pages _ _ _ _ _ h with h | h
  · exact Or.inl h
  exact addToMinidjvu_pages _ _ _ _ _ h

theorem partitionPage_spec (penv : ProcessEnv) (sug : ExportSuggestions) (c : Bool)
    (s : Settings) (w : WorkSets) (p : PageId) (stored : Params)
    (h : s.getPageParams p = some stored) :
    ∃ s1 w1, partitionPage penv sug c (s, w) p = some (s1, w1) ∧
      Settings.Grows penv.defaults s s1 ∧
      (∀ q, q ≠ p → s1.getPageParams q = s.getPageParams q) ∧
      s1.getPageParams p =
        some (if stored.m_forceReprocess &&& Params.RegeneratePage ≠ 0 then
          { stored with m_forceReprocess := Params.clearRegeneratePage stored.m_forceReprocess }
          else stored) ∧
      (∀ q ∈ w1.pages, q = p ∨ q ∈ w.pages) := by
  unfold partitionPage
  simp only [h]
  refine ⟨_, _, rfl, ?_, ?_, ?_, fun q hq => partitionSets_pages _ _ _ _ _ _ _ _ _ hq⟩
  · split_ifs with hf
    · apply Settings.grows_setPageParams
      simp [h]
    · exact Settings.grows_refl _ _
  · intro q hq
    split_ifs with hf
    · simp only [Settings.getPageParams_setPageParams, hq, if_false]
    · rfl
  · by_cases hf : stored.m_forceReprocess &&& Params.RegeneratePage ≠ 0
    · have hd : decide (stored.m_forceReprocess &&& Params.RegeneratePage ≠ 0) = true := by
        simpa using hf
      simp only [hd, if_true, Settings.getPageParams_setPageParams, if_pos hf]
    · have hd : ¬ decide (stored.m_forceReprocess &&& Params.RegeneratePage ≠ 0) = true := by
        simpa using hf
      simp only [if_neg hd, h, if_neg hf]

end Task
theorem Params.clearRegeneratePage_and (val : Nat) :
    Params.clearRegeneratePage val &&& Params.RegeneratePage = 0 := by
  unfold Params.clearRegeneratePage Params.RegeneratePage
  rw [Nat.and_one_is_mod, Nat.and_one_is_mod]
  omega

namespace Task

theorem partitionLoop_spec (penv : ProcessEnv) (sug : ExportSuggestions) (c : Bool) :
    ∀ (l : List PageId) (s : Settings) (w : WorkSets),
      (∀ p ∈ l, s.getPageParams p ≠ none) →
      ∃ s1 w1, partitionLoop penv sug c l (s, w) = some (s1, w1) ∧
        Settings.Grows penv.defaults s s1 ∧
        (∀ q, q ∉ l → s1.getPageParams q = s.getPageParams q) ∧
        (∀ p ∈ l, ∃ params, s1.getPageParams p = some params ∧
          params.m_forceReprocess &&& Params.RegeneratePage = 0) ∧
        (∀ q ∈ w1.pages, q ∈ l ∨ q ∈ w.pages) := by
  intro l
  induction l with
  | nil =>
    intro s w _
    exact ⟨s, w, rfl, Settings.grows_refl _ _, fun _ _ => rfl, fun p hp => by simp at hp,
      fun q hq => Or.inr hq⟩
  | cons p rest ih =>
    intro s w h
    cases hp : s.getPageParams p with
    | none => exact absurd hp (h p (List.mem_cons_self _ _))
    | some stored =>
      obtain ⟨s1, w1, h1, hg1, ho1, hp1, hw1⟩ := partitionPage_spec penv sug c s w p stored hp
      obtain ⟨s2, w2, h2, hg2, ho2, hp2, hw2⟩ := ih s1 w1
        (fun q hq => hg1.1 q (h q (List.mem_cons_of_mem _ hq)))
      refine ⟨s2, w2, ?_, Settings.grows_trans hg1 hg2, ?_, ?_, ?_⟩
      · simp only [partitionLoop, h1]
        exact h2
      · intro q hq
        rw [List.mem_cons, not_or] at hq
        rw [ho2 q hq.2, ho1 q hq.1]
      · intro q hq
        by_cases hqr : q ∈ rest
        · exact hp2 q hqr
        · rcases List.mem_cons.mp hq with hq | hq
          · subst hq
            rw [ho2 q hqr, hp1]
            refine ⟨_, rfl, ?_⟩
            split_ifs with hf
            · exact Params.clearRegeneratePage_and _
            · simpa using hf
          · exact absurd hq hqr
      · intro q hq
        rcases hw2 q hq with hq | hq
        · exact Or.inl (List.mem_cons_of_mem _ hq)
        · rcases hw1 q hq with hq | hq
          · exact Or.inl (hq ▸ List.mem_cons_self _ _)
          · exact Or.inr hq

theorem exportUpdateLoop_spec (defaults : Params) (fs : FileSystem) :
    ∀ (l : List PageId) (s : Settings), (∀ p ∈ l, s.getPageParams p ≠ none) →
      ∃ s1, exportUpdateLoop fs l s = some s1 ∧ Settings.Grows defaults s s1 := by
  intro l
  induction l with
  | nil => intro s _; exact ⟨s, rfl, Settings.grows_refl _ _⟩
  | cons p rest ih =>
    intro s h
    cases hp : s.getPageParams p with
    | none => exact absurd hp (h p (List.mem_cons_self _ _))
    | some params =>
      have hg : Settings.Grows defaults s
          (s.setPageParams p
            (params.setSourceImagesInfo (params.m_sourceImagesInfo.update fs))) := by
        apply Settings.grows_setPageParams
        simp [hp, Params.setSourceImagesInfo]
      obtain ⟨s2, h2, hg2⟩ := ih _ (fun q hq => hg.1 q (h q (List.mem_cons_of_mem _ hq)))
      refine ⟨s2, ?_, Settings.grows_trans hg hg2⟩
      simp only [exportUpdateLoop, hp]
      exact h2

theorem derefLoop_params (s : Settings) :
    ∀ l : List PageId, derefLoop s l = Outcome.Returned → ∀ p ∈ l, s.getPageParams p ≠ none
  | [], _ => fun p hp => by simp at hp
  | q :: rest, h => by
    unfold derefLoop at h
    cases hq : s.getPageParams q with
    | none => rw [hq] at h; cases h
    | some params =>
      rw [hq] at h
      intro p hp
      rcases List.mem_cons.mp hp with hp | hp
      · subst hp; rw [hq]; simp
      · exact derefLoop_params s rest h p hp

theorem startExport_cases (defaults : Params) (run : Run) (s : Settings)
    (pages : QSet PageId) :
    Settings.Grows defaults s (startExport run s pages).2 ∧
    ((startExport run s pages).1 = Outcome.Returned ∨
      (startExport run s pages).1 = Outcome.NullParams ∨
      ∃ i, (startExport run s pages).1 = Outcome.Cancelled (CheckPoint.exportRound i)) ∧
    ((∀ i, run.cancelled (CheckPoint.exportRound i) = false) →
      (∀ p ∈ pages.elems, s.getPageParams p ≠ none) →
      (startExport run s pages).1 = Outcome.Returned) := by
  unfold startExport
  by_cases he : pages.isEmpty = true
  · rw [if_pos he]
    exact ⟨Settings.grows_refl _ _, Or.inl rfl, fun _ _ => rfl⟩
  rw [if_neg he]
  by_cases hd : derefLoop s pages.elems = Outcome.Returned
  · have hall := derefLoop_params s _ hd
    obtain ⟨s2, h2, hg2⟩ := exportUpdateLoop_spec defaults run.fsAfterExport _ s hall
    rw [if_neg (not_not.mpr hd), h2]
    cases hf : firstCancelled run CheckPoint.exportRound run.exportRounds with
    | some i =>
      refine ⟨Settings.grows_refl _ _, Or.inr (Or.inr ⟨i, rfl⟩), ?_⟩
      intro hc _
      rw [firstCancelled_none run _ _ hc] at hf
      cases hf
    | none => exact ⟨hg2, Or.inl rfl, fun _ _ => rfl⟩
  · rw [if_pos hd]
    refine ⟨Settings.grows_refl _ _, Or.inr (Or.inl rfl), ?_⟩
    intro _ hall
    exact absurd (derefLoop_returned s _ hall) hd

theorem foldl_insertIf_mem (c : PageId → Bool) (x : PageId) :
    ∀ (l : List PageId) (acc : QSet PageId),
      x ∈ (l.foldl (fun acc p => if c p then acc.insert p else acc) acc).elems →
        x ∈ acc.elems ∨ x ∈ l
  | [], acc, h => Or.inl h
  | p :: rest, acc, h => by
    simp only [List.foldl_cons] at h
    rcases foldl_insertIf_mem c x rest _ h with h | h
    · split_ifs at h
      · rcases (QSet.mem_insert _ _ _).mp h with h | h
        · exact Or.inr (h ▸ List.mem_cons_self _ _)
        · exact Or.inl h
      · exact Or.inl h
    · exact Or.inr (List.mem_cons_of_mem _ h)

theorem encodeJb2_cases (run : Run) (t : Task) (w : WorkSets) :
    (∀ q ∈ (encodeJb2 run t w).2.pages, q ∈ w.pages) ∧
    ((encodeJb2 run t w).1 = Outcome.Returned ∨ (encodeJb2 run t w).1 = Outcome.NullParams ∨
      ∃ i, (encodeJb2 run t w).1 = Outcome.Cancelled (CheckPoint.minidjvuRound i)) ∧
    ((∀ i, run.cancelled (CheckPoint.minidjvuRound i) = false) →
      (∀ p ∈ encoderParamsReads t.m_refDjbzDispatcher t.m_pageId,
        t.m_ptrSettings.getPageParams p ≠ none) →
      (encodeJb2 run t w).1 = Outcome.Returned) := by
  have hpages : ∀ (w1 : WorkSets), (∀ q ∈ w1.pages, q ∈ w.pages) →
      ∀ q ∈ WorkSets.pages
        { w1 with
          to_c44 :=
            w1.to_c44_cached.elems.foldl
              (fun acc p => if w1.to_minidjvu.contains p then acc.insert p else acc) w1.to_c44 },
        q ∈ w.pages := by
    intro w1 h1 q hq
    apply h1
    simp only [WorkSets.pages, List.mem_append] at hq ⊢
    rcases hq with (((((hq | hq) | hq) | hq) | hq) | hq) | hq
    · tauto
    · rcases foldl_insertIf_mem _ q _ _ hq with h | h <;> tauto
    all_goals tauto
  have hw1 : ∀ q ∈ WorkSets.pages
      (if (!w.to_minidjvu_cached.isEmpty) = true then
        { w with
          to_minidjvu := w.to_minidjvu.unite w.to_minidjvu_cached
          to_assemble := w.to_assemble.unite w.to_minidjvu_cached
          to_minidjvu_cached := QSet.empty }
      else w), q ∈ w.pages := by
    intro q hq
    split_ifs at hq
    · simp only [WorkSets.pages, List.mem_append, QSet.mem_unite, QSet.empty] at hq ⊢
      simp only [List.not_mem_nil, or_false] at hq
      tauto
    · exact hq
  unfold encodeJb2
  by_cases he : (!w.to_minidjvu.isEmpty) = true
  · rw [if_pos he]
    simp only []
    by_cases hd : derefLoop t.m_ptrSettings
        (encoderParamsReads t.m_refDjbzDispatcher t.m_pageId) = Outcome.Returned
    · rw [if_neg (not_not.mpr hd)]
      by_cases ho : run.settingsFileOpens = true
      · rw [if_pos ho]
        cases hf : firstCancelled run CheckPoint.minidjvuRound run.minidjvuRounds with
        | some i =>
          refine ⟨hpages _ hw1, Or.inr (Or.inr ⟨i, rfl⟩), ?_⟩
          intro hc _
          rw [firstCancelled_none run _ _ hc] at hf
          cases hf
        | none => exact ⟨hpages _ hw1, Or.inl rfl, fun _ _ => rfl⟩
      · rw [if_neg ho]
        exact ⟨hpages _ hw1, Or.inl rfl, fun _ _ => rfl⟩
    · rw [if_pos hd]
      refine ⟨hpages _ hw1, Or.inr (Or.inl rfl), ?_⟩
      intro _ hall
      exact absurd (derefLoop_returned _ _ hall) hd
  · rw [if_neg he]
    exact ⟨fun q hq => hq, Or.inl rfl, fun _ _ => rfl⟩

end Task
namespace Task

theorem validateParams_grows (env : Env) (defaults : Params) (t : Task) (page_id : PageId) :
    ∃ t1, validateParams env defaults t page_id = some t1 ∧
      (t1.m_pageId = t.m_pageId ∧ t1.m_refOutFileNameGen = t.m_refOutFileNameGen ∧
        t1.m_ptrExportSuggestions = t.m_ptrExportSuggestions) ∧
      Keeps t.m_refDjbzDispatcher t1.m_refDjbzDispatcher ∧
      Settings.Grows defaults t.m_ptrSettings t1.m_ptrSettings ∧
      (∀ q, q ≠ page_id →
        t1.m_refDjbzDispatcher.findDjbzForPage q = t.m_refDjbzDispatcher.findDjbzForPage q) ∧
      t1.m_refDjbzDispatcher.findDjbzForPage page_id ≠ "" ∧
      t1.m_ptrSettings.getPageParams page_id ≠ none ∧
      (∀ k q, q ∈ t1.m_refDjbzDispatcher.listPagesFromDict k →
        q ∈ t.m_refDjbzDispatcher.listPagesFromDict k ∨ q = page_id) := by
  obtain ⟨t1, h, hsame, hk, ho, hr, hne, _, hm, hp⟩ := validateParams_frame env defaults t page_id
  refine ⟨t1, h, hsame, hk, ⟨?_, hr⟩, fun q hq => (ho q hq).1, hne, ?_, fun k q => (hm k q).1⟩
  · intro q hq
    by_cases hqp : q = page_id
    · subst hqp; rw [hp]; simp
    · rw [(ho q hqp).2]; exact hq
  · rw [hp]; simp

theorem validateDjbzParamsLoop_frame (env : Env) (defaults : Params) :
    ∀ (l : List PageId) (t : Task),
      ∃ t2, validateDjbzParamsLoop env defaults l t = some t2 ∧
        (t2.m_pageId = t.m_pageId ∧ t2.m_refOutFileNameGen = t.m_refOutFileNameGen ∧
          t2.m_ptrExportSuggestions = t.m_ptrExportSuggestions) ∧
        Keeps t.m_refDjbzDispatcher t2.m_refDjbzDispatcher ∧
        Settings.Grows defaults t.m_ptrSettings t2.m_ptrSettings ∧
        t2.m_refDjbzDispatcher.findDjbzForPage t.m_pageId =
          t.m_refDjbzDispatcher.findDjbzForPage t.m_pageId ∧
        (∀ p ∈ l, p ≠ t.m_pageId → t2.m_ptrSettings.getPageParams p ≠ none) ∧
        (∀ k q, q ∈ t2.m_refDjbzDispatcher.listPagesFromDict k →
          q ∈ t.m_refDjbzDispatcher.listPagesFromDict k ∨ (q ∈ l ∧ q ≠ t.m_pageId)) := by
  intro l
  induction l with
  | nil =>
    intro t
    exact ⟨t, rfl, ⟨rfl, rfl, rfl⟩, keeps_refl _, Settings.grows_refl _ _, rfl,
      fun p hp => by simp at hp, fun k q hq => Or.inl hq⟩
  | cons p rest ih =>
    intro t
    by_cases hp : p ≠ t.m_pageId
    · obtain ⟨t1, h1, hs1, hk1, hg1, ho1, _, hp1, hm1⟩ := validateParams_grows env defaults t p
      obtain ⟨t2, h2, hs2, hk2, hg2, hf2, hp2, hm2⟩ := ih t1
      refine ⟨t2, ?_, ⟨hs2.1.trans hs1.1, hs2.2.1.trans hs1.2.1, hs2.2.2.trans hs1.2.2⟩,
        keeps_trans hk1 hk2, Settings.grows_trans hg1 hg2, ?_, ?_, ?_⟩
      · simp only [validateDjbzParamsLoop, hp, if_true, h1, ne_eq, not_false_eq_true]
        exact h2
      · rw [← hs1.1, hf2, hs1.1]
        exact ho1 _ (fun h => hp h.symm)
      · intro q hq hqs
        rcases List.mem_cons.mp hq with hq | hq
        · subst hq; exact hg2.1 q hp1
        · exact hp2 q hq (by rw [hs1.1]; exact hqs)
      · intro k q hq
        rcases hm2 k q hq with hq | ⟨hq, hqs⟩
        · rcases hm1 k q hq with hq | hq
          · exact Or.inl hq
          · subst hq; exact Or.inr ⟨List.mem_cons_self _ _, hp⟩
        · exact Or.inr ⟨List.mem_cons_of_mem _ hq, by rw [← hs1.1]; exact hqs⟩
    · obtain ⟨t2, h2, hs2, hk2, hg2, hf2, hp2, hm2⟩ := ih t
      refine ⟨t2, ?_, hs2, hk2, hg2, hf2, ?_, ?_⟩
      · simp only [validateDjbzParamsLoop, hp, if_false]
        exact h2
      · intro q hq hqs
        rcases List.mem_cons.mp hq with hq | hq
        · subst hq; exact absurd hqs hp
        · exact hp2 q hq hqs
      · intro k q hq
        rcases hm2 k q hq with hq | ⟨hq, hqs⟩
        · exact Or.inl hq
        · exact Or.inr ⟨List.mem_cons_of_mem _ hq, hqs⟩

theorem validateTaskParams_frame (env : Env) (defaults : Params) (t : Task) :
    ∃ t2, validateTaskParams env defaults t = some t2 ∧
      (t2.m_pageId = t.m_pageId ∧ t2.m_refOutFileNameGen = t.m_refOutFileNameGen ∧
        t2.m_ptrExportSuggestions = t.m_ptrExportSuggestions) ∧
      Keeps t.m_refDjbzDispatcher t2.m_refDjbzDispatcher ∧
      Settings.Grows defaults t.m_ptrSettings t2.m_ptrSettings ∧
      t2.m_refDjbzDispatcher.findDjbzForPage t2.m_pageId ≠ "" ∧
      t2.m_ptrSettings.getPageParams t2.m_pageId ≠ none ∧
      (∀ p ∈ t2.m_refDjbzDispatcher.listPagesFromDict
          (t2.m_refDjbzDispatcher.findDjbzForPage t2.m_pageId),
        t2.m_ptrSettings.getPageParams p ≠ none) := by
  obtain ⟨t1, h1, hs1, hk1, hg1, _, hne1, hp1, _⟩ := validateParams_grows env defaults t t.m_pageId
  obtain ⟨t2, h2, hs2, hk2, hg2, hf2, hp2, hm2⟩ :=
    validateDjbzParamsLoop_frame env defaults
      (t1.m_refDjbzDispatcher.djbzDict env.g env.now
        (t1.m_refDjbzDispatcher.findDjbzForPage t1.m_pageId)).m_pages.elems t1
  have hsubj : t2.m_ptrSettings.getPageParams t2.m_pageId ≠ none := by
    rw [hs2.1, hs1.1]; exact hg2.1 _ hp1
  have hL : ∀ q, q ∈ (t1.m_refDjbzDispatcher.djbzDict env.g env.now
      (t1.m_refDjbzDispatcher.findDjbzForPage t1.m_pageId)).m_pages.elems ↔
      q ∈ t1.m_refDjbzDispatcher.listPagesFromDict
        (t1.m_refDjbzDispatcher.findDjbzForPage t1.m_pageId) := by
    intro q
    unfold djbzDict listPagesFromDict
    cases t1.m_refDjbzDispatcher.m_dictionaries.find?
      (t1.m_refDjbzDispatcher.findDjbzForPage t1.m_pageId) <;> simp [DjbzDict.new, QSet.empty]
  refine ⟨t2, ?_, ⟨hs2.1.trans hs1.1, hs2.2.1.trans hs1.2.1, hs2.2.2.trans hs1.2.2⟩,
    keeps_trans hk1 hk2, Settings.grows_trans hg1 hg2, ?_, hsubj, ?_⟩
  · simp only [validateTaskParams, h1]
    exact h2
  · rw [hs2.1, hf2, hs1.1]; exact hne1
  · intro p hp
    rw [hs2.1, hf2] at hp
    by_cases hps : p = t1.m_pageId
    · rw [hps, ← hs2.1]; exact hsubj
    · rcases hm2 _ p hp with hp | ⟨hp, _⟩
      · exact hp2 p ((hL p).mpr hp) hps
      · exact hp2 p hp hps

end Task
namespace Task

theorem updateLoop_spec (penv : ProcessEnv) (fs : FileSystem)
    (fname_gen : OutputFileNameGenerator) (revision : QDateTime) (djbz_params : DjbzParams) :
    ∀ (l : List PageId) (s : Settings), (∀ p ∈ l, s.getPageParams p ≠ none) →
      ∃ s1, updateLoop penv fs fname_gen revision djbz_params l s = some s1 ∧
        (∀ q, s.getPageParams q ≠ none → s1.getPageParams q ≠ none) ∧
        (∀ q, q ∉ l → s1.getPageParams q = s.getPageParams q) ∧
        (∀ p ∈ l, ∃ params, s1.getPageParams p = some params ∧
          params.m_outputParams =
            some (OutputParams.new params params.m_djbzId revision djbz_params) ∧
          (∀ old, s.getPageParams p = some old → params.m_djbzId = old.m_djbzId)) := by
  intro l
  induction l with
  | nil =>
    intro s _
    exact ⟨s, rfl, fun _ h => h, fun _ _ => rfl, fun p hp => by simp at hp⟩
  | cons p rest ih =>
    intro s h
    cases hp : s.getPageParams p with
    | none => exact absurd hp (h p (List.mem_cons_self _ _))
    | some params =>
      simp only [updateLoop, hp]
      generalize hw : Params.rememberOutputParams _ djbz_params = written
      have hwritten : written.m_outputParams =
          some (OutputParams.new written written.m_djbzId revision djbz_params) ∧
          written.m_djbzId = params.m_djbzId := by
        rw [← hw]
        exact ⟨rfl, rfl⟩
      have hkeep : ∀ q, s.getPageParams q ≠ none →
          (s.setPageParams p written).getPageParams q ≠ none := by
        intro q hq
        rw [Settings.getPageParams_setPageParams]
        split_ifs
        · simp
        · exact hq
      obtain ⟨s2, h2, hk2, ho2, hp2⟩ := ih (s.setPageParams p written)
        (fun q hq => hkeep q (h q (List.mem_cons_of_mem _ hq)))
      refine ⟨s2, h2, fun q hq => hk2 q (hkeep q hq), ?_, ?_⟩
      · intro q hq
        rw [List.mem_cons, not_or] at hq
        rw [ho2 q hq.2, Settings.getPageParams_setPageParams, if_neg hq.1]
      · intro q hq
        by_cases hqr : q ∈ rest
        · obtain ⟨params2, hg, hs, hid⟩ := hp2 q hqr
          refine ⟨params2, hg, hs, ?_⟩
          intro old hold
          by_cases hqp : q = p
          · subst hqp
            rw [hp] at hold
            cases hold
            rw [hid written (by rw [Settings.getPageParams_setPageParams]; simp)]
            exact hwritten.2
          · exact hid old (by rw [Settings.getPageParams_setPageParams, if_neg hqp]; exact hold)
        · rcases List.mem_cons.mp hq with hq | hq
          · subst hq
            refine ⟨written, ?_, hwritten.1, ?_⟩
            · rw [ho2 q hqr, Settings.getPageParams_setPageParams]; simp
            · intro old hold
              rw [hp] at hold
              cases hold
              exact hwritten.2
          · exact absurd hq hqr

theorem updateParams_outcome (penv : ProcessEnv) (fs : FileSystem) (t : Task)
    (djbz_id : String) (pages : List PageId) :
    (updateParams penv fs t djbz_id pages).1 = Outcome.Returned ∨
      (updateParams penv fs t djbz_id pages).1 = Outcome.NullParams := by
  unfold updateParams
  cases t.m_ptrSettings.getPageParams t.m_pageId with
  | none => exact Or.inr rfl
  | some params =>
    simp only []
    cases updateLoop penv fs t.m_refOutFileNameGen (updateDict penv fs t djbz_id params).m_last_changed
      (updateDict penv fs t djbz_id params).m_params pages t.m_ptrSettings with
    | none => exact Or.inr rfl
    | some s1 => exact Or.inl rfl

theorem updateParams_spec (penv : ProcessEnv) (fs : FileSystem) (t : Task)
    (djbz_id : String) (pages : List PageId) (params : Params)
    (hsubj : t.m_ptrSettings.getPageParams t.m_pageId = some params)
    (hall : ∀ p ∈ pages, t.m_ptrSettings.getPageParams p ≠ none) :
    ∃ s1, updateParams penv fs t djbz_id pages =
        (Outcome.Returned,
          { t with
            m_ptrSettings := s1
            m_refDjbzDispatcher :=
              { t.m_refDjbzDispatcher with
                m_dictionaries :=
                  t.m_refDjbzDispatcher.m_dictionaries.insert djbz_id
                    (updateDict penv fs t djbz_id params) } }) ∧
      (∀ q, q ∉ pages → s1.getPageParams q = t.m_ptrSettings.getPageParams q) ∧
      (∀ p ∈ pages, ∃ written, s1.getPageParams p = some written ∧
        written.m_outputParams =
          some (OutputParams.new written written.m_djbzId
            (updateDict penv fs t djbz_id params).m_last_changed
            (updateDict penv fs t djbz_id params).m_params) ∧
        (∀ old, t.m_ptrSettings.getPageParams p = some old →
          written.m_djbzId = old.m_djbzId)) := by
  obtain ⟨s1, h1, _, ho, hp⟩ := updateLoop_spec penv fs t.m_refOutFileNameGen
    (updateDict penv fs t djbz_id params).m_last_changed
    (updateDict penv fs t djbz_id params).m_params pages t.m_ptrSettings hall
  refine ⟨s1, ?_, ho, hp⟩
  unfold updateParams
  simp only [hsubj, h1]

end Task

namespace Task

theorem runStages_cancelled (penv : ProcessEnv) (run : Run) (t : Task) (djbz_id : String)
    (pages : List PageId) (w : WorkSets) (cp : CheckPoint)
    (h : (runStages penv run t djbz_id pages w).1 = Outcome.Cancelled cp) :
    (runStages penv run t djbz_id pages w).2.m_refDjbzDispatcher = t.m_refDjbzDispatcher ∧
    Settings.Grows penv.defaults t.m_ptrSettings
      (runStages penv run t djbz_id pages w).2.m_ptrSettings := by
  have hg := (startExport_cases penv.defaults run t.m_ptrSettings w.to_export).1
  unfold runStages at h ⊢
  simp only [] at h ⊢
  split_ifs at h ⊢
  · exact ⟨rfl, hg⟩
  · exact ⟨rfl, hg⟩
  · exact ⟨rfl, hg⟩
  · exact ⟨rfl, hg⟩
  · exact ⟨rfl, hg⟩
  · rcases updateParams_outcome penv run.fsAtUpdate
      { t with m_ptrSettings := (startExport run t.m_ptrSettings w.to_export).2 } djbz_id pages
      with h2 | h2 <;> rw [h2] at h <;> cases h

theorem runStages_returned (penv : ProcessEnv) (run : Run) (t : Task) (djbz_id : String)
    (pages : List PageId) (w : WorkSets) (hc : ∀ cp, run.cancelled cp = false)
    (hw : ∀ p ∈ w.pages, t.m_ptrSettings.getPageParams p ≠ none)
    (hreads : ∀ p ∈ encoderParamsReads t.m_refDjbzDispatcher t.m_pageId,
      t.m_ptrSettings.getPageParams p ≠ none) :
    runStages penv run t djbz_id pages w =
      updateParams penv run.fsAtUpdate
        { t with m_ptrSettings := (startExport run t.m_ptrSettings w.to_export).2 }
        djbz_id pages := by
  obtain ⟨hg, _, hret⟩ := startExport_cases penv.defaults run t.m_ptrSettings w.to_export
  have h1 : (startExport run t.m_ptrSettings w.to_export).1 = Outcome.Returned :=
    hret (fun i => hc _) (fun p hp => hw p (by simp [WorkSets.pages, hp]))
  have h2 : pagesLoop run CheckPoint.c44 (startExport run t.m_ptrSettings w.to_export).2
      w.to_c44.elems = Outcome.Returned :=
    pagesLoop_returned run _ _ (fun p => hc _) _
      (fun p hp => hg.1 p (hw p (by simp [WorkSets.pages, hp])))
  obtain ⟨hjp, _, hjr⟩ := encodeJb2_cases run
    { t with m_ptrSettings := (startExport run t.m_ptrSettings w.to_export).2 } w
  have h3 := hjr (fun i => hc _) (fun p hp => hg.1 p (hreads p hp))
  have h4 : pagesLoop run CheckPoint.assemble (startExport run t.m_ptrSettings w.to_export).2
      (encodeJb2 run
        { t with m_ptrSettings := (startExport run t.m_ptrSettings w.to_export).2 }
        w).2.to_assemble.elems = Outcome.Returned :=
    pagesLoop_returned run _ _ (fun p => hc _) _
      (fun p hp => hg.1 p (hw p (hjp p (by simp [WorkSets.pages, hp]))))
  have h5 : derefLoop (startExport run t.m_ptrSettings w.to_export).2
      (encodeJb2 run
        { t with m_ptrSettings := (startExport run t.m_ptrSettings w.to_export).2 }
        w).2.to_postprocess.elems = Outcome.Returned :=
    derefLoop_returned _ _
      (fun p hp => hg.1 p (hw p (hjp p (by simp [WorkSets.pages, hp]))))
  unfold runStages
  simp only [h1, h2, h3, h4, h5, ne_eq, not_true_eq_false, if_false]

end Task

namespace Task

theorem process_shape (penv : ProcessEnv) (clock : Nat → QDateTime) (run : Run)
    (all_pages_ordered : List PageId) (t : Task)
    (hstart : run.cancelled CheckPoint.start = false) :
    ∃ d1 s1,
      DjbzDispatcher.autosetPagesToDjbz penv.g clock penv.defaults all_pages_ordered
        t.m_ptrExportSuggestions t.m_refDjbzDispatcher t.m_ptrSettings = some (d1, s1) ∧
      Keeps t.m_refDjbzDispatcher d1 ∧
      (∀ q, Settings.rememberedOutputParams penv.defaults s1 q =
        Settings.rememberedOutputParams penv.defaults t.m_ptrSettings q) ∧
      (((needReprocess penv.toEnv { t with m_refDjbzDispatcher := d1, m_ptrSettings := s1 }).1
            = false ∧
          process penv clock run all_pages_ordered t =
            (Outcome.Returned, { t with m_refDjbzDispatcher := d1, m_ptrSettings := s1 })) ∨
        ((needReprocess penv.toEnv { t with m_refDjbzDispatcher := d1, m_ptrSettings := s1 }).1
            = true ∧
          ∃ (t2 : Task) (s3 : Settings) (w : WorkSets),
            (t2.m_pageId = t.m_pageId ∧ t2.m_refOutFileNameGen = t.m_refOutFileNameGen ∧
              t2.m_ptrExportSuggestions = t.m_ptrExportSuggestions) ∧
            Keeps d1 t2.m_refDjbzDispatcher ∧
            Settings.Grows penv.defaults s1 t2.m_ptrSettings ∧
            Settings.Grows penv.defaults t2.m_ptrSettings s3 ∧
            t2.m_refDjbzDispatcher.findDjbzForPage t.m_pageId ≠ "" ∧
            s3.getPageParams t.m_pageId ≠ none ∧
            (∀ p ∈ t2.m_refDjbzDispatcher.listPagesFromSameDict t.m_pageId,
              ∃ params, s3.getPageParams p = some params ∧
                params.m_forceReprocess &&& Params.RegeneratePage = 0) ∧
            (∀ p ∈ t2.m_refDjbzDispatcher.listPagesFromDict
                (t2.m_refDjbzDispatcher.findDjbzForPage t.m_pageId),
              s3.getPageParams p ≠ none) ∧
            (∀ q ∈ w.pages, s3.getPageParams q ≠ none) ∧
            process penv clock run all_pages_ordered t =
              runStages penv run { t2 with m_ptrSettings := s3 }
                (t2.m_refDjbzDispatcher.findDjbzForPage t.m_pageId)
                (t2.m_refDjbzDispatcher.listPagesFromSameDict t.m_pageId) w)) := by
  obtain ⟨d1, s1, ha, hk1, hr1⟩ := autosetLoop_keeps penv.g clock penv.defaults
    t.m_ptrExportSuggestions all_pages_ordered 0 t.m_refDjbzDispatcher t.m_ptrSettings
  have ha2 : DjbzDispatcher.autosetPagesToDjbz penv.g clock penv.defaults all_pages_ordered
      t.m_ptrExportSuggestions t.m_refDjbzDispatcher t.m_ptrSettings = some (d1, s1) := ha
  refine ⟨d1, s1, ha2, hk1, hr1, ?_⟩
  by_cases hneed :
      (needReprocess penv.toEnv { t with m_refDjbzDispatcher := d1, m_ptrSettings := s1 }).1
        = true
  · right
    refine ⟨hneed, ?_⟩
    obtain ⟨t2, hv, hs2, hk2, hg2, hne2, hsubj2, hp2⟩ := validateTaskParams_frame penv.toEnv
      penv.defaults { t with m_refDjbzDispatcher := d1, m_ptrSettings := s1 }
    have hid : t2.m_pageId = t.m_pageId := hs2.1
    rw [hid] at hne2 hsubj2 hp2
    have hpages : ∀ p ∈ t2.m_refDjbzDispatcher.listPagesFromSameDict t.m_pageId,
        t2.m_ptrSettings.getPageParams p ≠ none := by
      intro p hp
      unfold listPagesFromSameDict at hp
      simp only [] at hp
      split_ifs at hp
      · rw [List.mem_singleton] at hp
        rw [hp]; exact hsubj2
      · exact hp2 p hp
    obtain ⟨s3, w, hpl, hg3, _, hflags, hw⟩ := partitionLoop_spec penv
      t2.m_ptrExportSuggestions
      (needReprocess penv.toEnv { t with m_refDjbzDispatcher := d1, m_ptrSettings := s1 }).2
      (t2.m_refDjbzDispatcher.listPagesFromSameDict t.m_pageId) t2.m_ptrSettings
      WorkSets.empty hpages
    have hwe : ∀ q, q ∉ WorkSets.empty.pages := by
      intro q hq
      simp [WorkSets.pages, WorkSets.empty, QSet.empty] at hq
    refine ⟨t2, s3, { w with to_assemble := (w.to_assemble.unite w.to_c44).unite w.to_minidjvu },
      hs2, hk2, hg2, hg3, hne2, hg3.1 _ hsubj2, hflags, fun p hp => hg3.1 p (hp2 p hp), ?_, ?_⟩
    · intro q hq
      have hq2 : q ∈ w.pages := by
        simp only [WorkSets.pages, List.mem_append, QSet.mem_unite] at hq ⊢
        tauto
      rcases hw q hq2 with h | h
      · exact hg3.1 q (hpages q h)
      · exact absurd h (hwe q)
    · unfold process
      simp only [hstart, Bool.false_eq_true, if_false, ha2, hneed, if_true, hv, hid, hpl]
  · left
    have hneed2 : (needReprocess penv.toEnv
        { t with m_refDjbzDispatcher := d1, m_ptrSettings := s1 }).1 = false := by
      simpa using hneed
    refine ⟨hneed2, ?_⟩
    unfold process
    simp only [hstart, Bool.false_eq_true, if_false, ha2, hneed2]

end Task

theorem DjbzDict.updateOutputFileInfo_idem (fs : FileSystem) (dict : DjbzDict) :
    (dict.updateOutputFileInfo fs).updateOutputFileInfo fs = dict.updateOutputFileInfo fs := by
  unfold DjbzDict.updateOutputFileInfo
  by_cases h : dict.m_output_file = ""
  · simp [h]
  · simp [h]

namespace Task

theorem process_cancelled (penv : ProcessEnv) (clock : Nat → QDateTime) (run : Run)
    (all_pages_ordered : List PageId) (t : Task) (cp : CheckPoint)
    (h : (process penv clock run all_pages_ordered t).1 = Outcome.Cancelled cp) :
    Keeps t.m_refDjbzDispatcher (process penv clock run all_pages_ordered t).2.m_refDjbzDispatcher ∧
    ∀ q, Settings.rememberedOutputParams penv.defaults
        (process penv clock run all_pages_ordered t).2.m_ptrSettings q =
      Settings.rememberedOutputParams penv.defaults t.m_ptrSettings q := by
  by_cases hstart : run.cancelled CheckPoint.start = true
  · have hp : process penv clock run all_pages_ordered t =
        (Outcome.Cancelled CheckPoint.start, t) := by
      unfold process
      simp only [hstart, if_true]
    rw [hp]
    exact ⟨keeps_refl _, fun _ => rfl⟩
  · have hstart2 : run.cancelled CheckPoint.start = false := by simpa using hstart
    obtain ⟨d1, s1, _, hk1, hr1, hcase⟩ :=
      process_shape penv clock run all_pages_ordered t hstart2
    rcases hcase with ⟨_, hp⟩ | ⟨_, t2, s3, w, _, hk2, hg2, hg3, _, _, _, _, _, hp⟩
    · rw [hp] at h; cases h
    · rw [hp] at h ⊢
      obtain ⟨hd, hg⟩ := runStages_cancelled penv run _ _ _ _ cp h
      refine ⟨?_, ?_⟩
      · rw [hd]
        exact keeps_trans hk1 hk2
      · intro q
        rw [hg.2 q]
        exact ((hg3.2 q).trans (hg2.2 q)).trans (hr1 q)

theorem updateDict_fields (penv : ProcessEnv) (fs : FileSystem) (t : Task) (djbz_id : String)
    (params : Params) :
    (updateDict penv fs t djbz_id params).m_pages =
      (DjbzDispatcher.dictAt penv.g penv.now t.m_refDjbzDispatcher.m_dictionaries
        djbz_id).m_pages ∧
    (params.m_djbzId ≠ dummyDjbzId →
      (updateDict penv fs t djbz_id params).m_output_file ≠ "" ∧
      (updateDict penv fs t djbz_id params).updateOutputFileInfo fs =
        updateDict penv fs t djbz_id params) := by
  unfold updateDict djbzDictRef
  simp only [isDummyDjbzId]
  by_cases hd : params.m_djbzId = dummyDjbzId
  · simp [hd]
  · simp only [hd, decide_False, Bool.not_false, if_true, ne_eq, not_false_eq_true,
      forall_true_left]
    refine ⟨?_, ?_, DjbzDict.updateOutputFileInfo_idem _ _⟩
    · unfold DjbzDict.setOutputFilename DjbzDict.updateOutputFileInfo
      split_ifs <;> rfl
    · have hne : t.m_refOutFileNameGen.outDir ++ "/" ++ penv.g.m_djvu_pages_subfolder ++ "/" ++
          "/" ++ params.m_djbzId ++ "." ++
          (t.m_refDjbzDispatcher.djbzDict penv.g penv.now params.m_djbzId).m_params.m_extension
            ≠ "" := by
        intro h
        have h2 := congrArg String.length h
        simp at h2
        exact absurd h2.1.2 (by decide)
      unfold DjbzDict.setOutputFilename DjbzDict.updateOutputFileInfo
      simp only [hne, ne_eq, not_false_eq_true, if_true]

end Task

theorem Task.firstCancelled_of_set (run : Run) (cp : Nat → CheckPoint) (n i : Nat)
    (hi : i < n) (h : run.cancelled (cp i) = true) :
    ∃ j, Task.firstCancelled run cp n = some j := by
  cases hf : Task.firstCancelled run cp n with
  | some j => exact ⟨j, rfl⟩
  | none =>
    unfold Task.firstCancelled at hf
    rw [List.find?_eq_none] at hf
    exact absurd h (hf i (List.mem_range.mpr hi))

theorem imageId_eq_iff (a b : ImageId) : a.eq b = true ↔ a = b := by
  cases a; cases b
  simp [ImageId.eq]
  tauto

theorem imageId_lt_iff (a b : ImageId) :
    a.lt b = true ↔
      QString.lt a.m_filePath b.m_filePath ∨ (a.m_filePath = b.m_filePath ∧ a.m_page < b.m_page) := by
  unfold ImageId.lt
  by_cases h1 : QString.lt a.m_filePath b.m_filePath
  · simp [h1]
  · by_cases h2 : QString.lt b.m_filePath a.m_filePath
    · have hne : a.m_filePath ≠ b.m_filePath := by
        intro h
        rw [h] at h2
        exact QString.lt_irrefl _ h2
      simp [h1, h2, hne]
    · have heq : a.m_filePath = b.m_filePath := by
        by_contra hne
        exact h2 (QString.lt_of_not_lt h1 (fun h => hne h.symm))
      have hirr := QString.lt_irrefl b.m_filePath
      simp [heq, hirr]

theorem imageId_lt_irrefl (a : ImageId) : a.lt a = false := by
  cases h : a.lt a with
  | false => rfl
  | true =>
    rcases (imageId_lt_iff a a).mp h with h | h
    · exact absurd h (QString.lt_irrefl _)
    · exact absurd h.2 (Int.lt_irrefl _)

theorem imageId_lt_trans {a b c : ImageId} (h1 : a.lt b = true) (h2 : b.lt c = true) :
    a.lt c = true := by
  rw [imageId_lt_iff] at h1 h2 ⊢
  rcases h1 with h1 | ⟨h1, h1p⟩ <;> rcases h2 with h2 | ⟨h2, h2p⟩
  · exact Or.inl (QString.lt_trans h1 h2)
  · exact Or.inl (h2 ▸ h1)
  · exact Or.inl (h1 ▸ h2)
  · exact Or.inr ⟨h1.trans h2, Int.lt_trans h1p h2p⟩

theorem imageId_eq_of_not_lt {a b : ImageId} (h1 : a.lt b = false) (h2 : b.lt a = false) :
    a = b := by
  have n1 : ¬ a.lt b = true := by simp [h1]
  have n2 : ¬ b.lt a = true := by simp [h2]
  rw [imageId_lt_iff] at n1 n2
  simp only [not_or, not_and, not_lt] at n1 n2
  have hp : a.m_filePath = b.m_filePath := by
    by_contra hne
    exact n2.1 (QString.lt_of_not_lt n1.1 (fun h => hne h.symm))
  have hn : a.m_page = b.m_page := le_antisymm (n2.2 hp.symm) (n1.2 hp)
  cases a; cases b
  simp_all

theorem SubPage.toNat_injective {a b : SubPage} (h : a.toNat = b.toNat) : a = b := by
  cases a <;> cases b <;> simp_all [SubPage.toNat]

theorem pageId_eq_iff (a b : PageId) : a.eq b = true ↔ a = b := by
  unfold PageId.eq
  rw [Bool.and_eq_true, imageId_eq_iff]
  cases a; cases b
  simp
  tauto

theorem pageId_lt_iff (a b : PageId) :
    a.lt b = true ↔
      a.m_imageId.lt b.m_imageId = true ∨
        (a.m_imageId = b.m_imageId ∧ a.m_subPage.toNat < b.m_subPage.toNat) := by
  unfold PageId.lt
  by_cases h1 : a.m_imageId.lt b.m_imageId = true
  · simp [h1]
  · have h1f : a.m_imageId.lt b.m_imageId = false := by simpa using h1
    by_cases h2 : b.m_imageId.lt a.m_imageId = true
    · have hne : a.m_imageId ≠ b.m_imageId := by
        intro h
        rw [h, imageId_lt_irrefl] at h2
        cases h2
      simp [h1f, h2, hne]
    · have h2f : b.m_imageId.lt a.m_imageId = false := by simpa using h2
      simp [imageId_eq_of_not_lt h1f h2f, imageId_lt_irrefl]

theorem pageId_lt_irrefl (a : PageId) : a.lt a = false := by
  cases h : a.lt a with
  | false => rfl
  | true =>
    rcases (pageId_lt_iff a a).mp h with h | h
    · rw [imageId_lt_irrefl] at h; cases h
    · exact absurd h.2 (Nat.lt_irrefl _)

theorem pageId_lt_trans {a b c : PageId} (h1 : a.lt b = true) (h2 : b.lt c = true) :
    a.lt c = true := by
  rw [pageId_lt_iff] at h1 h2 ⊢
  rcases h1 with h1 | ⟨h1, h1p⟩ <;> rcases h2 with h2 | ⟨h2, h2p⟩
  · exact Or.inl (imageId_lt_trans h1 h2)
  · exact Or.inl (h2 ▸ h1)
  · exact Or.inl (h1 ▸ h2)
  · exact Or.inr ⟨h1.trans h2, Nat.lt_trans h1p h2p⟩

theorem pageId_eq_of_not_lt {a b : PageId} (h1 : a.lt b = false) (h2 : b.lt a = false) :
    a = b := by
  have n1 : ¬ a.lt b = true := by simp [h1]
  have n2 : ¬ b.lt a = true := by simp [h2]
  rw [pageId_lt_iff] at n1 n2
  simp only [not_or, not_and, not_lt, Bool.not_eq_true] at n1 n2
  have hi : a.m_imageId = b.m_imageId := imageId_eq_of_not_lt n1.1 n2.1
  have hs : a.m_subPage = b.m_subPage :=
    SubPage.toNat_injective (Nat.le_antisymm (n2.2 hi.symm) (n1.2 hi))
  cases a; cases b
  simp_all

theorem pageId_lt_asymm {a b : PageId} (h : a.lt b = true) : b.lt a = false := by
  cases h2 : b.lt a with
  | false => rfl
  | true =>
    have h3 := pageId_lt_trans h h2
    rw [pageId_lt_irrefl] at h3
    cases h3

theorem OrderByFileSize.precedes_iff (s : Settings) (a b : PageId) (ia ib : Bool)
    (la lb : Params) (ha : s.getPageParams a = some la) (hb : s.getPageParams b = some lb) :
    OrderByFileSize.precedes s a ia b ib =
      some (decide ((ia = true ∧ ib = false) ∨
        (ia = ib ∧ (la.m_djvuSize < lb.m_djvuSize ∨
          (la.m_djvuSize = lb.m_djvuSize ∧ a.lt b = true))))) := by
  unfold OrderByFileSize.precedes
  simp only [ha, hb]
  by_cases hi : ia = ib
  · subst hi
    by_cases hs : la.m_djvuSize = lb.m_djvuSize
    · cases ia <;> cases hl : a.lt b <;> simp [hs, hl]
    · cases ia <;> simp [hs]
  · cases ia <;> cases ib <;> simp at hi ⊢

theorem QSet.count_insert_le {α : Type} [DecidableEq α] (s : QSet α) (a : α) :
    (s.insert a).count ≤ s.count + 1 := by
  unfold QSet.insert QSet.count
  by_cases h : a ∈ s.elems
  · simp [List.insert_of_mem h]
  · simp [List.insert_of_not_mem h]

theorem DjbzDispatcher.capacity_assign (g : GlobalStaticSettings) (now : QDateTime)
    (d : DjbzDispatcher) (page : PageId) (id : String) (dict0 : DjbzDict)
    (h0 : dictAt g now d.m_dictionaries id = dict0)
    (hroom : dict0.m_pages.count < dict0.m_max_pages) :
    ∃ dict1, (assign g now d page id false).m_dictionaries.find? id = some dict1 ∧
      dict1.m_pages.count ≤ dict1.m_max_pages ∧ page ∈ dict1.m_pages.elems ∧
      ∀ k dict, d.m_dictionaries.find? k = some dict →
        ∃ dict2, (assign g now d page id false).m_dictionaries.find? k = some dict2 ∧
          dict2.m_max_pages = dict.m_max_pages := by
  have hle := QSet.count_insert_le dict0.m_pages page
  have hmax : (dict0.addPage page false now).m_max_pages = dict0.m_max_pages := by
    unfold DjbzDict.addPage
    simp only []
    rw [if_neg]
    omega
  refine ⟨dict0.addPage page false now, ?_, ?_, ?_, ?_⟩
  · unfold assign
    simp only [QMap.find?_insert_self, h0]
  · rw [hmax]
    show (dict0.m_pages.insert page).count ≤ _
    omega
  · show page ∈ (dict0.m_pages.insert page).elems
    rw [QSet.mem_insert]
    exact Or.inl rfl
  · intro k dict hk
    unfold assign
    simp only [QMap.find?_insert]
    by_cases hkid : k = id
    · subst hkid
      simp only [if_true, h0]
      refine ⟨_, rfl, ?_⟩
      rw [hmax, ← h0]
      simp [dictAt, hk]
    · simp only [hkid, if_false]
      exact ⟨dict, hk, rfl⟩

theorem filterBatchPagesLoop_append (s : Settings) :
    ∀ (l1 l2 : List PageId) (acc : List PageId × List String),
      filterBatchPagesLoop s (l1 ++ l2) acc =
        filterBatchPagesLoop s l2 (filterBatchPagesLoop s l1 acc) := by
  intro l1
  induction l1 with
  | nil => intro l2 acc; rfl
  | cons p rest ih =>
    intro l2 acc
    obtain ⟨res, known⟩ := acc
    simp only [List.cons_append, filterBatchPagesLoop]
    cases s.getPageParams p with
    | none => exact ih _ _
    | some params =>
      simp only []
      split_ifs
      · exact ih _ _
      · exact ih _ _

theorem filterBatchPagesLoop_spec (s : Settings) :
    ∀ (l : List PageId) (res : List PageId) (known : List String),
      (∃ kept, (filterBatchPagesLoop s l (res, known)).1 = res ++ kept ∧ kept.Sublist l) ∧
      ∀ id, id ∈ (filterBatchPagesLoop s l (res, known)).2 ↔
        id ∈ known ∨ ∃ q ∈ l, ∃ qp, s.getPageParams q = some qp ∧ qp.m_djbzId = id := by
  intro l
  induction l with
  | nil =>
    intro res known
    exact ⟨⟨[], by simp [filterBatchPagesLoop], List.Sublist.refl _⟩,
      fun id => by simp [filterBatchPagesLoop]⟩
  | cons p rest ih =>
    intro res known
    simp only [filterBatchPagesLoop]
    cases hp : s.getPageParams p with
    | none =>
      simp only []
      obtain ⟨⟨kept, hk, hs⟩, hid⟩ := ih (res ++ [p]) known
      refine ⟨⟨p :: kept, by rw [hk]; simp, hs.cons₂ p⟩, ?_⟩
      intro id
      rw [hid id]
      constructor
      · rintro (h | ⟨q, hq, qp, h1, h2⟩)
        · exact Or.inl h
        · exact Or.inr ⟨q, List.mem_cons_of_mem _ hq, qp, h1, h2⟩
      · rintro (h | ⟨q, hq, qp, h1, h2⟩)
        · exact Or.inl h
        · rcases List.mem_cons.mp hq with hq | hq
          · subst hq; rw [hp] at h1; cases h1
          · exact Or.inr ⟨q, hq, qp, h1, h2⟩
    | some params =>
      simp only []
      split_ifs with hc
      · obtain ⟨⟨kept, hk, hs⟩, hid⟩ := ih (res ++ [p]) (List.insert params.m_djbzId known)
        refine ⟨⟨p :: kept, by rw [hk]; simp, hs.cons₂ p⟩, ?_⟩
        intro id
        rw [hid id, List.mem_insert_iff]
        constructor
        · rintro ((h | h) | ⟨q, hq, qp, h1, h2⟩)
          · exact Or.inr ⟨p, List.mem_cons_self _ _, params, hp, h.symm⟩
          · exact Or.inl h
          · exact Or.inr ⟨q, List.mem_cons_of_mem _ hq, qp, h1, h2⟩
        · rintro (h | ⟨q, hq, qp, h1, h2⟩)
          · exact Or.inl (Or.inr h)
          · rcases List.mem_cons.mp hq with hq | hq
            · subst hq; rw [hp] at h1; cases h1
              exact Or.inl (Or.inl h2.symm)
            · exact Or.inr ⟨q, hq, qp, h1, h2⟩
      · obtain ⟨⟨kept, hk, hs⟩, hid⟩ := ih res known
        refine ⟨⟨kept, hk, hs.cons p⟩, ?_⟩
        intro id
        rw [hid id]
        have hknown : params.m_djbzId ∈ known := by
          simp only [Bool.or_eq_true, Bool.not_eq_true', decide_eq_false_iff_not, not_or,
            not_not] at hc
          exact hc.1
        constructor
        · rintro (h | ⟨q, hq, qp, h1, h2⟩)
          · exact Or.inl h
          · exact Or.inr ⟨q, List.mem_cons_of_mem _ hq, qp, h1, h2⟩
        · rintro (h | ⟨q, hq, qp, h1, h2⟩)
          · exact Or.inl h
          · rcases List.mem_cons.mp hq with hq | hq
            · subst hq; rw [hp] at h1; cases h1
              exact Or.inl (h2 ▸ hknown)
            · exact Or.inr ⟨q, hq, qp, h1, h2⟩

theorem filterBatchPages_snoc (s : Settings) (pre : List PageId) (p : PageId) :
    (FirstOfDjbz s pre p →
      filterBatchPages s (pre ++ [p]) = filterBatchPages s pre ++ [p]) ∧
    (¬ FirstOfDjbz s pre p → filterBatchPages s (pre ++ [p]) = filterBatchPages s pre) := by
  have hknown := (filterBatchPagesLoop_spec s pre [] []).2
  unfold filterBatchPages FirstOfDjbz
  rw [filterBatchPagesLoop_append]
  generalize hr : filterBatchPagesLoop s pre ([], []) = r at hknown
  obtain ⟨res, known⟩ := r
  simp only [filterBatchPagesLoop]
  cases hp : s.getPageParams p with
  | none => simp
  | some params =>
    simp only []
    have hk : params.m_djbzId ∈ known ↔
        ∃ q ∈ pre, ∃ qp, s.getPageParams q = some qp ∧ qp.m_djbzId = params.m_djbzId := by
      rw [hknown]; simp
    by_cases hd : params.m_djbzId = dummyDjbzId
    · simp [hd, isDummyDjbzId]
    · by_cases hin : params.m_djbzId ∈ known
      · have hex := hk.mp hin
        simp only [hin, isDummyDjbzId, hd, decide_True, decide_False, Bool.not_true,
          Bool.or_self, Bool.false_eq_true, if_false, false_or]
        constructor
        · intro h
          obtain ⟨q, hq, qp, h1, h2⟩ := hex
          exact absurd h2 (h q hq qp h1)
        · intro _; trivial
      · have hnex : ∀ q ∈ pre, ∀ qp, s.getPageParams q = some qp →
            qp.m_djbzId ≠ params.m_djbzId := by
          intro q hq qp h1 h2
          exact hin (hk.mpr ⟨q, hq, qp, h1, h2⟩)
        simp only [hin, decide_False, Bool.not_false, Bool.true_or, if_true]
        constructor
        · intro _; trivial
        · intro h; exact absurd (Or.inr hnex) h

theorem filterBatchPages_sublist (s : Settings) (pages : List PageId) :
    (filterBatchPages s pages).Sublist pages := by
  obtain ⟨kept, hk, hs⟩ := (filterBatchPagesLoop_spec s pages [] []).1
  unfold filterBatchPages
  rw [hk]
  simpa using hs

theorem filterBatchPages_append (s : Settings) (l1 l2 : List PageId) :
    ∃ kept, filterBatchPages s (l1 ++ l2) = filterBatchPages s l1 ++ kept ∧
      kept.Sublist l2 := by
  unfold filterBatchPages
  rw [filterBatchPagesLoop_append]
  generalize filterBatchPagesLoop s l1 ([], []) = r
  obtain ⟨res, known⟩ := r
  exact (filterBatchPagesLoop_spec s l2 res known).1

theorem Task.needPageReprocess_of_revision (env : Env) (t : Task) (q : PageId)
    (params : Params) (o : OutputParams) (hq : t.m_ptrSettings.getPageParams q = some params)
    (ho : params.m_outputParams = some o)
    (hrev : (t.m_refDjbzDispatcher.djbzDict env.g env.now
      (t.m_refDjbzDispatcher.findDjbzForPage q)).m_last_changed ≠ o.m_djbzRevision) :
    Task.needPageReprocess env t q = true := by
  unfold Task.needPageReprocess
  simp only [hq, ho]
  split_ifs
  · rfl
  · rfl
  · rfl
  · simp only [OutputParams.matches, OutputParams.new, Bool.or_eq_true, Bool.not_eq_true',
      Bool.not_eq_false', decide_eq_true_eq]
    left
    left; left; right
    exact fun h => hrev h.symm

theorem DjbzDispatcher.revision_setToDjbz (g : GlobalStaticSettings) (now : QDateTime)
    (d : DjbzDispatcher) (p : PageId) (id : String) (h : d.findDjbzForPage p ≠ id) :
    ((setToDjbz g now d p id false).djbzDict g now id).m_last_changed = now := by
  unfold setToDjbz
  simp only [findDjbzForPage_touchPage, h, ne_eq, not_false_eq_true, if_true]
  unfold assign djbzDict
  simp only [QMap.find?_insert_self]
  rfl

theorem DjbzDispatcher.revision_deleteFromDjbz (g : GlobalStaticSettings) (now : QDateTime)
    (d : DjbzDispatcher) (p : PageId) (id : String) (h : d.m_page_to_dict p = some id)
    (hm : p ∈ d.listPagesFromDict id) :
    ((deleteFromDjbz g now d p).djbzDict g now id).m_last_changed = now := by
  have hm2 := (mem_dictAt g now d id p).mpr hm
  unfold deleteFromDjbz djbzDict
  simp only [h, QMap.find?_insert_self]
  unfold DjbzDict.removePage
  simp [QSet.remove, hm2]

namespace Task

theorem addToMinidjvu_eq (es : ExportSuggestion) (rj : Bool) (w : WorkSets) (p : PageId) :
    addToMinidjvu es rj w p =
      { w with
        to_minidjvu := if es.hasBWLayer && !rj then w.to_minidjvu.insert p else w.to_minidjvu
        to_minidjvu_cached :=
          if es.hasBWLayer && rj then w.to_minidjvu_cached.insert p else w.to_minidjvu_cached } := by
  unfold addToMinidjvu
  cases es.hasBWLayer <;> cases rj <;> rfl

theorem addToC44_eq (es : ExportSuggestion) (rb : Bool) (w : WorkSets) (p : PageId) :
    addToC44 es rb w p =
      { w with
        to_c44 := if es.hasColorLayer && !rb then w.to_c44.insert p else w.to_c44
        to_c44_cached :=
          if es.hasColorLayer && rb then w.to_c44_cached.insert p else w.to_c44_cached } := by
  unfold addToC44
  cases es.hasColorLayer <;> cases rb <;> rfl

theorem addToExport_eq (es : ExportSuggestion) (rj rb dc : Bool) (w : WorkSets) (p : PageId) :
    addToExport es rj rb dc w p =
      { w with
        to_export :=
          if es.hasColorLayer && es.hasBWLayer && (!rb || !rj) then w.to_export.insert p
          else w.to_export
        to_minidjvu :=
          if !es.hasBWLayer && !es.hasColorLayer && !dc then w.to_minidjvu.insert p
          else w.to_minidjvu
        to_minidjvu_cached :=
          if !es.hasBWLayer && !es.hasColorLayer && dc then w.to_minidjvu_cached.insert p
          else w.to_minidjvu_cached } := by
  unfold addToExport
  cases es.hasColorLayer <;> cases es.hasBWLayer <;> cases rb <;> cases rj <;> cases dc <;> rfl

theorem addToAssemble_eq (ra dc : Bool) (w : WorkSets) (p : PageId) :
    addToAssemble ra dc w p =
      { w with to_assemble := if ra || !dc then w.to_assemble.insert p else w.to_assemble } := by
  unfold addToAssemble
  cases ra <;> cases dc <;> rfl

theorem addToPostprocess_eq (post : Bool × Bool) (w : WorkSets) (p : PageId) :
    addToPostprocess post w p =
      { w with
        to_postprocess := if post.1 then w.to_postprocess.insert p else w.to_postprocess
        to_assemble := if post.1 && post.2 then w.to_assemble.insert p else w.to_assemble } := by
  unfold addToPostprocess
  cases post.1 <;> cases post.2 <;> rfl

theorem partitionSets_to_export (es : ExportSuggestion) (rj rb dc ra : Bool) (post : Bool × Bool)
    (w : WorkSets) (p q : PageId) :
    q ∈ (partitionSets es rj rb dc ra post w p).to_export.elems ↔
      q ∈ w.to_export.elems ∨
        (q = p ∧ es.hasColorLayer = true ∧ es.hasBWLayer = true ∧ (rb = false ∨ rj = false)) := by
  simp only [partitionSets, addToMinidjvu_eq, addToC44_eq, addToExport_eq, addToAssemble_eq,
    addToPostprocess_eq]
  cases es.hasColorLayer <;> cases es.hasBWLayer <;> cases rb <;> cases rj <;>
    simp [QSet.mem_insert, or_comm]

theorem partitionSets_to_c44 (es : ExportSuggestion) (rj rb dc ra : Bool) (post : Bool × Bool)
    (w : WorkSets) (p q : PageId) :
    q ∈ (partitionSets es rj rb dc ra post w p).to_c44.elems ↔
      q ∈ w.to_c44.elems ∨ (q = p ∧ es.hasColorLayer = true ∧ rb = false) := by
  simp only [partitionSets, addToMinidjvu_eq, addToC44_eq, addToExport_eq, addToAssemble_eq,
    addToPostprocess_eq]
  cases es.hasColorLayer <;> cases rb <;> simp [QSet.mem_insert, or_comm]

theorem partitionSets_to_c44_cached (es : ExportSuggestion) (rj rb dc ra : Bool)
    (post : Bool × Bool) (w : WorkSets) (p q : PageId) :
    q ∈ (partitionSets es rj rb dc ra post w p).to_c44_cached.elems ↔
      q ∈ w.to_c44_cached.elems ∨ (q = p ∧ es.hasColorLayer = true ∧ rb = true) := by
  simp only [partitionSets, addToMinidjvu_eq, addToC44_eq, addToExport_eq, addToAssemble_eq,
    addToPostprocess_eq]
  cases es.hasColorLayer <;> cases rb <;> simp [QSet.mem_insert, or_comm]

theorem partitionSets_to_minidjvu (es : ExportSuggestion) (rj rb dc ra : Bool)
    (post : Bool × Bool) (w : WorkSets) (p q : PageId) :
    q ∈ (partitionSets es rj rb dc ra post w p).to_minidjvu.elems ↔
      q ∈ w.to_minidjvu.elems ∨
        (q = p ∧ ((es.hasBWLayer = true ∧ rj = false) ∨
          (es.hasBWLayer = false ∧ es.hasColorLayer = false ∧ dc = false))) := by
  simp only [partitionSets, addToMinidjvu_eq, addToC44_eq, addToExport_eq, addToAssemble_eq,
    addToPostprocess_eq]
  cases es.hasColorLayer <;> cases es.hasBWLayer <;> cases rj <;> cases dc <;>
    simp [QSet.mem_insert, or_comm]

theorem partitionSets_to_minidjvu_cached (es : ExportSuggestion) (rj rb dc ra : Bool)
    (post : Bool × Bool) (w : WorkSets) (p q : PageId) :
    q ∈ (partitionSets es rj rb dc ra post w p).to_minidjvu_cached.elems ↔
      q ∈ w.to_minidjvu_cached.elems ∨
        (q = p ∧ ((es.hasBWLayer = true ∧ rj = true) ∨
          (es.hasBWLayer = false ∧ es.hasColorLayer = false ∧ dc = true))) := by
  simp only [partitionSets, addToMinidjvu_eq, addToC44_eq, addToExport_eq, addToAssemble_eq,
    addToPostprocess_eq]
  cases es.hasColorLayer <;> cases es.hasBWLayer <;> cases rj <;> cases dc <;>
    simp [QSet.mem_insert, or_comm]

theorem partitionSets_to_assemble (es : ExportSuggestion) (rj rb dc ra : Bool)
    (post : Bool × Bool) (w : WorkSets) (p q : PageId) :
    q ∈ (partitionSets es rj rb dc ra post w p).to_assemble.elems ↔
      q ∈ w.to_assemble.elems ∨
        (q = p ∧ (ra = true ∨ dc = false ∨ (post.1 = true ∧ post.2 = true))) := by
  simp only [partitionSets, addToMinidjvu_eq, addToC44_eq, addToExport_eq, addToAssemble_eq,
    addToPostprocess_eq]
  cases ra <;> cases dc <;> cases post.1 <;> cases post.2 <;> simp [QSet.mem_insert, or_comm]

theorem partitionSets_to_postprocess (es : ExportSuggestion) (rj rb dc ra : Bool)
    (post : Bool × Bool) (w : WorkSets) (p q : PageId) :
    q ∈ (partitionSets es rj rb dc ra post w p).to_postprocess.elems ↔
      q ∈ w.to_postprocess.elems ∨ (q = p ∧ post.1 = true) := by
  simp only [partitionSets, addToMinidjvu_eq, addToC44_eq, addToExport_eq, addToAssemble_eq,
    addToPostprocess_eq]
  cases post.1 <;> simp [QSet.mem_insert, or_comm]

end Task

namespace Task

theorem partitionPage_eq (penv : ProcessEnv) (sug : ExportSuggestions) (c : Bool)
    (s : Settings) (w : WorkSets) (p : PageId) (stored : Params)
    (h : s.getPageParams p = some stored) :
    partitionPage penv sug c (s, w) p =
      some (if stored.m_forceReprocess &&& Params.RegeneratePage ≠ 0 then
          s.setPageParams p (roundParams stored) else s,
        partitionSets (sug p) (reuseJb2 penv (sug p) c stored) (reuseBg44 penv (sug p) stored)
          (penv.isDjVuCached (roundParams stored)) (requireReassembling penv (roundParams stored))
          (requirePostprocessing penv (roundParams stored)) w p) := by
  unfold partitionPage
  simp only [h]
  by_cases hf : stored.m_forceReprocess &&& Params.RegeneratePage ≠ 0
  · simp [roundParams, reuseJb2, reuseBg44, mayReuse, hf]
  · simp [roundParams, reuseJb2, reuseBg44, mayReuse, hf]

theorem roundSets_eq (penv : ProcessEnv) (sug : ExportSuggestions) (c : Bool)
    (s : Settings) (p : PageId) (stored : Params) (h : s.getPageParams p = some stored) :
    roundSets penv sug c s p =
      partitionSets (sug p) (reuseJb2 penv (sug p) c stored) (reuseBg44 penv (sug p) stored)
        (penv.isDjVuCached (roundParams stored)) (requireReassembling penv (roundParams stored))
        (requirePostprocessing penv (roundParams stored)) WorkSets.empty p := by
  unfold roundSets
  rw [partitionPage_eq penv sug c s WorkSets.empty p stored h]

theorem roundSets_congr (penv : ProcessEnv) (sug : ExportSuggestions) (c : Bool)
    (s s1 : Settings) (p : PageId) (h : s1.getPageParams p = s.getPageParams p) :
    roundSets penv sug c s1 p = roundSets penv sug c s p := by
  cases hp : s.getPageParams p with
  | none =>
    rw [hp] at h
    unfold roundSets partitionPage
    simp only [h, hp]
  | some stored =>
    rw [hp] at h
    rw [roundSets_eq penv sug c s p stored hp, roundSets_eq penv sug c s1 p stored h]

theorem collect_cons (p : PageId) (rest : List PageId)
    (Q Q1 m0 m1 m2 : PageId → Prop) (hQ : ∀ q ∈ rest, (Q1 q ↔ Q q))
    (h1 : ∀ q, m1 q ↔ m0 q ∨ (q = p ∧ Q p))
    (h2 : ∀ q, m2 q ↔ m1 q ∨ (q ∈ rest ∧ Q1 q)) :
    ∀ q, m2 q ↔ m0 q ∨ (q ∈ p :: rest ∧ Q q) := by
  intro q
  rw [h2, h1, List.mem_cons]
  constructor
  · rintro ((h | ⟨h, h3⟩) | ⟨h, h3⟩)
    · exact Or.inl h
    · exact Or.inr ⟨Or.inl h, h ▸ h3⟩
    · exact Or.inr ⟨Or.inr h, (hQ q h).mp h3⟩
  · rintro (h | ⟨h | h, h3⟩)
    · exact Or.inl (Or.inl h)
    · exact Or.inl (Or.inr ⟨h, h ▸ h3⟩)
    · exact Or.inr ⟨h, (hQ q h).mpr h3⟩

theorem partitionLoop_collects (penv : ProcessEnv) (sug : ExportSuggestions) (c : Bool) :
    ∀ (pages : List PageId) (s : Settings) (w : WorkSets), pages.Nodup →
      (∀ p ∈ pages, s.getPageParams p ≠ none) →
      ∃ s1 w1, partitionLoop penv sug c pages (s, w) = some (s1, w1) ∧
        (∀ q, q ∉ pages → s1.getPageParams q = s.getPageParams q) ∧
        (∀ p ∈ pages, ∀ stored, s.getPageParams p = some stored →
          s1.getPageParams p = some (roundParams stored)) ∧
        (∀ q, q ∈ w1.to_export.elems ↔ q ∈ w.to_export.elems ∨
          (q ∈ pages ∧ q ∈ (roundSets penv sug c s q).to_export.elems)) ∧
        (∀ q, q ∈ w1.to_c44.elems ↔ q ∈ w.to_c44.elems ∨
          (q ∈ pages ∧ q ∈ (roundSets penv sug c s q).to_c44.elems)) ∧
        (∀ q, q ∈ w1.to_c44_cached.elems ↔ q ∈ w.to_c44_cached.elems ∨
          (q ∈ pages ∧ q ∈ (roundSets penv sug c s q).to_c44_cached.elems)) ∧
        (∀ q, q ∈ w1.to_minidjvu.elems ↔ q ∈ w.to_minidjvu.elems ∨
          (q ∈ pages ∧ q ∈ (roundSets penv sug c s q).to_minidjvu.elems)) ∧
        (∀ q, q ∈ w1.to_minidjvu_cached.elems ↔ q ∈ w.to_minidjvu_cached.elems ∨
          (q ∈ pages ∧ q ∈ (roundSets penv sug c s q).to_minidjvu_cached.elems)) ∧
        (∀ q, q ∈ w1.to_assemble.elems ↔ q ∈ w.to_assemble.elems ∨
          (q ∈ pages ∧ q ∈ (roundSets penv sug c s q).to_assemble.elems)) ∧
        (∀ q, q ∈ w1.to_postprocess.elems ↔ q ∈ w.to_postprocess.elems ∨
          (q ∈ pages ∧ q ∈ (roundSets penv sug c s q).to_postprocess.elems)) := by
  intro pages
  induction pages with
  | nil =>
    intro s w _ _
    refine ⟨s, w, rfl, fun _ _ => rfl, fun p hp => by simp at hp, ?_, ?_, ?_, ?_, ?_, ?_, ?_⟩ <;>
      simp
  | cons p rest ih =>
    intro s w hnd h
    have hprest : p ∉ rest := (List.nodup_cons.mp hnd).1
    cases hp : s.getPageParams p with
    | none => exact absurd hp (h p (List.mem_cons_self _ _))
    | some stored =>
      obtain ⟨s1, w1, h1, _, ho1, hp1, _⟩ := partitionPage_spec penv sug c s w p stored hp
      have hw1 := partitionPage_eq penv sug c s w p stored hp
      rw [h1] at hw1
      have hw1b : w1 = _ := congrArg Prod.snd (Option.some.inj hw1)
      simp only [] at hw1b
      have hr := roundSets_eq penv sug c s p stored hp
      have hs1 : ∀ q ∈ rest, s1.getPageParams q = s.getPageParams q := fun q hq =>
        ho1 q (fun hqp => hprest (hqp ▸ hq))
      obtain ⟨s2, w2, h2, ho2, hp2, e1, e2, e3, e4, e5, e6, e7⟩ := ih s1 w1
        (List.nodup_cons.mp hnd).2
        (fun q hq => by rw [hs1 q hq]; exact h q (List.mem_cons_of_mem _ hq))
      have hcg : ∀ q ∈ rest, roundSets penv sug c s1 q = roundSets penv sug c s q :=
        fun q hq => roundSets_congr penv sug c s s1 q (hs1 q hq)
      refine ⟨s2, w2, ?_, ?_, ?_, ?_, ?_, ?_, ?_, ?_, ?_, ?_⟩
      · unfold partitionLoop
        rw [h1]
        exact h2
      · intro q hq
        rw [ho2 q (fun hh => hq (List.mem_cons_of_mem _ hh)),
          ho1 q (fun hh => hq (hh ▸ List.mem_cons_self _ _))]
      · intro q hq st hst
        rcases List.mem_cons.mp hq with hqp | hqr
        · subst hqp
          rw [ho2 q hprest, hp1]
          rw [hp] at hst
          rw [Option.some.inj hst]
          rfl
        · exact hp2 q hqr st (by rw [hs1 q hqr]; exact hst)
      · refine collect_cons p rest
          (fun q => q ∈ (roundSets penv sug c s q).to_export.elems)
          (fun q => q ∈ (roundSets penv sug c s1 q).to_export.elems) _ _ _
          (fun q hq => by simp only [hcg q hq]) ?_ e1
        intro q
        beta_reduce
        rw [hw1b, hr, partitionSets_to_export, partitionSets_to_export]
        simp [WorkSets.empty, QSet.empty]
      · refine collect_cons p rest
          (fun q => q ∈ (roundSets penv sug c s q).to_c44.elems)
          (fun q => q ∈ (roundSets penv sug c s1 q).to_c44.elems) _ _ _
          (fun q hq => by simp only [hcg q hq]) ?_ e2
        intro q
        beta_reduce
        rw [hw1b, hr, partitionSets_to_c44, partitionSets_to_c44]
        simp [WorkSets.empty, QSet.empty]
      · refine collect_cons p rest
          (fun q => q ∈ (roundSets penv sug c s q).to_c44_cached.elems)
          (fun q => q ∈ (roundSets penv sug c s1 q).to_c44_cached.elems) _ _ _
          (fun q hq => by simp only [hcg q hq]) ?_ e3
        intro q
        beta_reduce
        rw [hw1b, hr, partitionSets_to_c44_cached, partitionSets_to_c44_cached]
        simp [WorkSets.empty, QSet.empty]
      · refine collect_cons p rest
          (fun q => q ∈ (roundSets penv sug c s q).to_minidjvu.elems)
          (fun q => q ∈ (roundSets penv sug c s1 q).to_minidjvu.elems) _ _ _
          (fun q hq => by simp only [hcg q hq]) ?_ e4
        intro q
        beta_reduce
        rw [hw1b, hr, partitionSets_to_minidjvu, partitionSets_to_minidjvu]
        simp [WorkSets.empty, QSet.empty]
      · refine collect_cons p rest
          (fun q => q ∈ (roundSets penv sug c s q).to_minidjvu_cached.elems)
          (fun q => q ∈ (roundSets penv sug c s1 q).to_minidjvu_cached.elems) _ _ _
          (fun q hq => by simp only [hcg q hq]) ?_ e5
        intro q
        beta_reduce
        rw [hw1b, hr, partitionSets_to_minidjvu_cached, partitionSets_to_minidjvu_cached]
        simp [WorkSets.empty, QSet.empty]
      · refine collect_cons p rest
          (fun q => q ∈ (roundSets penv sug c s q).to_assemble.elems)
          (fun q => q ∈ (roundSets penv sug c s1 q).to_assemble.elems) _ _ _
          (fun q hq => by simp only [hcg q hq]) ?_ e6
        intro q
        beta_reduce
        rw [hw1b, hr, partitionSets_to_assemble, partitionSets_to_assemble]
        simp [WorkSets.empty, QSet.empty]
      · refine collect_cons p rest
          (fun q => q ∈ (roundSets penv sug c s q).to_postprocess.elems)
          (fun q => q ∈ (roundSets penv sug c s1 q).to_postprocess.elems) _ _ _
          (fun q hq => by simp only [hcg q hq]) ?_ e7
        intro q
        beta_reduce
        rw [hw1b, hr, partitionSets_to_postprocess, partitionSets_to_postprocess]
        simp [WorkSets.empty, QSet.empty]

end Task

theorem isJB2cached_iff (fs : FileSystem) (info : SourceImagesInfo) :
    isJB2cached fs info = true ↔
      info.m_export_jb2Filename ≠ "" ∧
        ∃ fi, fs info.m_export_jb2Filename = some fi ∧ fi.size = info.m_export_jb2Filesize := by
  unfold isJB2cached
  by_cases hn : info.m_export_jb2Filename = ""
  · simp [hn]
  · cases hf : fs info.m_export_jb2Filename with
    | none => simp [hn]
    | some fi => simp [hn]

theorem isBG44cached_iff (fs : FileSystem) (info : SourceImagesInfo) :
    isBG44cached fs info = true ↔
      info.m_export_bg44Filename ≠ "" ∧
        ∃ fi, fs info.m_export_bg44Filename = some fi ∧ fi.size = info.m_export_bg44Filesize := by
  unfold isBG44cached
  by_cases hn : info.m_export_bg44Filename = ""
  · simp [hn]
  · cases hf : fs info.m_export_bg44Filename with
    | none => simp [hn]
    | some fi => simp [hn]

namespace Task

theorem roundParams_of_clear (stored : Params)
    (h : stored.m_forceReprocess &&& Params.RegeneratePage = 0) : roundParams stored = stored := by
  unfold roundParams
  simp [h]

theorem reuseJb2_iff (penv : ProcessEnv) (es : ExportSuggestion) (c : Bool) (stored : Params)
    (hes : es.hasBWLayer = true) :
    reuseJb2 penv es c stored = true ↔
      stored.m_forceReprocess &&& Params.RegeneratePage = 0 ∧
      (∃ o, stored.m_outputParams = some o ∧ penv.matchJb2Part stored o.m_params = true) ∧
      isJB2cached penv.fs stored.m_sourceImagesInfo = true ∧ c = true := by
  unfold reuseJb2 mayReuse canUseCache
  by_cases hf : stored.m_forceReprocess &&& Params.RegeneratePage = 0
  · cases ho : stored.m_outputParams with
    | none => simp [hes, hf]
    | some o =>
      simp only [hes, hf, ne_eq, not_true_eq_false, if_false, Bool.true_and, Bool.and_eq_true,
        true_and, Option.some.injEq, exists_eq_left']
      tauto
  · simp [hes, hf]

theorem reuseBg44_iff (penv : ProcessEnv) (es : ExportSuggestion) (stored : Params)
    (hes : es.hasColorLayer = true) :
    reuseBg44 penv es stored = true ↔
      stored.m_forceReprocess &&& Params.RegeneratePage = 0 ∧
      (∃ o, stored.m_outputParams = some o ∧ penv.matchBg44Part stored o.m_params = true) ∧
      isBG44cached penv.fs stored.m_sourceImagesInfo = true := by
  unfold reuseBg44 mayReuse canUseCache
  by_cases hf : stored.m_forceReprocess &&& Params.RegeneratePage = 0
  · cases ho : stored.m_outputParams with
    | none => simp [hes, hf]
    | some o =>
      simp only [hes, hf, ne_eq, not_true_eq_false, if_false, Bool.true_and, Bool.and_eq_true,
        true_and, Option.some.injEq, exists_eq_left']
  · simp [hes, hf]

theorem partitionLoop_sets (penv : ProcessEnv) (sug : ExportSuggestions) (c : Bool)
    (pages : List PageId) (s : Settings) (hnd : pages.Nodup)
    (hall : ∀ p ∈ pages, s.getPageParams p ≠ none) :
    ∃ s1 w, partitionLoop penv sug c pages (s, WorkSets.empty) = some (s1, w) ∧
      (∀ q, q ∉ pages → s1.getPageParams q = s.getPageParams q) ∧
      (∀ p ∈ pages, ∀ stored, s.getPageParams p = some stored →
        s1.getPageParams p = some (roundParams stored)) ∧
      (∀ q ∈ w.pages, q ∈ pages) ∧
      (∀ p ∈ pages, ∀ stored, s.getPageParams p = some stored →
        (p ∈ w.to_export.elems ↔
          (sug p).hasColorLayer = true ∧ (sug p).hasBWLayer = true ∧
            (reuseBg44 penv (sug p) stored = false ∨ reuseJb2 penv (sug p) c stored = false)) ∧
        (p ∈ w.to_c44.elems ↔
          (sug p).hasColorLayer = true ∧ reuseBg44 penv (sug p) stored = false) ∧
        (p ∈ w.to_c44_cached.elems ↔
          (sug p).hasColorLayer = true ∧ reuseBg44 penv (sug p) stored = true) ∧
        (p ∈ w.to_minidjvu.elems ↔
          ((sug p).hasBWLayer = true ∧ reuseJb2 penv (sug p) c stored = false) ∨
            ((sug p).hasBWLayer = false ∧ (sug p).hasColorLayer = false ∧
              penv.isDjVuCached (roundParams stored) = false)) ∧
        (p ∈ w.to_minidjvu_cached.elems ↔
          ((sug p).hasBWLayer = true ∧ reuseJb2 penv (sug p) c stored = true) ∨
            ((sug p).hasBWLayer = false ∧ (sug p).hasColorLayer = false ∧
              penv.isDjVuCached (roundParams stored) = true)) ∧
        (p ∈ w.to_assemble.elems ↔
          requireReassembling penv (roundParams stored) = true ∨
            penv.isDjVuCached (roundParams stored) = false ∨
            ((requirePostprocessing penv (roundParams stored)).1 = true ∧
              (requirePostprocessing penv (roundParams stored)).2 = true)) ∧
        (p ∈ w.to_postprocess.elems ↔
          (requirePostprocessing penv (roundParams stored)).1 = true)) := by
  obtain ⟨s1, w, h1, ho, hp, e1, e2, e3, e4, e5, e6, e7⟩ :=
    partitionLoop_collects penv sug c pages s WorkSets.empty hnd hall
  obtain ⟨s1b, wb, h1b, _, _, _, hsub⟩ := partitionLoop_spec penv sug c pages s WorkSets.empty hall
  rw [h1] at h1b
  obtain ⟨rfl, rfl⟩ := Prod.mk.inj (Option.some.inj h1b)
  refine ⟨s1, w, h1, ho, hp, ?_, ?_⟩
  · intro q hq
    rcases hsub q hq with h | h
    · exact h
    · simp [WorkSets.pages, WorkSets.empty, QSet.empty] at h
  · intro p hpm stored hst
    have hr := roundSets_eq penv sug c s p stored hst
    refine ⟨?_, ?_, ?_, ?_, ?_, ?_, ?_⟩
    · rw [e1, hr, partitionSets_to_export]
      simp [WorkSets.empty, QSet.empty, hpm]
    · rw [e2, hr, partitionSets_to_c44]
      simp [WorkSets.empty, QSet.empty, hpm]
    · rw [e3, hr, partitionSets_to_c44_cached]
      simp [WorkSets.empty, QSet.empty, hpm]
    · rw [e4, hr, partitionSets_to_minidjvu]
      simp [WorkSets.empty, QSet.empty, hpm]
    · rw [e5, hr, partitionSets_to_minidjvu_cached]
      simp [WorkSets.empty, QSet.empty, hpm]
    · rw [e6, hr, partitionSets_to_assemble]
      simp [WorkSets.empty, QSet.empty, hpm]
    · rw [e7, hr, partitionSets_to_postprocess]
      simp [WorkSets.empty, QSet.empty, hpm]

end Task

theorem QSet.isEmpty_iff {α : Type} [DecidableEq α] (s : QSet α) :
    s.isEmpty = true ↔ s.elems = [] := by
  unfold QSet.isEmpty
  exact List.isEmpty_iff

theorem WorkSets.mem_seeded_to_assemble (w : WorkSets) (q : PageId) :
    q ∈ w.seeded.to_assemble.elems ↔
      q ∈ w.to_assemble.elems ∨ q ∈ w.to_c44.elems ∨ q ∈ w.to_minidjvu.elems := by
  unfold WorkSets.seeded
  simp only [QSet.mem_unite]
  tauto

theorem WorkSets.seeded_to_export (w : WorkSets) : w.seeded.to_export = w.to_export := rfl

theorem WorkSets.seeded_to_c44 (w : WorkSets) : w.seeded.to_c44 = w.to_c44 := rfl

theorem WorkSets.seeded_to_c44_cached (w : WorkSets) :
    w.seeded.to_c44_cached = w.to_c44_cached := rfl

theorem WorkSets.seeded_to_minidjvu (w : WorkSets) : w.seeded.to_minidjvu = w.to_minidjvu := rfl

theorem WorkSets.seeded_to_minidjvu_cached (w : WorkSets) :
    w.seeded.to_minidjvu_cached = w.to_minidjvu_cached := rfl

theorem WorkSets.seeded_to_postprocess (w : WorkSets) :
    w.seeded.to_postprocess = w.to_postprocess := rfl

namespace Task

theorem foldl_insertIf_mem_iff (c : PageId → Bool) (x : PageId) :
    ∀ (l : List PageId) (acc : QSet PageId),
      x ∈ (l.foldl (fun acc p => if c p then acc.insert p else acc) acc).elems ↔
        x ∈ acc.elems ∨ (x ∈ l ∧ c x = true)
  | [], acc => by simp
  | p :: rest, acc => by
    simp only [List.foldl_cons, List.mem_cons]
    rw [foldl_insertIf_mem_iff c x rest]
    by_cases hc : c p = true
    · simp only [hc, if_true, QSet.mem_insert]
      constructor
      · rintro ((h | h) | h)
        · exact Or.inr ⟨Or.inl h, h ▸ hc⟩
        · exact Or.inl h
        · exact Or.inr ⟨Or.inr h.1, h.2⟩
      · rintro (h | ⟨h | h, h2⟩)
        · exact Or.inl (Or.inr h)
        · exact Or.inl (Or.inl h)
        · exact Or.inr ⟨h, h2⟩
    · simp only [hc, if_false]
      constructor
      · rintro (h | h)
        · exact Or.inl h
        · exact Or.inr ⟨Or.inr h.1, h.2⟩
      · rintro (h | ⟨h | h, h2⟩)
        · exact Or.inl h
        · exact absurd (h ▸ h2) hc
        · exact Or.inr ⟨h, h2⟩

theorem encodeJb2_sets (run : Run) (t : Task) (w : WorkSets) :
    (encodeJb2 run t w).2 =
      if !w.to_minidjvu.isEmpty then
        { (if !w.to_minidjvu_cached.isEmpty then
            { w with
              to_minidjvu := w.to_minidjvu.unite w.to_minidjvu_cached
              to_assemble := w.to_assemble.unite w.to_minidjvu_cached
              to_minidjvu_cached := QSet.empty }
          else w) with
          to_c44 :=
            (if !w.to_minidjvu_cached.isEmpty then
              { w with
                to_minidjvu := w.to_minidjvu.unite w.to_minidjvu_cached
                to_assemble := w.to_assemble.unite w.to_minidjvu_cached
                to_minidjvu_cached := QSet.empty }
            else w).to_c44_cached.elems.foldl
              (fun acc p =>
                if (if !w.to_minidjvu_cached.isEmpty then
                  { w with
                    to_minidjvu := w.to_minidjvu.unite w.to_minidjvu_cached
                    to_assemble := w.to_assemble.unite w.to_minidjvu_cached
                    to_minidjvu_cached := QSet.empty }
                else w).to_minidjvu.contains p then acc.insert p else acc)
              (if !w.to_minidjvu_cached.isEmpty then
                { w with
                  to_minidjvu := w.to_minidjvu.unite w.to_minidjvu_cached
                  to_assemble := w.to_assemble.unite w.to_minidjvu_cached
                  to_minidjvu_cached := QSet.empty }
              else w).to_c44 }
      else w := by
  unfold encodeJb2
  simp only []
  split_ifs <;> first | rfl | (split <;> rfl)

theorem encodeJb2_idle (run : Run) (t : Task) (w : WorkSets)
    (h : w.to_minidjvu.isEmpty = true) : (encodeJb2 run t w).2 = w := by
  rw [encodeJb2_sets]
  simp [h]

theorem encodeJb2_invoked (run : Run) (t : Task) (w : WorkSets)
    (h : w.to_minidjvu.isEmpty = false) :
    (∀ q, q ∈ (encodeJb2 run t w).2.to_minidjvu.elems ↔
      q ∈ w.to_minidjvu.elems ∨ q ∈ w.to_minidjvu_cached.elems) ∧
    (encodeJb2 run t w).2.to_minidjvu_cached.elems = [] ∧
    (∀ q, q ∈ (encodeJb2 run t w).2.to_assemble.elems ↔
      q ∈ w.to_assemble.elems ∨ q ∈ w.to_minidjvu_cached.elems) ∧
    (∀ q, q ∈ (encodeJb2 run t w).2.to_c44.elems ↔
      q ∈ w.to_c44.elems ∨
        (q ∈ w.to_c44_cached.elems ∧ q ∈ (encodeJb2 run t w).2.to_minidjvu.elems)) ∧
    (encodeJb2 run t w).2.to_postprocess = w.to_postprocess ∧
    (encodeJb2 run t w).2.to_export = w.to_export := by
  rw [encodeJb2_sets]
  simp only [h, Bool.not_false, if_true]
  by_cases hc : w.to_minidjvu_cached.isEmpty = true
  · have hce := (QSet.isEmpty_iff _).mp hc
    simp only [hc, Bool.not_true, Bool.false_eq_true, if_false]
    refine ⟨fun q => by simp [hce], hce, fun q => by simp [hce], ?_, by simp, by simp⟩
    intro q
    rw [foldl_insertIf_mem_iff]
    simp [QSet.contains]
  · have hc2 : w.to_minidjvu_cached.isEmpty = false := by
      cases hh : w.to_minidjvu_cached.isEmpty
      · rfl
      · exact absurd hh hc
    simp only [hc2, Bool.not_false, if_true]
    refine ⟨fun q => QSet.mem_unite _ _ q, rfl, fun q => QSet.mem_unite _ _ q, ?_, by simp, by simp⟩
    intro q
    rw [foldl_insertIf_mem_iff]
    simp [QSet.contains]

end Task

namespace Task

theorem assemble_idle_prop (X C M : Prop) : (X ∨ C ∨ M) ↔ (C ∨ M ∨ X) := by tauto

theorem assemble_invoked_prop (X C M CC MC : Prop) :
    ((X ∨ C ∨ M) ∨ MC) ↔ ((C ∨ CC ∧ (M ∨ MC)) ∨ (M ∨ MC) ∨ X) := by tauto

theorem requireReassembling_iff (penv : ProcessEnv) (params : Params) :
    requireReassembling penv params = true ↔
      params.m_outputParams = none ∨
        ∃ o, params.m_outputParams = some o ∧ penv.matchAssemblePart params o.m_params = false := by
  unfold requireReassembling
  cases params.m_outputParams with
  | none => simp
  | some o => simp

theorem forceReassembling_iff (penv : ProcessEnv) (params : Params)
    (htitle : ∀ (a : Params) (b : ParamsData), a.m_title ≠ b.m_title →
      penv.matchPostprocessPart a b = false) :
    ((requirePostprocessing penv params).1 = true ∧ (requirePostprocessing penv params).2 = true) ↔
      ∃ o, params.m_outputParams = some o ∧ params.m_title = "" ∧ o.m_params.m_title ≠ "" := by
  unfold requirePostprocessing
  cases params.m_outputParams with
  | none => simp
  | some o =>
    simp only [Bool.and_eq_true, Bool.not_eq_true', decide_eq_true_eq, Option.some.injEq,
      exists_eq_left']
    constructor
    · rintro ⟨_, ⟨_, h2⟩, h3⟩
      exact ⟨h2, h3⟩
    · rintro ⟨h2, h3⟩
      have hm := htitle params o.m_params (by rw [h2]; exact fun h => h3 h.symm)
      exact ⟨hm, ⟨hm, h2⟩, h3⟩

end Task

theorem DjbzDispatcher.listPagesFromSameDict_nodup (d : DjbzDispatcher) (p : PageId) :
    (d.listPagesFromSameDict p).Nodup := by
  unfold listPagesFromSameDict
  simp only []
  split_ifs
  · exact List.nodup_singleton p
  · unfold listPagesFromDict
    split
    · exact QSet.nodup _
    · exact List.nodup_nil

theorem DjbzDispatcher.djbzDict_eq_dictAt (g : GlobalStaticSettings) (now : QDateTime)
    (d : DjbzDispatcher) (id : String) :
    d.djbzDict g now id = dictAt g now d.m_dictionaries id := by
  unfold djbzDict dictAt
  cases h : d.m_dictionaries.find? id with
  | none => simp [QMap.contains, h]
  | some dict => simp [QMap.contains, h]

namespace Task

theorem updateLoop_djvu (penv : ProcessEnv) (fs : FileSystem)
    (fname_gen : OutputFileNameGenerator) (revision : QDateTime) (djbz_params : DjbzParams) :
    ∀ (l : List PageId) (s s1 : Settings), (∀ p ∈ l, s.getPageParams p ≠ none) →
      updateLoopAssertion penv fs fname_gen l = true →
      updateLoop penv fs fname_gen revision djbz_params l s = some s1 →
      ∀ p ∈ l, ∃ written fi, s1.getPageParams p = some written ∧
        written.m_djvuFilename = djvuFileName penv fname_gen p ∧
        fs (djvuFileName penv fname_gen p) = some fi ∧
        written.m_djvuSize = fi.size ∧ written.m_djvuLastChanged = fi.lastModified := by
  intro l
  induction l with
  | nil => intro s s1 _ _ _ p hp; simp at hp
  | cons p rest ih =>
    intro s s1 h ha hs1 q hq
    have ha2 : (fs (djvuFileName penv fname_gen p)).isSome = true ∧
        updateLoopAssertion penv fs fname_gen rest = true := by
      unfold updateLoopAssertion at ha ⊢
      simpa [List.all_cons] using ha
    cases hp : s.getPageParams p with
    | none => exact absurd hp (h p (List.mem_cons_self _ _))
    | some params =>
      simp only [updateLoop, hp] at hs1
      generalize hw : Params.rememberOutputParams _ djbz_params = written at hs1
      have hkeep : ∀ r, s.getPageParams r ≠ none →
          (s.setPageParams p written).getPageParams r ≠ none := by
        intro r hr
        rw [Settings.getPageParams_setPageParams]
        split_ifs
        · simp
        · exact hr
      have hall2 : ∀ r ∈ rest, (s.setPageParams p written).getPageParams r ≠ none :=
        fun r hr => hkeep r (h r (List.mem_cons_of_mem _ hr))
      by_cases hqr : q ∈ rest
      · exact ih _ s1 hall2 ha2.2 hs1 q hqr
      · have hqp : q = p := by
          rcases List.mem_cons.mp hq with h1 | h1
          · exact h1
          · exact absurd h1 hqr
        subst hqp
        obtain ⟨s2, h2, _, ho2, _⟩ := updateLoop_spec penv fs fname_gen revision djbz_params
          rest (s.setPageParams q written) hall2
        rw [hs1] at h2
        cases h2
        obtain ⟨fi, hfi⟩ := Option.isSome_iff_exists.mp ha2.1
        refine ⟨written, fi, ?_, ?_, hfi, ?_, ?_⟩
        · rw [ho2 q hqr, Settings.getPageParams_setPageParams, if_pos rfl]
        · rw [← hw]; rfl
        · rw [← hw]
          show (match fs (djvuFileName penv fname_gen q) with
            | some fi => fi.size
            | none => 0) = fi.size
          rw [hfi]
        · rw [← hw]
          show (match fs (djvuFileName penv fname_gen q) with
            | some fi => fi.lastModified
            | none => QDateTime.null) = fi.lastModified
          rw [hfi]

theorem updateDict_output (penv : ProcessEnv) (fs : FileSystem) (t : Task) (djbz_id : String)
    (params : Params) :
    (updateDict penv fs t djbz_id params).m_params =
      (DjbzDispatcher.dictAt penv.g penv.now t.m_refDjbzDispatcher.m_dictionaries
        djbz_id).m_params ∧
    (params.m_djbzId ≠ dummyDjbzId →
      (updateDict penv fs t djbz_id params).m_output_file =
        t.m_refOutFileNameGen.outDir ++ "/" ++ penv.g.m_djvu_pages_subfolder ++ "/" ++ "/" ++
          params.m_djbzId ++ "." ++
          (t.m_refDjbzDispatcher.djbzDict penv.g penv.now params.m_djbzId).m_params.m_extension ∧
      (updateDict penv fs t djbz_id params).m_output_file_size =
        (match fs (updateDict penv fs t djbz_id params).m_output_file with
          | some fi => fi.size % 2 ^ 32
          | none => 0) ∧
      (updateDict penv fs t djbz_id params).m_output_file_last_changed =
        (match fs (updateDict penv fs t djbz_id params).m_output_file with
          | some fi => fi.lastModified
          | none => QDateTime.null)) := by
  have hne : ∀ id : String, t.m_refOutFileNameGen.outDir ++ "/" ++
      penv.g.m_djvu_pages_subfolder ++ "/" ++ "/" ++ id ++ "." ++
      (t.m_refDjbzDispatcher.djbzDict penv.g penv.now id).m_params.m_extension ≠ "" := by
    intro id h
    have h2 := congrArg String.length h
    simp at h2
    exact absurd h2.1.2 (by decide)
  unfold updateDict djbzDictRef
  simp only [isDummyDjbzId]
  by_cases hd : params.m_djbzId = dummyDjbzId
  · simp [hd]
  · simp only [hd, decide_False, Bool.not_false, if_true, ne_eq, not_false_eq_true,
      forall_true_left]
    unfold DjbzDict.setOutputFilename DjbzDict.updateOutputFileInfo
    simp only [hne, ne_eq, not_false_eq_true, if_true, statSize]
    refine ⟨?_, ?_, ?_, ?_⟩ <;> first | rfl | trivial

theorem updateParams_djvu (penv : ProcessEnv) (fs : FileSystem) (t : Task)
    (djbz_id : String) (pages : List PageId) (params : Params)
    (hsubj : t.m_ptrSettings.getPageParams t.m_pageId = some params)
    (hall : ∀ p ∈ pages, t.m_ptrSettings.getPageParams p ≠ none)
    (ha : updateLoopAssertion penv fs t.m_refOutFileNameGen pages = true) :
    ∀ p ∈ pages, ∃ written fi,
      (updateParams penv fs t djbz_id pages).2.m_ptrSettings.getPageParams p = some written ∧
      written.m_djvuFilename = djvuFileName penv t.m_refOutFileNameGen p ∧
      fs (djvuFileName penv t.m_refOutFileNameGen p) = some fi ∧
      written.m_djvuSize = fi.size ∧ written.m_djvuLastChanged = fi.lastModified := by
  obtain ⟨s1, h1, _, _, _⟩ := updateLoop_spec penv fs t.m_refOutFileNameGen
    (updateDict penv fs t djbz_id params).m_last_changed
    (updateDict penv fs t djbz_id params).m_params pages t.m_ptrSettings hall
  have h2 := updateLoop_djvu penv fs t.m_refOutFileNameGen _ _ pages t.m_ptrSettings s1 hall ha h1
  unfold updateParams
  simp only [hsubj, h1]
  exact h2

end Task

theorem toMinidjvuOrderedLoop_take (to_minidjvu : QSet PageId) (n : Nat) :
    ∀ (l acc : List PageId), acc.length < n →
      toMinidjvuOrderedLoop to_minidjvu n l acc =
        acc ++ (l.filter to_minidjvu.contains).take (n - acc.length)
  | [], acc, _ => by simp [toMinidjvuOrderedLoop]
  | p :: rest, acc, h => by
    unfold toMinidjvuOrderedLoop
    by_cases hc : to_minidjvu.contains p = true
    · rw [List.filter_cons_of_pos hc, if_pos hc]
      by_cases hl : (acc ++ [p]).length = n
      · rw [if_pos hl]
        rw [List.length_append, List.length_singleton] at hl
        have h1 : n - acc.length = 1 := by omega
        rw [h1]
        simp
      · rw [if_neg hl]
        rw [List.length_append, List.length_singleton] at hl
        rw [toMinidjvuOrderedLoop_take to_minidjvu n rest (acc ++ [p])
          (by
            rw [List.length_append, List.length_singleton]
            omega)]
        have h1 : n - acc.length = (n - (acc ++ [p]).length) + 1 := by
          rw [List.length_append, List.length_singleton]
          omega
        rw [h1, List.take_succ_cons]
        simp
    · rw [List.filter_cons_of_neg hc, if_neg hc]
      exact toMinidjvuOrderedLoop_take to_minidjvu n rest acc h

theorem toMinidjvuOrdered_take (all_pages_ordered dictionary_pages : List PageId)
    (to_minidjvu : QSet PageId) (h : dictionary_pages ≠ []) :
    toMinidjvuOrdered all_pages_ordered dictionary_pages to_minidjvu =
      (all_pages_ordered.filter to_minidjvu.contains).take dictionary_pages.length := by
  unfold toMinidjvuOrdered
  rw [toMinidjvuOrderedLoop_take _ _ _ _ (by
    rw [List.length_nil]
    exact List.length_pos.mpr h)]
  simp

/-! ## The claims -/

/-! ### C1: `Task::needReprocess` -/

namespace Task

/-- C1. `needReprocess` yields the pair (result, `djbz_is_cached`): the flag is
`isDjbzCached` of the dictionary found for the subject page; the result is true
whenever the flag is false, and is `needPageReprocess` of the subject page OR
`needDjbzReprocess` of its dictionary whenever the flag is true. In particular, when
the dictionary output is cached and the subject page and every page of the
dictionary are up to date (`UpToDate`: no force flag, unchanged `SourceImagesInfo`,
matching remembered snapshot, cached DjVu file), the pair is `(false, true)`. -/
theorem needReprocess_spec (env : Env) (t : Task) :
    (needReprocess env t).2 =
        t.m_refDjbzDispatcher.isDjbzCached env.g env.now env.fs
          (t.m_refDjbzDispatcher.findDjbzForPage t.m_pageId) ∧
      ((needReprocess env t).2 = false → (needReprocess env t).1 = true) ∧
      ((needReprocess env t).2 = true →
        (needReprocess env t).1 =
          (needPageReprocess env t t.m_pageId ||
            needDjbzReprocess env t (t.m_refDjbzDispatcher.findDjbzForPage t.m_pageId))) ∧
      ((needReprocess env t).2 = true →
        (∀ p, p = t.m_pageId ∨
            p ∈ t.m_refDjbzDispatcher.listPagesFromDict
              (t.m_refDjbzDispatcher.findDjbzForPage t.m_pageId) →
          UpToDate env t (t.m_refDjbzDispatcher.findDjbzForPage t.m_pageId) p) →
        needReprocess env t = (false, true)) := by
  have hsnd : (needReprocess env t).2 =
      t.m_refDjbzDispatcher.isDjbzCached env.g env.now env.fs
        (t.m_refDjbzDispatcher.findDjbzForPage t.m_pageId) := by
    unfold needReprocess
    simp only []
    split_ifs <;> rfl
  refine ⟨hsnd, ?_, ?_, ?_⟩
  · intro hc
    rw [hsnd] at hc
    simp [needReprocess, hc]
  · intro hc
    rw [hsnd] at hc
    unfold needReprocess
    simp only [hc, if_true]
    cases hn : needPageReprocess env t t.m_pageId <;> simp
  · intro hc hall
    rw [hsnd] at hc
    have hne : t.m_refDjbzDispatcher.findDjbzForPage t.m_pageId ≠ "" := by
      intro h0
      rw [h0] at hc
      simp [DjbzDispatcher.isDjbzCached] at hc
    have hsubj := needPageReprocess_of_upToDate env t _ _ hne (hall _ (Or.inl rfl))
    have hgroup : needDjbzReprocess env t
        (t.m_refDjbzDispatcher.findDjbzForPage t.m_pageId) = false := by
      unfold needDjbzReprocess
      split_ifs with hd
      · rfl
      · rw [Bool.eq_false_iff]
        intro hloop
        obtain ⟨p, hp, _, hneed⟩ := (needDjbzReprocessLoop_eq_true env t _).mp hloop
        have hmem : p ∈ t.m_refDjbzDispatcher.listPagesFromDict
            (t.m_refDjbzDispatcher.findDjbzForPage t.m_pageId) := by
          unfold DjbzDispatcher.listPagesFromDict
          unfold DjbzDispatcher.djbzDict at hp
          split at hp
          · next dict hfind => simpa [hfind] using hp
          · simp [DjbzDict.new, QSet.empty] at hp
        rw [needPageReprocess_of_upToDate env t _ _ hne (hall _ (Or.inr hmem))] at hneed
        exact absurd hneed (by simp)
    unfold needReprocess
    simp only [hc, hsubj, hgroup]
    simp

end Task

/-- Witness for C1: in the sample state, where pages 1 and 2 share the cached dictionary
`0001` and both are up to date, `needReprocess` of page 1 is `(false, true)`. -/
theorem needReprocess_spec_witness :
    (Task.needReprocess sampleEnv sampleTask).2 = true ∧
    Task.needReprocess sampleEnv sampleTask = (false, true) :=
  ⟨by decide,
   (Task.needReprocess_spec sampleEnv sampleTask).2.2.2 (by decide) (by
    intro p hp
    have hl : sampleTask.m_refDjbzDispatcher.listPagesFromDict
        (sampleTask.m_refDjbzDispatcher.findDjbzForPage sampleTask.m_pageId) =
        [samplePage 2, samplePage 1] := by decide
    rw [hl] at hp
    have hp2 : p = samplePage 1 ∨ p = samplePage 2 := by
      rcases hp with hp | hp
      · exact Or.inl hp
      · simp only [List.mem_cons, List.mem_singleton, List.not_mem_nil, or_false] at hp
        exact hp.symm
    rcases hp2 with hp2 | hp2 <;> subst hp2
    · exact ⟨sampleParams (samplePage 1),
        OutputParams.new (sampleParams (samplePage 1)) "0001" 2
          (sampleGlobals 2).m_djvu_djbz_defaults,
        by decide, by decide, by decide, by decide, by decide, by decide, by decide⟩
    · exact ⟨sampleParams (samplePage 2),
        OutputParams.new (sampleParams (samplePage 2)) "0001" 2
          (sampleGlobals 2).m_djvu_djbz_defaults,
        by decide, by decide, by decide, by decide, by decide, by decide, by decide⟩)⟩

/-! ### C2: `Task::needPageReprocess` -/

namespace Task

/-- C2. For a page with stored parameters, no `RegeneratePage` flag, a non-empty
dictionary assignment and a stored `SourceImagesInfo` that does not differ from the
fresh one: `needPageReprocess` is true if there is no remembered snapshot; with a
remembered snapshot it is false exactly when the remembered dictionary id, dictionary
revision, page parameters (compared with the parameters' own inequality operator)
and dictionary parameters equal the current ones and the page's DjVu output is
cached, and it is true in every other case. -/
theorem needPageReprocess_spec (env : Env) (t : Task) (page_id : PageId) (params : Params)
    (hparams : t.m_ptrSettings.getPageParams page_id = some params)
    (hflag : params.m_forceReprocess &&& Params.RegeneratePage = 0)
    (hid : t.m_refDjbzDispatcher.findDjbzForPage page_id ≠ "")
    (hinfo : (SourceImagesInfo.new env page_id t.m_refOutFileNameGen
      t.m_ptrExportSuggestions).ne env params.m_sourceImagesInfo = false) :
    (params.m_outputParams = none → needPageReprocess env t page_id = true) ∧
    ∀ was, params.m_outputParams = some was →
      ((needPageReprocess env t page_id = false ↔
        (was.m_djbzId = t.m_refDjbzDispatcher.findDjbzForPage page_id ∧
          was.m_djbzRevision =
            (t.m_refDjbzDispatcher.djbzDict env.g env.now
              (t.m_refDjbzDispatcher.findDjbzForPage page_id)).m_last_changed ∧
          env.paramsNe was.m_params params.toParamsData = false ∧
          was.m_djbzParams =
            (t.m_refDjbzDispatcher.djbzDict env.g env.now
              (t.m_refDjbzDispatcher.findDjbzForPage page_id)).m_params ∧
          env.isDjVuCached params = true)) ∧
       (needPageReprocess env t page_id = true ↔
        ¬ (was.m_djbzId = t.m_refDjbzDispatcher.findDjbzForPage page_id ∧
          was.m_djbzRevision =
            (t.m_refDjbzDispatcher.djbzDict env.g env.now
              (t.m_refDjbzDispatcher.findDjbzForPage page_id)).m_last_changed ∧
          env.paramsNe was.m_params params.toParamsData = false ∧
          was.m_djbzParams =
            (t.m_refDjbzDispatcher.djbzDict env.g env.now
              (t.m_refDjbzDispatcher.findDjbzForPage page_id)).m_params ∧
          env.isDjVuCached params = true))) := by
  have key : ∀ was, params.m_outputParams = some was →
      (needPageReprocess env t page_id = false ↔
        (was.m_djbzId = t.m_refDjbzDispatcher.findDjbzForPage page_id ∧
          was.m_djbzRevision =
            (t.m_refDjbzDispatcher.djbzDict env.g env.now
              (t.m_refDjbzDispatcher.findDjbzForPage page_id)).m_last_changed ∧
          env.paramsNe was.m_params params.toParamsData = false ∧
          was.m_djbzParams =
            (t.m_refDjbzDispatcher.djbzDict env.g env.now
              (t.m_refDjbzDispatcher.findDjbzForPage page_id)).m_params ∧
          env.isDjVuCached params = true)) := by
    intro was hwas
    unfold needPageReprocess
    simp only [hparams, hflag, hid, hinfo, hwas]
    simp only [OutputParams.matches, OutputParams.new, ne_eq, not_true_eq_false, if_false,
      Bool.false_eq_true, Bool.or_eq_false_iff, Bool.not_eq_false', Bool.not_eq_true',
      decide_eq_false_iff_not, not_not, DjbzParams.ne_eq_false_iff]
    tauto
  refine ⟨?_, ?_⟩
  · intro hnone
    unfold needPageReprocess
    simp [hparams, hflag, hid, hinfo, hnone]
  · intro was hwas
    refine ⟨key was hwas, ?_⟩
    rw [← key was hwas]
    simp

end Task

/-- Witness for C2: page 1 of the sample state meets the four hypotheses, its remembered
snapshot equals the current state, and `needPageReprocess` is false. -/
theorem needPageReprocess_spec_witness :
    sampleTask.m_ptrSettings.getPageParams (samplePage 1) = some (sampleParams (samplePage 1)) ∧
    (sampleParams (samplePage 1)).m_forceReprocess &&& Params.RegeneratePage = 0 ∧
    sampleTask.m_refDjbzDispatcher.findDjbzForPage (samplePage 1) ≠ "" ∧
    (SourceImagesInfo.new sampleEnv (samplePage 1) sampleTask.m_refOutFileNameGen
      sampleTask.m_ptrExportSuggestions).ne sampleEnv
        (sampleParams (samplePage 1)).m_sourceImagesInfo = false ∧
    Task.needPageReprocess sampleEnv sampleTask (samplePage 1) = false :=
  ⟨by decide, by decide, by decide, by decide,
   (((Task.needPageReprocess_spec sampleEnv sampleTask (samplePage 1)
      (sampleParams (samplePage 1)) (by decide) (by decide) (by decide) (by decide)).2
      (OutputParams.new (sampleParams (samplePage 1)) "0001" 2
        (sampleGlobals 2).m_djvu_djbz_defaults) (by decide)).1).mpr
      ⟨by decide, by decide, by decide, by decide, by decide⟩⟩

/-! ### C3: `Task::needDjbzReprocess` -/

/-- Counterexample to C3 as stated: the sentinel holds pages 1 and 2, the subject is
page 1, and page 2, which has no stored parameters, needs reprocessing; yet
`needDjbzReprocess` of the sentinel is false. -/
theorem needDjbzReprocess_sentinel_counterexample :
    ¬ (Task.needDjbzReprocess sampleEnv sentinelTask dummyDjbzId = true ↔
        ∃ p ∈ sentinelTask.m_refDjbzDispatcher.listPagesFromDict dummyDjbzId,
          p ≠ sentinelTask.m_pageId ∧ Task.needPageReprocess sampleEnv sentinelTask p = true) := by
  intro h
  have h1 := h.mpr ⟨samplePage 2, by decide, by decide, by decide⟩
  revert h1
  decide

namespace Task

/-- C3, amended. `needDjbzReprocess` of a dictionary id is true if and only if the id
is not the sentinel and at least one page of that dictionary other than the subject
page satisfies `needPageReprocess`; for the sentinel it is always false. -/
theorem needDjbzReprocess_spec (env : Env) (t : Task) (djbz_id : String) :
    needDjbzReprocess env t djbz_id = true ↔
      (djbz_id ≠ DjbzDispatcher.dummyDjbzId ∧
        ∃ p ∈ t.m_refDjbzDispatcher.listPagesFromDict djbz_id,
          p ≠ t.m_pageId ∧ needPageReprocess env t p = true) := by
  unfold needDjbzReprocess
  by_cases hd : djbz_id = DjbzDispatcher.dummyDjbzId
  · simp [DjbzDispatcher.isDummyDjbzId, hd]
  · simp only [DjbzDispatcher.isDummyDjbzId, hd, decide_False, Bool.false_eq_true, if_false, ne_eq,
      not_false_eq_true, true_and]
    rw [needDjbzReprocessLoop_eq_true]
    unfold DjbzDispatcher.listPagesFromDict DjbzDispatcher.djbzDict
    cases hfind : t.m_refDjbzDispatcher.m_dictionaries.find? djbz_id <;>
      simp [DjbzDict.new, QSet.empty]

end Task

/-! ### C4: no page in two dictionaries -/

/-- Counterexample to C4 as stated: from the constructor, `addNewPage` puts page 1 into
`0001`, and `setToDjbz` of page 1 to the sentinel then leaves it in the member sets of
both `0001` and the sentinel. -/
theorem setToDjbz_two_dictionaries_counterexample :
    (DjbzDispatcher.addNewPage (sampleGlobals 2) 1 (DjbzDispatcher.new (sampleGlobals 2) 0)
        (samplePage 1)).map
      (fun r =>
        (r.1,
         (DjbzDispatcher.setToDjbz (sampleGlobals 2) 2 r.2 (samplePage 1) dummyDjbzId
            false).listPagesFromDict r.1,
         (DjbzDispatcher.setToDjbz (sampleGlobals 2) 2 r.2 (samplePage 1) dummyDjbzId
            false).listPagesFromDict dummyDjbzId)) =
      some ("0001", [samplePage 1], [samplePage 1]) := by
  decide

namespace DjbzDispatcher

/-- C4, amended. In every registry state reached from the constructor by the steps of
`Reachable` (`addNewPage`, with sharing disabled only for a page that is unassigned or
on the sentinel; `deleteFromDjbz`; `moveToDjbz`; `resetAllDictsExceptLocked`;
`setToDjbz` only for a page that is unassigned or already assigned to the target;
`autosetPagesToDjbz` against a store that records a non-empty id for every page of
the sequence that the registry has assigned; edits of a dictionary that keep its
pages), no page is in the member sets of two dictionaries, and a page is in the
member set of a dictionary exactly if `findDjbzForPage` gives that dictionary's
(non-empty) id. -/
theorem reachable_consistent (d : DjbzDispatcher) (h : Reachable d) :
    (∀ (id1 id2 : String) (p : PageId),
      p ∈ d.listPagesFromDict id1 → p ∈ d.listPagesFromDict id2 → id1 = id2) ∧
    (∀ (id : String) (p : PageId),
      p ∈ d.listPagesFromDict id ↔ (d.findDjbzForPage p = id ∧ id ≠ "")) := by
  have hc : Consistent d := by
    induction h with
    | init g now => exact consistent_new g now
    | addNewPage g now d d1 p id _ hguard hres ih =>
      exact consistent_addNewPage g now d d1 p id ih hguard hres
    | deleteFromDjbz g now d p _ ih => exact consistent_deleteFromDjbz g now d p ih
    | setToDjbz g now d p id nr _ hguard ih => exact consistent_setToDjbz g now d p id nr ih hguard
    | moveToDjbz g now d p id _ ih => exact consistent_moveToDjbz g now d p id ih
    | resetAllDictsExceptLocked g now d _ ih =>
      exact consistent_resetAllDictsExceptLocked g now d ih
    | autosetPagesToDjbz g clock defaults pages sug d d1 s s1 _ hrec hres ih =>
      obtain ⟨d2, s2, h2, hc2⟩ := autosetLoop_consistent g clock defaults sug pages 0 d s ih hrec
      unfold DjbzDispatcher.autosetPagesToDjbz at hres
      rw [h2] at hres
      injection hres with hres
      injection hres with hres
      rw [← hres]; exact hc2
    | editDict d id dict dict2 _ hfind hpages ih =>
      intro k q
      rw [mem_listPagesFromDict]
      simp only [QMap.find?_insert]
      have hk := ih k q
      rw [mem_listPagesFromDict] at hk
      by_cases hkid : k = id
      · subst hkid
        simp only [if_true, Option.some.injEq, exists_eq_left', hpages]
        have hk2 : (q ∈ dict.m_pages.elems) ↔ d.findDjbzForPage q = k ∧ k ≠ "" := by
          rw [← hk]; simp [hfind]
        exact hk2
      · simp only [hkid, if_false]
        exact hk
  refine ⟨?_, hc⟩
  intro id1 id2 p h1 h2
  rw [← ((hc id1 p).mp h1).1, ← ((hc id2 p).mp h2).1]

end DjbzDispatcher

/-- Witness for C4: the state in which page 1 was set to `0001` and then moved to the
sentinel is reachable, and the two properties hold in it. -/
theorem reachable_consistent_witness :
    Reachable movedDispatcher ∧
    (∀ (id1 id2 : String) (p : PageId),
      p ∈ movedDispatcher.listPagesFromDict id1 → p ∈ movedDispatcher.listPagesFromDict id2 →
        id1 = id2) ∧
    (∀ (id : String) (p : PageId),
      p ∈ movedDispatcher.listPagesFromDict id ↔
        (movedDispatcher.findDjbzForPage p = id ∧ id ≠ "")) :=
  ⟨Reachable.moveToDjbz _ _ _ _ _
      (Reachable.setToDjbz _ _ _ _ _ _ (Reachable.init _ _) (Or.inl (by decide))),
   reachable_consistent movedDispatcher
     (Reachable.moveToDjbz _ _ _ _ _
       (Reachable.setToDjbz _ _ _ _ _ _ (Reachable.init _ _) (Or.inl (by decide))))⟩

/-! ### C5: `moveToDjbz` -/

/-- Counterexample to C5 as stated: the registry holds a dictionary with the empty id
(left behind by deleting a page that had been set to the empty id); page 1 is assigned
to `0001`. After `moveToDjbz` of page 1 to the empty id, page 1 is not in that
dictionary's member set and that dictionary's revision is not the time of the call. -/
theorem moveToDjbz_empty_id_counterexample :
    emptyIdDispatcher.m_page_to_dict (samplePage 1) = some "0001" ∧
    samplePage 1 ∈ emptyIdDispatcher.listPagesFromDict "0001" ∧
    emptyIdDispatcher.m_dictionaries.contains "" = true ∧
    "" ≠ "0001" ∧
    samplePage 1 ∉
      (DjbzDispatcher.moveToDjbz (sampleGlobals 2) 9 emptyIdDispatcher (samplePage 1)
        "").listPagesFromDict "" ∧
    ((DjbzDispatcher.moveToDjbz (sampleGlobals 2) 9 emptyIdDispatcher (samplePage 1)
        "").djbzDict (sampleGlobals 2) 9 "").m_last_changed ≠ 9 := by
  decide

namespace DjbzDispatcher

/-- C5, amended. For a page that the page map sends to `A` and that is in the member set
of `A`, and an id `B` that differs from `A` and is not empty, after
`moveToDjbz(page, B)`: `findDjbzForPage(page) = B`, the page is not in the member set of
`A`, it is in the member set of `B`, and the revisions of `A` and of `B` are the time of
the call. -/
theorem moveToDjbz_spec (g : GlobalStaticSettings) (now : QDateTime) (d : DjbzDispatcher)
    (page_id : PageId) (A B : String)
    (hmap : d.m_page_to_dict page_id = some A)
    (hmem : page_id ∈ d.listPagesFromDict A) (hAB : B ≠ A) (hBne : B ≠ "") :
    (moveToDjbz g now d page_id B).findDjbzForPage page_id = B ∧
    page_id ∉ (moveToDjbz g now d page_id B).listPagesFromDict A ∧
    page_id ∈ (moveToDjbz g now d page_id B).listPagesFromDict B ∧
    ((moveToDjbz g now d page_id B).djbzDict g now A).m_last_changed = now ∧
    ((moveToDjbz g now d page_id B).djbzDict g now B).m_last_changed = now := by
  unfold moveToDjbz
  refine ⟨?_, ?_, ?_, ?_, ?_⟩
  · rw [findDjbzForPage_setToDjbz]; simp
  · rw [mem_setToDjbz, mem_deleteFromDjbz]
    simp [hmap, hAB.symm]
  · rw [mem_setToDjbz, findDjbzForPage_deleteFromDjbz]
    simp [hBne.symm]
  · obtain ⟨dictA, hA1, hA2⟩ := (mem_listPagesFromDict d A page_id).mp hmem
    unfold setToDjbz
    simp only [findDjbzForPage_touchPage, findDjbzForPage_deleteFromDjbz, if_true, ne_eq,
      hBne.symm, not_false_eq_true]
    unfold djbzDict assign
    simp only [QMap.find?_insert_ne _ _ hAB.symm, dictionaries_touchPage]
    unfold deleteFromDjbz
    simp [hmap, QMap.find?_insert_self, dictAt, hA1, DjbzDict.removePage, QSet.remove, hA2]
  · unfold setToDjbz
    simp only [findDjbzForPage_touchPage, findDjbzForPage_deleteFromDjbz, if_true, ne_eq,
      hBne.symm, not_false_eq_true]
    unfold djbzDict assign
    simp [QMap.find?_insert_self, DjbzDict.addPage]

end DjbzDispatcher

/-- Witness for C5: page 1 of the sample registry is moved from `0001` to the sentinel at
time 50. -/
theorem moveToDjbz_spec_witness :
    sampleDispatcher.m_page_to_dict (samplePage 1) = some "0001" ∧
    samplePage 1 ∈ sampleDispatcher.listPagesFromDict "0001" ∧
    dummyDjbzId ≠ "0001" ∧ dummyDjbzId ≠ "" ∧
    (DjbzDispatcher.moveToDjbz (sampleGlobals 2) 50 sampleDispatcher (samplePage 1)
      dummyDjbzId).findDjbzForPage (samplePage 1) = dummyDjbzId ∧
    samplePage 1 ∉ (DjbzDispatcher.moveToDjbz (sampleGlobals 2) 50 sampleDispatcher
      (samplePage 1) dummyDjbzId).listPagesFromDict "0001" ∧
    samplePage 1 ∈ (DjbzDispatcher.moveToDjbz (sampleGlobals 2) 50 sampleDispatcher
      (samplePage 1) dummyDjbzId).listPagesFromDict dummyDjbzId ∧
    ((DjbzDispatcher.moveToDjbz (sampleGlobals 2) 50 sampleDispatcher (samplePage 1)
      dummyDjbzId).djbzDict (sampleGlobals 2) 50 "0001").m_last_changed = 50 ∧
    ((DjbzDispatcher.moveToDjbz (sampleGlobals 2) 50 sampleDispatcher (samplePage 1)
      dummyDjbzId).djbzDict (sampleGlobals 2) 50 dummyDjbzId).m_last_changed = 50 :=
  ⟨by decide, by decide, by decide, by decide,
   moveToDjbz_spec (sampleGlobals 2) 50 sampleDispatcher (samplePage 1) "0001" dummyDjbzId
     (by decide) (by decide) (by decide) (by decide)⟩

/-! ### C6: `addNewPage`, first fit -/

/-- Counterexample to C6 as stated: sharing is enabled, page 2 is unassigned, and the first
`AutoFill` dictionary with spare capacity, in id order, is the one with the empty id;
`addNewPage` returns the freshly minted `0002` instead and the dictionary with the
empty id stays without pages. -/
theorem addNewPage_empty_id_counterexample :
    2 ≤ (sampleGlobals 2).m_djvu_pages_per_djbz ∧
    emptyIdDispatcher.findDjbzForPage (samplePage 2) = "" ∧
    FirstNotFull emptyIdDispatcher "" ∧
    (DjbzDispatcher.addNewPage (sampleGlobals 2) 9 emptyIdDispatcher (samplePage 2)).map
      (fun r => (r.1, r.2.listPagesFromDict "", r.2.findDjbzForPage (samplePage 2))) =
      some ("0002", [], "0002") := by
  refine ⟨by decide, by decide, ?_, by decide⟩
  refine ⟨DjbzDispatcher.dictAt (sampleGlobals 2) 0 emptyIdDispatcher.m_dictionaries "",
    rfl, ⟨by decide, by decide⟩, ?_⟩
  intro k2 _ _ _
  exact QString.not_lt_empty k2

namespace DjbzDispatcher

/-- C6, amended. With sharing enabled and an unassigned page: if `key` is the first
`AutoFill` dictionary, in id order, with fewer pages than its maximum, and `key` is not
the empty id, then `addNewPage` returns `key`, the page is in the member set of `key`
and the page map sends the page to `key`. Whatever id `addNewPage` returns, if it was
a dictionary before the call, that dictionary is `AutoFill`: `Locked` and `None`
dictionaries are never chosen. -/
theorem addNewPage_first_fit (g : GlobalStaticSettings) (now : QDateTime) (d : DjbzDispatcher)
    (page_id : PageId) (hshare : 2 ≤ g.m_djvu_pages_per_djbz)
    (hun : d.findDjbzForPage page_id = "") :
    (∀ key, FirstNotFull d key → key ≠ "" →
      ∃ d1, addNewPage g now d page_id = some (key, d1) ∧
        page_id ∈ d1.listPagesFromDict key ∧ d1.findDjbzForPage page_id = key) ∧
    (∀ id d1, addNewPage g now d page_id = some (id, d1) →
      ∀ dict, d.m_dictionaries.find? id = some dict → dict.m_type = DjbzType.AutoFill) := by
  have hs : ¬ g.m_djvu_pages_per_djbz < 2 := by omega
  constructor
  · intro key hfirst hne
    have hfound := findNotFull_of_first d key hfirst
    refine ⟨assign g now d page_id key false, ?_, ?_, ?_⟩
    · unfold addNewPage
      simp [hs, hun, hfound, hne]
    · rw [mem_assign]; exact Or.inl ⟨rfl, rfl⟩
    · rw [findDjbzForPage_assign]; simp
  · intro id d1 hres dict hdict
    unfold addNewPage at hres
    simp only [hs, if_false, hun, if_true] at hres
    by_cases hfound : findNotFull d.m_dictionaries.entries = ""
    · simp only [hfound, if_true] at hres
      obtain ⟨c, hc, _, hfree, _⟩ := nextDjbzId_spec d
      rw [hc] at hres
      simp only [Option.some.injEq, Prod.mk.injEq] at hres
      rw [← hres.1] at hdict
      simp [QMap.contains, hdict] at hfree
    · simp only [hfound, if_false, Option.some.injEq, Prod.mk.injEq] at hres
      obtain ⟨dict2, hd2, hq⟩ := findNotFull_notFull d hfound
      rw [hres.1, hdict] at hd2
      injection hd2 with hd2
      rw [hd2]; exact hq.1

end DjbzDispatcher

/-- Witness for C6: `0001` holds page 1 and has room for two pages; `addNewPage` of page 2
returns `0001`. -/
theorem addNewPage_first_fit_witness :
    2 ≤ (sampleGlobals 2).m_djvu_pages_per_djbz ∧
    onePageDispatcher.findDjbzForPage (samplePage 2) = "" ∧
    FirstNotFull onePageDispatcher "0001" ∧
    ∃ d1, DjbzDispatcher.addNewPage (sampleGlobals 2) 7 onePageDispatcher (samplePage 2) =
        some ("0001", d1) ∧
      samplePage 2 ∈ d1.listPagesFromDict "0001" ∧ d1.findDjbzForPage (samplePage 2) = "0001" :=
  have hfirst : FirstNotFull onePageDispatcher "0001" :=
    ⟨DjbzDispatcher.dictAt (sampleGlobals 2) 0 onePageDispatcher.m_dictionaries "0001", rfl,
      ⟨by decide, by decide⟩, by
        intro k2 dict2 hk _ hlt
        have hk2 : k2 ∈ onePageDispatcher.m_dictionaries.keys :=
          (QMap.contains_iff_mem_keys _ _).mp (by simp [QMap.contains, hk])
        have hkeys : onePageDispatcher.m_dictionaries.keys = ["0001", "[none]"] := by decide
        rw [hkeys] at hk2
        simp only [List.mem_cons, List.mem_singleton, List.not_mem_nil, or_false] at hk2
        rcases hk2 with hk2 | hk2 <;> subst hk2 <;> exact absurd hlt (by decide)⟩
  ⟨by decide, by decide, hfirst,
   (addNewPage_first_fit (sampleGlobals 2) 7 onePageDispatcher (samplePage 2) (by decide)
     (by decide)).1 "0001" hfirst (by decide)⟩

/-! ### C7: `addNewPage`, fresh id -/

namespace DjbzDispatcher

/-- C7. With sharing enabled and an unassigned page, if no `AutoFill` dictionary has fewer
pages than its maximum, `addNewPage` returns (the bounded loop of `nextDjbzId` does not
run out of rounds) the id `QString.arg c 4 '0'`, the zero-padded decimal of `c`, where
`c` is the least counter value above the previous counter whose padded form is not a
key of the registry; the id was not a key before the call and is not the sentinel, the
counter becomes `c`, the member set of the new dictionary is exactly the page, and
the page map sends the page to the new id. -/
theorem addNewPage_fresh (g : GlobalStaticSettings) (now : QDateTime) (d : DjbzDispatcher)
    (page_id : PageId) (hshare : 2 ≤ g.m_djvu_pages_per_djbz)
    (hun : d.findDjbzForPage page_id = "")
    (hfull : ∀ k dict, d.m_dictionaries.find? k = some dict → ¬ NotFull dict) :
    ∃ c d1, addNewPage g now d page_id = some (QString.arg c 4 '0', d1) ∧
      d.m_dictionaries.contains (QString.arg c 4 '0') = false ∧
      QString.arg c 4 '0' ≠ dummyDjbzId ∧
      d.m_id_counter < c ∧
      (∀ m, d.m_id_counter < m → m < c → d.m_dictionaries.contains (QString.arg m 4 '0') = true) ∧
      d1.m_id_counter = c ∧
      d1.listPagesFromDict (QString.arg c 4 '0') = [page_id] ∧
      d1.findDjbzForPage page_id = QString.arg c 4 '0' := by
  have hs : ¬ g.m_djvu_pages_per_djbz < 2 := by omega
  obtain ⟨c, hc, hlt, hfree, hbetween⟩ := nextDjbzId_spec d
  refine ⟨c, assign g now { d with m_id_counter := c } page_id (QString.arg c 4 '0') false,
    ?_, hfree, QString.arg_ne_dummy c, hlt, hbetween, rfl, ?_, ?_⟩
  · unfold addNewPage
    simp [hs, hun, findNotFull_of_none d hfull, hc]
  · have hnone : d.m_dictionaries.find? (QString.arg c 4 '0') = none := by
      simpa [QMap.contains] using hfree
    unfold listPagesFromDict assign
    simp [QMap.find?_insert_self, dictAt, hnone, DjbzDict.new, DjbzDict.addPage, QSet.insert,
      QSet.empty]
  · rw [findDjbzForPage_assign]; simp

end DjbzDispatcher

/-- Witness for C7: in a freshly constructed registry, with two pages per dictionary,
`addNewPage` of page 1 mints an id. -/
theorem addNewPage_fresh_witness :
    2 ≤ (sampleGlobals 2).m_djvu_pages_per_djbz ∧
    (DjbzDispatcher.new (sampleGlobals 2) 0).findDjbzForPage (samplePage 1) = "" ∧
    (∀ k dict, (DjbzDispatcher.new (sampleGlobals 2) 0).m_dictionaries.find? k = some dict →
      ¬ NotFull dict) ∧
    ∃ c d1, DjbzDispatcher.addNewPage (sampleGlobals 2) 7 (DjbzDispatcher.new (sampleGlobals 2) 0)
        (samplePage 1) = some (QString.arg c 4 '0', d1) ∧
      (DjbzDispatcher.new (sampleGlobals 2) 0).m_dictionaries.contains (QString.arg c 4 '0')
        = false ∧
      QString.arg c 4 '0' ≠ dummyDjbzId ∧
      (DjbzDispatcher.new (sampleGlobals 2) 0).m_id_counter < c ∧
      (∀ m, (DjbzDispatcher.new (sampleGlobals 2) 0).m_id_counter < m → m < c →
        (DjbzDispatcher.new (sampleGlobals 2) 0).m_dictionaries.contains (QString.arg m 4 '0')
          = true) ∧
      d1.m_id_counter = c ∧
      d1.listPagesFromDict (QString.arg c 4 '0') = [samplePage 1] ∧
      d1.findDjbzForPage (samplePage 1) = QString.arg c 4 '0' :=
  have hfull : ∀ k dict,
      (DjbzDispatcher.new (sampleGlobals 2) 0).m_dictionaries.find? k = some dict →
      ¬ NotFull dict := by
    intro k dict hk hq
    simp only [DjbzDispatcher.new, QMap.find?_insert, QMap.find?_empty] at hk
    split_ifs at hk
    injection hk with hk
    rw [← hk] at hq
    exact absurd hq.1 (by decide)
  ⟨by decide, by decide, hfull,
   addNewPage_fresh (sampleGlobals 2) 7 (DjbzDispatcher.new (sampleGlobals 2) 0) (samplePage 1)
     (by decide) (by decide) hfull⟩

/-! ### C8: `autosetPagesToDjbz` run twice -/

/-- C8, the code at the failing input: sharing is disabled (one page per dictionary), the
registry is freshly constructed, the store is empty and page 1 has a bitonal layer.
The first run of `autosetPagesToDjbz` (clock 10) leaves the sentinel at revision 10
after one write to the store; the second run with the same inputs (clock 20) moves
the sentinel's revision to 20 and writes to the store again. -/
theorem autosetPagesToDjbz_not_idempotent :
    ((DjbzDispatcher.autosetPagesToDjbz (sampleGlobals 1) (fun _ => 10) sampleDefaults
        [samplePage 1] sampleSuggestions (DjbzDispatcher.new (sampleGlobals 1) 0)
        emptySettings).bind
      (fun r1 =>
        (DjbzDispatcher.autosetPagesToDjbz (sampleGlobals 1) (fun _ => 20) sampleDefaults
          [samplePage 1] sampleSuggestions r1.1 r1.2).map
        (fun r2 =>
          ((r1.1.djbzDict (sampleGlobals 1) 0 dummyDjbzId).m_last_changed,
           (r2.1.djbzDict (sampleGlobals 1) 0 dummyDjbzId).m_last_changed,
           r1.2.m_writes, r2.2.m_writes)))) = some (10, 20, 1, 2) := by
  decide

/-! ### C9: `autosetPagesToDjbz`, pages with a bitonal layer -/

/-- Counterexample to C9 as stated, two cases with a page that has a bitonal layer.
With sharing disabled, a fresh registry and an empty store: after `autosetPagesToDjbz`
the page is on the sentinel in the registry and in its stored parameters. With sharing
enabled, the page on the sentinel in the registry (where it was set or moved) and
`0001` in its stored parameters: `autosetPagesToDjbz` leaves the registry assignment
on the sentinel. -/
theorem autosetPagesToDjbz_bitonal_counterexample :
    (sampleSuggestions (samplePage 1)).hasBWLayer = true ∧
    (DjbzDispatcher.autosetPagesToDjbz (sampleGlobals 1) (fun _ => 10) sampleDefaults
        [samplePage 1] sampleSuggestions (DjbzDispatcher.new (sampleGlobals 1) 0)
        emptySettings).map
      (fun r => (r.1.findDjbzForPage (samplePage 1), storedDjbzId r.2 (samplePage 1))) =
      some (dummyDjbzId, dummyDjbzId) ∧
    (DjbzDispatcher.autosetPagesToDjbz (sampleGlobals 2) (fun _ => 10) sampleDefaults
        [samplePage 1] sampleSuggestions sentinelTask.m_refDjbzDispatcher
        staleSettings).map
      (fun r => (r.1.findDjbzForPage (samplePage 1), storedDjbzId r.2 (samplePage 1))) =
      some (dummyDjbzId, "0001") := by
  decide

namespace DjbzDispatcher

/-- C9, amended. With sharing enabled, a sentinel of kind `None`, and a registry that
agrees with the parameter store on every page of the sequence, `autosetPagesToDjbz`
returns, and afterwards every page of the sequence with a bitonal layer is assigned
in the registry to an id that is neither empty nor the sentinel, and its stored
parameters carry the same id. -/
theorem autosetPagesToDjbz_bitonal (g : GlobalStaticSettings) (clock : Nat → QDateTime)
    (defaults : Params) (pages : List PageId) (sug : ExportSuggestions) (d : DjbzDispatcher)
    (s : Settings) (hshare : 2 ≤ g.m_djvu_pages_per_djbz) (hsent : SentinelIsNone d)
    (hag : ∀ p ∈ pages, Agrees d s p) :
    ∃ d1 s1, autosetPagesToDjbz g clock defaults pages sug d s = some (d1, s1) ∧
      ∀ p ∈ pages, (sug p).hasBWLayer = true →
        d1.findDjbzForPage p ≠ "" ∧ d1.findDjbzForPage p ≠ dummyDjbzId ∧
        ∃ params, s1.getPageParams p = some params ∧
          params.m_djbzId = d1.findDjbzForPage p := by
  obtain ⟨d1, s1, hres, _, _, _, hall⟩ := autosetLoop_spec g clock defaults sug pages 0 d s hag
  refine ⟨d1, s1, hres, ?_⟩
  intro p hp hbw
  obtain ⟨h1, _, h3⟩ := hall p hp
  obtain ⟨h4, h5⟩ := h3 hbw hshare hsent
  refine ⟨h4, h5, ?_⟩
  unfold Agrees storedDjbzId at h1
  cases hpar : s1.getPageParams p with
  | none => rw [hpar] at h1; exact absurd h1 h4
  | some params => rw [hpar] at h1; exact ⟨params, rfl, h1.symm⟩

end DjbzDispatcher

/-- Witness for C9: three pages with a bitonal layer, a freshly constructed registry and
an empty store, two pages per dictionary. -/
theorem autosetPagesToDjbz_bitonal_witness :
    2 ≤ (sampleGlobals 2).m_djvu_pages_per_djbz ∧
    SentinelIsNone (DjbzDispatcher.new (sampleGlobals 2) 0) ∧
    (∀ p ∈ [samplePage 1, samplePage 2, samplePage 3],
      Agrees (DjbzDispatcher.new (sampleGlobals 2) 0) emptySettings p) ∧
    ∃ d1 s1, DjbzDispatcher.autosetPagesToDjbz (sampleGlobals 2) (fun i => 10 + i) sampleDefaults
        [samplePage 1, samplePage 2, samplePage 3] sampleSuggestions
        (DjbzDispatcher.new (sampleGlobals 2) 0) emptySettings = some (d1, s1) ∧
      ∀ p ∈ [samplePage 1, samplePage 2, samplePage 3],
        (sampleSuggestions p).hasBWLayer = true →
        d1.findDjbzForPage p ≠ "" ∧ d1.findDjbzForPage p ≠ dummyDjbzId ∧
        ∃ params, s1.getPageParams p = some params ∧
          params.m_djbzId = d1.findDjbzForPage p :=
  ⟨by decide, ⟨_, rfl, rfl⟩, fun _ _ => rfl,
   autosetPagesToDjbz_bitonal (sampleGlobals 2) (fun i => 10 + i) sampleDefaults
     [samplePage 1, samplePage 2, samplePage 3] sampleSuggestions
     (DjbzDispatcher.new (sampleGlobals 2) 0) emptySettings (by decide) ⟨_, rfl, rfl⟩
     (fun _ _ => rfl)⟩

/-! ### C10: `autosetPagesToDjbz`, pages without a bitonal layer -/

/-- Counterexample to C10 as stated, two cases with a page that has no bitonal layer.
The stored parameters name the sentinel but the registry has the page in `0001` (it
was moved there): after `autosetPagesToDjbz` the registry still gives `0001`. The page
has no stored parameters and `addNewPage` had put it into `0001`: after
`autosetPagesToDjbz` the registry and the store give the sentinel, but the page is
still in the member set of `0001`. -/
theorem autosetPagesToDjbz_no_bitonal_counterexample :
    (colourSuggestions (samplePage 1)).hasBWLayer = false ∧
    (DjbzDispatcher.autosetPagesToDjbz (sampleGlobals 2) (fun _ => 10) sampleDefaults
        [samplePage 1] colourSuggestions
        (DjbzDispatcher.moveToDjbz (sampleGlobals 2) 5 sentinelTask.m_refDjbzDispatcher
          (samplePage 1) "0001")
        sentinelSettings).map
      (fun r => (r.1.findDjbzForPage (samplePage 1), r.1.listPagesFromDict "0001")) =
      some ("0001", [samplePage 1]) ∧
    ((DjbzDispatcher.addNewPage (sampleGlobals 2) 1 (DjbzDispatcher.new (sampleGlobals 2) 0)
        (samplePage 1)).bind
      (fun r0 =>
        (DjbzDispatcher.autosetPagesToDjbz (sampleGlobals 2) (fun _ => 10) sampleDefaults
          [samplePage 1] colourSuggestions r0.2 emptySettings).map
        (fun r =>
          (r0.1, r.1.findDjbzForPage (samplePage 1), storedDjbzId r.2 (samplePage 1),
           r.1.listPagesFromDict r0.1)))) =
      some ("0001", dummyDjbzId, dummyDjbzId, [samplePage 1]) := by
  decide

namespace DjbzDispatcher

/-- C10, amended. If the registry is consistent (`Consistent`) and agrees with the
parameter store on every page of the sequence, `autosetPagesToDjbz` returns, and
afterwards for every page of the sequence without a bitonal layer:
`findDjbzForPage` gives the sentinel, the stored parameters carry the sentinel id, and
the page is in the member set of no dictionary other than the sentinel. -/
theorem autosetPagesToDjbz_no_bitonal (g : GlobalStaticSettings) (clock : Nat → QDateTime)
    (defaults : Params) (pages : List PageId) (sug : ExportSuggestions) (d : DjbzDispatcher)
    (s : Settings) (hcons : Consistent d) (hag : ∀ p ∈ pages, Agrees d s p) :
    ∃ d1 s1, autosetPagesToDjbz g clock defaults pages sug d s = some (d1, s1) ∧
      ∀ p ∈ pages, (sug p).hasBWLayer = false →
        d1.findDjbzForPage p = dummyDjbzId ∧
        (∃ params, s1.getPageParams p = some params ∧ params.m_djbzId = dummyDjbzId) ∧
        ∀ id, p ∈ d1.listPagesFromDict id → id = dummyDjbzId := by
  obtain ⟨d1, s1, hres, _, hc1, _, hall⟩ := autosetLoop_spec g clock defaults sug pages 0 d s hag
  refine ⟨d1, s1, hres, ?_⟩
  intro p hp hbw
  obtain ⟨h1, h2, _⟩ := hall p hp
  have hf := h2 hbw
  refine ⟨hf, ?_, ?_⟩
  · unfold Agrees storedDjbzId at h1
    cases hpar : s1.getPageParams p with
    | none => rw [hpar, hf] at h1; exact absurd h1 (by decide)
    | some params => rw [hpar, hf] at h1; exact ⟨params, rfl, h1.symm⟩
  · intro id hid
    rw [← (((hc1 hcons) id p).mp hid).1, hf]

end DjbzDispatcher

/-- Witness for C10: page 1 has a colour layer only and is assigned to `0001` in the
registry and in the store; after `autosetPagesToDjbz` it is on the sentinel. -/
theorem autosetPagesToDjbz_no_bitonal_witness :
    Consistent onePageDispatcher ∧
    (∀ p ∈ [samplePage 1],
      Agrees onePageDispatcher (emptySettings.setPageParams (samplePage 1)
        (sampleDefaults.setDjbzId "0001")) p) ∧
    ∃ d1 s1, DjbzDispatcher.autosetPagesToDjbz (sampleGlobals 2) (fun i => 10 + i) sampleDefaults
        [samplePage 1] colourSuggestions onePageDispatcher
        (emptySettings.setPageParams (samplePage 1) (sampleDefaults.setDjbzId "0001"))
        = some (d1, s1) ∧
      ∀ p ∈ [samplePage 1], (colourSuggestions p).hasBWLayer = false →
        d1.findDjbzForPage p = dummyDjbzId ∧
        (∃ params, s1.getPageParams p = some params ∧ params.m_djbzId = dummyDjbzId) ∧
        ∀ id, p ∈ d1.listPagesFromDict id → id = dummyDjbzId :=
  have hcons : Consistent onePageDispatcher :=
    consistent_setToDjbz _ _ _ _ _ _ (consistent_new _ _) (Or.inl (by decide))
  have hag : ∀ p ∈ [samplePage 1],
      Agrees onePageDispatcher (emptySettings.setPageParams (samplePage 1)
        (sampleDefaults.setDjbzId "0001")) p := by
    intro p hp
    simp only [List.mem_singleton] at hp
    subst hp
    unfold Agrees
    decide
  ⟨hcons, hag,
   autosetPagesToDjbz_no_bitonal (sampleGlobals 2) (fun i => 10 + i) sampleDefaults
     [samplePage 1] colourSuggestions onePageDispatcher
     (emptySettings.setPageParams (samplePage 1) (sampleDefaults.setDjbzId "0001")) hcons hag⟩

/-! ### C11: `isDjbzCached` -/

/-- C11, as stated, fails at the two guards of `isDjbzCached`. The sentinel is reported
as cached although the size on disk (10) differs from its recorded size (11); the
dictionary with the empty id is reported as not cached although its recorded output
file exists with the recorded size and time stamp. -/
theorem isDjbzCached_guards_counterexample :
    ((recordedSentinelDispatcher.m_dictionaries.find? dummyDjbzId).map
        (fun dict => (dict.m_output_file, dict.m_output_file_size,
          dict.m_output_file_last_changed)) = some ("d.djvu", 11, 3) ∧
      (sampleEnv.fs "d.djvu").map (fun fi => (fi.size, fi.lastModified)) = some (10, 3) ∧
      recordedSentinelDispatcher.isDjbzCached sampleEnv.g sampleEnv.now sampleEnv.fs
        dummyDjbzId = true) ∧
    ((recordedEmptyIdDispatcher.m_dictionaries.find? "").map
        (fun dict => (dict.m_output_file, dict.m_output_file_size,
          dict.m_output_file_last_changed)) = some ("d.djvu", 10, 3) ∧
      recordedEmptyIdDispatcher.isDjbzCached sampleEnv.g sampleEnv.now sampleEnv.fs "" =
        false) := by
  decide

/-- C11, amended: `isDjbzCached(id)` is true exactly if `id` is the sentinel, or `id` is
not empty and the dictionary with that id has a recorded output file that exists with
the recorded size and time stamp; so for every dictionary other than the sentinel a
size on disk that differs from the recorded size makes it false, whatever the other
fields are. -/
theorem DjbzDispatcher.isDjbzCached_spec (g : GlobalStaticSettings) (now : QDateTime)
    (fs : FileSystem) (d : DjbzDispatcher) (dict_id : String) :
    (d.isDjbzCached g now fs dict_id = true ↔
      dict_id = dummyDjbzId ∨
        (dict_id ≠ "" ∧ ∃ dict fi, d.m_dictionaries.find? dict_id = some dict ∧
          dict.m_output_file ≠ "" ∧ fs dict.m_output_file = some fi ∧
          fi.size = dict.m_output_file_size ∧
          fi.lastModified = dict.m_output_file_last_changed)) ∧
    (∀ dict fi, dict_id ≠ dummyDjbzId → d.m_dictionaries.find? dict_id = some dict →
      fs dict.m_output_file = some fi → fi.size ≠ dict.m_output_file_size →
      d.isDjbzCached g now fs dict_id = false) := by
  have hd : dummyDjbzId ≠ "" := by decide
  have key : d.isDjbzCached g now fs dict_id = true ↔
      dict_id = dummyDjbzId ∨
        (dict_id ≠ "" ∧ ∃ dict fi, d.m_dictionaries.find? dict_id = some dict ∧
          dict.m_output_file ≠ "" ∧ fs dict.m_output_file = some fi ∧
          fi.size = dict.m_output_file_size ∧
          fi.lastModified = dict.m_output_file_last_changed) := by
    unfold isDjbzCached djbzDict
    by_cases h0 : dict_id = ""
    · subst h0
      simp
      exact fun h => hd h.symm
    by_cases h1 : dummyDjbzId = dict_id
    · simp [h0, h1]
    have h1b : ¬ dict_id = dummyDjbzId := fun h => h1 h.symm
    simp only [h0, h1, h1b, if_false, false_or, ne_eq, not_false_eq_true, true_and]
    cases hf : d.m_dictionaries.find? dict_id with
    | none => simp [DjbzDict.new]
    | some dict =>
      simp only [Option.some.injEq, exists_and_left, exists_eq_left']
      by_cases hfile : dict.m_output_file = ""
      · simp [hfile]
      · cases hfs : fs dict.m_output_file with
        | none => simp [hfile]
        | some fi => simp [hfile]
  refine ⟨key, ?_⟩
  intro dict fi hne hfind hfs hsize
  cases hc : d.isDjbzCached g now fs dict_id with
  | false => rfl
  | true =>
    rcases key.mp hc with h | ⟨_, dict2, fi2, h1, _, h3, h4, _⟩
    · exact absurd h hne
    · rw [hfind] at h1
      cases h1
      rw [hfs] at h3
      cases h3
      exact absurd h4 hsize

/-- Witness for C11: the recorded size of `d.djvu` is 10; with a file
of size 11 the dictionary `0001` of the sample registry is not cached. -/
theorem isDjbzCached_spec_witness :
    sampleDispatcher.isDjbzCached (sampleGlobals 2) 0
      (fun name => if name = "d.djvu" then some { size := 11, lastModified := 3 } else none)
      "0001" = false :=
  (DjbzDispatcher.isDjbzCached_spec (sampleGlobals 2) 0
    (fun name => if name = "d.djvu" then some { size := 11, lastModified := 3 } else none)
    sampleDispatcher "0001").2
    (sampleDispatcher.djbzDict (sampleGlobals 2) 0 "0001") { size := 11, lastModified := 3 }
    (by decide) rfl rfl (by decide)

/-! ### C12: `resetAllDictsExceptLocked` -/

/-- C12: after `resetAllDictsExceptLocked` every previously Locked dictionary is still
there with its members, parameters, maximum, revision and output descriptor (and is
the same record altogether unless it is the sentinel); there is no dictionary besides
these and the sentinel; the sentinel exists with kind None; the counter is 0; a page
is mapped exactly if it is a member of a previously Locked dictionary, and then to such
a dictionary, of which it is a member in the new registry as well. -/
theorem DjbzDispatcher.resetAllDictsExceptLocked_spec (g : GlobalStaticSettings)
    (now : QDateTime) (d : DjbzDispatcher) :
    (∀ k dict, d.m_dictionaries.find? k = some dict → dict.m_type = DjbzType.Locked →
      ∃ dict2, (resetAllDictsExceptLocked g now d).m_dictionaries.find? k = some dict2 ∧
        dict2.m_pages = dict.m_pages ∧ dict2.m_params = dict.m_params ∧
        dict2.m_max_pages = dict.m_max_pages ∧ dict2.m_last_changed = dict.m_last_changed ∧
        dict2.m_output_file = dict.m_output_file ∧
        dict2.m_output_file_size = dict.m_output_file_size ∧
        dict2.m_output_file_last_changed = dict.m_output_file_last_changed ∧
        (k ≠ dummyDjbzId → dict2 = dict)) ∧
    (∀ k, (resetAllDictsExceptLocked g now d).m_dictionaries.contains k = true →
      k = dummyDjbzId ∨
        ∃ dict, d.m_dictionaries.find? k = some dict ∧ dict.m_type = DjbzType.Locked) ∧
    (∃ dict, (resetAllDictsExceptLocked g now d).m_dictionaries.find? dummyDjbzId = some dict ∧
      dict.m_type = DjbzType.None) ∧
    (resetAllDictsExceptLocked g now d).m_id_counter = 0 ∧
    (∀ q k, (resetAllDictsExceptLocked g now d).m_page_to_dict q = some k →
      (∃ dict, d.m_dictionaries.find? k = some dict ∧ dict.m_type = DjbzType.Locked ∧
        q ∈ dict.m_pages.elems) ∧
      q ∈ (resetAllDictsExceptLocked g now d).listPagesFromDict k) ∧
    (∀ q, (resetAllDictsExceptLocked g now d).m_page_to_dict q = none ↔
      ¬ ∃ k dict, d.m_dictionaries.find? k = some dict ∧ dict.m_type = DjbzType.Locked ∧
        q ∈ dict.m_pages.elems) := by
  have hmap : (resetAllDictsExceptLocked g now d).m_page_to_dict =
      (collectLocked d.m_dictionaries.entries (QMap.empty, fun _ => none)).2 := rfl
  have hsound : ∀ q k, (resetAllDictsExceptLocked g now d).m_page_to_dict q = some k →
      ∃ dict, d.m_dictionaries.find? k = some dict ∧ dict.m_type = DjbzType.Locked ∧
        q ∈ dict.m_pages.elems := by
    intro q k h
    rw [hmap] at h
    rcases collectLocked_pages_sound _ _ _ q k h with h | ⟨dict, hm, hl, hq⟩
    · simp at h
    · exact ⟨dict, QMap.findList_of_mem d.m_dictionaries.sorted hm, hl, hq⟩
  refine ⟨?_, ?_, ?_, rfl, ?_, ?_⟩
  · intro k dict hfind hlock
    rw [find?_resetAllDictsExceptLocked]
    by_cases hk : k = dummyDjbzId
    · subst hk
      simp [hfind, hlock, DjbzDict.setType]
    · simp [hk, hfind, hlock]
  · intro k hc
    by_cases hk : k = dummyDjbzId
    · exact Or.inl hk
    · right
      unfold QMap.contains at hc
      rw [find?_resetAllDictsExceptLocked] at hc
      simp only [hk, if_false] at hc
      cases hd : d.m_dictionaries.find? k with
      | none => rw [hd] at hc; simp at hc
      | some dict =>
        rw [hd] at hc
        by_cases hlock : dict.m_type = DjbzType.Locked
        · exact ⟨dict, rfl, hlock⟩
        · simp [hlock] at hc
  · rw [find?_resetAllDictsExceptLocked]
    simp [DjbzDict.setType]
  · intro q k h
    refine ⟨hsound q k h, ?_⟩
    rw [mem_resetAllDictsExceptLocked]
    exact hsound q k h
  · intro q
    constructor
    · rintro h ⟨k, dict, h1, h2, h3⟩
      have := collectLocked_pages_complete d.m_dictionaries.entries QMap.empty
        (fun _ => none) q (Or.inr ⟨k, dict, QMap.mem_of_findList h1, h2, h3⟩)
      rw [hmap] at h
      exact this h
    · intro h
      cases hr : (resetAllDictsExceptLocked g now d).m_page_to_dict q with
      | none => rfl
      | some k =>
        obtain ⟨dict, h1, h2, h3⟩ := hsound q k hr
        exact absurd ⟨k, dict, h1, h2, h3⟩ h

/-- Witness for C12: the locked dictionary `0001` of
`lockedDispatcher` is kept as it is. -/
theorem resetAllDictsExceptLocked_spec_witness :
    ∃ dict2,
      (resetAllDictsExceptLocked (sampleGlobals 2) 9 lockedDispatcher).m_dictionaries.find?
        "0001" = some dict2 ∧
      dict2.m_pages = (lockedDispatcher.djbzDict (sampleGlobals 2) 0 "0001").m_pages ∧
      dict2.m_last_changed = 2 := by
  obtain ⟨dict2, h1, h2, _, _, h5, _⟩ :=
    (DjbzDispatcher.resetAllDictsExceptLocked_spec (sampleGlobals 2) 9 lockedDispatcher).1
      "0001" (lockedDispatcher.djbzDict (sampleGlobals 2) 0 "0001") rfl rfl
  exact ⟨dict2, h1, h2, h5⟩

/-! ### C13: `moveToDjbz` to the same dictionary -/

/-- C13: moving page 1 to the dictionary `0001` it is already assigned to, at clock
reading 50. The page map and the members of `0001` (pages 1 and 2) are as before, but
the revision of `0001` goes from 2 to 50: `moveToDjbz` first deletes the page, so the
test of `setToDjbz` for an unchanged assignment never succeeds. -/
theorem moveToDjbz_same_id_bumps_revision :
    sampleDispatcher.findDjbzForPage (samplePage 1) = "0001" ∧
    sampleDispatcher.listPagesFromDict "0001" = [samplePage 2, samplePage 1] ∧
    (sampleDispatcher.djbzDict (sampleGlobals 2) 50 "0001").m_last_changed = 2 ∧
    (moveToDjbz (sampleGlobals 2) 50 sampleDispatcher (samplePage 1) "0001").findDjbzForPage
      (samplePage 1) = "0001" ∧
    (moveToDjbz (sampleGlobals 2) 50 sampleDispatcher (samplePage 1) "0001").listPagesFromDict
      "0001" = [samplePage 1, samplePage 2] ∧
    ((moveToDjbz (sampleGlobals 2) 50 sampleDispatcher (samplePage 1) "0001").djbzDict
      (sampleGlobals 2) 50 "0001").m_last_changed = 50 := by
  decide

/-! ### C14: revision of a dictionary -/

/-- C14: `addPage` of page 1, which is already a member of the dictionary `0001` of the
sample registry, without the flag and at clock reading 50: members and parameters are
as before, yet the revision goes from 2 to 50. -/
theorem addPage_member_bumps_revision :
    (sampleDispatcher.djbzDict (sampleGlobals 2) 50 "0001").m_pages.elems =
      [samplePage 2, samplePage 1] ∧
    (sampleDispatcher.djbzDict (sampleGlobals 2) 50 "0001").m_last_changed = 2 ∧
    ((sampleDispatcher.djbzDict (sampleGlobals 2) 50 "0001").addPage (samplePage 1) false
      50).m_pages.elems = [samplePage 2, samplePage 1] ∧
    ((sampleDispatcher.djbzDict (sampleGlobals 2) 50 "0001").addPage (samplePage 1) false
      50).m_params = (sampleDispatcher.djbzDict (sampleGlobals 2) 50 "0001").m_params ∧
    ((sampleDispatcher.djbzDict (sampleGlobals 2) 50 "0001").addPage (samplePage 1) false
      50).m_last_changed = 50 := by
  decide

/-! ### C15: the bit `RegeneratePage` -/

/-- C15, as stated, fails for the second half: `needPageReprocess` is a const method
that stores nothing, so the store after the call is the one before it. For page 1 of
`forcedTask` the check returns true and the stored parameters still carry the bit. -/
theorem needPageReprocess_keeps_flag_counterexample :
    Task.needPageReprocess sampleEnv forcedTask (samplePage 1) = true ∧
    (forcedTask.m_ptrSettings.getPageParams (samplePage 1)).map
      (fun params => params.m_forceReprocess &&& Params.RegeneratePage) = some 1 := by
  decide

/-- C15, amended: whenever the bit `RegeneratePage` is set in the stored parameters of a
page, `needPageReprocess` returns true; the bit is consumed later, by the partition
loop of `process`: the loop over pages that all have parameters ends, and afterwards
no page of the loop carries the bit in the store. -/
theorem Task.regeneratePage_consumed :
    (∀ (env : Env) (t : Task) (page_id : PageId) (params : Params),
      t.m_ptrSettings.getPageParams page_id = some params →
      params.m_forceReprocess &&& Params.RegeneratePage ≠ 0 →
      Task.needPageReprocess env t page_id = true) ∧
    (∀ (penv : ProcessEnv) (sug : ExportSuggestions) (djbz_is_cached : Bool)
      (dictionary_pages : List PageId) (s : Settings) (w : WorkSets),
      (∀ p ∈ dictionary_pages, s.getPageParams p ≠ none) →
      ∃ s1 w1, Task.partitionLoop penv sug djbz_is_cached dictionary_pages (s, w) = some (s1, w1) ∧
        ∀ p ∈ dictionary_pages, ∃ params, s1.getPageParams p = some params ∧
          params.m_forceReprocess &&& Params.RegeneratePage = 0) := by
  constructor
  · intro env t page_id params h hf
    unfold Task.needPageReprocess
    simp only [h, hf, ne_eq, not_false_eq_true, if_true]
  · intro penv sug c l s w h
    obtain ⟨s1, w1, h1, _, _, h2, _⟩ := Task.partitionLoop_spec penv sug c l s w h
    exact ⟨s1, w1, h1, h2⟩

/-- Witness for C15: page 1 of `forcedTask`. -/
theorem regeneratePage_consumed_witness :
    Task.needPageReprocess sampleEnv forcedTask (samplePage 1) = true ∧
    ∃ s1 w1, Task.partitionLoop sampleProcessEnv sampleSuggestions true [samplePage 1]
        (forcedTask.m_ptrSettings, WorkSets.empty) = some (s1, w1) ∧
      ∀ p ∈ [samplePage 1], ∃ params, s1.getPageParams p = some params ∧
        params.m_forceReprocess &&& Params.RegeneratePage = 0 :=
  ⟨Task.regeneratePage_consumed.1 sampleEnv forcedTask (samplePage 1) _ rfl (by decide),
    Task.regeneratePage_consumed.2 sampleProcessEnv sampleSuggestions true [samplePage 1]
      forcedTask.m_ptrSettings WorkSets.empty (by decide)⟩

/-! ### C16: failing tools -/

/-- Counterexample for C16: in the run `staleRun` of `freshTask` every tool exits with
code 1, and the files found at the update step are those of an earlier run. Pages 1 and
2 have a text layer, so the text encoder and `djvumake` are run. No assertion on the
way fails, and `process` returns after the update step: page 1, which had no stored
parameters, has a remembered snapshot and the recorded size of the stale DjVu file,
and the dictionary `0001` records an output file. -/
theorem process_failed_tools_counterexample :
    staleRun.exitCode Tool.minidjvu (samplePage 1) = 1 ∧
    staleRun.exitCode Tool.djvumake (samplePage 1) = 1 ∧
    freshTask.m_ptrSettings.getPageParams (samplePage 1) = none ∧
    Task.processAssertions sampleProcessEnv (fun _ => 100) staleRun
      [samplePage 1, samplePage 2] freshTask = true ∧
    (Task.process sampleProcessEnv (fun _ => 100) staleRun [samplePage 1, samplePage 2]
      freshTask).1 = Outcome.Returned ∧
    ((Task.process sampleProcessEnv (fun _ => 100) staleRun [samplePage 1, samplePage 2]
      freshTask).2.m_ptrSettings.getPageParams (samplePage 1)).map
        (fun params => (params.m_outputParams.isSome, params.m_djvuSize)) = some (true, 10) ∧
    ((Task.process sampleProcessEnv (fun _ => 100) staleRun [samplePage 1, samplePage 2]
      freshTask).2.m_refDjbzDispatcher.m_dictionaries.find? "0001").map
        (fun dict => (dict.m_output_file, dict.m_output_file_size)) =
      some ("out/djvu//0001.djbz", 10) := by
  decide

/-- C16, amended: `process` never looks at the exit code of a tool. Whatever the exit
codes of a run are, if the cancellation flag is never found set, the page needs
reprocessing after the automatic assignment and no assertion on the way fails (in
particular the DjVu file of every page of the group exists at the update step),
`process` returns after the update step: the dictionary of the page is a key of the
registry; every page of the group has a fresh remembered snapshot with the revision and
the parameters of that dictionary, and the name, size and time stamp of its DjVu file
as found in the file system at the update step; and unless the stored id of the page
is the sentinel, the dictionary records its output file, named after the stored id and
the extension of that dictionary, with the size (as a `uint`) and the time stamp found
in the file system at the update step, or 0 and the null time stamp if there is no
such file. -/
theorem Task.process_commits (penv : ProcessEnv) (clock : Nat → QDateTime) (run : Run)
    (all_pages_ordered : List PageId) (t : Task) (d1 : DjbzDispatcher) (s1 : Settings)
    (hc : ∀ cp, run.cancelled cp = false)
    (ha : DjbzDispatcher.autosetPagesToDjbz penv.g clock penv.defaults all_pages_ordered
      t.m_ptrExportSuggestions t.m_refDjbzDispatcher t.m_ptrSettings = some (d1, s1))
    (hneed : (Task.needReprocess penv.toEnv
      { t with m_refDjbzDispatcher := d1, m_ptrSettings := s1 }).1 = true)
    (hassert : Task.processAssertions penv clock run all_pages_ordered t = true) :
    (Task.process penv clock run all_pages_ordered t).1 = Outcome.Returned ∧
    ∃ dict,
      (Task.process penv clock run all_pages_ordered t).2.m_refDjbzDispatcher.m_dictionaries.find?
        ((Task.process penv clock run all_pages_ordered t).2.m_refDjbzDispatcher.findDjbzForPage
          t.m_pageId) = some dict ∧
      (∀ p ∈ (Task.process penv clock run all_pages_ordered
          t).2.m_refDjbzDispatcher.listPagesFromSameDict t.m_pageId,
        ∃ written fi,
          (Task.process penv clock run all_pages_ordered t).2.m_ptrSettings.getPageParams p =
            some written ∧
          written.m_outputParams =
            some (OutputParams.new written written.m_djbzId dict.m_last_changed
              dict.m_params) ∧
          written.m_djvuFilename = Task.djvuFileName penv t.m_refOutFileNameGen p ∧
          run.fsAtUpdate written.m_djvuFilename = some fi ∧
          written.m_djvuSize = fi.size ∧ written.m_djvuLastChanged = fi.lastModified) ∧
      (∀ params,
        (Task.process penv clock run all_pages_ordered t).2.m_ptrSettings.getPageParams
          t.m_pageId = some params →
        params.m_djbzId ≠ dummyDjbzId →
        dict.m_output_file =
          t.m_refOutFileNameGen.outDir ++ "/" ++ penv.g.m_djvu_pages_subfolder ++ "/" ++ "/" ++
            params.m_djbzId ++ "." ++
            ((Task.process penv clock run all_pages_ordered t).2.m_refDjbzDispatcher.djbzDict
              penv.g penv.now params.m_djbzId).m_params.m_extension ∧
        (∀ fi, run.fsAtUpdate dict.m_output_file = some fi →
          dict.m_output_file_size = fi.size % 2 ^ 32 ∧
          dict.m_output_file_last_changed = fi.lastModified) ∧
        (run.fsAtUpdate dict.m_output_file = none →
          dict.m_output_file_size = 0 ∧
          dict.m_output_file_last_changed = QDateTime.null)) := by
  obtain ⟨t2, hv, hs2, _, _, hne2, hsubj2, hp2⟩ := Task.validateTaskParams_frame penv.toEnv
    penv.defaults { t with m_refDjbzDispatcher := d1, m_ptrSettings := s1 }
  have hid : t2.m_pageId = t.m_pageId := hs2.1
  rw [hid] at hne2 hsubj2 hp2
  have hpages : ∀ p ∈ t2.m_refDjbzDispatcher.listPagesFromSameDict t.m_pageId,
      t2.m_ptrSettings.getPageParams p ≠ none := by
    intro p hp
    unfold listPagesFromSameDict at hp
    simp only [] at hp
    split_ifs at hp
    · rw [List.mem_singleton] at hp
      rw [hp]; exact hsubj2
    · exact hp2 p hp
  obtain ⟨s3, w0, hpl, hg3, _, _, hw⟩ := Task.partitionLoop_spec penv
    t2.m_ptrExportSuggestions
    (Task.needReprocess penv.toEnv { t with m_refDjbzDispatcher := d1, m_ptrSettings := s1 }).2
    (t2.m_refDjbzDispatcher.listPagesFromSameDict t.m_pageId) t2.m_ptrSettings
    WorkSets.empty hpages
  have hwe : ∀ q, q ∉ WorkSets.empty.pages := by
    intro q hq
    simp [WorkSets.pages, WorkSets.empty, QSet.empty] at hq
  have hp : Task.process penv clock run all_pages_ordered t =
      Task.runStages penv run { t2 with m_ptrSettings := s3 }
        (t2.m_refDjbzDispatcher.findDjbzForPage t.m_pageId)
        (t2.m_refDjbzDispatcher.listPagesFromSameDict t.m_pageId)
        { w0 with to_assemble := (w0.to_assemble.unite w0.to_c44).unite w0.to_minidjvu } := by
    unfold Task.process
    simp only [hc, Bool.false_eq_true, if_false, ha, hneed, if_true, hv, hid, hpl]
  have hfiles : Task.updateLoopAssertion penv run.fsAtUpdate t.m_refOutFileNameGen
      (t2.m_refDjbzDispatcher.listPagesFromSameDict t.m_pageId) = true := by
    unfold Task.processAssertions at hassert
    simp only [ha, hneed, if_true, hv, hid, hs2.2.1, Bool.and_eq_true] at hassert
    exact hassert.2
  generalize hwdef :
    ({ w0 with to_assemble := (w0.to_assemble.unite w0.to_c44).unite w0.to_minidjvu } :
      WorkSets) = w at hp
  have hw3 : ∀ q ∈ w.pages, s3.getPageParams q ≠ none := by
    intro q hq
    have hq2 : q ∈ w0.pages := by
      rw [← hwdef] at hq
      simp only [WorkSets.pages, List.mem_append, QSet.mem_unite] at hq ⊢
      tauto
    rcases hw q hq2 with h | h
    · exact hg3.1 q (hpages q h)
    · exact absurd h (hwe q)
  have hsubj3 : s3.getPageParams t.m_pageId ≠ none := hg3.1 _ hsubj2
  have hpages3 : ∀ p ∈ t2.m_refDjbzDispatcher.listPagesFromSameDict t.m_pageId,
      s3.getPageParams p ≠ none := fun p hp => hg3.1 p (hpages p hp)
  have hp3 : ∀ p ∈ t2.m_refDjbzDispatcher.listPagesFromDict
      (t2.m_refDjbzDispatcher.findDjbzForPage t.m_pageId), s3.getPageParams p ≠ none :=
    fun p hp => hg3.1 p (hp2 p hp)
  have hreads : ∀ p ∈ Task.encoderParamsReads t2.m_refDjbzDispatcher t2.m_pageId,
      s3.getPageParams p ≠ none := by
    intro p hp
    unfold Task.encoderParamsReads at hp
    simp only [hs2.1, List.mem_append] at hp
    rcases hp with hp | hp
    · split_ifs at hp
      · simp at hp
      · rw [List.mem_singleton] at hp
        rw [hp]; exact hsubj3
    · split_ifs at hp
      · exact hp3 p hp
      · simp at hp
  have hrun := Task.runStages_returned penv run { t2 with m_ptrSettings := s3 }
    (t2.m_refDjbzDispatcher.findDjbzForPage t.m_pageId)
    (t2.m_refDjbzDispatcher.listPagesFromSameDict t.m_pageId) w hc hw3 hreads
  have hg := (Task.startExport_cases penv.defaults run s3 w.to_export).1
  cases hsub : (Task.startExport run s3 w.to_export).2.getPageParams t.m_pageId with
  | none => exact absurd hsub (hg.1 _ hsubj3)
  | some params0 =>
    obtain ⟨s5, hup, ho5, hp5⟩ := Task.updateParams_spec penv run.fsAtUpdate
      { t2 with m_ptrSettings := (Task.startExport run s3 w.to_export).2 }
      (t2.m_refDjbzDispatcher.findDjbzForPage t.m_pageId)
      (t2.m_refDjbzDispatcher.listPagesFromSameDict t.m_pageId) params0
      (by simp only [hs2.1]; exact hsub)
      (fun p hp => hg.1 p (hpages3 p hp))
    have hdj := Task.updateParams_djvu penv run.fsAtUpdate
      { t2 with m_ptrSettings := (Task.startExport run s3 w.to_export).2 }
      (t2.m_refDjbzDispatcher.findDjbzForPage t.m_pageId)
      (t2.m_refDjbzDispatcher.listPagesFromSameDict t.m_pageId) params0
      (by simp only [hs2.1]; exact hsub)
      (fun p hp => hg.1 p (hpages3 p hp))
      (by simp only [hs2.2.1]; exact hfiles)
    rw [hup] at hdj
    rw [hp, hrun, hup]
    refine ⟨rfl, _, QMap.find?_insert_self _ _ _, ?_, ?_⟩
    · intro p hpm
      have hpm2 : p ∈ t2.m_refDjbzDispatcher.listPagesFromSameDict t.m_pageId := by
        unfold listPagesFromSameDict at hpm ⊢
        have hfind : ∀ (X : DjbzContent) (q : PageId),
            findDjbzForPage { t2.m_refDjbzDispatcher with m_dictionaries := X } q =
              t2.m_refDjbzDispatcher.findDjbzForPage q := fun _ _ => rfl
        simp only [hfind] at hpm ⊢
        split_ifs at hpm ⊢
        · exact hpm
        · rw [mem_listPagesFromDict] at hpm
          obtain ⟨dict, hf, hmem⟩ := hpm
          rw [QMap.find?_insert_self] at hf
          cases hf
          rw [(Task.updateDict_fields _ _ _ _ _).1] at hmem
          exact (mem_dictAt _ _ _ _ _).mp hmem
      obtain ⟨written, hw1, hw2, _⟩ := hp5 p hpm2
      obtain ⟨written2, fi, hd1, hd2, hd3, hd4, hd5⟩ := hdj p hpm2
      simp only [] at hd1 hw1
      rw [hw1] at hd1
      cases hd1
      simp only [hs2.2.1] at hd2 hd3
      exact ⟨written, fi, hw1, hw2, hd2, by rw [hd2]; exact hd3, hd4, hd5⟩
    · intro params hget hne
      have hidp : params.m_djbzId = params0.m_djbzId := by
        by_cases hmem : t.m_pageId ∈ t2.m_refDjbzDispatcher.listPagesFromSameDict t.m_pageId
        · obtain ⟨written, hw1, _, hw3⟩ := hp5 _ hmem
          simp only [] at hget
          rw [hw1] at hget
          cases hget
          exact hw3 params0 hsub
        · have h5 := ho5 _ hmem
          simp only [] at hget h5
          rw [h5, hsub] at hget
          cases hget
          rfl
      have hne0 : params0.m_djbzId ≠ dummyDjbzId := by rw [← hidp]; exact hne
      obtain ⟨hpar, hout⟩ := Task.updateDict_output penv run.fsAtUpdate
        { t2 with m_ptrSettings := (Task.startExport run s3 w.to_export).2 }
        (t2.m_refDjbzDispatcher.findDjbzForPage t.m_pageId) params0
      obtain ⟨hname, hsize, htime⟩ := hout hne0
      refine ⟨?_, ?_, ?_⟩
      · rw [← hs2.2.1, hname, hidp]
        congr 1
        congr 1
        rw [DjbzDispatcher.djbzDict_eq_dictAt, DjbzDispatcher.djbzDict_eq_dictAt]
        unfold dictAt
        simp only []
        rw [QMap.find?_insert]
        split_ifs with hk
        · rw [hk]
          simp only [Option.getD_some]
          exact hpar.symm
        · rfl
      · intro fi hfi
        rw [hsize, htime, hfi]
        exact ⟨rfl, rfl⟩
      · intro hfi
        rw [hsize, htime, hfi]
        exact ⟨rfl, rfl⟩

/-- Witness for C16: the run of `freshTask` in which every tool fails and the files of
an earlier run are found at the update step. -/
theorem process_commits_witness :
    (Task.process sampleProcessEnv (fun _ => 100) staleRun [samplePage 1, samplePage 2]
      freshTask).1 = Outcome.Returned :=
  (Task.process_commits sampleProcessEnv (fun _ => 100) staleRun
    [samplePage 1, samplePage 2] freshTask _ _ (fun _ => rfl) rfl (by decide) (by decide)).1

/-! ### C17: cancellation while the text encoder runs -/

/-- C17: if the stages of `process` have reached the text encoder and the cancellation
flag is found set in a round of polling it, they are left through `throwIfCancelled`
at such a round; and whenever `process` is left there, every dictionary that was in
the registry before the run is still there with the output file name, size and time
stamp it had, and the remembered snapshot of every page is the one it had before the
run (for a page whose parameters the run has created, that of the default-constructed
`Params`). -/
theorem Task.process_cancelled_in_encoder (penv : ProcessEnv) (clock : Nat → QDateTime)
    (run : Run) (all_pages_ordered : List PageId) (t : Task) (i : Nat) :
    (∀ (t2 : Task) (djbz_id : String) (pages : List PageId) (w : WorkSets),
      (Task.startExport run t2.m_ptrSettings w.to_export).1 = Outcome.Returned →
      Task.pagesLoop run CheckPoint.c44 (Task.startExport run t2.m_ptrSettings w.to_export).2
        w.to_c44.elems = Outcome.Returned →
      w.to_minidjvu.isEmpty = false →
      Task.derefLoop (Task.startExport run t2.m_ptrSettings w.to_export).2
        (Task.encoderParamsReads t2.m_refDjbzDispatcher t2.m_pageId) = Outcome.Returned →
      run.settingsFileOpens = true →
      i < run.minidjvuRounds → run.cancelled (CheckPoint.minidjvuRound i) = true →
      ∃ j, (Task.runStages penv run t2 djbz_id pages w).1 =
        Outcome.Cancelled (CheckPoint.minidjvuRound j)) ∧
    ((Task.process penv clock run all_pages_ordered t).1 =
        Outcome.Cancelled (CheckPoint.minidjvuRound i) →
      (∀ k dict, t.m_refDjbzDispatcher.m_dictionaries.find? k = some dict →
        ∃ dict2,
          (Task.process penv clock run all_pages_ordered
            t).2.m_refDjbzDispatcher.m_dictionaries.find? k = some dict2 ∧
          dict2.m_output_file = dict.m_output_file ∧
          dict2.m_output_file_size = dict.m_output_file_size ∧
          dict2.m_output_file_last_changed = dict.m_output_file_last_changed) ∧
      (∀ q, Settings.rememberedOutputParams penv.defaults
          (Task.process penv clock run all_pages_ordered t).2.m_ptrSettings q =
        Settings.rememberedOutputParams penv.defaults t.m_ptrSettings q)) := by
  constructor
  · intro t2 djbz_id pages w h1 h2 h3 h4 h5 hi hset
    obtain ⟨j, hj⟩ := Task.firstCancelled_of_set run CheckPoint.minidjvuRound _ i hi hset
    refine ⟨j, ?_⟩
    unfold Task.runStages
    simp only [h1, h2, ne_eq, not_true_eq_false, if_false]
    unfold Task.encodeJb2
    simp only [h3, h4, h5, hj, Bool.not_false, if_true, ne_eq, not_true_eq_false, if_false,
      not_false_eq_true, reduceCtorEq]
  · intro h
    obtain ⟨hk, hr⟩ := Task.process_cancelled penv clock run all_pages_ordered t _ h
    refine ⟨?_, hr⟩
    intro k dict hf
    obtain ⟨dict2, hf2, hs⟩ := hk k dict hf
    exact ⟨dict2, hf2, hs.2.2.1, hs.2.2.2.1, hs.2.2.2.2⟩

/-- Witness for C17: the run of `freshTask` in which the
flag is found set in the second round of polling the text encoder. -/
theorem process_cancelled_in_encoder_witness :
    (Task.process sampleProcessEnv (fun _ => 100) cancelledRun [samplePage 1, samplePage 2]
      freshTask).1 = Outcome.Cancelled (CheckPoint.minidjvuRound 1) ∧
    ∀ q, Settings.rememberedOutputParams sampleProcessEnv.defaults
        (Task.process sampleProcessEnv (fun _ => 100) cancelledRun
          [samplePage 1, samplePage 2] freshTask).2.m_ptrSettings q =
      Settings.rememberedOutputParams sampleProcessEnv.defaults freshTask.m_ptrSettings q :=
  ⟨by decide,
    ((Task.process_cancelled_in_encoder sampleProcessEnv (fun _ => 100) cancelledRun
      [samplePage 1, samplePage 2] freshTask 1).2 (by decide)).2⟩

/-! ### C18: `Task::validateParams` -/

/-- C18: `validateParams(page)` returns, and afterwards the registry has a non-empty
assignment for the page and the store holds parameters for it whose source images
snapshot is valid and does not differ from the freshly computed one. The stored
parameters are the previous ones (the default-constructed ones if there were none)
with the dictionary id replaced if the page had to be assigned and the snapshot
replaced if it had to be refreshed: every change has been written. The inequality
operator of `ExportSuggestion`, which is not at hand, is taken to be irreflexive. -/
theorem Task.validateParams_spec (env : Env) (defaults : Params) (t : Task) (page_id : PageId)
    (hirr : ∀ x, env.suggestionNe x x = false) :
    ∃ t1, Task.validateParams env defaults t page_id = some t1 ∧
      t1.m_refDjbzDispatcher.findDjbzForPage page_id ≠ "" ∧
      ∃ params, t1.m_ptrSettings.getPageParams page_id = some params ∧
        params.m_sourceImagesInfo.isValid = true ∧
        params.m_sourceImagesInfo.ne env
          (SourceImagesInfo.new env page_id t1.m_refOutFileNameGen t1.m_ptrExportSuggestions)
            = false ∧
        params =
          { (t.m_ptrSettings.getPageParams page_id).getD defaults with
            m_djbzId :=
              if t.m_refDjbzDispatcher.findDjbzForPage page_id = "" then
                t1.m_refDjbzDispatcher.findDjbzForPage page_id
              else ((t.m_ptrSettings.getPageParams page_id).getD defaults).m_djbzId
            m_sourceImagesInfo :=
              if (!((t.m_ptrSettings.getPageParams page_id).getD
                    defaults).m_sourceImagesInfo.isValid ||
                  ((t.m_ptrSettings.getPageParams page_id).getD defaults).m_sourceImagesInfo.ne
                    env (SourceImagesInfo.new env page_id t.m_refOutFileNameGen
                      t.m_ptrExportSuggestions)) = true then
                SourceImagesInfo.new env page_id t.m_refOutFileNameGen t.m_ptrExportSuggestions
              else ((t.m_ptrSettings.getPageParams page_id).getD defaults).m_sourceImagesInfo } := by
  obtain ⟨t1, h, ⟨_, hgen, hsug⟩, _, _, _, hne, _, _, hp⟩ :=
    Task.validateParams_frame env defaults t page_id
  refine ⟨t1, h, hne, _, hp, ?_, ?_, rfl⟩
  · simp only []
    split_ifs with hc
    · exact SourceImagesInfo.isValid_new _ _ _ _
    · simp only [Bool.or_eq_true, not_or, Bool.not_eq_true, Bool.not_eq_false'] at hc
      exact hc.1
  · simp only [hgen, hsug]
    split_ifs with hc
    · exact SourceImagesInfo.ne_self env hirr _
    · simp only [Bool.or_eq_true, not_or, Bool.not_eq_true, Bool.not_eq_false'] at hc
      exact hc.2

/-- Witness for C18: page 1 in a fresh registry and an empty store. -/
theorem validateParams_spec_witness :
    ∃ t1, Task.validateParams sampleEnv sampleDefaults
        freshTask (samplePage 1) = some t1 ∧
      t1.m_refDjbzDispatcher.findDjbzForPage (samplePage 1) ≠ "" ∧
      ∃ params, t1.m_ptrSettings.getPageParams (samplePage 1) = some params ∧
        params.m_sourceImagesInfo.isValid = true ∧
        params.m_sourceImagesInfo.ne sampleEnv
          (SourceImagesInfo.new sampleEnv (samplePage 1) t1.m_refOutFileNameGen
            t1.m_ptrExportSuggestions) = false := by
  obtain ⟨t1, h1, h2, params, h3, h4, h5, _⟩ :=
    Task.validateParams_spec sampleEnv sampleDefaults
      freshTask (samplePage 1)
      (fun x => by simp [sampleEnv])
  exact ⟨t1, h1, h2, params, h3, h4, h5⟩

/-! ### C19: lookup of an id that is not a key -/

/-- Counterexample for C19: in a fresh registry `0007` is not a key, yet `djbzDict`
returns a default-constructed dictionary (no pages, kind AutoFill, revision the clock
reading 5) and `listPagesFromDict` an empty set. The only check on the id is the
assertion of `djbzDictRef`; once it is compiled out, the call returns the
default-constructed dictionary and leaves it in the registry under `0007`. The claim
about the other operations fails as well: for page 1, which is not assigned, the
assertion of `listPagesFromSameDict` does not hold. -/
theorem lookup_unknown_id_counterexample :
    (DjbzDispatcher.new (sampleGlobals 2) 0).m_dictionaries.contains "0007" = false ∧
    ((DjbzDispatcher.new (sampleGlobals 2) 0).djbzDict (sampleGlobals 2) 5 "0007").m_pages.elems
      = [] ∧
    ((DjbzDispatcher.new (sampleGlobals 2) 0).djbzDict (sampleGlobals 2) 5 "0007").m_type
      = DjbzType.AutoFill ∧
    ((DjbzDispatcher.new (sampleGlobals 2) 0).djbzDict (sampleGlobals 2) 5 "0007").m_last_changed
      = 5 ∧
    (DjbzDispatcher.new (sampleGlobals 2) 0).listPagesFromDict "0007" = [] ∧
    (DjbzDispatcher.new (sampleGlobals 2) 0).djbzDictRefAssertion "0007" = false ∧
    ((DjbzDispatcher.new (sampleGlobals 2) 0).djbzDictRef (sampleGlobals 2) 5 "0007").1.m_last_changed
      = 5 ∧
    ((DjbzDispatcher.new (sampleGlobals 2) 0).djbzDictRef (sampleGlobals 2) 5
      "0007").2.m_dictionaries.contains "0007" = true ∧
    (DjbzDispatcher.new (sampleGlobals 2) 0).listPagesFromSameDictAssertion (samplePage 1)
      = false := by
  decide

/-- C19, amended: for an id that is not a key, `djbzDict` returns a default-constructed
dictionary and `listPagesFromDict` the empty set; the assertion of `djbzDictRef` does
not hold, and with the assertion compiled out `djbzDictRef` returns a
default-constructed dictionary and leaves it in the registry under the id, every other
entry, the page map and the counter being as before. For a key all three give the
stored dictionary or its pages, the assertion holds and `djbzDictRef` leaves the
registry as it is. The assertion of `listPagesFromSameDict` fails exactly for a page
to which the page map gives no id or the empty id. `addNewPage` and
`autosetPagesToDjbz`, the operations with a loop, always return. -/
theorem DjbzDispatcher.lookup_spec (g : GlobalStaticSettings) (now : QDateTime)
    (d : DjbzDispatcher) (dict_id : String) :
    (d.m_dictionaries.contains dict_id = false →
      d.djbzDict g now dict_id = DjbzDict.new g now ∧ d.listPagesFromDict dict_id = [] ∧
      d.djbzDictRefAssertion dict_id = false ∧
      (d.djbzDictRef g now dict_id).1 = DjbzDict.new g now ∧
      (d.djbzDictRef g now dict_id).2.m_dictionaries.find? dict_id =
        some (DjbzDict.new g now) ∧
      (∀ k, k ≠ dict_id →
        (d.djbzDictRef g now dict_id).2.m_dictionaries.find? k = d.m_dictionaries.find? k) ∧
      (d.djbzDictRef g now dict_id).2.m_page_to_dict = d.m_page_to_dict ∧
      (d.djbzDictRef g now dict_id).2.m_id_counter = d.m_id_counter) ∧
    (∀ dict, d.m_dictionaries.find? dict_id = some dict →
      d.djbzDict g now dict_id = dict ∧ d.listPagesFromDict dict_id = dict.m_pages.elems ∧
      d.djbzDictRefAssertion dict_id = true ∧
      (d.djbzDictRef g now dict_id).1 = dict ∧ (d.djbzDictRef g now dict_id).2 = d) ∧
    (∀ page, d.listPagesFromSameDictAssertion page = false ↔
      (d.m_page_to_dict page = none ∨ d.m_page_to_dict page = some "")) ∧
    (∀ page, ∃ r, addNewPage g now d page = some r) ∧
    (∀ clock defaults pages sug s, ∃ r,
      autosetPagesToDjbz g clock defaults pages sug d s = some r) := by
  refine ⟨?_, ?_, ?_, ?_, ?_⟩
  · intro h
    have hf : d.m_dictionaries.find? dict_id = none := by
      unfold QMap.contains at h
      cases hfind : d.m_dictionaries.find? dict_id with
      | none => rfl
      | some dict => rw [hfind] at h; simp at h
    refine ⟨?_, ?_, h, ?_, ?_, ?_, ?_, ?_⟩
    · simp [djbzDict, hf]
    · simp [listPagesFromDict, hf]
    · simp [djbzDictRef, dictAt, hf]
    · simp [djbzDictRef, h, QMap.find?_insert_self]
    · intro k hk
      simp only [djbzDictRef, h, Bool.false_eq_true, if_false]
      exact QMap.find?_insert_ne _ _ hk
    · simp [djbzDictRef, h]
    · simp [djbzDictRef, h]
  · intro dict h
    have hc : d.m_dictionaries.contains dict_id = true := by
      simp [QMap.contains, h]
    refine ⟨?_, ?_, hc, ?_, ?_⟩
    · simp [djbzDict, h]
    · simp [listPagesFromDict, h]
    · simp [djbzDictRef, dictAt, h]
    · simp [djbzDictRef, hc]
  · intro page
    unfold listPagesFromSameDictAssertion findDjbzForPage
    cases hm : d.m_page_to_dict page with
    | none => simp
    | some id => simp
  · intro page
    obtain ⟨id, d1, h, _⟩ := addNewPage_spec g now d page
    exact ⟨(id, d1), h⟩
  · intro clock defaults pages sug s
    obtain ⟨d1, s1, h, _⟩ := autosetLoop_keeps g clock defaults sug pages 0 d s
    exact ⟨(d1, s1), h⟩

/-- Witness for C19: `0007` is not a key of a fresh registry. -/
theorem lookup_spec_witness :
    (DjbzDispatcher.new (sampleGlobals 2) 0).djbzDict (sampleGlobals 2) 5 "0007" =
      DjbzDict.new (sampleGlobals 2) 5 ∧
    (DjbzDispatcher.new (sampleGlobals 2) 0).listPagesFromDict "0007" = [] ∧
    ((DjbzDispatcher.new (sampleGlobals 2) 0).djbzDictRef (sampleGlobals 2) 5
      "0007").2.m_dictionaries.find? "0007" = some (DjbzDict.new (sampleGlobals 2) 5) := by
  obtain ⟨h1, h2, _, _, h5, _⟩ :=
    (DjbzDispatcher.lookup_spec (sampleGlobals 2) 5 (DjbzDispatcher.new (sampleGlobals 2) 0)
      "0007").1 (by decide)
  exact ⟨h1, h2, h5⟩

/-! ### C20: the sentinel dictionary -/

/-- C20, as stated, fails for `SetDjbzDict`: storing a default-constructed dictionary
under the sentinel id leaves the sentinel with kind AutoFill. -/
theorem SetDjbzDict_sentinel_counterexample :
    ((SetDjbzDict (DjbzDispatcher.new (sampleGlobals 2) 0) dummyDjbzId
        (DjbzDict.new (sampleGlobals 2) 1)).m_dictionaries.find? dummyDjbzId).map
      (fun dict => dict.m_type) = some DjbzType.AutoFill := by
  decide

/-- C20, amended: the sentinel exists with kind None after the default constructor, the
XML constructor and `resetAllDictsExceptLocked`; `addNewPage`, `deleteFromDjbz`,
`setToDjbz`, `moveToDjbz` and `autosetPagesToDjbz` keep it so, and so does `SetDjbzDict`
unless it stores a dictionary of another kind under the sentinel id. -/
theorem DjbzDispatcher.sentinelIsNone_spec (g : GlobalStaticSettings) (now : QDateTime)
    (fs : FileSystem) :
    SentinelIsNone (DjbzDispatcher.new g now) ∧
    (∀ els, SentinelIsNone (fromXml g now fs els)) ∧
    (∀ d, SentinelIsNone (resetAllDictsExceptLocked g now d)) ∧
    (∀ d, SentinelIsNone d →
      (∀ page, ∃ id d1, addNewPage g now d page = some (id, d1) ∧ SentinelIsNone d1) ∧
      (∀ page, SentinelIsNone (deleteFromDjbz g now d page)) ∧
      (∀ page id flag, SentinelIsNone (setToDjbz g now d page id flag)) ∧
      (∀ page id, SentinelIsNone (moveToDjbz g now d page id)) ∧
      (∀ clock defaults pages sug s, ∃ d1 s1,
        autosetPagesToDjbz g clock defaults pages sug d s = some (d1, s1) ∧
          SentinelIsNone d1) ∧
      (∀ id dict, id ≠ dummyDjbzId ∨ dict.m_type = DjbzType.None →
        SentinelIsNone (SetDjbzDict d id dict))) := by
  refine ⟨?_, fun els => sentinelIsNone_fromXml g now fs els, ?_, ?_⟩
  · unfold SentinelIsNone DjbzDispatcher.new
    simp [QMap.find?_insert_self, DjbzDict.setType]
  · intro d
    unfold SentinelIsNone
    rw [find?_resetAllDictsExceptLocked]
    simp [DjbzDict.setType]
  · intro d hs
    refine ⟨?_, ?_, ?_, ?_, ?_, ?_⟩
    · intro page
      obtain ⟨id, d1, h, _⟩ := addNewPage_spec g now d page
      exact ⟨id, d1, h, sentinelIsNone_of_keeps (keeps_addNewPage g now d d1 page id h) hs⟩
    · exact fun page => sentinelIsNone_of_keeps (keeps_deleteFromDjbz g now d page) hs
    · exact fun page id flag => sentinelIsNone_of_keeps (keeps_setToDjbz g now d page id flag) hs
    · exact fun page id => sentinelIsNone_of_keeps (keeps_moveToDjbz g now d page id) hs
    · intro clock defaults pages sug s
      obtain ⟨d1, s1, h, hk, _⟩ := autosetLoop_keeps g clock defaults sug pages 0 d s
      exact ⟨d1, s1, h, sentinelIsNone_of_keeps hk hs⟩
    · intro id dict h
      obtain ⟨sd, hf, ht⟩ := hs
      unfold SentinelIsNone SetDjbzDict
      simp only [QMap.find?_insert]
      by_cases hid : dummyDjbzId = id
      · subst hid
        rcases h with h | h
        · exact absurd rfl h
        · exact ⟨dict, by simp, h⟩
      · exact ⟨sd, by simp [hid, hf], ht⟩

/-- Witness for C20: after a move in the sample registry. -/
theorem sentinelIsNone_spec_witness :
    SentinelIsNone (moveToDjbz (sampleGlobals 2) 5 sampleDispatcher (samplePage 1) "0002") :=
  ((DjbzDispatcher.sentinelIsNone_spec (sampleGlobals 2) 5 sampleEnv.fs).2.2.2 sampleDispatcher
    ⟨_, rfl, rfl⟩).2.2.2.1 (samplePage 1) "0002"

/-! ### C21: the order of page ids -/

/-- C21: `operator<` of `PageId` compares the image ids first (which compare by source
path, then by page number) and the sub-pages second; `operator==` holds exactly for
equal page ids; `operator<` is irreflexive and transitive, and for all page ids `a` and
`b` exactly one of `a < b`, `a == b`, `b < a` holds. -/
theorem PageId.lt_strict_total_order :
    (∀ a b : ImageId, a.lt b = true ↔
      QString.lt a.m_filePath b.m_filePath ∨
        (a.m_filePath = b.m_filePath ∧ a.m_page < b.m_page)) ∧
    (∀ a b : PageId, a.lt b = true ↔
      a.m_imageId.lt b.m_imageId = true ∨
        (a.m_imageId = b.m_imageId ∧ a.m_subPage.toNat < b.m_subPage.toNat)) ∧
    (∀ a b : PageId, a.eq b = true ↔ a = b) ∧
    (∀ a : PageId, a.lt a = false) ∧
    (∀ a b c : PageId, a.lt b = true → b.lt c = true → a.lt c = true) ∧
    (∀ a b : PageId,
      (a.lt b = true ∨ a.eq b = true ∨ b.lt a = true) ∧
      ¬ (a.lt b = true ∧ a.eq b = true) ∧ ¬ (a.lt b = true ∧ b.lt a = true) ∧
      ¬ (a.eq b = true ∧ b.lt a = true)) := by
  refine ⟨imageId_lt_iff, pageId_lt_iff, pageId_eq_iff, pageId_lt_irrefl,
    fun a b c => pageId_lt_trans, ?_⟩
  intro a b
  refine ⟨?_, ?_, ?_, ?_⟩
  · cases h1 : a.lt b with
    | true => exact Or.inl rfl
    | false =>
      cases h2 : b.lt a with
      | true => exact Or.inr (Or.inr rfl)
      | false => exact Or.inr (Or.inl ((pageId_eq_iff a b).mpr (pageId_eq_of_not_lt h1 h2)))
  · rintro ⟨h1, h2⟩
    rw [(pageId_eq_iff a b).mp h2, pageId_lt_irrefl] at h1
    cases h1
  · rintro ⟨h1, h2⟩
    rw [pageId_lt_asymm h1] at h2
    cases h2
  · rintro ⟨h1, h2⟩
    rw [(pageId_eq_iff a b).mp h1, pageId_lt_irrefl] at h2
    cases h2

/-- Witness for C21: page 1 of `scan.tif` comes before page 2. -/
theorem lt_strict_total_order_witness :
    (samplePage 1).lt (samplePage 2) = true ∧ (samplePage 2).lt (samplePage 1) = false ∧
      (samplePage 1).eq (samplePage 2) = false := by
  have h := PageId.lt_strict_total_order.2.2.2.2.2 (samplePage 1) (samplePage 2)
  have h1 : (samplePage 1).lt (samplePage 2) = true := by decide
  refine ⟨h1, ?_, ?_⟩
  · cases h2 : (samplePage 2).lt (samplePage 1) with
    | false => rfl
    | true => exact absurd ⟨h1, h2⟩ h.2.2.1
  · cases h2 : (samplePage 1).eq (samplePage 2) with
    | false => rfl
    | true => exact absurd ⟨h1, h2⟩ h.2.1

/-! ### C22: the cached layers in the partition loop -/

/-- C22: the partition loop of `Task::process`, run over the distinct pages of a
dictionary that all have stored parameters, returns. A page with a colour layer is then
in `to_c44_cached` exactly if its bit `RegeneratePage` is clear, it has a remembered
snapshot with which `matchBg44Part` succeeds, and `isBG44cached` holds, that is, its
recorded bg44 file exists with the recorded size; otherwise it is in `to_c44`. A page
with a bitonal layer is in `to_minidjvu_cached` exactly if its bit is clear, it has a
remembered snapshot with which `matchJb2Part` succeeds, its recorded jb2 file exists
with the recorded size and `djbz_is_cached` holds; otherwise it is in `to_minidjvu`.
No page is in both sets of a pair. The pages of a dictionary are always distinct. -/
theorem Task.partitionLoop_layer_caches (penv : ProcessEnv) (sug : ExportSuggestions)
    (djbz_is_cached : Bool) (pages : List PageId) (s : Settings) (hnd : pages.Nodup)
    (hall : ∀ p ∈ pages, s.getPageParams p ≠ none) :
    (∃ s1 w, Task.partitionLoop penv sug djbz_is_cached pages (s, WorkSets.empty) = some (s1, w) ∧
      (∀ p ∈ pages, ∀ params, s.getPageParams p = some params → (sug p).hasColorLayer = true →
        (p ∈ w.to_c44_cached.elems ↔
          params.m_forceReprocess &&& Params.RegeneratePage = 0 ∧
          (∃ o, params.m_outputParams = some o ∧ penv.matchBg44Part params o.m_params = true) ∧
          isBG44cached penv.fs params.m_sourceImagesInfo = true) ∧
        (p ∈ w.to_c44.elems ↔ p ∉ w.to_c44_cached.elems)) ∧
      (∀ p ∈ pages, ∀ params, s.getPageParams p = some params → (sug p).hasBWLayer = true →
        (p ∈ w.to_minidjvu_cached.elems ↔
          params.m_forceReprocess &&& Params.RegeneratePage = 0 ∧
          (∃ o, params.m_outputParams = some o ∧ penv.matchJb2Part params o.m_params = true) ∧
          isJB2cached penv.fs params.m_sourceImagesInfo = true ∧ djbz_is_cached = true) ∧
        (p ∈ w.to_minidjvu.elems ↔ p ∉ w.to_minidjvu_cached.elems)) ∧
      (∀ q, ¬ (q ∈ w.to_c44.elems ∧ q ∈ w.to_c44_cached.elems)) ∧
      (∀ q, ¬ (q ∈ w.to_minidjvu.elems ∧ q ∈ w.to_minidjvu_cached.elems))) ∧
    (∀ info : SourceImagesInfo, isBG44cached penv.fs info = true ↔
      info.m_export_bg44Filename ≠ "" ∧
        ∃ fi, penv.fs info.m_export_bg44Filename = some fi ∧
          fi.size = info.m_export_bg44Filesize) ∧
    (∀ info : SourceImagesInfo, isJB2cached penv.fs info = true ↔
      info.m_export_jb2Filename ≠ "" ∧
        ∃ fi, penv.fs info.m_export_jb2Filename = some fi ∧
          fi.size = info.m_export_jb2Filesize) ∧
    (∀ (d : DjbzDispatcher) (p : PageId), (d.listPagesFromSameDict p).Nodup) := by
  refine ⟨?_, isBG44cached_iff penv.fs, isJB2cached_iff penv.fs,
    DjbzDispatcher.listPagesFromSameDict_nodup⟩
  obtain ⟨s1, w, h1, _, _, hsub, hsets⟩ :=
    Task.partitionLoop_sets penv sug djbz_is_cached pages s hnd hall
  refine ⟨s1, w, h1, ?_, ?_, ?_, ?_⟩
  · intro p hp params hst hcol
    obtain ⟨_, e2, e3, _, _, _, _⟩ := hsets p hp params hst
    rw [e2, e3, ← Task.reuseBg44_iff penv (sug p) params hcol]
    simp [hcol]
  · intro p hp params hst hbw
    obtain ⟨_, _, _, e4, e5, _, _⟩ := hsets p hp params hst
    rw [e4, e5, ← Task.reuseJb2_iff penv (sug p) djbz_is_cached params hbw]
    simp [hbw]
  · rintro q ⟨ha, hb⟩
    have hq : q ∈ pages := hsub q (by simp [WorkSets.pages, ha])
    cases hst : s.getPageParams q with
    | none => exact hall q hq hst
    | some params =>
      obtain ⟨_, e2, e3, _, _, _, _⟩ := hsets q hq params hst
      have h2 := e2.mp ha
      have h3 := e3.mp hb
      rw [h3.2] at h2
      exact absurd h2.2 (by decide)
  · rintro q ⟨ha, hb⟩
    have hq : q ∈ pages := hsub q (by simp [WorkSets.pages, ha])
    cases hst : s.getPageParams q with
    | none => exact hall q hq hst
    | some params =>
      obtain ⟨_, _, _, e4, e5, _, _⟩ := hsets q hq params hst
      rcases e4.mp ha with ⟨h2, h3⟩ | ⟨h2, h3, h4⟩ <;>
        rcases e5.mp hb with ⟨h5, h6⟩ | ⟨h5, h6, h7⟩
      · rw [h6] at h3; exact absurd h3 (by decide)
      · rw [h5] at h2; exact absurd h2 (by decide)
      · rw [h5] at h2; exact absurd h2 (by decide)
      · rw [h7] at h4; exact absurd h4 (by decide)

/-- Witness for C22: in the store `layeredSettings`, where every recorded file exists
with its recorded size, page 2, which has a colour layer, goes to `to_c44_cached`; page
3, which has both layers and is marked with `RegeneratePage`, goes to `to_c44` and to
`to_minidjvu`; page 1, which has a bitonal layer, goes to `to_minidjvu_cached`. -/
theorem partitionLoop_layer_caches_witness :
    ∃ s1 w, Task.partitionLoop layeredProcessEnv mixedSuggestions true layeredPages
        (layeredSettings, WorkSets.empty) = some (s1, w) ∧
      w.to_c44_cached.elems = [samplePage 2] ∧ w.to_c44.elems = [samplePage 3] ∧
      w.to_minidjvu.elems = [samplePage 3] ∧
      (samplePage 1 ∈ w.to_minidjvu_cached.elems ↔
        (titledParams (samplePage 1) "" "X").m_forceReprocess &&& Params.RegeneratePage = 0 ∧
        (∃ o, (titledParams (samplePage 1) "" "X").m_outputParams = some o ∧
          layeredProcessEnv.matchJb2Part (titledParams (samplePage 1) "" "X") o.m_params = true) ∧
        isJB2cached layeredProcessEnv.fs (titledParams (samplePage 1) "" "X").m_sourceImagesInfo
          = true ∧ true = true) := by
  obtain ⟨s1, w, h1, _, h3, _, _⟩ :=
    (Task.partitionLoop_layer_caches layeredProcessEnv mixedSuggestions true layeredPages
      layeredSettings (by decide) (by decide)).1
  have h4 := (h3 (samplePage 1) (by decide) _ rfl (by decide)).1
  refine ⟨s1, w, h1, ?_, ?_, ?_, h4⟩
  · have e : (Task.partitionLoop layeredProcessEnv mixedSuggestions true layeredPages
        (layeredSettings, WorkSets.empty)).map (fun r => r.2.to_c44_cached.elems) =
        some [samplePage 2] := by decide
    rw [h1] at e
    exact Option.some.inj e
  · have e : (Task.partitionLoop layeredProcessEnv mixedSuggestions true layeredPages
        (layeredSettings, WorkSets.empty)).map (fun r => r.2.to_c44.elems) =
        some [samplePage 3] := by decide
    rw [h1] at e
    exact Option.some.inj e
  · have e : (Task.partitionLoop layeredProcessEnv mixedSuggestions true layeredPages
        (layeredSettings, WorkSets.empty)).map (fun r => r.2.to_minidjvu.elems) =
        some [samplePage 3] := by decide
    rw [h1] at e
    exact Option.some.inj e

/-! ### C23: the text encoder and the cached pages -/

/-- Counterexample for C23: the pages 1 to 4 of `layeredSettings` form the dictionary,
and the project order lists only the pages 4 and 3. Page 3 must be encoded, so that the
text encoder is invoked and the cached pages 1 and 4 are promoted: `to_minidjvu` holds
the pages 1, 4 and 3, but the ordered list handed to the encoder holds only 4 and 3. -/
theorem ordered_list_misses_page_counterexample :
    (Task.partitionLoop layeredProcessEnv mixedSuggestions true layeredPages
        (layeredSettings, WorkSets.empty)).map
      (fun r =>
        (r.2.to_minidjvu.elems,
          (Task.encodeJb2 quietRun sampleTask r.2.seeded).2.to_minidjvu.elems,
          toMinidjvuOrdered [samplePage 4, samplePage 3] layeredPages
            (Task.encodeJb2 quietRun sampleTask r.2.seeded).2.to_minidjvu)) =
      some ([samplePage 3], [samplePage 1, samplePage 4, samplePage 3],
        [samplePage 4, samplePage 3]) := by
  decide

/-- C23, amended: let the partition loop run over the distinct pages of a dictionary
that all have stored parameters, and let `to_minidjvu` be non-empty after it, so that
the text encoder is invoked. Then in the text stage `to_minidjvu_cached` is emptied
into `to_minidjvu`, which then holds exactly the pages of the dictionary that have a
bitonal layer or are blank; all of them, the promoted ones included, are in
`to_assemble`. The ordered list handed to the encoder is made of the entries of the
project order that are in `to_minidjvu`, in that order, cut after as many entries as
the dictionary has pages: it is a subsequence of the project order and holds only
pages of `to_minidjvu`. If the project order has no duplicates, the list has none and
holds exactly the pages of `to_minidjvu` that the project order lists; if the project
order moreover lists every page of the dictionary, it holds exactly the pages of
`to_minidjvu`. -/
theorem Task.text_encoder_all_or_nothing (penv : ProcessEnv) (sug : ExportSuggestions)
    (djbz_is_cached : Bool) (pages all_pages_ordered : List PageId) (s : Settings) (run : Run)
    (t : Task) (hnd : pages.Nodup) (hall : ∀ p ∈ pages, s.getPageParams p ≠ none) :
    ∃ s1 w, Task.partitionLoop penv sug djbz_is_cached pages (s, WorkSets.empty) = some (s1, w) ∧
      (w.to_minidjvu.isEmpty = false →
        (Task.encodeJb2 run t w.seeded).2.to_minidjvu_cached.elems = [] ∧
        (∀ q, q ∈ (Task.encodeJb2 run t w.seeded).2.to_minidjvu.elems ↔
          q ∈ w.to_minidjvu.elems ∨ q ∈ w.to_minidjvu_cached.elems) ∧
        (∀ q, q ∈ (Task.encodeJb2 run t w.seeded).2.to_minidjvu.elems ↔
          q ∈ pages ∧ ((sug q).hasBWLayer = true ∨
            ((sug q).hasBWLayer = false ∧ (sug q).hasColorLayer = false))) ∧
        (∀ q ∈ (Task.encodeJb2 run t w.seeded).2.to_minidjvu.elems,
          q ∈ (Task.encodeJb2 run t w.seeded).2.to_assemble.elems) ∧
        toMinidjvuOrdered all_pages_ordered pages
            (Task.encodeJb2 run t w.seeded).2.to_minidjvu =
          (all_pages_ordered.filter
            (fun q => decide (q ∈ (Task.encodeJb2 run t w.seeded).2.to_minidjvu.elems))).take
            pages.length ∧
        (toMinidjvuOrdered all_pages_ordered pages
          (Task.encodeJb2 run t w.seeded).2.to_minidjvu).Sublist all_pages_ordered ∧
        (∀ q ∈ toMinidjvuOrdered all_pages_ordered pages
            (Task.encodeJb2 run t w.seeded).2.to_minidjvu,
          q ∈ (Task.encodeJb2 run t w.seeded).2.to_minidjvu.elems) ∧
        (all_pages_ordered.Nodup →
          (toMinidjvuOrdered all_pages_ordered pages
            (Task.encodeJb2 run t w.seeded).2.to_minidjvu).Nodup ∧
          (∀ q, q ∈ toMinidjvuOrdered all_pages_ordered pages
              (Task.encodeJb2 run t w.seeded).2.to_minidjvu ↔
            q ∈ all_pages_ordered ∧
              q ∈ (Task.encodeJb2 run t w.seeded).2.to_minidjvu.elems) ∧
          ((∀ p ∈ pages, p ∈ all_pages_ordered) →
            ∀ q, q ∈ toMinidjvuOrdered all_pages_ordered pages
                (Task.encodeJb2 run t w.seeded).2.to_minidjvu ↔
              q ∈ (Task.encodeJb2 run t w.seeded).2.to_minidjvu.elems))) := by
  obtain ⟨s1, w, h1, _, _, hpages, hsets⟩ :=
    Task.partitionLoop_sets penv sug djbz_is_cached pages s hnd hall
  refine ⟨s1, w, h1, ?_⟩
  intro hne
  have hne2 : w.seeded.to_minidjvu.isEmpty = false := hne
  obtain ⟨e1, e2, e3, _, _, _⟩ := Task.encodeJb2_invoked run t w.seeded hne2
  have hm : ∀ q, q ∈ (Task.encodeJb2 run t w.seeded).2.to_minidjvu.elems ↔
      q ∈ pages ∧ ((sug q).hasBWLayer = true ∨
        ((sug q).hasBWLayer = false ∧ (sug q).hasColorLayer = false)) := by
    intro q
    rw [e1, WorkSets.seeded_to_minidjvu, WorkSets.seeded_to_minidjvu_cached]
    constructor
    · intro hq
      have hqp : q ∈ pages := by
        rcases hq with hq | hq
        · exact hpages q (by simp [WorkSets.pages, hq])
        · exact hpages q (by simp [WorkSets.pages, hq])
      refine ⟨hqp, ?_⟩
      cases hst : s.getPageParams q with
      | none => exact absurd hst (hall q hqp)
      | some stored =>
        obtain ⟨_, _, _, e4, e5, _, _⟩ := hsets q hqp stored hst
        rcases hq with hq | hq
        · rcases e4.mp hq with h | h
          · exact Or.inl h.1
          · exact Or.inr ⟨h.1, h.2.1⟩
        · rcases e5.mp hq with h | h
          · exact Or.inl h.1
          · exact Or.inr ⟨h.1, h.2.1⟩
    · rintro ⟨hqp, hl⟩
      cases hst : s.getPageParams q with
      | none => exact absurd hst (hall q hqp)
      | some stored =>
        obtain ⟨_, _, _, e4, e5, _, _⟩ := hsets q hqp stored hst
        rw [e4, e5]
        rcases hl with hl | ⟨hl, hl2⟩
        · cases hr : Task.reuseJb2 penv (sug q) djbz_is_cached stored
          · exact Or.inl (Or.inl ⟨hl, rfl⟩)
          · exact Or.inr (Or.inl ⟨hl, rfl⟩)
        · cases hr : penv.isDjVuCached (Task.roundParams stored)
          · exact Or.inl (Or.inr ⟨hl, hl2, rfl⟩)
          · exact Or.inr (Or.inr ⟨hl, hl2, rfl⟩)
  have hpne : pages ≠ [] := by
    intro hp
    have hx : w.to_minidjvu.elems ≠ [] := by
      intro hx
      rw [(QSet.isEmpty_iff _).mpr hx] at hne
      cases hne
    obtain ⟨x, hx2⟩ := List.exists_mem_of_ne_nil _ hx
    have := hpages x (by simp [WorkSets.pages, hx2])
    rw [hp] at this
    cases this
  have heq := toMinidjvuOrdered_take all_pages_ordered pages
    (Task.encodeJb2 run t w.seeded).2.to_minidjvu hpne
  have hmemf : ∀ q, q ∈ all_pages_ordered.filter
      (Task.encodeJb2 run t w.seeded).2.to_minidjvu.contains ↔
      q ∈ all_pages_ordered ∧ q ∈ (Task.encodeJb2 run t w.seeded).2.to_minidjvu.elems := by
    intro q
    rw [List.mem_filter]
    simp [QSet.contains]
  refine ⟨e2, e1, hm, ?_, heq, ?_, ?_, ?_⟩
  · intro q hq
    rw [e3, WorkSets.mem_seeded_to_assemble, WorkSets.seeded_to_minidjvu_cached]
    rcases (e1 q).mp hq with h | h
    · exact Or.inl (Or.inr (Or.inr h))
    · exact Or.inr h
  · rw [heq]
    exact (List.take_sublist _ _).trans (List.filter_sublist _)
  · intro q hq
    rw [heq] at hq
    exact ((hmemf q).mp ((List.take_sublist _ _).subset hq)).2
  · intro hord
    have hlen : (all_pages_ordered.filter
        (Task.encodeJb2 run t w.seeded).2.to_minidjvu.contains).length ≤ pages.length := by
      apply List.Subperm.length_le
      apply List.subperm_of_subset (hord.filter _)
      intro q hq
      exact ((hm q).mp ((hmemf q).mp hq).2).1
    have heq2 : toMinidjvuOrdered all_pages_ordered pages
        (Task.encodeJb2 run t w.seeded).2.to_minidjvu =
        all_pages_ordered.filter (Task.encodeJb2 run t w.seeded).2.to_minidjvu.contains := by
      rw [heq]
      exact List.take_of_length_le hlen
    refine ⟨?_, ?_, ?_⟩
    · rw [heq2]
      exact hord.filter _
    · intro q
      rw [heq2]
      exact hmemf q
    · intro hsub q
      rw [heq2, hmemf]
      constructor
      · exact fun h => h.2
      · exact fun h => ⟨hsub q ((hm q).mp h).1, h⟩

/-- Witness for C23: the pages 1 to 4 of `layeredSettings` with the project order 4, 3:
the cached pages 1 and 4 are promoted, and the ordered list is made of the entries of
the project order. -/
theorem text_encoder_all_or_nothing_witness :
    ∃ s1 w, Task.partitionLoop layeredProcessEnv mixedSuggestions true layeredPages
        (layeredSettings, WorkSets.empty) = some (s1, w) ∧
      w.to_minidjvu.elems = [samplePage 3] ∧
      w.to_minidjvu_cached.elems = [samplePage 4, samplePage 1] ∧
      (Task.encodeJb2 quietRun sampleTask w.seeded).2.to_minidjvu_cached.elems = [] ∧
      (∀ q, q ∈ toMinidjvuOrdered [samplePage 4, samplePage 3] layeredPages
            (Task.encodeJb2 quietRun sampleTask w.seeded).2.to_minidjvu ↔
          q ∈ [samplePage 4, samplePage 3] ∧
            q ∈ (Task.encodeJb2 quietRun sampleTask w.seeded).2.to_minidjvu.elems) := by
  obtain ⟨s1, w, h1, h2⟩ :=
    Task.text_encoder_all_or_nothing layeredProcessEnv mixedSuggestions true layeredPages
      [samplePage 4, samplePage 3] layeredSettings quietRun sampleTask (by decide) (by decide)
  have e : (Task.partitionLoop layeredProcessEnv mixedSuggestions true layeredPages
      (layeredSettings, WorkSets.empty)).map
        (fun r => (r.2.to_minidjvu.elems, r.2.to_minidjvu_cached.elems)) =
      some ([samplePage 3], [samplePage 4, samplePage 1]) := by decide
  rw [h1] at e
  have e2 := Prod.mk.inj (Option.some.inj e)
  have hne : w.to_minidjvu.isEmpty = false := by
    unfold QSet.isEmpty
    rw [e2.1]
    rfl
  exact ⟨s1, w, h1, e2.1, e2.2, (h2 hne).1, ((h2 hne).2.2.2.2.2.2.2 (by decide)).2.1⟩

/-! ### C24: the pages to assemble -/

/-- C24: let the partition loop run over the distinct pages of a dictionary that all
have stored parameters, and let `matchPostprocessPart` fail whenever the titles differ.
At the assemble stage, that is, after `to_assemble += to_c44`, `to_assemble +=
to_minidjvu` and the text stage, a page of the dictionary is in `to_assemble` exactly if
it is in `to_c44`, or in `to_minidjvu`, or it has no remembered snapshot or
`matchAssemblePart` fails with it, or its DjVu file is not cached, or its title is
empty while the remembered title is not. So a page that is not assembled has a
remembered snapshot with which `matchAssemblePart` succeeds, and its DjVu file is
cached. The parameters are those stored for the page after the partition loop. -/
theorem Task.to_assemble_iff (penv : ProcessEnv) (sug : ExportSuggestions)
    (djbz_is_cached : Bool) (pages : List PageId) (s : Settings) (run : Run) (t : Task)
    (hnd : pages.Nodup) (hall : ∀ p ∈ pages, s.getPageParams p ≠ none)
    (htitle : ∀ (a : Params) (b : ParamsData), a.m_title ≠ b.m_title →
      penv.matchPostprocessPart a b = false) :
    ∃ s1 w, Task.partitionLoop penv sug djbz_is_cached pages (s, WorkSets.empty) = some (s1, w) ∧
      ∀ p ∈ pages, ∀ params, s1.getPageParams p = some params →
        (p ∈ (Task.encodeJb2 run t w.seeded).2.to_assemble.elems ↔
          p ∈ (Task.encodeJb2 run t w.seeded).2.to_c44.elems ∨
          p ∈ (Task.encodeJb2 run t w.seeded).2.to_minidjvu.elems ∨
          (params.m_outputParams = none ∨
            ∃ o, params.m_outputParams = some o ∧
              penv.matchAssemblePart params o.m_params = false) ∨
          penv.isDjVuCached params = false ∨
          ∃ o, params.m_outputParams = some o ∧ params.m_title = "" ∧ o.m_params.m_title ≠ "") ∧
        (p ∉ (Task.encodeJb2 run t w.seeded).2.to_assemble.elems →
          (∃ o, params.m_outputParams = some o ∧
            penv.matchAssemblePart params o.m_params = true) ∧
          penv.isDjVuCached params = true) := by
  obtain ⟨s1, w, h1, _, hstore, _, hsets⟩ :=
    Task.partitionLoop_sets penv sug djbz_is_cached pages s hnd hall
  refine ⟨s1, w, h1, ?_⟩
  intro p hp params hparams
  cases hst : s.getPageParams p with
  | none => exact absurd hst (hall p hp)
  | some stored =>
    have hpar : Task.roundParams stored = params := by
      have := hstore p hp stored hst
      rw [hparams] at this
      exact (Option.some.inj this).symm
    obtain ⟨_, _, _, _, _, e6, _⟩ := hsets p hp stored hst
    rw [hpar, Task.requireReassembling_iff, Task.forceReassembling_iff penv params htitle] at e6
    have hiff : p ∈ (Task.encodeJb2 run t w.seeded).2.to_assemble.elems ↔
        p ∈ (Task.encodeJb2 run t w.seeded).2.to_c44.elems ∨
        p ∈ (Task.encodeJb2 run t w.seeded).2.to_minidjvu.elems ∨
        (params.m_outputParams = none ∨
          ∃ o, params.m_outputParams = some o ∧
            penv.matchAssemblePart params o.m_params = false) ∨
        penv.isDjVuCached params = false ∨
        ∃ o, params.m_outputParams = some o ∧ params.m_title = "" ∧ o.m_params.m_title ≠ "" := by
      cases hne : w.seeded.to_minidjvu.isEmpty with
      | true =>
        rw [Task.encodeJb2_idle run t w.seeded hne, WorkSets.mem_seeded_to_assemble, e6,
          WorkSets.seeded_to_c44, WorkSets.seeded_to_minidjvu]
        exact Task.assemble_idle_prop _ _ _
      | false =>
        obtain ⟨m1, _, m3, m4, _, _⟩ := Task.encodeJb2_invoked run t w.seeded hne
        rw [m3, m4, m1, WorkSets.mem_seeded_to_assemble, e6, WorkSets.seeded_to_c44,
          WorkSets.seeded_to_minidjvu, WorkSets.seeded_to_minidjvu_cached,
          WorkSets.seeded_to_c44_cached]
        exact Task.assemble_invoked_prop _ _ _ _ _
    refine ⟨hiff, ?_⟩
    intro hnot
    rw [hiff] at hnot
    simp only [not_or] at hnot
    obtain ⟨_, _, ⟨hn1, hn2⟩, hn3, _⟩ := hnot
    refine ⟨?_, by simpa using hn3⟩
    cases ho : params.m_outputParams with
    | none => exact absurd ho hn1
    | some o =>
      refine ⟨o, rfl, ?_⟩
      cases hm : penv.matchAssemblePart params o.m_params with
      | true => rfl
      | false => exact absurd ⟨o, ho, hm⟩ hn2

/-- Witness for C24: the pages 1 and 2 of `layeredSettings`. Page 1 has lost its title
and is assembled; page 2, whose picture is cached and which only
got a title, is not. -/
theorem to_assemble_iff_witness :
    ∃ s1 w, Task.partitionLoop layeredProcessEnv mixedSuggestions true
        [samplePage 1, samplePage 2] (layeredSettings, WorkSets.empty) = some (s1, w) ∧
      (Task.encodeJb2 quietRun sampleTask w.seeded).2.to_assemble.elems = [samplePage 1] ∧
      (samplePage 2 ∉ (Task.encodeJb2 quietRun sampleTask w.seeded).2.to_assemble.elems →
        (∃ o, (titledParams (samplePage 2) "Y" "").m_outputParams = some o ∧
          layeredProcessEnv.matchAssemblePart (titledParams (samplePage 2) "Y" "") o.m_params
            = true) ∧
        layeredProcessEnv.isDjVuCached (titledParams (samplePage 2) "Y" "") = true) := by
  obtain ⟨s1, w, h1, h2⟩ :=
    Task.to_assemble_iff layeredProcessEnv mixedSuggestions true [samplePage 1, samplePage 2]
      layeredSettings quietRun sampleTask (by decide) (by decide)
      (fun a b h => by simp [layeredProcessEnv, h])
  have e : (Task.partitionLoop layeredProcessEnv mixedSuggestions true
      [samplePage 1, samplePage 2] (layeredSettings, WorkSets.empty)).map
        (fun r => ((Task.encodeJb2 quietRun sampleTask r.2.seeded).2.to_assemble.elems,
          r.1.getPageParams (samplePage 2))) =
      some ([samplePage 1], some (titledParams (samplePage 2) "Y" "")) := by decide
  rw [h1] at e
  have e2 := Prod.mk.inj (Option.some.inj e)
  exact ⟨s1, w, h1, e2.1, (h2 (samplePage 2) (by decide) _ e2.2).2⟩

/-! ### C25: a changed title -/

/-- C25: let the partition loop run over the distinct pages of a dictionary that all
have stored parameters, and let `matchPostprocessPart` fail whenever the titles differ.
Take a page whose bit `RegeneratePage` is clear and whose title differs from the title
of its remembered snapshot, while the comparisons `matchJb2Part`, `matchBg44Part` and
`matchAssemblePart` succeed, the DjVu file is cached, and for each layer that the page
has the recorded file of the layer is cached (and the dictionary, for the bitonal
layer). The page is put into `to_postprocess`. If its title is empty and the remembered
title is not, it is also put into `to_assemble`; otherwise it is in none of
`to_export`, `to_c44`, `to_minidjvu`, and not in `to_assemble`, also after
`to_assemble += to_c44` and `to_assemble += to_minidjvu`. -/
theorem Task.title_change (penv : ProcessEnv) (sug : ExportSuggestions)
    (djbz_is_cached : Bool) (pages : List PageId) (s : Settings) (p : PageId) (params : Params)
    (o : OutputParams) (hnd : pages.Nodup) (hall : ∀ q ∈ pages, s.getPageParams q ≠ none)
    (htitle : ∀ (a : Params) (b : ParamsData), a.m_title ≠ b.m_title →
      penv.matchPostprocessPart a b = false)
    (hp : p ∈ pages) (hst : s.getPageParams p = some params)
    (ho : params.m_outputParams = some o)
    (hflag : params.m_forceReprocess &&& Params.RegeneratePage = 0)
    (hchanged : params.m_title ≠ o.m_params.m_title)
    (hjb2 : (sug p).hasBWLayer = true →
      penv.matchJb2Part params o.m_params = true ∧ djbz_is_cached = true ∧
        isJB2cached penv.fs params.m_sourceImagesInfo = true)
    (hbg44 : (sug p).hasColorLayer = true →
      penv.matchBg44Part params o.m_params = true ∧
        isBG44cached penv.fs params.m_sourceImagesInfo = true)
    (hassemble : penv.matchAssemblePart params o.m_params = true)
    (hdjvu : penv.isDjVuCached params = true) :
    ∃ s1 w, Task.partitionLoop penv sug djbz_is_cached pages (s, WorkSets.empty) = some (s1, w) ∧
      p ∈ w.to_postprocess.elems ∧
      (params.m_title = "" ∧ o.m_params.m_title ≠ "" → p ∈ w.to_assemble.elems) ∧
      (¬ (params.m_title = "" ∧ o.m_params.m_title ≠ "") →
        p ∉ w.to_export.elems ∧ p ∉ w.to_c44.elems ∧ p ∉ w.to_minidjvu.elems ∧
        p ∉ w.to_assemble.elems ∧ p ∉ w.seeded.to_assemble.elems) := by
  obtain ⟨s1, w, h1, _, _, _, hsets⟩ :=
    Task.partitionLoop_sets penv sug djbz_is_cached pages s hnd hall
  obtain ⟨e1, e2, _, e4, _, e6, e7⟩ := hsets p hp params hst
  rw [Task.roundParams_of_clear params hflag] at e4 e6 e7
  rw [Task.requireReassembling_iff, Task.forceReassembling_iff penv params htitle] at e6
  have hpost : (requirePostprocessing penv params).1 = true := by
    unfold requirePostprocessing
    simp only [ho]
    rw [htitle params o.m_params hchanged]
    rfl
  have hrj : (sug p).hasBWLayer = true → Task.reuseJb2 penv (sug p) djbz_is_cached params = true :=
    fun hbw => (Task.reuseJb2_iff penv (sug p) djbz_is_cached params hbw).mpr
      ⟨hflag, ⟨o, ho, (hjb2 hbw).1⟩, (hjb2 hbw).2.2, (hjb2 hbw).2.1⟩
  have hrb : (sug p).hasColorLayer = true → Task.reuseBg44 penv (sug p) params = true :=
    fun hc => (Task.reuseBg44_iff penv (sug p) params hc).mpr
      ⟨hflag, ⟨o, ho, (hbg44 hc).1⟩, (hbg44 hc).2⟩
  have hn1 : p ∉ w.to_export.elems := by
    rw [e1]
    rintro ⟨hc, hbw, h | h⟩
    · rw [hrb hc] at h; exact absurd h (by decide)
    · rw [hrj hbw] at h; exact absurd h (by decide)
  have hn2 : p ∉ w.to_c44.elems := by
    rw [e2]
    rintro ⟨hc, h⟩
    rw [hrb hc] at h; exact absurd h (by decide)
  have hn4 : p ∉ w.to_minidjvu.elems := by
    rw [e4]
    rintro (⟨hbw, h⟩ | ⟨_, _, h⟩)
    · rw [hrj hbw] at h; exact absurd h (by decide)
    · rw [hdjvu] at h; exact absurd h (by decide)
  refine ⟨s1, w, h1, e7.mpr hpost, ?_, ?_⟩
  · intro hc
    exact e6.mpr (Or.inr (Or.inr ⟨o, ho, hc⟩))
  · intro hc
    have hn6 : p ∉ w.to_assemble.elems := by
      rw [e6]
      rintro ((h | ⟨o2, h2, h3⟩) | h | ⟨o2, h2, h3⟩)
      · rw [ho] at h; cases h
      · rw [ho] at h2
        cases h2
        rw [hassemble] at h3
        exact absurd h3 (by decide)
      · rw [hdjvu] at h; exact absurd h (by decide)
      · rw [ho] at h2
        cases h2
        exact hc h3
    refine ⟨hn1, hn2, hn4, hn6, ?_⟩
    rw [WorkSets.mem_seeded_to_assemble]
    rintro (h | h | h)
    · exact hn6 h
    · exact hn2 h
    · exact hn4 h

/-- Witness for C25: page 1 of `layeredSettings` has lost its title `X` and is put into
`to_postprocess` and `to_assemble`; page 2 got the title `Y` and is put into
`to_postprocess` only. -/
theorem title_change_witness :
    (∃ s1 w, Task.partitionLoop layeredProcessEnv mixedSuggestions true layeredPages
        (layeredSettings, WorkSets.empty) = some (s1, w) ∧
      samplePage 1 ∈ w.to_postprocess.elems ∧ samplePage 1 ∈ w.to_assemble.elems) ∧
    (∃ s1 w, Task.partitionLoop layeredProcessEnv mixedSuggestions true layeredPages
        (layeredSettings, WorkSets.empty) = some (s1, w) ∧
      samplePage 2 ∈ w.to_postprocess.elems ∧ samplePage 2 ∉ w.seeded.to_assemble.elems) := by
  constructor
  · obtain ⟨s1, w, h1, h2, h3, _⟩ :=
      Task.title_change layeredProcessEnv mixedSuggestions true layeredPages layeredSettings
        (samplePage 1) (titledParams (samplePage 1) "" "X") _ (by decide) (by decide)
        (fun a b h => by simp [layeredProcessEnv, h]) (by decide) rfl rfl (by decide)
        (by decide) (by decide) (by decide) (by decide) (by decide)
    exact ⟨s1, w, h1, h2, h3 (by decide)⟩
  · obtain ⟨s1, w, h1, h2, _, h4⟩ :=
      Task.title_change layeredProcessEnv mixedSuggestions true layeredPages layeredSettings
        (samplePage 2) (titledParams (samplePage 2) "Y" "") _ (by decide) (by decide)
        (fun a b h => by simp [layeredProcessEnv, h]) (by decide) rfl rfl (by decide)
        (by decide) (by decide) (by decide) (by decide) (by decide)
    exact ⟨s1, w, h1, h2, (h4 (by decide)).2.2.2.2⟩

/-! ### C26: blank pages -/

/-- Counterexample for C26: page 4 of `layeredSettings` is blank and its DjVu file is
cached. The partition loop, run over the page alone, puts it into `to_minidjvu_cached`;
`to_minidjvu` stays empty, the text stage does nothing, and the page is in `to_assemble`
neither after the loop nor at the assemble stage. -/
theorem blank_page_cached_counterexample :
    (mixedSuggestions (samplePage 4)).hasBWLayer = false ∧
    (mixedSuggestions (samplePage 4)).hasColorLayer = false ∧
    (Task.partitionLoop layeredProcessEnv mixedSuggestions true [samplePage 4]
        (layeredSettings, WorkSets.empty)).map
      (fun r => (r.2.to_minidjvu.elems, r.2.to_minidjvu_cached.elems,
        r.2.seeded.to_assemble.elems,
        (Task.encodeJb2 quietRun sampleTask r.2.seeded).2.to_assemble.elems)) =
      some ([], [samplePage 4], [], []) := by
  decide

/-- C26, amended: let the partition loop run over the distinct pages of a dictionary
that all have stored parameters. A blank page of the dictionary is put into
`to_minidjvu` exactly if its DjVu file is not cached, and into `to_minidjvu_cached`
exactly if it is. In the first case it is in `to_assemble` after `to_assemble +=
to_minidjvu`. In both cases, if `to_minidjvu` is not empty after the loop, so that the
text encoder is invoked, the page is in `to_minidjvu` and in `to_assemble` after the
text stage. The parameters are those stored for the page after the partition loop. -/
theorem Task.blank_page_sets (penv : ProcessEnv) (sug : ExportSuggestions)
    (djbz_is_cached : Bool) (pages : List PageId) (s : Settings) (run : Run) (t : Task)
    (hnd : pages.Nodup) (hall : ∀ p ∈ pages, s.getPageParams p ≠ none) :
    ∃ s1 w, Task.partitionLoop penv sug djbz_is_cached pages (s, WorkSets.empty) = some (s1, w) ∧
      ∀ p ∈ pages, (sug p).hasBWLayer = false → (sug p).hasColorLayer = false →
        ∀ params, s1.getPageParams p = some params →
          (p ∈ w.to_minidjvu.elems ↔ penv.isDjVuCached params = false) ∧
          (p ∈ w.to_minidjvu_cached.elems ↔ penv.isDjVuCached params = true) ∧
          (p ∈ w.to_minidjvu.elems → p ∈ w.seeded.to_assemble.elems) ∧
          (w.to_minidjvu.isEmpty = false →
            p ∈ (Task.encodeJb2 run t w.seeded).2.to_minidjvu.elems ∧
            p ∈ (Task.encodeJb2 run t w.seeded).2.to_assemble.elems) := by
  obtain ⟨s1, w, h1, _, hstore, _, hsets⟩ :=
    Task.partitionLoop_sets penv sug djbz_is_cached pages s hnd hall
  refine ⟨s1, w, h1, ?_⟩
  intro p hp hbw hcol params hparams
  cases hst : s.getPageParams p with
  | none => exact absurd hst (hall p hp)
  | some stored =>
    have hpar : Task.roundParams stored = params := by
      have := hstore p hp stored hst
      rw [hparams] at this
      exact (Option.some.inj this).symm
    obtain ⟨_, _, _, e4, e5, _, _⟩ := hsets p hp stored hst
    rw [hpar] at e4 e5
    have m4 : p ∈ w.to_minidjvu.elems ↔ penv.isDjVuCached params = false := by
      rw [e4]
      simp [hbw, hcol]
    have m5 : p ∈ w.to_minidjvu_cached.elems ↔ penv.isDjVuCached params = true := by
      rw [e5]
      simp [hbw, hcol]
    refine ⟨m4, m5, ?_, ?_⟩
    · intro h
      exact (WorkSets.mem_seeded_to_assemble w p).mpr (Or.inr (Or.inr h))
    · intro hne
      have hne2 : w.seeded.to_minidjvu.isEmpty = false := hne
      obtain ⟨e1, _, e3, _, _, _⟩ := Task.encodeJb2_invoked run t w.seeded hne2
      rw [e1, e3, WorkSets.mem_seeded_to_assemble, WorkSets.seeded_to_minidjvu,
        WorkSets.seeded_to_minidjvu_cached]
      cases hc : penv.isDjVuCached params with
      | false => exact ⟨Or.inl (m4.mpr hc), Or.inl (Or.inr (Or.inr (m4.mpr hc)))⟩
      | true => exact ⟨Or.inr (m5.mpr hc), Or.inr (m5.mpr hc)⟩

/-- Witness for C26: the pages 1 to 4 of `layeredSettings`; the blank page 4, whose DjVu
file is cached, is put into `to_minidjvu_cached`, and since page 3 must be encoded it
is in `to_minidjvu` and in `to_assemble` after the text stage. -/
theorem blank_page_sets_witness :
    ∃ s1 w, Task.partitionLoop layeredProcessEnv mixedSuggestions true layeredPages
        (layeredSettings, WorkSets.empty) = some (s1, w) ∧
      samplePage 4 ∈ w.to_minidjvu_cached.elems ∧ samplePage 4 ∉ w.to_minidjvu.elems ∧
      samplePage 4 ∈ (Task.encodeJb2 quietRun sampleTask w.seeded).2.to_minidjvu.elems ∧
      samplePage 4 ∈ (Task.encodeJb2 quietRun sampleTask w.seeded).2.to_assemble.elems := by
  obtain ⟨s1, w, h1, h2⟩ :=
    Task.blank_page_sets layeredProcessEnv mixedSuggestions true layeredPages layeredSettings
      quietRun sampleTask (by decide) (by decide)
  have e : (Task.partitionLoop layeredProcessEnv mixedSuggestions true layeredPages
      (layeredSettings, WorkSets.empty)).map
        (fun r => (r.1.getPageParams (samplePage 4), r.2.to_minidjvu.elems)) =
      some (some (titledParams (samplePage 4) "" ""), [samplePage 3]) := by decide
  rw [h1] at e
  have e2 := Prod.mk.inj (Option.some.inj e)
  obtain ⟨m4, m5, _, m7⟩ := h2 (samplePage 4) (by decide) (by decide) (by decide) _ e2.1
  have hne : w.to_minidjvu.isEmpty = false := by
    unfold QSet.isEmpty
    rw [e2.2]
    rfl
  refine ⟨s1, w, h1, m5.mpr (by decide), ?_, (m7 hne).1, (m7 hne).2⟩
  rw [m4]
  decide

/-! ### C27: `OrderByFileSize::precedes` -/

/-- C27: on pages that have stored parameters `OrderByFileSize::precedes` returns; an
incomplete page precedes a complete one; among pages of equal completeness the one with
the smaller DjVu file size precedes, and pages of equal size are ordered by `PageId`.
The relation is irreflexive, asymmetric and transitive, and two entries neither of
which precedes the other are the same page with the same completeness, so that it is a
strict weak ordering. -/
theorem OrderByFileSize.precedes_strict_weak_order (s : Settings) (a b c : PageId)
    (ia ib ic : Bool) (la lb lc : Params) (ha : s.getPageParams a = some la)
    (hb : s.getPageParams b = some lb) (hc : s.getPageParams c = some lc) :
    OrderByFileSize.precedes s a ia b ib =
      some (decide ((ia = true ∧ ib = false) ∨
        (ia = ib ∧ (la.m_djvuSize < lb.m_djvuSize ∨
          (la.m_djvuSize = lb.m_djvuSize ∧ a.lt b = true))))) ∧
    OrderByFileSize.precedes s a ia a ia = some false ∧
    (OrderByFileSize.precedes s a ia b ib = some true →
      OrderByFileSize.precedes s b ib a ia = some false) ∧
    (OrderByFileSize.precedes s a ia b ib = some true →
      OrderByFileSize.precedes s b ib c ic = some true →
      OrderByFileSize.precedes s a ia c ic = some true) ∧
    (OrderByFileSize.precedes s a ia b ib = some false →
      OrderByFileSize.precedes s b ib a ia = some false → a = b ∧ ia = ib) := by
  have hab := OrderByFileSize.precedes_iff s a b ia ib la lb ha hb
  have hba := OrderByFileSize.precedes_iff s b a ib ia lb la hb ha
  have hbc := OrderByFileSize.precedes_iff s b c ib ic lb lc hb hc
  have hac := OrderByFileSize.precedes_iff s a c ia ic la lc ha hc
  have haa := OrderByFileSize.precedes_iff s a a ia ia la la ha ha
  refine ⟨hab, ?_, ?_, ?_, ?_⟩
  · rw [haa]
    simp [pageId_lt_irrefl]
  · rw [hab, hba]
    simp only [Option.some.injEq, decide_eq_true_eq, decide_eq_false_iff_not]
    rintro (⟨h1, h2⟩ | ⟨h1, h2 | ⟨h2, h3⟩⟩)
    · simp [h1, h2]
    · subst h1
      have : ¬ lb.m_djvuSize < la.m_djvuSize := by omega
      have : ¬ lb.m_djvuSize = la.m_djvuSize := by omega
      cases ia <;> simp [*]
    · subst h1
      have h4 := pageId_lt_asymm h3
      cases ia <;> simp [h2, h4]
  · rw [hab, hbc, hac]
    simp only [Option.some.injEq, decide_eq_true_eq]
    rintro (⟨h1, h2⟩ | ⟨h1, h2⟩) (⟨h3, h4⟩ | ⟨h3, h4⟩)
    · rw [h2] at h3; cases h3
    · subst h3; exact Or.inl ⟨h1, h2⟩
    · subst h1; exact Or.inl ⟨h3, h4⟩
    · subst h1; subst h3
      right
      refine ⟨rfl, ?_⟩
      rcases h2 with h2 | ⟨h2, h2l⟩ <;> rcases h4 with h4 | ⟨h4, h4l⟩
      · exact Or.inl (by omega)
      · exact Or.inl (by omega)
      · exact Or.inl (by omega)
      · exact Or.inr ⟨by omega, pageId_lt_trans h2l h4l⟩
  · rw [hab, hba]
    simp only [Option.some.injEq, decide_eq_false_iff_not, not_or, not_and, not_lt]
    rintro ⟨h1, h2⟩ ⟨h3, h4⟩
    have hi : ia = ib := by
      cases ia <;> cases ib <;> simp_all
    have h2b := h2 hi
    have h4b := h4 hi.symm
    have hs : la.m_djvuSize = lb.m_djvuSize := Nat.le_antisymm h4b.1 h2b.1
    have hl1 : a.lt b = false := by simpa using h2b.2 hs
    have hl2 : b.lt a = false := by simpa using h4b.2 hs.symm
    exact ⟨pageId_eq_of_not_lt hl1 hl2, hi⟩

/-- Witness for C27: pages 1 and 2 of the sample store, both complete; their recorded
DjVu sizes are equal, so page 1 precedes page 2. -/
theorem precedes_strict_weak_order_witness :
    OrderByFileSize.precedes sampleSettings (samplePage 1) false (samplePage 2) false =
      some true ∧
    OrderByFileSize.precedes sampleSettings (samplePage 2) false (samplePage 1) false =
      some false :=
  ⟨by decide,
    (OrderByFileSize.precedes_strict_weak_order sampleSettings (samplePage 1) (samplePage 2)
      (samplePage 1) false false false _ _ _ rfl rfl rfl).2.2.1 (by decide)⟩

/-! ### C28: `addNewPage` and the capacity of dictionaries -/

/-- C28: with sharing enabled, `addNewPage` of an unassigned page returns, and the
dictionary that received the page has the page among its members and at most
`maxPages` members; every dictionary that was in the registry is still there with the
`maxPages` it had. (`addPage` raises `maxPages` only when the member count after it
exceeds `maxPages`, and then to that count.) This holds for every registry state. -/
theorem DjbzDispatcher.addNewPage_capacity (g : GlobalStaticSettings) (now : QDateTime)
    (d : DjbzDispatcher) (page : PageId) (hshare : 2 ≤ g.m_djvu_pages_per_djbz)
    (hun : d.findDjbzForPage page = "") :
    (∃ id d1 dict1, addNewPage g now d page = some (id, d1) ∧
      d1.m_dictionaries.find? id = some dict1 ∧
      dict1.m_pages.count ≤ dict1.m_max_pages ∧ page ∈ dict1.m_pages.elems ∧
      ∀ k dict, d.m_dictionaries.find? k = some dict →
        ∃ dict2, d1.m_dictionaries.find? k = some dict2 ∧
          dict2.m_max_pages = dict.m_max_pages) ∧
    (∀ (dict : DjbzDict) (p : PageId) (flag : Bool),
      (dict.addPage p flag now).m_max_pages =
        if (dict.addPage p flag now).m_pages.count > dict.m_max_pages then
          (dict.addPage p flag now).m_pages.count
        else dict.m_max_pages) := by
  refine ⟨?_, fun dict p flag => rfl⟩
  rcases addNewPage_cases g now d page with ⟨hs, _⟩ | ⟨_, hf, _⟩ | ⟨_, _, hn, h2⟩ |
      ⟨_, _, _, c, hc, h2⟩
  · omega
  · exact absurd hun hf
  · obtain ⟨dictF, hF, _, hroom⟩ := findNotFull_notFull d hn
    obtain ⟨dict1, h1, h3, h4, h5⟩ := capacity_assign g now d page
      (findNotFull d.m_dictionaries.entries) dictF (by simp [dictAt, hF]) hroom
    exact ⟨_, _, dict1, h2, h1, h3, h4, h5⟩
  · have hnone : d.m_dictionaries.find? (QString.arg c 4 '0') = none := by
      unfold QMap.contains at hc
      cases hfind : d.m_dictionaries.find? (QString.arg c 4 '0') with
      | none => rfl
      | some x => rw [hfind] at hc; simp at hc
    obtain ⟨dict1, h1, h3, h4, h5⟩ := capacity_assign g now { d with m_id_counter := c } page
      (QString.arg c 4 '0') (DjbzDict.new g now) (by simp [dictAt, hnone])
      (by
        show ((0 : Nat) : Int) < g.m_djvu_pages_per_djbz
        omega)
    exact ⟨_, _, dict1, h2, h1, h3, h4, h5⟩

/-- Witness for C28: page 2 is added to the registry in which page 1 is the only page
of the dictionary `0001`, which holds up to two pages. -/
theorem addNewPage_capacity_witness :
    ∃ id d1 dict1, addNewPage (sampleGlobals 2) 7 onePageDispatcher (samplePage 2) =
        some (id, d1) ∧
      d1.m_dictionaries.find? id = some dict1 ∧
      dict1.m_pages.count ≤ dict1.m_max_pages ∧ samplePage 2 ∈ dict1.m_pages.elems := by
  obtain ⟨id, d1, dict1, h1, h2, h3, h4, _⟩ :=
    (DjbzDispatcher.addNewPage_capacity (sampleGlobals 2) 7 onePageDispatcher (samplePage 2)
      (by decide) (by decide)).1
  exact ⟨id, d1, dict1, h1, h2, h3, h4⟩

/-! ### C29: `Filter::filterBatchPages` -/

/-- C29: `filterBatchPages` returns a subsequence of its input, in the input's order.
Going through the input, a page is returned exactly if it has no stored parameters, or
its stored dictionary id is the sentinel, or no earlier page of the input has the same
stored dictionary id; for a page that occurs once in the input this decides whether it
is in the result. -/
theorem filterBatchPages_spec (s : Settings) :
    (∀ pages, (filterBatchPages s pages).Sublist pages) ∧
    (∀ pre p, FirstOfDjbz s pre p →
      filterBatchPages s (pre ++ [p]) = filterBatchPages s pre ++ [p]) ∧
    (∀ pre p, ¬ FirstOfDjbz s pre p →
      filterBatchPages s (pre ++ [p]) = filterBatchPages s pre) ∧
    (∀ pre p post, p ∉ pre → p ∉ post →
      (p ∈ filterBatchPages s (pre ++ p :: post) ↔ FirstOfDjbz s pre p)) := by
  refine ⟨filterBatchPages_sublist s, fun pre p => (filterBatchPages_snoc s pre p).1,
    fun pre p => (filterBatchPages_snoc s pre p).2, ?_⟩
  intro pre p post hpre hpost
  obtain ⟨kept, hk, hs⟩ := filterBatchPages_append s (pre ++ [p]) post
  have hsplit : pre ++ p :: post = (pre ++ [p]) ++ post := by simp
  rw [hsplit, hk, List.mem_append]
  have hnk : p ∉ kept := fun h => hpost (hs.subset h)
  have hnp : p ∉ filterBatchPages s pre := fun h => hpre ((filterBatchPages_sublist s pre).subset h)
  constructor
  · rintro (h | h)
    · by_contra hn
      rw [(filterBatchPages_snoc s pre p).2 hn] at h
      exact hnp h
    · exact absurd h hnk
  · intro h
    rw [(filterBatchPages_snoc s pre p).1 h]
    exact Or.inl (List.mem_append.mpr (Or.inr (List.mem_singleton.mpr rfl)))

/-- Witness for C29: pages 1 and 2 of the sample store are both recorded in `0001`, page
3 has no parameters; pages 1 and 3 are returned. -/
theorem filterBatchPages_spec_witness :
    filterBatchPages sampleSettings [samplePage 1, samplePage 2, samplePage 3] =
      [samplePage 1, samplePage 3] ∧
    (samplePage 2 ∈ filterBatchPages sampleSettings
        ([samplePage 1] ++ samplePage 2 :: [samplePage 3]) ↔
      FirstOfDjbz sampleSettings [samplePage 1] (samplePage 2)) :=
  ⟨by decide,
    (filterBatchPages_spec sampleSettings).2.2.2 [samplePage 1] (samplePage 2) [samplePage 3]
      (by decide) (by decide)⟩

/-! ### C30: the sentinel and staleness -/

/-- C30: a page assigned to the sentinel is processed alone: `listPagesFromSameDict`
gives just the page, and `needDjbzReprocess` is false for the sentinel. Yet adding a
page to the sentinel (`setToDjbz` of a page that is not assigned to it) or removing a
member from it (`deleteFromDjbz`), without the flag and at a clock reading that differs
from the previous revision of the sentinel, makes `needPageReprocess` true for every
other sentinel page whose remembered snapshot recorded the previous revision. -/
theorem Task.sentinel_invalidated_together (env : Env) (t : Task) (p q : PageId)
    (params : Params) (o : OutputParams)
    (hq : t.m_ptrSettings.getPageParams q = some params)
    (ho : params.m_outputParams = some o)
    (hqd : t.m_refDjbzDispatcher.findDjbzForPage q = dummyDjbzId) (hpq : q ≠ p)
    (hrev : o.m_djbzRevision =
      (t.m_refDjbzDispatcher.djbzDict env.g env.now dummyDjbzId).m_last_changed)
    (hnow : env.now ≠
      (t.m_refDjbzDispatcher.djbzDict env.g env.now dummyDjbzId).m_last_changed) :
    t.m_refDjbzDispatcher.listPagesFromSameDict q = [q] ∧
    Task.needDjbzReprocess env t dummyDjbzId = false ∧
    (t.m_refDjbzDispatcher.findDjbzForPage p ≠ dummyDjbzId →
      Task.needPageReprocess env
        { t with
          m_refDjbzDispatcher :=
            setToDjbz env.g env.now t.m_refDjbzDispatcher p dummyDjbzId false } q = true) ∧
    (t.m_refDjbzDispatcher.m_page_to_dict p = some dummyDjbzId →
      p ∈ t.m_refDjbzDispatcher.listPagesFromDict dummyDjbzId →
      Task.needPageReprocess env
        { t with m_refDjbzDispatcher := deleteFromDjbz env.g env.now t.m_refDjbzDispatcher p }
        q = true) := by
  refine ⟨?_, ?_, ?_, ?_⟩
  · unfold listPagesFromSameDict
    simp [hqd]
  · unfold Task.needDjbzReprocess
    simp [isDummyDjbzId]
  · intro hp
    refine Task.needPageReprocess_of_revision env
      { t with
        m_refDjbzDispatcher :=
          setToDjbz env.g env.now t.m_refDjbzDispatcher p dummyDjbzId false } q params o hq ho ?_
    simp only []
    rw [findDjbzForPage_setToDjbz, if_neg hpq, hqd, revision_setToDjbz _ _ _ _ _ hp, hrev]
    exact hnow
  · intro hp hm
    refine Task.needPageReprocess_of_revision env
      { t with m_refDjbzDispatcher := deleteFromDjbz env.g env.now t.m_refDjbzDispatcher p }
      q params o hq ho ?_
    simp only []
    rw [findDjbzForPage_deleteFromDjbz, if_neg hpq, hqd,
      revision_deleteFromDjbz _ _ _ _ _ hp hm, hrev]
    exact hnow

/-- Witness for C30: in `sentinelRecordedTask` page 1 is up to date; when page 3 is set
to the sentinel at clock reading 100, page 1 needs reprocessing. -/
theorem sentinel_invalidated_together_witness :
    Task.needPageReprocess sampleEnv sentinelRecordedTask (samplePage 1) = false ∧
    Task.needPageReprocess sampleEnv
      { sentinelRecordedTask with
        m_refDjbzDispatcher :=
          setToDjbz sampleEnv.g sampleEnv.now sentinelRecordedTask.m_refDjbzDispatcher
            (samplePage 3) dummyDjbzId false } (samplePage 1) = true :=
  ⟨by decide,
    (Task.sentinel_invalidated_together sampleEnv sentinelRecordedTask (samplePage 3)
      (samplePage 1) _ _ rfl rfl (by decide) (by decide) (by decide) (by decide)).2.2.1
      (by decide)⟩

end publish
